import Mathlib

/-!
# Representation changes and simplified-operator reduction in the sea-of-nodes compiler

A shallow embedding of `src/base/bits.h`, `src/compiler/machine-type.h`,
`src/compiler/common-operator.h`, `src/compiler/node-properties-inl.h`,
`src/compiler/representation-change.h` and
`src/compiler/simplified-operator-reducer.cc`, followed by theorems about
`RepresentationChanger::GetRepresentationFor` and the five representation-specific
converters, about the operator mappings, about `SimplifiedOperatorReducer::Reduce`,
about the constant cache, about machine types, signatures and node properties, and
about the bit operations.

Files that the embedded sources include but that are absent (`opcodes.h`,
`operator.h`, `graph.h`, `js-graph.h`, `node-matchers.h`, `graph-reducer.h`,
`simplified-operator.h`, `machine-operator.h`, `conversions.h`, `bits.cc`, the heap)
are modelled from the specification; each such definition says so in its comment.
The per-zone input counts of `operator-properties-inl.h` are a parameter.

Conventions of the embedding.

* `uint32_t`, `uint16_t` are natural numbers; wrap-around is written out with
  `% 2 ^ w` where the source can overflow. `int32_t` is an integer in
  `[-2^31, 2^31)`. A sum that the source computes in `int` is `int_add`, reduced to
  32 bits; the theorems about such sums state the range in which the sum is exact.
* `double` is an IEEE-754 binary64 bit pattern split into its three fields.
* `Node*` is an index into the arena of the graph (`Node.id`); two pointers are
  the same node iff the indices are equal.
* Member functions that mutate the object take the object and return the new
  one next to their result.
* `DCHECK`, `CHECK`, `UNREACHABLE` and `V8_Fatal` end the call: they are the
  non-`returned` constructors of `Outcome`, and the `Fault` of a reducer call.
  `DCHECK` is modelled as active (debug build).
-/

namespace v8
namespace base
namespace bits

/-- Source `IsPowerOfTwo32`: `value && !(value & (value - 1))` on `uint32_t`; the
subtraction wraps modulo `2^32`. -/
def IsPowerOfTwo32 (value : Nat) : Bool :=
  value != 0 && (value &&& ((value + 4294967295) % 4294967296)) == 0

/-- The sum `((value >> shift) & mask) + (value & mask)` of two masked words, as a number. -/
def pairSum (value shift mask : Nat) : Nat :=
  ((value >>> shift) &&& mask) + (value &&& mask)

/-- One line of the portable branch of `CountPopulation32`:
`value = ((value >> shift) & mask) + (value & mask)` on `uint32_t`. -/
def CountPopulation32.sum (value shift mask : Nat) : Nat :=
  pairSum value shift mask % 4294967296

/-- Source `CountPopulation32`, the portable branch (without `__builtin_popcount`). -/
def CountPopulation32 (value : Nat) : Nat :=
  let value := CountPopulation32.sum value 1 0x55555555
  let value := CountPopulation32.sum value 2 0x33333333
  let value := CountPopulation32.sum value 4 0x0f0f0f0f
  let value := CountPopulation32.sum value 8 0x00ff00ff
  let value := CountPopulation32.sum value 16 0x0000ffff
  value

/-- The five statements `value = value | (value >> k)`, `k = 1, 2, 4, 8, 16`, of the portable
branch of `CountLeadingZeros32`. -/
def smear (value : Nat) : Nat :=
  let value := value ||| (value >>> 1)
  let value := value ||| (value >>> 2)
  let value := value ||| (value >>> 4)
  let value := value ||| (value >>> 8)
  let value := value ||| (value >>> 16)
  value

/-- Source `CountLeadingZeros32`, the portable branch: `~value` is the complement of the 32
bits. -/
def CountLeadingZeros32 (value : Nat) : Nat :=
  CountPopulation32 (smear value ^^^ 4294967295)

/-- The loop `for (...; value >>= 1; ++count) ;` of `CountTrailingZeros32`: shift, test, count;
`none` when the fuel runs out before the loop ends. -/
def CountTrailingZeros32.loop : Nat → Nat → Nat → Option Nat
  | 0, _, _ => none
  | fuel + 1, value, count =>
    if value >>> 1 ≠ 0 then loop fuel (value >>> 1) (count + 1) else some count

/-- Source `CountTrailingZeros32`, the portable branch; the loop may take `fuel` steps. -/
def CountTrailingZeros32 (fuel value : Nat) : Option Nat :=
  if value = 0 then some 32
  else CountTrailingZeros32.loop fuel (value ^^^ ((value + 4294967295) % 4294967296)) 0

/-- Source `IsPowerOfTwo64`. -/
def IsPowerOfTwo64 (value : Nat) : Bool :=
  value != 0 && (value &&& ((value + 18446744073709551615) % 18446744073709551616)) == 0

/-- Modelled from the spec: `RoundUpToPowerOfTwo32` is only declared in `bits.h`; `bits.cc`
is absent. The declaration names the algorithm, `clp2` of "Hacker's Delight" figure 3-3
(subtract one, smear the top bit downwards, add one), and the precondition
`value <= 0x80000000`, outside of which there is no result (`none`). -/
def RoundUpToPowerOfTwo32 (value : Nat) : Option Nat :=
  if value ≤ 0x80000000 then
    some ((smear ((value + 4294967295) % 4294967296) + 1) % 4294967296)
  else none

/-- Source `RoundDownToPowerOfTwo32`. -/
def RoundDownToPowerOfTwo32 (value : Nat) : Option Nat :=
  if value > 0x80000000 then some 0x80000000
  else
    match RoundUpToPowerOfTwo32 value with
    | none => none
    | some result => some (if result > value then result >>> 1 else result)

/-- Source `RotateRight32`. A shift by 32 or more is undefined in C++ (`none`). -/
def RotateRight32 (value shift : Nat) : Option Nat :=
  if shift = 0 then some value
  else if shift < 32 then
    some ((value >>> shift) ||| ((value <<< (32 - shift)) % 4294967296))
  else none

/-- Source `RotateRight64`. A shift by 64 or more is undefined in C++ (`none`). -/
def RotateRight64 (value shift : Nat) : Option Nat :=
  if shift = 0 then some value
  else if shift < 64 then
    some ((value >>> shift) ||| ((value <<< (64 - shift)) % 18446744073709551616))
  else none

/-- The number of set bits among the `width` bits of `value` from bit `lo` upwards. -/
def bitCount (value lo : Nat) : Nat → Nat
  | 0 => 0
  | width + 1 => bitCount value lo width + value / 2 ^ (lo + width) % 2

end bits
end base

namespace internal

/-! ## IEEE-754 binary64 -/

/-- A `double`: sign bit, 11-bit biased exponent, 52-bit fraction. -/
structure Double where
  sign : Bool
  exponent : Fin 2048
  fraction : Fin 4503599627370496
deriving DecidableEq, Repr

namespace Double

/-- The 64-bit pattern (`DoubleRepresentation(d).bits`). -/
def bits (d : Double) : Nat :=
  (if d.sign then 9223372036854775808 else 0) + d.exponent.val * 4503599627370496 + d.fraction.val

def isNaN (d : Double) : Bool := d.exponent.val == 2047 && d.fraction.val != 0

def isFinite (d : Double) : Bool := d.exponent.val != 2047

def isZero (d : Double) : Bool := d.exponent.val == 0 && d.fraction.val == 0

/-- The test `IsMinusZero(value)`. -/
def isMinusZero (d : Double) : Bool := d.sign && d.isZero

/-- The comparison `value < 0` of C++: false for NaN and for both zeros. -/
def ltZero (d : Double) : Bool := d.sign && !d.isNaN && !d.isZero

/-- The integer significand: with `e = max exponent 1` the value of a finite `d` is
`(-1)^sign * significand * 2^(e - 1075)`. -/
def significand (d : Double) : Nat :=
  if d.exponent.val = 0 then d.fraction.val else 4503599627370496 + d.fraction.val

/-- Magnitude of a finite `d` rounded toward zero. Below exponent 1023 the magnitude
is less than one (`significand < 2^53`). -/
def truncMagnitude (d : Double) : Nat :=
  let e := max d.exponent.val 1
  if 1075 ≤ e then d.significand * 2 ^ (e - 1075)
  else if e < 1023 then 0
  else d.significand / 2 ^ (1075 - e)

/-- A finite `d` rounded toward zero, as an integer. -/
def truncate (d : Double) : Int :=
  if d.sign then -(d.truncMagnitude : Int) else (d.truncMagnitude : Int)

/-- Finite and without fractional part. Below exponent 1023 the magnitude is less
than one, so only zero is integral. -/
def isIntegral (d : Double) : Bool :=
  d.isFinite &&
    (let e := max d.exponent.val 1
     if 1075 ≤ e then true
     else if e < 1023 then d.significand == 0
     else d.significand % 2 ^ (1075 - e) == 0)

/-- The integer that `d` denotes, when `d` is finite and has no fractional part
(both zeros denote `0`). -/
def toInt? (d : Double) : Option Int :=
  if d.isIntegral then some d.truncate else none

/-- Shift a non-zero magnitude `m` left until bit 52 is set, lowering the exponent
`e` by one per step; at most `fuel` steps. -/
def normalize : Nat → Nat → Nat → Nat × Nat
  | 0, m, e => (m, e)
  | fuel + 1, m, e =>
    if m < 4503599627370496 then normalize fuel (2 * m) (e - 1) else (m, e)

/-- The conversion `static_cast<double>(n)` of an integer `n` with `|n| < 2^53`
(every `int32_t` and `uint32_t`): such an `n` is representable, so no rounding
takes place. Zero converts to `+0.0`. -/
def ofInt (n : Int) : Double :=
  if n = 0 then ⟨false, 0, 0⟩
  else
    let r := normalize 53 n.natAbs 1075
    ⟨decide (n < 0), ⟨r.2 % 2048, Nat.mod_lt _ (by decide)⟩,
      ⟨(r.1 - 4503599627370496) % 4503599627370496, Nat.mod_lt _ (by decide)⟩⟩

/-- The canonical quiet NaN. -/
def nan : Double := ⟨false, 2047, 2251799813685248⟩

end Double

/-- The conversion `static_cast<int32_t>(value)` of a `double`: rounds toward zero;
undefined (`none`) when the result does not fit an `int32_t`. -/
def static_cast_int32 (value : Double) : Option Int :=
  if value.isFinite && decide (-2147483648 ≤ value.truncate) && decide (value.truncate ≤ 2147483647)
  then some value.truncate else none

/-- The conversion `static_cast<uint32_t>(value)` of a `double`: rounds toward zero;
undefined (`none`) when the result does not fit a `uint32_t`. -/
def static_cast_uint32 (value : Double) : Option Nat :=
  if value.isFinite && decide (0 ≤ value.truncate) && decide (value.truncate ≤ 4294967295)
  then some value.truncate.toNat else none

/-- The conversion `static_cast<uint32_t>(v)` of an `int32_t`: modulo `2^32`. -/
def int32_to_uint32 (v : Int) : Nat := (v % 4294967296).toNat

/-- The conversion `static_cast<int32_t>(v)` of a `uint32_t`: the same 32 bits read as
two's complement. -/
def uint32_to_int32 (v : Nat) : Int :=
  if v % 4294967296 < 2147483648 then ((v % 4294967296 : Nat) : Int)
  else ((v % 4294967296 : Nat) : Int) - 4294967296

/-- The addition `a + b` of two `int`s. The result is a 32-bit two's-complement number:
the sum is reduced modulo `2^32`. An overflowing signed addition is undefined in C++; the
embedding takes the wrapped sum, and the theorems about sums of `int`s state the range in
which the sum is exact. -/
def int_add (a b : Int) : Int := uint32_to_int32 (int32_to_uint32 (a + b))

/-- Modelled from the spec: `IsInt32Double` of `src/conversions.h` (absent): the
value is exactly representable as an `int32_t`; minus zero is not. -/
def IsInt32Double (value : Double) : Bool :=
  !value.isMinusZero &&
    (match value.toInt? with
     | some n => decide (-2147483648 ≤ n) && decide (n ≤ 2147483647)
     | none => false)

/-- Modelled from the spec: `IsUint32Double` of `src/conversions.h` (absent): the
value is exactly representable as a `uint32_t`; minus zero is not. -/
def IsUint32Double (value : Double) : Bool :=
  !value.isMinusZero &&
    (match value.toInt? with
     | some n => decide (0 ≤ n) && decide (n ≤ 4294967295)
     | none => false)


/-- Modelled from the spec: `FastD2I` of `src/conversions.h` (absent), the
truncating conversion of a `double` known to fit an `int32_t`. -/
def FastD2I (x : Double) : Option Int := static_cast_int32 x

/-- Modelled from the spec: `FastD2UI` of `src/conversions.h` (absent), the
truncating conversion of a `double` known to fit a `uint32_t`. -/
def FastD2UI (x : Double) : Option Nat := static_cast_uint32 x

/-! ## The heap objects the compiler refers to -/

/-- Modelled from the spec: the object heap is an external collaborator. An object
is known by its identity: the canonical singletons of the heap roots, or any
other object at some address. -/
inductive HeapObject where
  | undefined_value
  | the_hole_value
  | true_value
  | false_value
  | null_value
  | object (address : Nat)
deriving DecidableEq, Repr

namespace compiler

/-! ## `machine-type.h` -/

/-- A `uint16_t` holding an or-combination of `MachineType` bits. -/
abbrev MachineTypeUnion := Nat

abbrev kRepBit : MachineTypeUnion := 1 <<< 0
abbrev kRepWord8 : MachineTypeUnion := 1 <<< 1
abbrev kRepWord16 : MachineTypeUnion := 1 <<< 2
abbrev kRepWord32 : MachineTypeUnion := 1 <<< 3
abbrev kRepWord64 : MachineTypeUnion := 1 <<< 4
abbrev kRepFloat32 : MachineTypeUnion := 1 <<< 5
abbrev kRepFloat64 : MachineTypeUnion := 1 <<< 6
abbrev kRepTagged : MachineTypeUnion := 1 <<< 7
abbrev kTypeBool : MachineTypeUnion := 1 <<< 8
abbrev kTypeInt32 : MachineTypeUnion := 1 <<< 9
abbrev kTypeUint32 : MachineTypeUnion := 1 <<< 10
abbrev kTypeInt64 : MachineTypeUnion := 1 <<< 11
abbrev kTypeUint64 : MachineTypeUnion := 1 <<< 12
abbrev kTypeNumber : MachineTypeUnion := 1 <<< 13
abbrev kTypeAny : MachineTypeUnion := 1 <<< 14

abbrev kRepMask : MachineTypeUnion :=
  kRepBit ||| kRepWord8 ||| kRepWord16 ||| kRepWord32 ||| kRepWord64 ||| kRepFloat32 |||
    kRepFloat64 ||| kRepTagged

abbrev kTypeMask : MachineTypeUnion :=
  kTypeBool ||| kTypeInt32 ||| kTypeUint32 ||| kTypeInt64 ||| kTypeUint64 ||| kTypeNumber |||
    kTypeAny

/-- The type has exactly one of the eight representation bits set. -/
def HasOneRepresentation (t : MachineTypeUnion) : Prop :=
  t &&& kRepMask ∈
    [kRepBit, kRepWord8, kRepWord16, kRepWord32, kRepWord64, kRepFloat32, kRepFloat64, kRepTagged]

instance (t : MachineTypeUnion) : Decidable (HasOneRepresentation t) :=
  inferInstanceAs (Decidable (_ ∈ _))

/-! ## Opcodes and operators -/

/-- The members of `IrOpcode::Value` that the embedded sources name; `kOther n`
stands for the remaining members of the enumeration (`opcodes.h` is absent). -/
inductive IrOpcode where
  | kStart | kDead | kEnd | kBranch | kIfTrue | kIfFalse | kThrow | kReturn | kMerge | kLoop
  | kParameter | kInt32Constant | kInt64Constant | kFloat64Constant | kExternalConstant
  | kNumberConstant | kHeapConstant | kPhi | kEffectPhi | kControlEffect | kValueEffect
  | kFinish | kStateValues | kFrameState | kCall | kProjection
  | kBooleanNot | kChangeTaggedToInt32 | kChangeTaggedToUint32 | kChangeTaggedToFloat64
  | kChangeInt32ToTagged | kChangeUint32ToTagged | kChangeFloat64ToTagged
  | kChangeBoolToBit | kChangeBitToBool
  | kNumberEqual | kNumberLessThan | kNumberLessThanOrEqual | kNumberAdd | kNumberSubtract
  | kNumberMultiply | kNumberDivide | kNumberModulus
  | kChangeInt32ToFloat64 | kChangeUint32ToFloat64 | kChangeFloat64ToInt32
  | kChangeFloat64ToUint32
  | kInt32Add | kInt32Sub | kWord32Equal | kInt32LessThan | kInt32LessThanOrEqual
  | kUint32LessThan | kUint32LessThanOrEqual
  | kFloat64Add | kFloat64Sub | kFloat64Mul | kFloat64Div | kFloat64Mod | kFloat64Equal
  | kFloat64LessThan | kFloat64LessThanOrEqual
  | kOther (n : Nat)
deriving Repr

/-- The position of an opcode in the enumeration. -/
def IrOpcode.toNat : IrOpcode → Nat
  | .kStart => 0 | .kDead => 1 | .kEnd => 2 | .kBranch => 3
  | .kIfTrue => 4 | .kIfFalse => 5 | .kThrow => 6 | .kReturn => 7
  | .kMerge => 8 | .kLoop => 9 | .kParameter => 10 | .kInt32Constant => 11
  | .kInt64Constant => 12 | .kFloat64Constant => 13 | .kExternalConstant => 14 | .kNumberConstant => 15
  | .kHeapConstant => 16 | .kPhi => 17 | .kEffectPhi => 18 | .kControlEffect => 19
  | .kValueEffect => 20 | .kFinish => 21 | .kStateValues => 22 | .kFrameState => 23
  | .kCall => 24 | .kProjection => 25 | .kBooleanNot => 26 | .kChangeTaggedToInt32 => 27
  | .kChangeTaggedToUint32 => 28 | .kChangeTaggedToFloat64 => 29 | .kChangeInt32ToTagged => 30 | .kChangeUint32ToTagged => 31
  | .kChangeFloat64ToTagged => 32 | .kChangeBoolToBit => 33 | .kChangeBitToBool => 34 | .kNumberEqual => 35
  | .kNumberLessThan => 36 | .kNumberLessThanOrEqual => 37 | .kNumberAdd => 38 | .kNumberSubtract => 39
  | .kNumberMultiply => 40 | .kNumberDivide => 41 | .kNumberModulus => 42 | .kChangeInt32ToFloat64 => 43
  | .kChangeUint32ToFloat64 => 44 | .kChangeFloat64ToInt32 => 45 | .kChangeFloat64ToUint32 => 46 | .kInt32Add => 47
  | .kInt32Sub => 48 | .kWord32Equal => 49 | .kInt32LessThan => 50 | .kInt32LessThanOrEqual => 51
  | .kUint32LessThan => 52 | .kUint32LessThanOrEqual => 53 | .kFloat64Add => 54 | .kFloat64Sub => 55
  | .kFloat64Mul => 56 | .kFloat64Div => 57 | .kFloat64Mod => 58 | .kFloat64Equal => 59
  | .kFloat64LessThan => 60 | .kFloat64LessThanOrEqual => 61
  | .kOther n => n + 62

/-- The opcode at a position of the enumeration. -/
def IrOpcode.ofNat : Nat → IrOpcode
  | 0 => .kStart | 1 => .kDead | 2 => .kEnd | 3 => .kBranch
  | 4 => .kIfTrue | 5 => .kIfFalse | 6 => .kThrow | 7 => .kReturn
  | 8 => .kMerge | 9 => .kLoop | 10 => .kParameter | 11 => .kInt32Constant
  | 12 => .kInt64Constant | 13 => .kFloat64Constant | 14 => .kExternalConstant | 15 => .kNumberConstant
  | 16 => .kHeapConstant | 17 => .kPhi | 18 => .kEffectPhi | 19 => .kControlEffect
  | 20 => .kValueEffect | 21 => .kFinish | 22 => .kStateValues | 23 => .kFrameState
  | 24 => .kCall | 25 => .kProjection | 26 => .kBooleanNot | 27 => .kChangeTaggedToInt32
  | 28 => .kChangeTaggedToUint32 | 29 => .kChangeTaggedToFloat64 | 30 => .kChangeInt32ToTagged | 31 => .kChangeUint32ToTagged
  | 32 => .kChangeFloat64ToTagged | 33 => .kChangeBoolToBit | 34 => .kChangeBitToBool | 35 => .kNumberEqual
  | 36 => .kNumberLessThan | 37 => .kNumberLessThanOrEqual | 38 => .kNumberAdd | 39 => .kNumberSubtract
  | 40 => .kNumberMultiply | 41 => .kNumberDivide | 42 => .kNumberModulus | 43 => .kChangeInt32ToFloat64
  | 44 => .kChangeUint32ToFloat64 | 45 => .kChangeFloat64ToInt32 | 46 => .kChangeFloat64ToUint32 | 47 => .kInt32Add
  | 48 => .kInt32Sub | 49 => .kWord32Equal | 50 => .kInt32LessThan | 51 => .kInt32LessThanOrEqual
  | 52 => .kUint32LessThan | 53 => .kUint32LessThanOrEqual | 54 => .kFloat64Add | 55 => .kFloat64Sub
  | 56 => .kFloat64Mul | 57 => .kFloat64Div | 58 => .kFloat64Mod | 59 => .kFloat64Equal
  | 60 => .kFloat64LessThan | 61 => .kFloat64LessThanOrEqual
  | n + 62 => .kOther n

instance : DecidableEq IrOpcode := fun a b =>
  have key : ∀ o : IrOpcode, IrOpcode.ofNat o.toNat = o := fun o => by cases o <;> rfl
  if h : a.toNat = b.toNat then isTrue (by rw [← key a, ← key b, h])
  else isFalse (fun e => h (by rw [e]))

/-- Modelled from the spec: `Operator::Properties` (`operator.h` is absent): the
named flag sets the operator catalog passes, or any other flag set. -/
inductive Properties where
  | kNoProperties
  | kFoldable
  | kPure
  | flags (bits : Nat)
deriving DecidableEq, Repr

/-- Modelled from the spec: `CallDescriptor` (`linkage.h` is absent): the declared
argument count, frame-state slot count and return count, each a `size_t`, and the
side-effect properties of the call. -/
structure CallDescriptor where
  properties_ : Properties
  input_count_ : Nat
  frame_state_count_ : Nat
  return_count_ : Nat
deriving DecidableEq, Repr

/-- The payload of an `Operator1<T>`, one constructor per `T` in use; `none` is a
`SimpleOperator`. -/
inductive Parameter where
  | none
  | int (value : Int)
  | int32 (value : Int)
  | int64 (value : Int)
  | float64 (value : Double)
  | heap (value : HeapObject)
  | descriptor (value : CallDescriptor)
deriving DecidableEq, Repr

/-- An immutable operator descriptor: the constructor arguments of `Operator1<T>`
(opcode, properties, input count, output count, mnemonic, parameter). -/
structure Operator where
  opcode : IrOpcode
  properties : Properties
  input_count : Int
  output_count : Int
  mnemonic : String
  parameter : Parameter
deriving DecidableEq, Repr

/-! ### `CommonOperatorBuilder` (the constants) -/

namespace CommonOperatorBuilder

/-- Source `Start`: a `ControlOperator` (its parameter is the control input count);
the outputs are the formal parameters plus context, receiver and JSFunction. -/
def Start (num_formal_parameters : Int) : Operator :=
  let outputs := int_add num_formal_parameters 3
  ⟨.kStart, .kFoldable, 0, outputs, "Start", .int 0⟩

def Parameter (index : Int) : Operator :=
  ⟨.kParameter, .kPure, 1, 1, "Parameter", .int index⟩

def Int32Constant (value : Int) : Operator :=
  ⟨.kInt32Constant, .kPure, 0, 1, "Int32Constant", .int32 value⟩

def Int64Constant (value : Int) : Operator :=
  ⟨.kInt64Constant, .kPure, 0, 1, "Int64Constant", .int64 value⟩

def Float64Constant (value : Double) : Operator :=
  ⟨.kFloat64Constant, .kPure, 0, 1, "Float64Constant", .float64 value⟩

def NumberConstant (value : Double) : Operator :=
  ⟨.kNumberConstant, .kPure, 0, 1, "NumberConstant", .float64 value⟩

def HeapConstant (value : HeapObject) : Operator :=
  ⟨.kHeapConstant, .kPure, 0, 1, "HeapConstant", .heap value⟩

end CommonOperatorBuilder

/-- Modelled from the spec: the conversion operators of `simplified-operator.h`
(absent): pure, one value input, one output, no parameter. -/
def SimplifiedOperatorBuilder.op (opcode : IrOpcode) (mnemonic : String) : Operator :=
  ⟨opcode, .kPure, 1, 1, mnemonic, .none⟩

namespace SimplifiedOperatorBuilder

def ChangeTaggedToInt32 : Operator := op .kChangeTaggedToInt32 "ChangeTaggedToInt32"
def ChangeTaggedToUint32 : Operator := op .kChangeTaggedToUint32 "ChangeTaggedToUint32"
def ChangeTaggedToFloat64 : Operator := op .kChangeTaggedToFloat64 "ChangeTaggedToFloat64"
def ChangeInt32ToTagged : Operator := op .kChangeInt32ToTagged "ChangeInt32ToTagged"
def ChangeUint32ToTagged : Operator := op .kChangeUint32ToTagged "ChangeUint32ToTagged"
def ChangeFloat64ToTagged : Operator := op .kChangeFloat64ToTagged "ChangeFloat64ToTagged"
def ChangeBoolToBit : Operator := op .kChangeBoolToBit "ChangeBoolToBit"
def ChangeBitToBool : Operator := op .kChangeBitToBool "ChangeBitToBool"

end SimplifiedOperatorBuilder

/-- Modelled from the spec: the conversion operators of `machine-operator.h`
(absent): pure, one value input, one output, no parameter. -/
def MachineOperatorBuilder.op (opcode : IrOpcode) (mnemonic : String) : Operator :=
  ⟨opcode, .kPure, 1, 1, mnemonic, .none⟩

namespace MachineOperatorBuilder

def ChangeInt32ToFloat64 : Operator := op .kChangeInt32ToFloat64 "ChangeInt32ToFloat64"
def ChangeUint32ToFloat64 : Operator := op .kChangeUint32ToFloat64 "ChangeUint32ToFloat64"
def ChangeFloat64ToInt32 : Operator := op .kChangeFloat64ToInt32 "ChangeFloat64ToInt32"
def ChangeFloat64ToUint32 : Operator := op .kChangeFloat64ToUint32 "ChangeFloat64ToUint32"

end MachineOperatorBuilder

/-! ### `CommonOperatorTraits<T>::ValueOf`

`OpParameter<T>(op)` reinterprets the operator as an `Operator1<T>`; on an operator
with another payload it is undefined (`none`). A failing `CHECK_EQ` is `none` too. -/

def OpParameter_int32 (op : Operator) : Option Int :=
  match op.parameter with
  | .int32 v => some v
  | _ => none

def OpParameter_double (op : Operator) : Option Double :=
  match op.parameter with
  | .float64 d => some d
  | _ => none

def OpParameter_heap (op : Operator) : Option HeapObject :=
  match op.parameter with
  | .heap h => some h
  | _ => none

/-- Source `CommonOperatorTraits<int32_t>::ValueOf`. -/
def ValueOf_int32 (op : Operator) : Option Int :=
  if op.opcode = .kNumberConstant then (OpParameter_double op).bind FastD2I
  else if op.opcode = .kInt32Constant then OpParameter_int32 op
  else none

/-- Source `CommonOperatorTraits<uint32_t>::ValueOf`. -/
def ValueOf_uint32 (op : Operator) : Option Nat :=
  if op.opcode = .kNumberConstant then (OpParameter_double op).bind FastD2UI
  else (ValueOf_int32 op).map int32_to_uint32

/-- Source `CommonOperatorTraits<double>::ValueOf`. -/
def ValueOf_double (op : Operator) : Option Double :=
  if op.opcode = .kFloat64Constant ∨ op.opcode = .kNumberConstant then OpParameter_double op
  else (ValueOf_int32 op).map Double.ofInt

/-- Source `CommonOperatorTraits<Handle<T> >::ValueOf`. -/
def ValueOf_handle (op : Operator) : Option HeapObject :=
  if op.opcode = .kHeapConstant then OpParameter_heap op else none

/-! ## Nodes and the graph arena -/

/-- A `Node*`: the index of the node in the arena of its graph, which is also
`node->id()`. -/
structure Node where
  id : Nat
deriving DecidableEq, Repr

/-- What a node holds: its operator and its ordered inputs. -/
structure NodeData where
  op : Operator
  inputs : List Node
deriving DecidableEq, Repr

/-- Modelled from the spec: `Graph` (`graph.h` is absent): an arena of nodes with
monotonically assigned ids; nodes are never removed. -/
structure Graph where
  nodes : List NodeData
deriving DecidableEq, Repr

namespace Graph

/-- The contents of the node a pointer refers to (`none` for a pointer that is not a
node of this graph). -/
def get? (g : Graph) (node : Node) : Option NodeData := g.nodes[node.id]?

/-- Modelled from the spec: `Graph::NewNode(op, inputs)`: creates the node with the
next id; fails if the input count does not match the operator's declared arity
(for the operators built in this file the declared arity is `input_count`). -/
def NewNode (g : Graph) (op : Operator) (inputs : List Node) : Option (Node × Graph) :=
  if (inputs.length : Int) = op.input_count then
    some (⟨g.nodes.length⟩, ⟨g.nodes ++ [⟨op, inputs⟩]⟩)
  else none

end Graph

/-! ## The constant cache of `JSGraph` -/

/-- Modelled from the spec: the canonical key of a constant: opcode and literal
value. -/
abbrev CacheKey := IrOpcode × Parameter

/-- Modelled from the spec: NaN is normalized to a single representative; every
other value, `-0.0` included, is its own representative. -/
def canonicalDouble (value : Double) : Double := if value.isNaN then Double.nan else value

/-- Modelled from the spec: `JSGraph` (`js-graph.h` is absent): the graph together
with the constant cache, which maps a canonical key to a single shared node. -/
structure JSGraph where
  graph_ : Graph
  cache_ : List (CacheKey × Node)
deriving DecidableEq, Repr

namespace JSGraph

/-- Modelled from the spec: the cache request: the node already recorded for the key
of `op`, or else a new node without inputs, recorded under that key. -/
def Cached (jsgraph : JSGraph) (op : Operator) : Option (Node × JSGraph) :=
  match jsgraph.cache_.lookup (op.opcode, op.parameter) with
  | some node => some (node, jsgraph)
  | none =>
    match jsgraph.graph_.NewNode op [] with
    | some (node, graph) => some (node, ⟨graph, ((op.opcode, op.parameter), node) :: jsgraph.cache_⟩)
    | none => none

/-- Modelled from the spec: `JSGraph::Int32Constant(int32_t)`. -/
def Int32Constant (jsgraph : JSGraph) (value : Int) : Option (Node × JSGraph) :=
  jsgraph.Cached (CommonOperatorBuilder.Int32Constant value)

/-- Modelled from the spec: `JSGraph::Float64Constant(double)`. -/
def Float64Constant (jsgraph : JSGraph) (value : Double) : Option (Node × JSGraph) :=
  jsgraph.Cached (CommonOperatorBuilder.Float64Constant (canonicalDouble value))

/-- Modelled from the spec: `JSGraph::NumberConstant(double)`. -/
def NumberConstant (jsgraph : JSGraph) (value : Double) : Option (Node × JSGraph) :=
  jsgraph.Cached (CommonOperatorBuilder.NumberConstant (canonicalDouble value))

/-- Modelled from the spec: `JSGraph::Constant(double)`, the canonical tagged numeric
constant: a `NumberConstant` (the tests require opcode `kNumberConstant`). -/
def Constant (jsgraph : JSGraph) (value : Double) : Option (Node × JSGraph) :=
  jsgraph.NumberConstant value

/-- Modelled from the spec: `JSGraph::Constant(int32_t)`: the same node as
`Constant(double)` of the converted value (the tests require
`Constant(1) == Constant(1.0)`). -/
def Constant_int32 (jsgraph : JSGraph) (value : Int) : Option (Node × JSGraph) :=
  jsgraph.Constant (Double.ofInt value)

/-- Modelled from the spec: `JSGraph::ZeroConstant()`, equal to `Constant(0)`. -/
def ZeroConstant (jsgraph : JSGraph) : Option (Node × JSGraph) :=
  jsgraph.Constant ⟨false, 0, 0⟩

/-- Modelled from the spec: `JSGraph::OneConstant()`, equal to `Constant(1.0)`, a
`NumberConstant`. -/
def OneConstant (jsgraph : JSGraph) : Option (Node × JSGraph) :=
  jsgraph.Constant ⟨false, 1023, 0⟩

/-- Modelled from the spec: `JSGraph::TrueConstant()`, the canonical heap constant of
the `true` singleton. -/
def TrueConstant (jsgraph : JSGraph) : Option (Node × JSGraph) :=
  jsgraph.Cached (CommonOperatorBuilder.HeapConstant .true_value)

/-- Modelled from the spec: `JSGraph::FalseConstant()`, the canonical heap constant
of the `false` singleton. -/
def FalseConstant (jsgraph : JSGraph) : Option (Node × JSGraph) :=
  jsgraph.Cached (CommonOperatorBuilder.HeapConstant .false_value)

/-- Every cache entry points at a node of the graph that has no inputs and whose
operator has the opcode and literal of the key. -/
def WellFormed (jsgraph : JSGraph) : Prop :=
  ∀ key node, (key, node) ∈ jsgraph.cache_ →
    ∃ data, jsgraph.graph_.get? node = some data ∧
      data.op.opcode = key.1 ∧ data.op.parameter = key.2 ∧ data.inputs = []

end JSGraph

/-! ## `representation-change.h` -/

/-- How a call ends. -/
inductive Outcome where
  /-- Normal return of a node. -/
  | returned (node : Node)
  /-- Source `V8_Fatal` of `TypeError`: "RepresentationChangerError: node #id:mnemonic of
  output_type cannot be changed to use". -/
  | fatal (id : Nat) (mnemonic : String) (output_type use : MachineTypeUnion)
  /-- A failed `DCHECK` or `CHECK`, or a failed node construction. -/
  | assertion_failed
  /-- Undefined in C++: a node pointer outside the arena, or reading an operator
  parameter of the wrong type. -/
  | undefined_behaviour
deriving DecidableEq, Repr

/-- The mutable state of a `RepresentationChanger`. The operator builders are
stateless and the isolate only supplies the `true` and `false` singletons. -/
structure RepresentationChanger where
  jsgraph_ : JSGraph
  testing_type_errors_ : Bool
  type_error_ : Bool
deriving DecidableEq, Repr

namespace RepresentationChanger

/-- The constructor: both flags start `false`. -/
def new (jsgraph : JSGraph) : RepresentationChanger := ⟨jsgraph, false, false⟩

abbrev rWord : MachineTypeUnion := kRepBit ||| kRepWord8 ||| kRepWord16 ||| kRepWord32

/-- Source `TypeError`. -/
def TypeError (rc : RepresentationChanger) (node : Node) (output_type use : MachineTypeUnion) :
    Outcome × RepresentationChanger :=
  let rc1 := { rc with type_error_ := true }
  if !rc1.testing_type_errors_ then
    match rc1.jsgraph_.graph_.get? node with
    | some data => (.fatal node.id data.op.mnemonic output_type use, rc1)
    | none => (.undefined_behaviour, rc1)
  else (.returned node, rc1)

/-- A call into the constant cache in tail position: `return jsgraph()->...`. -/
def fromJSGraph (rc : RepresentationChanger) (r : Option (Node × JSGraph)) :
    Outcome × RepresentationChanger :=
  match r with
  | some (node, jsgraph) => (.returned node, { rc with jsgraph_ := jsgraph })
  | none => (.assertion_failed, rc)

/-- The tail `return jsgraph()->graph()->NewNode(op, node)`. -/
def NewNode (rc : RepresentationChanger) (op : Operator) (node : Node) :
    Outcome × RepresentationChanger :=
  match rc.jsgraph_.graph_.NewNode op [node] with
  | some (n, graph) => (.returned n, { rc with jsgraph_ := { rc.jsgraph_ with graph_ := graph } })
  | none => (.assertion_failed, rc)

/-- Source `GetTaggedRepresentationFor`. -/
def GetTaggedRepresentationFor (rc : RepresentationChanger) (node : Node)
    (output_type : MachineTypeUnion) : Outcome × RepresentationChanger :=
  match rc.jsgraph_.graph_.get? node with
  | none => (.undefined_behaviour, rc)
  | some data =>
    -- Eagerly fold representation changes for constants.
    match data.op.opcode with
    | .kNumberConstant | .kHeapConstant => (.returned node, rc)
    | .kInt32Constant =>
      if output_type &&& kTypeUint32 ≠ 0 then
        match ValueOf_uint32 data.op with
        | some value => rc.fromJSGraph (rc.jsgraph_.Constant (Double.ofInt value))
        | none => (.undefined_behaviour, rc)
      else if output_type &&& kTypeInt32 ≠ 0 then
        match ValueOf_int32 data.op with
        | some value => rc.fromJSGraph (rc.jsgraph_.Constant_int32 value)
        | none => (.undefined_behaviour, rc)
      else if output_type &&& kRepBit ≠ 0 then
        match ValueOf_int32 data.op with
        | some value =>
          if value = 0 then rc.fromJSGraph rc.jsgraph_.FalseConstant
          else rc.fromJSGraph rc.jsgraph_.TrueConstant
        | none => (.undefined_behaviour, rc)
      else rc.TypeError node output_type kRepTagged
    | .kFloat64Constant =>
      match ValueOf_double data.op with
      | some value => rc.fromJSGraph (rc.jsgraph_.Constant value)
      | none => (.undefined_behaviour, rc)
    | _ =>
      -- Select the correct X -> Tagged operator.
      if output_type &&& kRepBit ≠ 0 then
        rc.NewNode SimplifiedOperatorBuilder.ChangeBitToBool node
      else if output_type &&& rWord ≠ 0 then
        if output_type &&& kTypeUint32 ≠ 0 then
          rc.NewNode SimplifiedOperatorBuilder.ChangeUint32ToTagged node
        else if output_type &&& kTypeInt32 ≠ 0 then
          rc.NewNode SimplifiedOperatorBuilder.ChangeInt32ToTagged node
        else rc.TypeError node output_type kRepTagged
      else if output_type &&& kRepFloat64 ≠ 0 then
        rc.NewNode SimplifiedOperatorBuilder.ChangeFloat64ToTagged node
      else rc.TypeError node output_type kRepTagged

/-- Source `GetFloat64RepresentationFor`. -/
def GetFloat64RepresentationFor (rc : RepresentationChanger) (node : Node)
    (output_type : MachineTypeUnion) : Outcome × RepresentationChanger :=
  match rc.jsgraph_.graph_.get? node with
  | none => (.undefined_behaviour, rc)
  | some data =>
    -- Eagerly fold representation changes for constants.
    match data.op.opcode with
    | .kNumberConstant =>
      match ValueOf_double data.op with
      | some value => rc.fromJSGraph (rc.jsgraph_.Float64Constant value)
      | none => (.undefined_behaviour, rc)
    | .kInt32Constant =>
      if output_type &&& kTypeUint32 ≠ 0 then
        match ValueOf_uint32 data.op with
        | some value => rc.fromJSGraph (rc.jsgraph_.Float64Constant (Double.ofInt value))
        | none => (.undefined_behaviour, rc)
      else
        match ValueOf_int32 data.op with
        | some value => rc.fromJSGraph (rc.jsgraph_.Float64Constant (Double.ofInt value))
        | none => (.undefined_behaviour, rc)
    | .kFloat64Constant => (.returned node, rc)
    | _ =>
      -- Select the correct X -> Float64 operator.
      if output_type &&& kRepBit ≠ 0 then rc.TypeError node output_type kRepFloat64
      else if output_type &&& rWord ≠ 0 then
        if output_type &&& kTypeUint32 ≠ 0 then
          rc.NewNode MachineOperatorBuilder.ChangeUint32ToFloat64 node
        else rc.NewNode MachineOperatorBuilder.ChangeInt32ToFloat64 node
      else if output_type &&& kRepTagged ≠ 0 then
        rc.NewNode SimplifiedOperatorBuilder.ChangeTaggedToFloat64 node
      else rc.TypeError node output_type kRepFloat64

/-- Source `GetWord32RepresentationFor`. -/
def GetWord32RepresentationFor (rc : RepresentationChanger) (node : Node)
    (output_type : MachineTypeUnion) (use_unsigned : Bool) : Outcome × RepresentationChanger :=
  match rc.jsgraph_.graph_.get? node with
  | none => (.undefined_behaviour, rc)
  | some data =>
    -- Eagerly fold representation changes for constants.
    match data.op.opcode with
    | .kInt32Constant => (.returned node, rc)
    | .kNumberConstant | .kFloat64Constant =>
      match ValueOf_double data.op with
      | none => (.undefined_behaviour, rc)
      | some value =>
        if value.ltZero then
          if !IsInt32Double value then (.assertion_failed, rc)
          else
            match static_cast_int32 value with
            | some iv => rc.fromJSGraph (rc.jsgraph_.Int32Constant iv)
            | none => (.undefined_behaviour, rc)
        else
          if !IsUint32Double value then (.assertion_failed, rc)
          else
            match static_cast_uint32 value with
            | some uv => rc.fromJSGraph (rc.jsgraph_.Int32Constant (uint32_to_int32 uv))
            | none => (.undefined_behaviour, rc)
    | _ =>
      -- Select the correct X -> Word32 operator.
      if output_type &&& kRepFloat64 ≠ 0 then
        if output_type &&& kTypeUint32 ≠ 0 ∨ use_unsigned = true then
          rc.NewNode MachineOperatorBuilder.ChangeFloat64ToUint32 node
        else rc.NewNode MachineOperatorBuilder.ChangeFloat64ToInt32 node
      else if output_type &&& kRepTagged ≠ 0 then
        if output_type &&& kTypeUint32 ≠ 0 ∨ use_unsigned = true then
          rc.NewNode SimplifiedOperatorBuilder.ChangeTaggedToUint32 node
        else rc.NewNode SimplifiedOperatorBuilder.ChangeTaggedToInt32 node
      else rc.TypeError node output_type kRepWord32

/-- Source `GetBitRepresentationFor`. -/
def GetBitRepresentationFor (rc : RepresentationChanger) (node : Node)
    (output_type : MachineTypeUnion) : Outcome × RepresentationChanger :=
  match rc.jsgraph_.graph_.get? node with
  | none => (.undefined_behaviour, rc)
  | some data =>
    -- Eagerly fold representation changes for constants.
    match data.op.opcode with
    | .kInt32Constant =>
      match ValueOf_int32 data.op with
      | none => (.undefined_behaviour, rc)
      | some value =>
        if value = 0 ∨ value = 1 then (.returned node, rc)
        else rc.fromJSGraph rc.jsgraph_.OneConstant
    | .kHeapConstant =>
      match ValueOf_handle data.op with
      | none => (.undefined_behaviour, rc)
      | some handle =>
        if !(handle = HeapObject.true_value ∨ handle = HeapObject.false_value) then
          (.assertion_failed, rc)
        else
          rc.fromJSGraph
            (rc.jsgraph_.Int32Constant (if handle = HeapObject.true_value then 1 else 0))
    | _ =>
      -- Select the correct X -> Bit operator.
      if output_type &&& rWord ≠ 0 then (.returned node, rc)
      else if output_type &&& kRepWord64 ≠ 0 then (.returned node, rc)
      else if output_type &&& kRepTagged ≠ 0 then
        rc.NewNode SimplifiedOperatorBuilder.ChangeBoolToBit node
      else rc.TypeError node output_type kRepBit

/-- Source `GetWord64RepresentationFor`. -/
def GetWord64RepresentationFor (rc : RepresentationChanger) (node : Node)
    (output_type : MachineTypeUnion) : Outcome × RepresentationChanger :=
  if output_type &&& kRepBit ≠ 0 then (.returned node, rc)
  else rc.TypeError node output_type kRepWord64

/-- Source `GetRepresentationFor`. -/
def GetRepresentationFor (rc : RepresentationChanger) (node : Node)
    (output_type use_type : MachineTypeUnion) : Outcome × RepresentationChanger :=
  if !base.bits.IsPowerOfTwo32 (output_type &&& kRepMask) then
    -- There should be only one output representation.
    rc.TypeError node output_type use_type
  else if use_type &&& kRepMask = output_type &&& kRepMask then
    -- Representations are the same. That's a no-op.
    (.returned node, rc)
  else if use_type &&& rWord ≠ 0 ∧ output_type &&& rWord ≠ 0 then
    -- Both are words less than or equal to 32-bits.
    (.returned node, rc)
  else if use_type &&& kRepTagged ≠ 0 then rc.GetTaggedRepresentationFor node output_type
  else if use_type &&& kRepFloat64 ≠ 0 then rc.GetFloat64RepresentationFor node output_type
  else if use_type &&& kRepBit ≠ 0 then rc.GetBitRepresentationFor node output_type
  else if use_type &&& rWord ≠ 0 then
    rc.GetWord32RepresentationFor node output_type (decide (use_type &&& kTypeUint32 ≠ 0))
  else if use_type &&& kRepWord64 ≠ 0 then rc.GetWord64RepresentationFor node output_type
  else (.returned node, rc)

end RepresentationChanger

/-- The four constant opcodes that the converters fold eagerly. -/
def IsFoldedConstant (opcode : IrOpcode) : Prop :=
  opcode = .kNumberConstant ∨ opcode = .kHeapConstant ∨ opcode = .kInt32Constant ∨
    opcode = .kFloat64Constant

instance (opcode : IrOpcode) : Decidable (IsFoldedConstant opcode) :=
  inferInstanceAs (Decidable (_ ∨ _))

/-! ## A small graph on which the theorems are instantiated -/

/-- The `double` -3.0. -/
def minusThree : Double := ⟨true, 1024, 2251799813685248⟩

/-- Nodes: #0 `Start`, #1 `Parameter[0]`, #2 `Int32Constant[5]`, #3 `NumberConstant[-3.0]`,
#4 `HeapConstant[true]`, #5 `HeapConstant` of some other object; the three constants
#2 to #4 are in the cache. -/
def exampleJSGraph : JSGraph :=
  ⟨⟨[⟨CommonOperatorBuilder.Start 0, []⟩,
      ⟨CommonOperatorBuilder.Parameter 0, [⟨0⟩]⟩,
      ⟨CommonOperatorBuilder.Int32Constant 5, []⟩,
      ⟨CommonOperatorBuilder.NumberConstant minusThree, []⟩,
      ⟨CommonOperatorBuilder.HeapConstant .true_value, []⟩,
      ⟨CommonOperatorBuilder.HeapConstant (.object 4096), []⟩]⟩,
    [((.kInt32Constant, .int32 5), ⟨2⟩),
      ((.kNumberConstant, .float64 minusThree), ⟨3⟩),
      ((.kHeapConstant, .heap .true_value), ⟨4⟩)]⟩

/-- A changer in normal operation over `exampleJSGraph`. -/
def exampleChanger : RepresentationChanger := RepresentationChanger.new exampleJSGraph

/-- The same changer in testing mode. -/
def exampleTestingChanger : RepresentationChanger :=
  { exampleChanger with testing_type_errors_ := true }

end compiler

/-! ## More of `conversions.h` -/

/-- Modelled from the spec: `DoubleToInt32` of `src/conversions.h` (absent), the
standard ToInt32 algorithm: NaN and the infinities give 0; any other value is rounded
toward zero and reduced modulo `2^32` to the signed 32-bit range. -/
def DoubleToInt32 (x : Double) : Int :=
  if x.isFinite then uint32_to_int32 (x.truncate % 4294967296).toNat else 0

/-- Modelled from the spec: `DoubleToUint32` of `src/conversions.h` (absent), the
standard ToUint32 algorithm: as `DoubleToInt32`, read as unsigned. -/
def DoubleToUint32 (x : Double) : Nat :=
  if x.isFinite then (x.truncate % 4294967296).toNat else 0

/-- Modelled from the spec: `FastUI2D` of `src/conversions.h` (absent): the exact
conversion of a `uint32_t` to `double`. -/
def FastUI2D (x : Nat) : Double := Double.ofInt x

namespace compiler

/-- How a call that returns no value can end. -/
inductive Fault where
  /-- A failed `DCHECK` or `CHECK`, or a failed node construction. -/
  | assertion_failed
  /-- Undefined in C++: a node pointer outside the arena, an input index out of range,
  or a conversion whose result does not fit. -/
  | undefined_behaviour
  /-- Source `UNREACHABLE()`. -/
  | unreachable
deriving DecidableEq, Repr

/-! ## The operator mappings of `representation-change.h` -/

/-- Modelled from the spec: the arithmetic and comparison operators of
`machine-operator.h` (absent): pure, two value inputs, one output, no parameter. -/
def MachineOperatorBuilder.binop (opcode : IrOpcode) (mnemonic : String) : Operator :=
  ⟨opcode, .kPure, 2, 1, mnemonic, .none⟩

namespace MachineOperatorBuilder

def Int32Add : Operator := binop .kInt32Add "Int32Add"
def Int32Sub : Operator := binop .kInt32Sub "Int32Sub"
def Word32Equal : Operator := binop .kWord32Equal "Word32Equal"
def Int32LessThan : Operator := binop .kInt32LessThan "Int32LessThan"
def Int32LessThanOrEqual : Operator := binop .kInt32LessThanOrEqual "Int32LessThanOrEqual"
def Uint32LessThan : Operator := binop .kUint32LessThan "Uint32LessThan"
def Uint32LessThanOrEqual : Operator := binop .kUint32LessThanOrEqual "Uint32LessThanOrEqual"
def Float64Add : Operator := binop .kFloat64Add "Float64Add"
def Float64Sub : Operator := binop .kFloat64Sub "Float64Sub"
def Float64Mul : Operator := binop .kFloat64Mul "Float64Mul"
def Float64Div : Operator := binop .kFloat64Div "Float64Div"
def Float64Mod : Operator := binop .kFloat64Mod "Float64Mod"
def Float64Equal : Operator := binop .kFloat64Equal "Float64Equal"
def Float64LessThan : Operator := binop .kFloat64LessThan "Float64LessThan"
def Float64LessThanOrEqual : Operator :=
  binop .kFloat64LessThanOrEqual "Float64LessThanOrEqual"

end MachineOperatorBuilder

namespace RepresentationChanger

/-- Source `Int32OperatorFor`. -/
def Int32OperatorFor (opcode : IrOpcode) : Except Fault Operator :=
  match opcode with
  | .kNumberAdd => .ok MachineOperatorBuilder.Int32Add
  | .kNumberSubtract => .ok MachineOperatorBuilder.Int32Sub
  | .kNumberEqual => .ok MachineOperatorBuilder.Word32Equal
  | .kNumberLessThan => .ok MachineOperatorBuilder.Int32LessThan
  | .kNumberLessThanOrEqual => .ok MachineOperatorBuilder.Int32LessThanOrEqual
  | _ => .error .unreachable

/-- Source `Uint32OperatorFor`. -/
def Uint32OperatorFor (opcode : IrOpcode) : Except Fault Operator :=
  match opcode with
  | .kNumberAdd => .ok MachineOperatorBuilder.Int32Add
  | .kNumberSubtract => .ok MachineOperatorBuilder.Int32Sub
  | .kNumberEqual => .ok MachineOperatorBuilder.Word32Equal
  | .kNumberLessThan => .ok MachineOperatorBuilder.Uint32LessThan
  | .kNumberLessThanOrEqual => .ok MachineOperatorBuilder.Uint32LessThanOrEqual
  | _ => .error .unreachable

/-- Source `Float64OperatorFor`. -/
def Float64OperatorFor (opcode : IrOpcode) : Except Fault Operator :=
  match opcode with
  | .kNumberAdd => .ok MachineOperatorBuilder.Float64Add
  | .kNumberSubtract => .ok MachineOperatorBuilder.Float64Sub
  | .kNumberMultiply => .ok MachineOperatorBuilder.Float64Mul
  | .kNumberDivide => .ok MachineOperatorBuilder.Float64Div
  | .kNumberModulus => .ok MachineOperatorBuilder.Float64Mod
  | .kNumberEqual => .ok MachineOperatorBuilder.Float64Equal
  | .kNumberLessThan => .ok MachineOperatorBuilder.Float64LessThan
  | .kNumberLessThanOrEqual => .ok MachineOperatorBuilder.Float64LessThanOrEqual
  | _ => .error .unreachable

end RepresentationChanger

/-- The eight generic arithmetic and comparison opcodes. -/
def genericNumberOpcodes : List IrOpcode :=
  [.kNumberAdd, .kNumberSubtract, .kNumberMultiply, .kNumberDivide, .kNumberModulus,
    .kNumberEqual, .kNumberLessThan, .kNumberLessThanOrEqual]

/-- The five generic opcodes that the two integer mappings handle. -/
def integerNumberOpcodes : List IrOpcode :=
  [.kNumberAdd, .kNumberSubtract, .kNumberEqual, .kNumberLessThan, .kNumberLessThanOrEqual]

/-! ## More of `CommonOperatorTraits<T>` -/

/-- Source `CommonOperatorTraits<int32_t>::HasValue`. -/
def HasValue_int32 (op : Operator) : Bool :=
  op.opcode = .kInt32Constant || op.opcode = .kNumberConstant

/-- Source `CommonOperatorTraits<uint32_t>::HasValue`. -/
def HasValue_uint32 (op : Operator) : Bool := HasValue_int32 op

/-- Source `CommonOperatorTraits<double>::HasValue`. -/
def HasValue_double (op : Operator) : Bool :=
  op.opcode = .kFloat64Constant || op.opcode = .kInt32Constant ||
    op.opcode = .kNumberConstant

/-- Source `CommonOperatorTraits<Handle<T> >::HasValue`. -/
def HasValue_handle (op : Operator) : Bool := op.opcode = .kHeapConstant

/-- Source `CommonOperatorTraits<double>::Equals`: equality of the bit patterns. -/
def Equals_double (a b : Double) : Bool := a.bits == b.bits

/-! ## More of the graph and of `JSGraph` -/

def SimplifiedOperatorBuilder.BooleanNot : Operator :=
  SimplifiedOperatorBuilder.op .kBooleanNot "BooleanNot"

namespace Graph

/-- Source `node->InputAt(index)`, read through the pointer (`none` when the pointer or
the index is out of range). -/
def InputAt (g : Graph) (node : Node) (index : Nat) : Option Node :=
  (g.get? node).bind fun data => data.inputs[index]?

/-- Modelled from the spec: `node->set_op(op)`: the node keeps its identity and its
inputs. -/
def set_op (g : Graph) (node : Node) (op : Operator) : Option Graph :=
  (g.get? node).map fun data => ⟨g.nodes.set node.id { data with op := op }⟩

/-- Modelled from the spec: `node->ReplaceInput(index, new_to)`: the input slot is
re-pointed; the other slots and the operator stay. -/
def ReplaceInput (g : Graph) (node : Node) (index : Nat) (new_to : Node) : Option Graph :=
  (g.get? node).bind fun data =>
    if index < data.inputs.length then
      some ⟨g.nodes.set node.id { data with inputs := data.inputs.set index new_to }⟩
    else none

end Graph

namespace JSGraph

/-- Modelled from the spec: `JSGraph::UndefinedConstant()`. -/
def UndefinedConstant (jsgraph : JSGraph) : Option (Node × JSGraph) :=
  jsgraph.Cached (CommonOperatorBuilder.HeapConstant .undefined_value)

/-- Modelled from the spec: `JSGraph::TheHoleConstant()`. -/
def TheHoleConstant (jsgraph : JSGraph) : Option (Node × JSGraph) :=
  jsgraph.Cached (CommonOperatorBuilder.HeapConstant .the_hole_value)

/-- Modelled from the spec: `JSGraph::NullConstant()`. -/
def NullConstant (jsgraph : JSGraph) : Option (Node × JSGraph) :=
  jsgraph.Cached (CommonOperatorBuilder.HeapConstant .null_value)

/-- Modelled from the spec: `JSGraph::NaNConstant()`, equal to `Constant(NaN)`. -/
def NaNConstant (jsgraph : JSGraph) : Option (Node × JSGraph) :=
  jsgraph.Constant Double.nan

/-- The cache key that the operator of a node stands for. -/
def keyAt (jsgraph : JSGraph) (node : Node) : Option CacheKey :=
  (jsgraph.graph_.get? node).map fun data => (data.op.opcode, data.op.parameter)

end JSGraph

/-! ## `node-matchers.h` -/

/-- Modelled from the spec: `ValueMatcher<T>` of `node-matchers.h` (absent): the matched
node together with its statically known value, if its operator has one. -/
structure ValueMatcher (T : Type) where
  node_ : Node
  op_ : Operator
  value_ : Option T

namespace ValueMatcher

/-- Modelled from the spec: the constructor `ValueMatcher<T>(node)`: the value is
`CommonOperatorTraits<T>::ValueOf(node->op())` when
`CommonOperatorTraits<T>::HasValue(node->op())`. -/
def new {T : Type} (HasValue : Operator → Bool) (ValueOf : Operator → Option T)
    (g : Graph) (node : Node) : Except Fault (ValueMatcher T) :=
  match g.get? node with
  | none => .error .undefined_behaviour
  | some data =>
    if HasValue data.op then
      match ValueOf data.op with
      | some value => .ok ⟨node, data.op, some value⟩
      | none => .error .undefined_behaviour
    else .ok ⟨node, data.op, none⟩

def HasValue {T : Type} (m : ValueMatcher T) : Bool := m.value_.isSome

/-- Source `m.Is(value)`: `HasValue() && Equals(Value(), value)`. -/
def Is {T : Type} [DecidableEq T] (m : ValueMatcher T) (value : T) : Bool :=
  decide (m.value_ = some value)

/-- The opcode tests `m.IsBooleanNot()`, `m.IsChangeBoolToBit()`, and so on. -/
def IsOpcode {T : Type} (m : ValueMatcher T) (opcode : IrOpcode) : Bool :=
  decide (m.op_.opcode = opcode)

end ValueMatcher

def Int32Matcher (g : Graph) (node : Node) : Except Fault (ValueMatcher Int) :=
  ValueMatcher.new HasValue_int32 ValueOf_int32 g node

def Uint32Matcher (g : Graph) (node : Node) : Except Fault (ValueMatcher Nat) :=
  ValueMatcher.new HasValue_uint32 ValueOf_uint32 g node

def Float64Matcher (g : Graph) (node : Node) : Except Fault (ValueMatcher Double) :=
  ValueMatcher.new HasValue_double ValueOf_double g node

def HeapObjectMatcher (g : Graph) (node : Node) : Except Fault (ValueMatcher HeapObject) :=
  ValueMatcher.new HasValue_handle ValueOf_handle g node

/-- Modelled from the spec: `HeapObjectMatcher::IsKnownGlobal(global)`: the node is a
heap constant of the very object `global`. -/
def ValueMatcher.IsKnownGlobal (m : ValueMatcher HeapObject) (global : HeapObject) : Bool :=
  m.Is global

/-! ## `simplified-operator-reducer.cc` -/

/-- Modelled from the spec: `Reduction` of `graph-reducer.h` (absent): no change, a
replacement node for all uses of the reduced node, or the reduced node changed in
place. -/
inductive Reduction where
  | NoChange
  | Replace (node : Node)
  | Changed (node : Node)
deriving DecidableEq, Repr

/-- The result of a reducer call and the graph after it. -/
abbrev Reduced := Except Fault Reduction × JSGraph

namespace SimplifiedOperatorReducer

/-- The statement `XMatcher m(node->InputAt(0));` followed by the rest of the case. -/
def withMatcher {T : Type} (jsgraph : JSGraph) (node : Node)
    (Matcher : Graph → Node → Except Fault (ValueMatcher T))
    (rest : ValueMatcher T → Reduced) : Reduced :=
  match jsgraph.graph_.InputAt node 0 with
  | none => (.error .undefined_behaviour, jsgraph)
  | some input =>
    match Matcher jsgraph.graph_ input with
    | .error fault => (.error fault, jsgraph)
    | .ok m => rest m

/-- The statement `return Replace(jsgraph()->...)` for a call into the constant cache. -/
def ReplaceCached (jsgraph : JSGraph) (r : Option (Node × JSGraph)) : Reduced :=
  match r with
  | some (node, jsgraph1) => (.ok (.Replace node), jsgraph1)
  | none => (.error .assertion_failed, jsgraph)

/-- The statement `return Replace(m.node()->InputAt(0))`. -/
def ReplaceInput0 {T : Type} (jsgraph : JSGraph) (m : ValueMatcher T) : Reduced :=
  match jsgraph.graph_.InputAt m.node_ 0 with
  | some a => (.ok (.Replace a), jsgraph)
  | none => (.error .undefined_behaviour, jsgraph)

/-- Source `Change`: `node->set_op(op); node->ReplaceInput(0, a); return Changed(node);`. -/
def Change (jsgraph : JSGraph) (node : Node) (op : Operator) (a : Node) : Reduced :=
  match (jsgraph.graph_.set_op node op).bind fun g => g.ReplaceInput node 0 a with
  | some g => (.ok (.Changed node), { jsgraph with graph_ := g })
  | none => (.error .undefined_behaviour, jsgraph)

/-- The statement `return Change(node, op, m.node()->InputAt(0))`. -/
def ChangeInput0 {T : Type} (jsgraph : JSGraph) (node : Node) (op : Operator)
    (m : ValueMatcher T) : Reduced :=
  match jsgraph.graph_.InputAt m.node_ 0 with
  | some a => Change jsgraph node op a
  | none => (.error .undefined_behaviour, jsgraph)

/-- Source `ReplaceFloat64`. -/
def ReplaceFloat64 (jsgraph : JSGraph) (value : Double) : Reduced :=
  ReplaceCached jsgraph (jsgraph.Float64Constant value)

/-- Source `ReplaceInt32`. -/
def ReplaceInt32 (jsgraph : JSGraph) (value : Int) : Reduced :=
  ReplaceCached jsgraph (jsgraph.Int32Constant value)

/-- Modelled from the spec: `ReplaceUint32` of `simplified-operator-reducer.h` (absent):
the `Int32Constant` with the same 32 bits. -/
def ReplaceUint32 (jsgraph : JSGraph) (value : Nat) : Reduced :=
  ReplaceInt32 jsgraph (uint32_to_int32 value)

/-- Source `ReplaceNumber(double)`. -/
def ReplaceNumber (jsgraph : JSGraph) (value : Double) : Reduced :=
  ReplaceCached jsgraph (jsgraph.Constant value)

/-- Source `ReplaceNumber(int32_t)`. -/
def ReplaceNumber_int32 (jsgraph : JSGraph) (value : Int) : Reduced :=
  ReplaceCached jsgraph (jsgraph.Constant_int32 value)

/-- Source `Reduce`. -/
def Reduce (jsgraph : JSGraph) (node : Node) : Reduced :=
  match jsgraph.graph_.get? node with
  | none => (.error .undefined_behaviour, jsgraph)
  | some data =>
    match data.op.opcode with
    | .kBooleanNot =>
      withMatcher jsgraph node HeapObjectMatcher fun m =>
        if m.IsKnownGlobal .false_value then ReplaceCached jsgraph jsgraph.TrueConstant
        else if m.IsKnownGlobal .true_value then ReplaceCached jsgraph jsgraph.FalseConstant
        else if m.IsOpcode .kBooleanNot then ReplaceInput0 jsgraph m
        else (.ok .NoChange, jsgraph)
    | .kChangeBitToBool =>
      withMatcher jsgraph node Int32Matcher fun m =>
        if m.Is 0 then ReplaceCached jsgraph jsgraph.FalseConstant
        else if m.Is 1 then ReplaceCached jsgraph jsgraph.TrueConstant
        else if m.IsOpcode .kChangeBoolToBit then ReplaceInput0 jsgraph m
        else (.ok .NoChange, jsgraph)
    | .kChangeBoolToBit =>
      withMatcher jsgraph node HeapObjectMatcher fun m =>
        if m.IsKnownGlobal .false_value then ReplaceInt32 jsgraph 0
        else if m.IsKnownGlobal .true_value then ReplaceInt32 jsgraph 1
        else if m.IsOpcode .kChangeBitToBool then ReplaceInput0 jsgraph m
        else (.ok .NoChange, jsgraph)
    | .kChangeFloat64ToTagged =>
      withMatcher jsgraph node Float64Matcher fun m =>
        match m.value_ with
        | some value => ReplaceNumber jsgraph value
        | none => (.ok .NoChange, jsgraph)
    | .kChangeInt32ToTagged =>
      withMatcher jsgraph node Int32Matcher fun m =>
        match m.value_ with
        | some value => ReplaceNumber_int32 jsgraph value
        | none => (.ok .NoChange, jsgraph)
    | .kChangeTaggedToFloat64 =>
      withMatcher jsgraph node Float64Matcher fun m =>
        match m.value_ with
        | some value => ReplaceFloat64 jsgraph value
        | none =>
          if m.IsOpcode .kChangeFloat64ToTagged then ReplaceInput0 jsgraph m
          else if m.IsOpcode .kChangeInt32ToTagged then
            ChangeInput0 jsgraph node MachineOperatorBuilder.ChangeInt32ToFloat64 m
          else if m.IsOpcode .kChangeUint32ToTagged then
            ChangeInput0 jsgraph node MachineOperatorBuilder.ChangeUint32ToFloat64 m
          else (.ok .NoChange, jsgraph)
    | .kChangeTaggedToInt32 =>
      withMatcher jsgraph node Float64Matcher fun m =>
        match m.value_ with
        | some value => ReplaceInt32 jsgraph (DoubleToInt32 value)
        | none =>
          if m.IsOpcode .kChangeFloat64ToTagged then
            ChangeInput0 jsgraph node MachineOperatorBuilder.ChangeFloat64ToInt32 m
          else if m.IsOpcode .kChangeInt32ToTagged then ReplaceInput0 jsgraph m
          else (.ok .NoChange, jsgraph)
    | .kChangeTaggedToUint32 =>
      withMatcher jsgraph node Float64Matcher fun m =>
        match m.value_ with
        | some value => ReplaceUint32 jsgraph (DoubleToUint32 value)
        | none =>
          if m.IsOpcode .kChangeFloat64ToTagged then
            ChangeInput0 jsgraph node MachineOperatorBuilder.ChangeFloat64ToUint32 m
          else if m.IsOpcode .kChangeUint32ToTagged then ReplaceInput0 jsgraph m
          else (.ok .NoChange, jsgraph)
    | .kChangeUint32ToTagged =>
      withMatcher jsgraph node Uint32Matcher fun m =>
        match m.value_ with
        | some value => ReplaceNumber jsgraph (FastUI2D value)
        | none => (.ok .NoChange, jsgraph)
    | _ => (.ok .NoChange, jsgraph)

end SimplifiedOperatorReducer

/-- The call `Reduce(node)` ends in `Replace(c)`, where `c` is the node that the cache
request returns: in the graph after the call `c` is a constant with the given opcode and
literal and has no inputs. -/
def SimplifiedOperatorReducer.FoldsTo (jsgraph : JSGraph) (node : Node)
    (request : Option (Node × JSGraph)) (opcode : IrOpcode) (parameter : Parameter) : Prop :=
  ∃ c jg cdata, request = some (c, jg) ∧
    SimplifiedOperatorReducer.Reduce jsgraph node = (.ok (.Replace c), jg) ∧
    jg.graph_.get? c = some cdata ∧ cdata.op.opcode = opcode ∧
    cdata.op.parameter = parameter ∧ cdata.inputs = []

/-- The nine opcodes that `Reduce` has a case for. -/
def reducedOpcodes : List IrOpcode :=
  [.kBooleanNot, .kChangeBitToBool, .kChangeBoolToBit, .kChangeFloat64ToTagged,
    .kChangeInt32ToTagged, .kChangeTaggedToFloat64, .kChangeTaggedToInt32,
    .kChangeTaggedToUint32, .kChangeUint32ToTagged]

/-! ## The standard meaning of the conversions

These definitions do not come from the source: they state what the conversion operators
compute, and the reducer is compared with them. -/

namespace Meaning

/-- A tagged value, as far as the conversions tell: a number or a boolean. -/
inductive Tagged where
  | number (value : Double)
  | boolean (value : Bool)
deriving DecidableEq, Repr

/-- Embeds an `int32_t` as a number. -/
def ChangeInt32ToTagged (x : Int) : Tagged := .number (Double.ofInt x)

/-- Embeds a `uint32_t` as a number. -/
def ChangeUint32ToTagged (x : Nat) : Tagged := .number (Double.ofInt x)

/-- Embeds a `double` as a number. -/
def ChangeFloat64ToTagged (x : Double) : Tagged := .number x

/-- Applies ToInt32 to a number. -/
def ChangeTaggedToInt32 : Tagged → Option Int
  | .number d => some (DoubleToInt32 d)
  | .boolean _ => none

/-- Applies ToUint32 to a number. -/
def ChangeTaggedToUint32 : Tagged → Option Nat
  | .number d => some (DoubleToUint32 d)
  | .boolean _ => none

/-- The `double` of a number. -/
def ChangeTaggedToFloat64 : Tagged → Option Double
  | .number d => some d
  | .boolean _ => none

/-- Maps the bit 0 to `false` and the bit 1 to `true`. -/
def ChangeBitToBool (b : Int) : Option Tagged :=
  if b = 0 then some (.boolean false) else if b = 1 then some (.boolean true) else none

/-- Maps `false` to the bit 0 and `true` to the bit 1. -/
def ChangeBoolToBit : Tagged → Option Int
  | .boolean b => some (if b then 1 else 0)
  | .number _ => none

/-- Negates a boolean. -/
def BooleanNot : Tagged → Option Tagged
  | .boolean b => some (.boolean (!b))
  | .number _ => none

/-- A value in one of the three representations the conversions connect; a word32 is
given by its signed reading. -/
inductive Value where
  | word32 (value : Int)
  | float64 (value : Double)
  | tagged (value : Tagged)
deriving DecidableEq, Repr

/-- A word32 value is an `int32_t`. -/
def Value.Valid : Value → Prop
  | .word32 v => -2147483648 ≤ v ∧ v ≤ 2147483647
  | _ => True

/-- Two doubles are the same number: the same bits, or both NaN. -/
def sameDouble (a b : Double) : Prop := canonicalDouble a = canonicalDouble b

/-- Two values are the same up to the payload of a NaN. -/
def Value.same : Value → Value → Prop
  | .word32 a, .word32 b => a = b
  | .float64 a, .float64 b => sameDouble a b
  | .tagged (.number a), .tagged (.number b) => sameDouble a b
  | .tagged (.boolean a), .tagged (.boolean b) => a = b
  | _, _ => False

/-- What an operator with one value input computes from the value of its input: the
nine simplified conversions as above, and the four machine conversions that the reducer
introduces, which convert exactly (to float64) or by ToInt32 / ToUint32 (from float64). -/
def apply (opcode : IrOpcode) (x : Value) : Option Value :=
  match opcode, x with
  | .kBooleanNot, .tagged t => (BooleanNot t).map .tagged
  | .kChangeBitToBool, .word32 b => (ChangeBitToBool b).map .tagged
  | .kChangeBoolToBit, .tagged t => (ChangeBoolToBit t).map .word32
  | .kChangeFloat64ToTagged, .float64 d => some (.tagged (ChangeFloat64ToTagged d))
  | .kChangeInt32ToTagged, .word32 v => some (.tagged (ChangeInt32ToTagged v))
  | .kChangeUint32ToTagged, .word32 v => some (.tagged (ChangeUint32ToTagged (int32_to_uint32 v)))
  | .kChangeTaggedToFloat64, .tagged t => (ChangeTaggedToFloat64 t).map .float64
  | .kChangeTaggedToInt32, .tagged t => (ChangeTaggedToInt32 t).map .word32
  | .kChangeTaggedToUint32, .tagged t =>
    (ChangeTaggedToUint32 t).map fun u => .word32 (uint32_to_int32 u)
  | .kChangeInt32ToFloat64, .word32 v => some (.float64 (Double.ofInt v))
  | .kChangeUint32ToFloat64, .word32 v => some (.float64 (Double.ofInt (int32_to_uint32 v)))
  | .kChangeFloat64ToInt32, .float64 d => some (.word32 (DoubleToInt32 d))
  | .kChangeFloat64ToUint32, .float64 d => some (.word32 (uint32_to_int32 (DoubleToUint32 d)))
  | _, _ => none

/-- The value of a constant node: an `Int32Constant` is a word32, a `Float64Constant` a
float64, a `NumberConstant` a tagged number and the `HeapConstant` of the `true` or
`false` singleton a tagged boolean. -/
def ofConstant (op : Operator) : Option Value :=
  match op.opcode, op.parameter with
  | .kInt32Constant, .int32 v => some (.word32 v)
  | .kFloat64Constant, .float64 d => some (.float64 d)
  | .kNumberConstant, .float64 d => some (.tagged (.number d))
  | .kHeapConstant, .heap .true_value => some (.tagged (.boolean true))
  | .kHeapConstant, .heap .false_value => some (.tagged (.boolean false))
  | _, _ => none

end Meaning

/-! ## A second small graph, with conversions to reduce -/

/-- The `double` 22.2. -/
def twentyTwoPointTwo : Double := ⟨false, 1027, 1745144855606067⟩

/-- Nodes: #0 `Start`, #1 `Parameter[0]`, #2 `ChangeBoolToBit(#1)`, #3 `ChangeBitToBool(#2)`,
#4 `ChangeBitToBool(#1)`, #5 `ChangeBoolToBit(#4)`, #6 `BooleanNot(#1)`, #7 `BooleanNot(#6)`,
#8 `Int32Constant[-1]`, #9 `ChangeInt32ToTagged(#8)`, #10 `ChangeUint32ToTagged(#8)`,
#11 `ChangeTaggedToFloat64(#9)`, #12 `NumberConstant[-3.0]`, #13 `ChangeTaggedToInt32(#12)`,
#14 `ChangeTaggedToUint32(#12)`, #15 `HeapConstant[false]`, #16 `BooleanNot(#15)`,
#17 `ChangeTaggedToInt32(#10)`, #18 `ChangeInt32ToTagged(#1)`, #19 `ChangeTaggedToInt32(#18)`,
#20 `Float64Constant[22.2]`, #21 `ChangeFloat64ToTagged(#20)`; the constants #8, #12, #15
and #20 are in the cache. -/
def reducerJSGraph : JSGraph :=
  ⟨⟨[⟨CommonOperatorBuilder.Start 0, []⟩,
      ⟨CommonOperatorBuilder.Parameter 0, [⟨0⟩]⟩,
      ⟨SimplifiedOperatorBuilder.ChangeBoolToBit, [⟨1⟩]⟩,
      ⟨SimplifiedOperatorBuilder.ChangeBitToBool, [⟨2⟩]⟩,
      ⟨SimplifiedOperatorBuilder.ChangeBitToBool, [⟨1⟩]⟩,
      ⟨SimplifiedOperatorBuilder.ChangeBoolToBit, [⟨4⟩]⟩,
      ⟨SimplifiedOperatorBuilder.BooleanNot, [⟨1⟩]⟩,
      ⟨SimplifiedOperatorBuilder.BooleanNot, [⟨6⟩]⟩,
      ⟨CommonOperatorBuilder.Int32Constant (-1), []⟩,
      ⟨SimplifiedOperatorBuilder.ChangeInt32ToTagged, [⟨8⟩]⟩,
      ⟨SimplifiedOperatorBuilder.ChangeUint32ToTagged, [⟨8⟩]⟩,
      ⟨SimplifiedOperatorBuilder.ChangeTaggedToFloat64, [⟨9⟩]⟩,
      ⟨CommonOperatorBuilder.NumberConstant minusThree, []⟩,
      ⟨SimplifiedOperatorBuilder.ChangeTaggedToInt32, [⟨12⟩]⟩,
      ⟨SimplifiedOperatorBuilder.ChangeTaggedToUint32, [⟨12⟩]⟩,
      ⟨CommonOperatorBuilder.HeapConstant .false_value, []⟩,
      ⟨SimplifiedOperatorBuilder.BooleanNot, [⟨15⟩]⟩,
      ⟨SimplifiedOperatorBuilder.ChangeTaggedToInt32, [⟨10⟩]⟩,
      ⟨SimplifiedOperatorBuilder.ChangeInt32ToTagged, [⟨1⟩]⟩,
      ⟨SimplifiedOperatorBuilder.ChangeTaggedToInt32, [⟨18⟩]⟩,
      ⟨CommonOperatorBuilder.Float64Constant twentyTwoPointTwo, []⟩,
      ⟨SimplifiedOperatorBuilder.ChangeFloat64ToTagged, [⟨20⟩]⟩]⟩,
    [((.kInt32Constant, .int32 (-1)), ⟨8⟩),
      ((.kNumberConstant, .float64 minusThree), ⟨12⟩),
      ((.kHeapConstant, .heap .false_value), ⟨15⟩),
      ((.kFloat64Constant, .float64 twentyTwoPointTwo), ⟨20⟩)]⟩

/-! ## More of `machine-type.h` -/

/-- Source `TypeOf`: gets only the type of the given type. -/
def TypeOf (machine_type : MachineTypeUnion) : MachineTypeUnion := machine_type &&& kTypeMask

/-- Source `RepresentationOf`: gets only the representation of the given type; the
`CHECK` is active in every build. -/
def RepresentationOf (machine_type : MachineTypeUnion) : Except Fault MachineTypeUnion :=
  let result := machine_type &&& kRepMask
  if base.bits.IsPowerOfTwo32 result then .ok result else .error .assertion_failed

/-- Source `kMachPtr`; `kPointerSize` comes from `globals.h` (absent) and is taken as a
parameter. -/
def kMachPtr (kPointerSize : Int) : MachineTypeUnion :=
  if kPointerSize = 4 then kRepWord32 else kRepWord64

/-- Source `ElementSizeOf`: the element size in bytes of the machine type. -/
def ElementSizeOf (kPointerSize : Int) (machine_type : MachineTypeUnion) : Except Fault Int :=
  match RepresentationOf machine_type with
  | .error fault => .error fault
  | .ok rep =>
    if rep = kRepBit ∨ rep = kRepWord8 then .ok 1
    else if rep = kRepWord16 then .ok 2
    else if rep = kRepWord32 ∨ rep = kRepFloat32 then .ok 4
    else if rep = kRepWord64 ∨ rep = kRepFloat64 then .ok 8
    else if rep = kRepTagged then .ok kPointerSize
    else .error .unreachable

/-- The conversion `static_cast<int>(v)` of a `size_t`: the low 32 bits read as two's
complement. -/
def static_cast_int (v : Nat) : Int := uint32_to_int32 v

/-- The largest `size_t` plus one, on a 64-bit target. -/
def kSizeTRange : Nat := 18446744073709551616

/-- Modelled from the spec: `zone->NewArray<T>(length)` (`zone.h` is absent): an array
of `length` uninitialised elements, or no array for a negative length. -/
def Zone.NewArray (T : Type) (length : Int) : Option (List (Option T)) :=
  if 0 ≤ length then some (List.replicate length.toNat none) else none

/-- Source `Signature<T>`: the counts and the array of the representations, returns
first. An element that was never written is `none`. -/
structure Signature (T : Type) where
  return_count_ : Nat
  parameter_count_ : Nat
  reps_ : List (Option T)
deriving DecidableEq, Repr

namespace Signature

def return_count {T : Type} (sig : Signature T) : Nat := sig.return_count_

def parameter_count {T : Type} (sig : Signature T) : Nat := sig.parameter_count_

/-- Reads `reps_[index]`: outside the array or at an element never written, the read is
undefined. -/
def read {T : Type} (reps : List (Option T)) (index : Nat) : Except Fault T :=
  match reps[index]? with
  | some (some value) => .ok value
  | _ => .error .undefined_behaviour

/-- Source `GetParam`. -/
def GetParam {T : Type} (sig : Signature T) (index : Nat) : Except Fault T :=
  if index < sig.parameter_count_ then
    read sig.reps_ ((sig.return_count_ + index) % kSizeTRange)
  else .error .assertion_failed

/-- Source `GetReturn`. -/
def GetReturn {T : Type} (sig : Signature T) (index : Nat) : Except Fault T :=
  if index < sig.return_count_ then read sig.reps_ index else .error .assertion_failed

/-- Source `Signature<T>::Builder`. -/
structure Builder (T : Type) where
  return_count_ : Nat
  parameter_count_ : Nat
  rcursor_ : Nat
  pcursor_ : Nat
  buffer_ : List (Option T)
deriving DecidableEq, Repr

namespace Builder

/-- The constructor: both cursors start at zero and the buffer has
`static_cast<int>(return_count + parameter_count)` elements. -/
def new (T : Type) (return_count parameter_count : Nat) : Option (Builder T) :=
  (Zone.NewArray T (static_cast_int ((return_count + parameter_count) % kSizeTRange))).map
    fun buffer => ⟨return_count, parameter_count, 0, 0, buffer⟩

/-- Writes `buffer_[index] = val`; outside the array the write is undefined. -/
def write {T : Type} (b : Builder T) (index : Nat) (val : T) : Except Fault (List (Option T)) :=
  if index < b.buffer_.length then .ok (b.buffer_.set index (some val))
  else .error .undefined_behaviour

/-- Source `AddReturn`. -/
def AddReturn {T : Type} (b : Builder T) (val : T) : Except Fault (Builder T) :=
  if b.rcursor_ < b.return_count_ then
    match b.write b.rcursor_ val with
    | .ok buffer => .ok { b with rcursor_ := b.rcursor_ + 1, buffer_ := buffer }
    | .error fault => .error fault
  else .error .assertion_failed

/-- Source `AddParam`. -/
def AddParam {T : Type} (b : Builder T) (val : T) : Except Fault (Builder T) :=
  if b.pcursor_ < b.parameter_count_ then
    match b.write ((b.return_count_ + b.pcursor_) % kSizeTRange) val with
    | .ok buffer => .ok { b with pcursor_ := b.pcursor_ + 1, buffer_ := buffer }
    | .error fault => .error fault
  else .error .assertion_failed

/-- Source `Build`. -/
def Build {T : Type} (b : Builder T) : Except Fault (Signature T) :=
  if b.rcursor_ ≠ b.return_count_ then .error .assertion_failed
  else if b.pcursor_ ≠ b.parameter_count_ then .error .assertion_failed
  else .ok ⟨b.return_count_, b.parameter_count_, b.buffer_⟩

/-- One call on a builder. -/
inductive Call (T : Type) where
  | AddReturn (val : T)
  | AddParam (val : T)
deriving DecidableEq, Repr

/-- Runs the calls in order; the first fault ends the run. -/
def run {T : Type} : Builder T → List (Call T) → Except Fault (Builder T)
  | b, [] => .ok b
  | b, .AddReturn val :: rest =>
    match b.AddReturn val with
    | .ok b1 => run b1 rest
    | .error fault => .error fault
  | b, .AddParam val :: rest =>
    match b.AddParam val with
    | .ok b1 => run b1 rest
    | .error fault => .error fault

/-- The values of the `AddReturn` calls of a run, in order. -/
def returnsOf {T : Type} : List (Call T) → List T
  | [] => []
  | .AddReturn val :: rest => val :: returnsOf rest
  | .AddParam _ :: rest => returnsOf rest

/-- The values of the `AddParam` calls of a run, in order. -/
def paramsOf {T : Type} : List (Call T) → List T
  | [] => []
  | .AddReturn _ :: rest => paramsOf rest
  | .AddParam val :: rest => val :: paramsOf rest

end Builder

end Signature

/-! ## More of `common-operator.h` -/

namespace CallDescriptor

def properties (descriptor : CallDescriptor) : Properties := descriptor.properties_

def InputCount (descriptor : CallDescriptor) : Nat := descriptor.input_count_

def FrameStateCount (descriptor : CallDescriptor) : Nat := descriptor.frame_state_count_

def ReturnCount (descriptor : CallDescriptor) : Nat := descriptor.return_count_

end CallDescriptor

/-- Source `CallOperator`: the constructor arguments passed on to
`Operator1<CallDescriptor*>`; the counts of the descriptor are `size_t` and are cast to
`int`. -/
def CallOperator (descriptor : CallDescriptor) (mnemonic : String) : Operator :=
  ⟨.kCall, descriptor.properties,
    static_cast_int ((descriptor.InputCount + descriptor.FrameStateCount) % kSizeTRange),
    static_cast_int descriptor.ReturnCount, mnemonic, .descriptor descriptor⟩

/-- Source `CommonOperatorBuilder::Call`. -/
def CommonOperatorBuilder.Call (descriptor : CallDescriptor) : Operator :=
  CallOperator descriptor "Call"

def OpParameter_int64 (op : Operator) : Option Int :=
  match op.parameter with
  | .int64 v => some v
  | _ => none

/-- Source `CommonOperatorTraits<int64_t>::HasValue`. -/
def HasValue_int64 (op : Operator) : Bool :=
  op.opcode = .kInt32Constant || op.opcode = .kInt64Constant ||
    op.opcode = .kNumberConstant

/-- Source `CommonOperatorTraits<int64_t>::ValueOf`. -/
def ValueOf_int64 (op : Operator) : Except Fault Int :=
  if op.opcode = .kInt32Constant then
    match ValueOf_int32 op with
    | some v => .ok v
    | none => .error .undefined_behaviour
  else if op.opcode ≠ .kInt64Constant then .error .assertion_failed
  else
    match OpParameter_int64 op with
    | some v => .ok v
    | none => .error .undefined_behaviour

/-- Source `CommonOperatorTraits<uint64_t>::HasValue`. -/
def HasValue_uint64 (op : Operator) : Bool := HasValue_int64 op

/-- Source `CommonOperatorTraits<uint64_t>::ValueOf`: `static_cast<uint64_t>` is modulo
`2^64`. -/
def ValueOf_uint64 (op : Operator) : Except Fault Nat :=
  (ValueOf_int64 op).map fun v => (v % 18446744073709551616).toNat

/-! ## `node-properties-inl.h` -/

/-- Modelled from the spec: `OperatorProperties` (`operator-properties-inl.h` is
absent): the arity an operator declares for each of the five input zones, an `int` each,
and whether it produces a control output. -/
structure OperatorProperties where
  GetValueInputCount : Operator → Int
  GetContextInputCount : Operator → Int
  GetFrameStateInputCount : Operator → Int
  GetEffectInputCount : Operator → Int
  GetControlInputCount : Operator → Int
  HasControlOutput : Operator → Bool

/-- Modelled from the spec: `OperatorProperties::HasEffectInput`: the operator declares
at least one effect input. -/
def OperatorProperties.HasEffectInput (P : OperatorProperties) (op : Operator) : Bool :=
  decide (P.GetEffectInputCount op > 0)

/-- Modelled from the spec: `Node::Edge` (`generic-node.h` is absent): the input slot of
the node `from()` at the position `index()`, counted from 0; the `int` that `index()`
returns has the value of the position. -/
structure Edge where
  from_ : Node
  index : Nat
deriving DecidableEq, Repr

namespace NodeProperties

/-! The index functions read the node only through `node->op()`; they take the contents
of the node. They return `int` and add in `int`. -/

def FirstValueIndex (_P : OperatorProperties) (_node : NodeData) : Int := 0

def PastValueIndex (P : OperatorProperties) (node : NodeData) : Int :=
  int_add (FirstValueIndex P node) (P.GetValueInputCount node.op)

def FirstContextIndex (P : OperatorProperties) (node : NodeData) : Int :=
  PastValueIndex P node

def PastContextIndex (P : OperatorProperties) (node : NodeData) : Int :=
  int_add (FirstContextIndex P node) (P.GetContextInputCount node.op)

def FirstFrameStateIndex (P : OperatorProperties) (node : NodeData) : Int :=
  PastContextIndex P node

def PastFrameStateIndex (P : OperatorProperties) (node : NodeData) : Int :=
  int_add (FirstFrameStateIndex P node) (P.GetFrameStateInputCount node.op)

def FirstEffectIndex (P : OperatorProperties) (node : NodeData) : Int :=
  PastFrameStateIndex P node

def PastEffectIndex (P : OperatorProperties) (node : NodeData) : Int :=
  int_add (FirstEffectIndex P node) (P.GetEffectInputCount node.op)

def FirstControlIndex (P : OperatorProperties) (node : NodeData) : Int :=
  PastEffectIndex P node

def PastControlIndex (P : OperatorProperties) (node : NodeData) : Int :=
  int_add (FirstControlIndex P node) (P.GetControlInputCount node.op)

/-- The counts that `P` declares for the operator of the node are not negative, and their
sum, the number of inputs of the node, is an `int`. -/
def CountsInRange (P : OperatorProperties) (node : NodeData) : Prop :=
  0 ≤ P.GetValueInputCount node.op ∧ 0 ≤ P.GetContextInputCount node.op ∧
    0 ≤ P.GetFrameStateInputCount node.op ∧ 0 ≤ P.GetEffectInputCount node.op ∧
    0 ≤ P.GetControlInputCount node.op ∧
    P.GetValueInputCount node.op + P.GetContextInputCount node.op +
      P.GetFrameStateInputCount node.op + P.GetEffectInputCount node.op +
      P.GetControlInputCount node.op ≤ 2147483647

instance (P : OperatorProperties) (node : NodeData) : Decidable (CountsInRange P node) :=
  inferInstanceAs (Decidable (_ ∧ _))

/-- Source `IsInputRange`. -/
def IsInputRange (edge : Edge) (first num : Int) : Bool :=
  if num = 0 then false
  else
    let index : Int := edge.index
    decide (first ≤ index) && decide (index < int_add first num)

/-- Source `IsValueEdge`; `none` when `edge.from()` is not a node of the graph. -/
def IsValueEdge (P : OperatorProperties) (g : Graph) (edge : Edge) : Option Bool :=
  (g.get? edge.from_).map fun node =>
    IsInputRange edge (FirstValueIndex P node) (P.GetValueInputCount node.op)

/-- Source `IsContextEdge`. -/
def IsContextEdge (P : OperatorProperties) (g : Graph) (edge : Edge) : Option Bool :=
  (g.get? edge.from_).map fun node =>
    IsInputRange edge (FirstContextIndex P node) (P.GetContextInputCount node.op)

/-- Source `IsEffectEdge`. -/
def IsEffectEdge (P : OperatorProperties) (g : Graph) (edge : Edge) : Option Bool :=
  (g.get? edge.from_).map fun node =>
    IsInputRange edge (FirstEffectIndex P node) (P.GetEffectInputCount node.op)

/-- Source `IsControlEdge`. -/
def IsControlEdge (P : OperatorProperties) (g : Graph) (edge : Edge) : Option Bool :=
  (g.get? edge.from_).map fun node =>
    IsInputRange edge (FirstControlIndex P node) (P.GetControlInputCount node.op)

/-- Source `GetEffectInput(node, index)`, with the `DCHECK` active; `InputAt` of an index
that is not a position of an input is undefined. -/
def GetEffectInput (P : OperatorProperties) (g : Graph) (node : Node) (index : Int) :
    Except Fault Node :=
  match g.get? node with
  | none => .error .undefined_behaviour
  | some data =>
    if 0 ≤ index ∧ index < P.GetEffectInputCount data.op then
      let i := int_add (FirstEffectIndex P data) index
      if i < 0 then .error .undefined_behaviour
      else
        match data.inputs[i.toNat]? with
        | some input => .ok input
        | none => .error .undefined_behaviour
    else .error .assertion_failed

end NodeProperties

namespace Graph

/-- The input slots of one node that point at `node`, as edges. -/
def usesIn (from_ : Node) (node : Node) : List Node → Nat → List Edge
  | [], _ => []
  | input :: rest, index =>
    if input = node then ⟨from_, index⟩ :: usesIn from_ node rest (index + 1)
    else usesIn from_ node rest (index + 1)

/-- The use edges found in the nodes `nodes`, whose first one has the id `id`. -/
def usesFrom (node : Node) : List NodeData → Nat → List Edge
  | [], _ => []
  | data :: rest, id => usesIn ⟨id⟩ node data.inputs 0 ++ usesFrom node rest (id + 1)

/-- Modelled from the spec: `node->uses()` (`generic-node.h` is absent): the use edges
of a node are the input slots of the graph that point at it. -/
def uses (g : Graph) (node : Node) : List Edge := usesFrom node g.nodes 0

end Graph

namespace NodeProperties

/-- The loop of `ReplaceWithValue` over the use edges that are left: an effect edge is
updated to `effect`, which must not be `NULL`, any other edge to `value`. -/
def ReplaceWithValue.loop (P : OperatorProperties) (value : Node) (effect : Option Node) :
    Graph → List Edge → Except Fault Graph
  | g, [] => .ok g
  | g, edge :: rest =>
    match IsEffectEdge P g edge with
    | none => .error .undefined_behaviour
    | some true =>
      match effect with
      | none => .error .assertion_failed
      | some e =>
        match g.ReplaceInput edge.from_ edge.index e with
        | some g1 => loop P value effect g1 rest
        | none => .error .undefined_behaviour
    | some false =>
      match g.ReplaceInput edge.from_ edge.index value with
      | some g1 => loop P value effect g1 rest
      | none => .error .undefined_behaviour

/-- The statement `if (effect == NULL && HasEffectInput(node->op())) effect =
GetEffectInput(node);` of `ReplaceWithValue`: the effect replacement. -/
def ReplaceWithValue.effect (P : OperatorProperties) (g : Graph) (node : Node)
    (data : NodeData) (effect : Option Node) : Except Fault (Option Node) :=
  if effect = none ∧ P.HasEffectInput data.op = true then
    match GetEffectInput P g node 0 with
    | .ok input => .ok (some input)
    | .error fault => .error fault
  else .ok effect

/-- Source `ReplaceWithValue`; `effect = none` is the `NULL` pointer. -/
def ReplaceWithValue (P : OperatorProperties) (g : Graph) (node value : Node)
    (effect : Option Node) : Except Fault Graph :=
  match g.get? node with
  | none => .error .undefined_behaviour
  | some data =>
    if P.HasControlOutput data.op then .error .assertion_failed
    else
      match ReplaceWithValue.effect P g node data effect with
      | .error fault => .error fault
      | .ok effect => ReplaceWithValue.loop P value effect g (g.uses node)

end NodeProperties

/-! ## A small graph with effect edges, on which the theorems are instantiated -/

/-- An operator with one value input and one effect input, in the manner of a load. -/
def exampleLoad : Operator := ⟨.kOther 0, .kNoProperties, 1, 1, "Load", .none⟩

/-- An arity table for the example graphs: the declared input count is the number of value
inputs, the load has one effect input besides, and only `Start` has a control output. -/
def exampleOperatorProperties : OperatorProperties where
  GetValueInputCount := fun op => op.input_count
  GetContextInputCount := fun _ => 0
  GetFrameStateInputCount := fun _ => 0
  GetEffectInputCount := fun op => if op.opcode = .kOther 0 then 1 else 0
  GetControlInputCount := fun _ => 0
  HasControlOutput := fun op => decide (op.opcode = .kStart)

/-- Nodes: #0 `Start`, #1 `Parameter[0]`, #2 `Int32Constant[7]`, #3 `Load(#1; effect #0)`,
#4 `Load(#3; effect #3)`, which uses #3 as a value and as an effect, #5 `Int32Add(#3, #2)`,
#6 `Load(#1; effect #2)`, which uses the constant #2 as an effect. -/
def effectGraph : Graph :=
  ⟨[⟨CommonOperatorBuilder.Start 0, []⟩,
    ⟨CommonOperatorBuilder.Parameter 0, [⟨0⟩]⟩,
    ⟨CommonOperatorBuilder.Int32Constant 7, []⟩,
    ⟨exampleLoad, [⟨1⟩, ⟨0⟩]⟩,
    ⟨exampleLoad, [⟨3⟩, ⟨3⟩]⟩,
    ⟨MachineOperatorBuilder.Int32Add, [⟨3⟩, ⟨2⟩]⟩,
    ⟨exampleLoad, [⟨1⟩, ⟨2⟩]⟩]⟩

/-! ## Predicates and tables used by the theorems -/

/-- The builder has the given counts, its cursors count the values added so far, and its
buffer holds the returns added so far from slot 0 and the parameters added so far from slot
`N`. -/
def Signature.Builder.Holds {T : Type} (N M : Nat) (rs ps : List T)
    (b : Signature.Builder T) : Prop :=
  rs.length ≤ N ∧ ps.length ≤ M ∧
    b.return_count_ = N ∧ b.parameter_count_ = M ∧ b.rcursor_ = rs.length ∧
    b.pcursor_ = ps.length ∧ b.buffer_.length = N + M ∧
    (∀ i, i < rs.length → b.buffer_[i]? = some rs[i]?) ∧
    (∀ j, j < ps.length → b.buffer_[N + j]? = some ps[j]?)

/-- The four patterns that `Reduce` rewrites in place: the opcode of the reduced node, the
opcode of its input, and the operator the node gets. -/
def changedPatterns : List (IrOpcode × IrOpcode × Operator) :=
  [(.kChangeTaggedToFloat64, .kChangeInt32ToTagged, MachineOperatorBuilder.ChangeInt32ToFloat64),
    (.kChangeTaggedToFloat64, .kChangeUint32ToTagged,
      MachineOperatorBuilder.ChangeUint32ToFloat64),
    (.kChangeTaggedToInt32, .kChangeFloat64ToTagged, MachineOperatorBuilder.ChangeFloat64ToInt32),
    (.kChangeTaggedToUint32, .kChangeFloat64ToTagged,
      MachineOperatorBuilder.ChangeFloat64ToUint32)]

/-- The folded result `r` of a converter of the changer `rc` agrees with the reduction of
the conversion node `conv` in the same graph: both end with the same node `n`, a constant
without inputs, and leave the same graph and cache behind. -/
def RepresentationChanger.FoldAgreesWithReduce (rc : RepresentationChanger)
    (r : Outcome × RepresentationChanger) (conv : Node) : Prop :=
  ∃ n jg ndata, r = (.returned n, { rc with jsgraph_ := jg }) ∧
    SimplifiedOperatorReducer.Reduce rc.jsgraph_ conv = (.ok (.Replace n), jg) ∧
    jg.graph_.get? n = some ndata ∧ IsFoldedConstant ndata.op.opcode ∧ ndata.inputs = []

/-- Nodes: #0 `Start`, #1 `Parameter[0]`, #2 `Int32Constant[1]`, #3 `ChangeInt32ToFloat64(#2)`,
#4 `ChangeBitToBool(#2)`, #5 `Int32Constant[-1]`, #6 `ChangeInt32ToTagged(#5)`; the
constants #2 and #5 are in the cache. -/
def foldingJSGraph : JSGraph :=
  ⟨⟨[⟨CommonOperatorBuilder.Start 0, []⟩,
      ⟨CommonOperatorBuilder.Parameter 0, [⟨0⟩]⟩,
      ⟨CommonOperatorBuilder.Int32Constant 1, []⟩,
      ⟨MachineOperatorBuilder.ChangeInt32ToFloat64, [⟨2⟩]⟩,
      ⟨SimplifiedOperatorBuilder.ChangeBitToBool, [⟨2⟩]⟩,
      ⟨CommonOperatorBuilder.Int32Constant (-1), []⟩,
      ⟨SimplifiedOperatorBuilder.ChangeInt32ToTagged, [⟨5⟩]⟩]⟩,
    [((.kInt32Constant, .int32 1), ⟨2⟩),
      ((.kInt32Constant, .int32 (-1)), ⟨5⟩)]⟩

end compiler

/-! # Lemmas about the arithmetic of `double` -/

namespace Double

theorem normalize_spec (fuel : Nat) : ∀ m e : Nat, 0 < m → m < 9007199254740992 →
    4503599627370496 ≤ m * 2 ^ fuel → fuel ≤ e →
    ∃ k, k ≤ fuel ∧ normalize fuel m e = (m * 2 ^ k, e - k) ∧
      4503599627370496 ≤ m * 2 ^ k ∧ m * 2 ^ k < 9007199254740992 := by
  induction fuel with
  | zero =>
    intro m e _ hlt hge _
    exact ⟨0, le_refl _, by simp [normalize], by simpa using hge, by simpa using hlt⟩
  | succ fuel ih =>
    intro m e hpos hlt hge hfe
    unfold normalize
    by_cases hm : m < 4503599627370496
    · rw [if_pos hm]
      have h1 : 4503599627370496 ≤ 2 * m * 2 ^ fuel := by
        rw [pow_succ] at hge; linarith [hge, Nat.mul_comm m (2 ^ fuel * 2)]
      obtain ⟨k, hk, hn, hlo, hhi⟩ := ih (2 * m) (e - 1) (by omega) (by omega) h1 (by omega)
      refine ⟨k + 1, by omega, ?_, ?_, ?_⟩
      · rw [hn]
        have : 2 * m * 2 ^ k = m * 2 ^ (k + 1) := by rw [pow_succ]; ring
        rw [this]; congr 1; omega
      · have : 2 * m * 2 ^ k = m * 2 ^ (k + 1) := by rw [pow_succ]; ring
        omega
      · have : 2 * m * 2 ^ k = m * 2 ^ (k + 1) := by rw [pow_succ]; ring
        omega
    · rw [if_neg hm]
      exact ⟨0, Nat.zero_le _, by simp, by simpa using Nat.le_of_not_lt hm, by simpa using hlt⟩


theorem toInt?_ofInt (n : Int) (hn : n.natAbs < 9007199254740992) :
    (ofInt n).toInt? = some n := by
  by_cases h0 : n = 0
  · subst h0; decide
  · have hpos : 0 < n.natAbs := Int.natAbs_pos.2 h0
    have hge : 4503599627370496 ≤ n.natAbs * 2 ^ 53 := by
      have : (1:Nat) * 2 ^ 53 ≤ n.natAbs * 2 ^ 53 := Nat.mul_le_mul_right _ hpos
      omega
    obtain ⟨k, hk, hnorm, hlo, hhi⟩ := normalize_spec 53 n.natAbs 1075 hpos hn hge (by omega)
    have he : (1075 - k) % 2048 = 1075 - k := Nat.mod_eq_of_lt (by omega)
    have hf : (n.natAbs * 2 ^ k - 4503599627370496) % 4503599627370496
        = n.natAbs * 2 ^ k - 4503599627370496 := Nat.mod_eq_of_lt (by omega)
    have hsig : (ofInt n).significand = n.natAbs * 2 ^ k := by
      simp only [ofInt, if_neg h0, significand, hnorm, he, hf]
      rw [if_neg (by omega)]; omega
    have hexp : (ofInt n).exponent.val = 1075 - k := by
      simp only [ofInt, if_neg h0, hnorm, he]
    have hsign : (ofInt n).sign = decide (n < 0) := by
      simp only [ofInt, if_neg h0]
    have hk52 : k ≤ 52 := by
      have h1 : 2 ^ k ≤ n.natAbs * 2 ^ k := Nat.le_mul_of_pos_left _ hpos
      have h3 : 2 ^ k < 2 ^ 53 := lt_of_le_of_lt h1 (by simpa using hhi)
      exact Nat.lt_succ_iff.1 ((Nat.pow_lt_pow_iff_right (by norm_num)).1 h3)
    have hmax : max (1075 - k) 1 = 1075 - k := by omega
    have h2 : 1075 - (1075 - k) = k := by omega
    have hint : (ofInt n).isIntegral = true := by
      simp only [isIntegral, isFinite, hexp, hsig, hmax, h2]
      have hfin : ((1075 - k) != 2047) = true := by
        rw [bne_iff_ne]; omega
      rw [hfin, Bool.true_and]
      split_ifs with a b
      · rfl
      · omega
      · rw [Nat.mul_mod_left]; rfl
    have hmag : (ofInt n).truncMagnitude = n.natAbs := by
      simp only [truncMagnitude, hexp, hsig, hmax, h2]
      split_ifs with a b
      · have hk0 : k = 0 := by omega
        subst hk0; simp
      · omega
      · exact Nat.mul_div_cancel _ (by positivity)
    unfold toInt?
    rw [hint, if_pos rfl]
    unfold truncate
    rw [hmag, hsign]
    rw [Option.some.injEq]
    by_cases hneg : n < 0
    · rw [if_pos (decide_eq_true hneg)]; omega
    · rw [if_neg (by simpa using hneg)]; omega

end Double

theorem Double.isNaN_of_toInt? (d : Double) (n : Int) (h : d.toInt? = some n) : d.isNaN = false := by
  unfold Double.toInt? at h
  split_ifs at h with hi
  unfold Double.isIntegral at hi
  simp only [Bool.and_eq_true] at hi
  have hf := hi.1
  unfold Double.isFinite at hf
  unfold Double.isNaN
  cases hb : (d.exponent.val == 2047)
  · rfl
  · rw [bne, hb] at hf; simp at hf


theorem Double.truncMagnitude_pos (d : Double) (hint : d.isIntegral = true) (hz : d.isZero = false) :
    0 < d.truncMagnitude := by
  unfold Double.isIntegral at hint
  unfold Double.isZero at hz
  unfold Double.truncMagnitude
  simp only [Bool.and_eq_true] at hint
  obtain ⟨-, hint⟩ := hint
  have hsig : 0 < d.significand := by
    unfold Double.significand
    split_ifs with h0
    · rw [h0] at hz
      simp only [beq_self_eq_true, Bool.true_and, beq_eq_false_iff_ne, ne_eq] at hz
      omega
    · omega
  simp only at hint ⊢
  split_ifs at hint ⊢ with a b
  · positivity
  · simp only [beq_iff_eq] at hint; omega
  · simp only [beq_iff_eq] at hint
    have hdvd : 2 ^ (1075 - max d.exponent.val 1) ∣ d.significand := Nat.dvd_of_mod_eq_zero hint
    exact Nat.div_pos (Nat.le_of_dvd hsig hdvd) (by positivity)

theorem Double.ltZero_iff_of_toInt? (d : Double) (n : Int) (h : d.toInt? = some n) :
    d.ltZero = true ↔ n < 0 := by
  have hnan := Double.isNaN_of_toInt? d n h
  unfold Double.toInt? at h
  split_ifs at h with hint
  simp only [Option.some.injEq] at h
  unfold Double.truncate at h
  unfold Double.ltZero
  rw [hnan]
  cases hs : d.sign
  · rw [hs] at h
    simp only [Bool.false_eq_true, if_false] at h
    simp only [Bool.false_and, Bool.false_eq_true, false_iff]
    omega
  · rw [hs] at h
    simp only [if_true] at h
    cases hz : d.isZero
    · have := Double.truncMagnitude_pos d hint hz
      simp only [Bool.not_false, Bool.and_self, true_iff]
      omega
    · have hm : d.truncMagnitude = 0 := by
        unfold Double.isZero at hz
        simp only [Bool.and_eq_true, beq_iff_eq] at hz
        unfold Double.truncMagnitude Double.significand
        simp only [hz.1, hz.2]
        decide
      simp only [Bool.not_true, Bool.and_false, Bool.false_eq_true, false_iff]
      omega


theorem Double.truncate_of_toInt? (d : Double) (n : Int) (h : d.toInt? = some n) :
    d.isFinite = true ∧ d.truncate = n := by
  unfold Double.toInt? at h
  split_ifs at h with hint
  simp only [Option.some.injEq] at h
  unfold Double.isIntegral at hint
  simp only [Bool.and_eq_true] at hint
  exact ⟨hint.1, h⟩

theorem Double.toInt?_of_isNaN (d : Double) (h : d.isNaN = true) : d.toInt? = none := by
  cases ht : d.toInt? with
  | none => rfl
  | some n => rw [Double.isNaN_of_toInt? d n ht] at h; exact absurd h (by decide)

theorem Double.isZero_of_ltZero (d : Double) (h : d.ltZero = true) : d.isMinusZero = false := by
  unfold Double.ltZero at h
  unfold Double.isMinusZero
  simp only [Bool.and_eq_true, Bool.not_eq_true'] at h
  rw [h.2]; simp

theorem Double.ltZero_of_isMinusZero (d : Double) (h : d.isMinusZero = true) : d.ltZero = false := by
  unfold Double.isMinusZero at h
  unfold Double.ltZero
  simp only [Bool.and_eq_true] at h
  rw [h.2]; simp

namespace compiler

/-! # Lemmas about representation bits -/

set_option maxRecDepth 100000 in
theorem isPowerOfTwo32_below_256 :
    ∀ r, r < 256 → (base.bits.IsPowerOfTwo32 r = true ↔ r ∈ [1, 2, 4, 8, 16, 32, 64, 128]) := by
  decide

theorem isPowerOfTwo32_rep (t : MachineTypeUnion) :
    base.bits.IsPowerOfTwo32 (t &&& kRepMask) = true ↔ HasOneRepresentation t := by
  have h : t &&& kRepMask < 256 := Nat.lt_succ_of_le Nat.and_le_right
  exact isPowerOfTwo32_below_256 _ h

theorem land_rep (t m : Nat) (hm : 255 &&& m = m) : t &&& m = (t &&& kRepMask) &&& m := by
  show t &&& m = (t &&& 255) &&& m
  rw [Nat.land_assoc, hm]


/-! # Lemmas about the constant cache -/

theorem lookup_mem {α β : Type} [BEq α] [LawfulBEq α] (l : List (α × β)) (k : α) (v : β)
    (h : l.lookup k = some v) : (k, v) ∈ l := by
  induction l with
  | nil => simp [List.lookup] at h
  | cons p l ih =>
    obtain ⟨a, b⟩ := p
    rw [List.lookup_cons] at h
    by_cases hk : k == a
    · rw [hk] at h
      have : k = a := eq_of_beq hk
      simp only [Option.some.injEq] at h
      subst this; subst h
      exact List.mem_cons_self _ _
    · have hk2 : (k == a) = false := by simpa using hk
      rw [hk2] at h
      exact List.mem_cons_of_mem _ (ih h)


theorem Graph.get?_NewNode_old (g g1 : Graph) (op : Operator) (inputs : List Node) (n m : Node)
    (d : NodeData) (h : g.NewNode op inputs = some (n, g1)) (hm : g.get? m = some d) :
    g1.get? m = some d := by
  unfold Graph.NewNode at h
  split_ifs at h
  simp only [Option.some.injEq, Prod.mk.injEq] at h
  obtain ⟨-, rfl⟩ := h
  unfold Graph.get? at hm ⊢
  have hlt : m.id < g.nodes.length := (List.getElem?_eq_some.1 hm).1
  show (g.nodes ++ [⟨op, inputs⟩])[m.id]? = some d
  rw [List.getElem?_append_left hlt]; exact hm

theorem Graph.get?_NewNode_new (g g1 : Graph) (op : Operator) (inputs : List Node) (n : Node)
    (h : g.NewNode op inputs = some (n, g1)) :
    g1.get? n = some ⟨op, inputs⟩ ∧ g.get? n = none := by
  unfold Graph.NewNode at h
  split_ifs at h
  simp only [Option.some.injEq, Prod.mk.injEq] at h
  obtain ⟨rfl, rfl⟩ := h
  unfold Graph.get?
  exact ⟨List.getElem?_concat_length _ _, by simp⟩

theorem JSGraph.Cached_spec (jsgraph : JSGraph) (op : Operator) (hwf : jsgraph.WellFormed)
    (harity : op.input_count = 0) :
    ∃ n jg, jsgraph.Cached op = some (n, jg) ∧ jg.WellFormed ∧
      (∃ data, jg.graph_.get? n = some data ∧ data.op.opcode = op.opcode ∧
        data.op.parameter = op.parameter ∧ data.inputs = []) ∧
      (∀ m d, jsgraph.graph_.get? m = some d → jg.graph_.get? m = some d) := by
  unfold JSGraph.Cached
  cases hl : jsgraph.cache_.lookup (op.opcode, op.parameter) with
  | some n =>
    exact ⟨n, jsgraph, rfl, hwf, hwf _ _ (lookup_mem _ _ _ hl), fun _ _ h => h⟩
  | none =>
    have hnew : jsgraph.graph_.NewNode op [] =
        some (⟨jsgraph.graph_.nodes.length⟩, ⟨jsgraph.graph_.nodes ++ [⟨op, []⟩]⟩) := by
      unfold Graph.NewNode
      rw [if_pos (by simp [harity])]
    simp only [hnew]
    have hn := Graph.get?_NewNode_new _ _ _ _ _ hnew
    refine ⟨_, _, rfl, ?_, ⟨_, hn.1, rfl, rfl, rfl⟩, fun m d h => Graph.get?_NewNode_old _ _ _ _ _ m d hnew h⟩
    intro key node hmem
    rcases List.mem_cons.1 hmem with e | e
    · simp only [Prod.mk.injEq] at e
      obtain ⟨rfl, rfl⟩ := e
      exact ⟨_, hn.1, rfl, rfl, rfl⟩
    · obtain ⟨data, hd, h1, h2, h3⟩ := hwf key node e
      exact ⟨data, Graph.get?_NewNode_old _ _ _ _ _ node data hnew hd, h1, h2, h3⟩

/-! # Lemmas about the converters -/

open RepresentationChanger

theorem canonicalDouble_ofInt (n : Int) (hn : n.natAbs < 9007199254740992) :
    canonicalDouble (Double.ofInt n) = Double.ofInt n := by
  unfold canonicalDouble
  rw [Double.isNaN_of_toInt? _ n (Double.toInt?_ofInt n hn)]
  rfl

theorem ValueOf_int32_Int32Constant (op : Operator) (v : Int) (hop : op.opcode = .kInt32Constant)
    (hpar : op.parameter = .int32 v) : ValueOf_int32 op = some v := by
  simp [ValueOf_int32, hop, OpParameter_int32, hpar]

theorem ValueOf_double_constant (op : Operator) (d : Double)
    (hop : op.opcode = .kNumberConstant ∨ op.opcode = .kFloat64Constant)
    (hpar : op.parameter = .float64 d) : ValueOf_double op = some d := by
  unfold ValueOf_double
  rw [if_pos (by tauto)]
  simp [OpParameter_double, hpar]

theorem RepresentationChanger.fromJSGraph_Cached (rc : RepresentationChanger) (op : Operator)
    (hwf : rc.jsgraph_.WellFormed) (harity : op.input_count = 0) :
    ∃ n jg c, rc.jsgraph_.Cached op = some (n, jg) ∧
      rc.fromJSGraph (rc.jsgraph_.Cached op) = (.returned n, { rc with jsgraph_ := jg }) ∧
      jg.WellFormed ∧ jg.graph_.get? n = some c ∧ c.op.opcode = op.opcode ∧
      c.op.parameter = op.parameter ∧ c.inputs = [] := by
  obtain ⟨n, jg, hc, hwf1, ⟨c, h1, h2, h3, h4⟩, -⟩ := JSGraph.Cached_spec rc.jsgraph_ op hwf harity
  exact ⟨n, jg, c, hc, by rw [hc]; rfl, hwf1, h1, h2, h3, h4⟩

theorem GetWord32_constant (rc : RepresentationChanger) (node : Node) (data : NodeData)
    (d : Double) (output_type : MachineTypeUnion) (use_unsigned : Bool)
    (hnode : rc.jsgraph_.graph_.get? node = some data)
    (hop : data.op.opcode = .kNumberConstant ∨ data.op.opcode = .kFloat64Constant)
    (hpar : data.op.parameter = .float64 d) :
    rc.GetWord32RepresentationFor node output_type use_unsigned =
      if d.ltZero then
        if !IsInt32Double d then (.assertion_failed, rc)
        else
          match static_cast_int32 d with
          | some iv => rc.fromJSGraph (rc.jsgraph_.Int32Constant iv)
          | none => (.undefined_behaviour, rc)
      else
        if !IsUint32Double d then (.assertion_failed, rc)
        else
          match static_cast_uint32 d with
          | some uv => rc.fromJSGraph (rc.jsgraph_.Int32Constant (uint32_to_int32 uv))
          | none => (.undefined_behaviour, rc) := by
  have hv := ValueOf_double_constant data.op d hop hpar
  unfold GetWord32RepresentationFor
  rcases hop with h | h <;> simp only [hnode, h, hv]

theorem GetTagged_nonconst (rc : RepresentationChanger) (node : Node) (data : NodeData)
    (output_type : MachineTypeUnion) (hnode : rc.jsgraph_.graph_.get? node = some data)
    (hnc : ¬ IsFoldedConstant data.op.opcode) :
    rc.GetTaggedRepresentationFor node output_type =
      if output_type &&& kRepBit ≠ 0 then
        rc.NewNode SimplifiedOperatorBuilder.ChangeBitToBool node
      else if output_type &&& rWord ≠ 0 then
        if output_type &&& kTypeUint32 ≠ 0 then
          rc.NewNode SimplifiedOperatorBuilder.ChangeUint32ToTagged node
        else if output_type &&& kTypeInt32 ≠ 0 then
          rc.NewNode SimplifiedOperatorBuilder.ChangeInt32ToTagged node
        else rc.TypeError node output_type kRepTagged
      else if output_type &&& kRepFloat64 ≠ 0 then
        rc.NewNode SimplifiedOperatorBuilder.ChangeFloat64ToTagged node
      else rc.TypeError node output_type kRepTagged := by
  unfold IsFoldedConstant at hnc
  unfold GetTaggedRepresentationFor
  simp only [hnode]
  split <;> first | rfl | (exfalso; simp_all)

theorem GetFloat64_nonconst (rc : RepresentationChanger) (node : Node) (data : NodeData)
    (output_type : MachineTypeUnion) (hnode : rc.jsgraph_.graph_.get? node = some data)
    (hnc : ¬ IsFoldedConstant data.op.opcode) :
    rc.GetFloat64RepresentationFor node output_type =
      if output_type &&& kRepBit ≠ 0 then rc.TypeError node output_type kRepFloat64
      else if output_type &&& rWord ≠ 0 then
        if output_type &&& kTypeUint32 ≠ 0 then
          rc.NewNode MachineOperatorBuilder.ChangeUint32ToFloat64 node
        else rc.NewNode MachineOperatorBuilder.ChangeInt32ToFloat64 node
      else if output_type &&& kRepTagged ≠ 0 then
        rc.NewNode SimplifiedOperatorBuilder.ChangeTaggedToFloat64 node
      else rc.TypeError node output_type kRepFloat64 := by
  unfold IsFoldedConstant at hnc
  unfold GetFloat64RepresentationFor
  simp only [hnode]
  split <;> first | rfl | (exfalso; simp_all)

theorem GetWord32_nonconst (rc : RepresentationChanger) (node : Node) (data : NodeData)
    (output_type : MachineTypeUnion) (use_unsigned : Bool)
    (hnode : rc.jsgraph_.graph_.get? node = some data)
    (hnc : ¬ IsFoldedConstant data.op.opcode) :
    rc.GetWord32RepresentationFor node output_type use_unsigned =
      if output_type &&& kRepFloat64 ≠ 0 then
        if output_type &&& kTypeUint32 ≠ 0 ∨ use_unsigned = true then
          rc.NewNode MachineOperatorBuilder.ChangeFloat64ToUint32 node
        else rc.NewNode MachineOperatorBuilder.ChangeFloat64ToInt32 node
      else if output_type &&& kRepTagged ≠ 0 then
        if output_type &&& kTypeUint32 ≠ 0 ∨ use_unsigned = true then
          rc.NewNode SimplifiedOperatorBuilder.ChangeTaggedToUint32 node
        else rc.NewNode SimplifiedOperatorBuilder.ChangeTaggedToInt32 node
      else rc.TypeError node output_type kRepWord32 := by
  unfold IsFoldedConstant at hnc
  unfold GetWord32RepresentationFor
  simp only [hnode]
  split <;> first | rfl | (exfalso; simp_all)

theorem GetBit_nonconst (rc : RepresentationChanger) (node : Node) (data : NodeData)
    (output_type : MachineTypeUnion) (hnode : rc.jsgraph_.graph_.get? node = some data)
    (hnc : ¬ IsFoldedConstant data.op.opcode) :
    rc.GetBitRepresentationFor node output_type =
      if output_type &&& rWord ≠ 0 then (.returned node, rc)
      else if output_type &&& kRepWord64 ≠ 0 then (.returned node, rc)
      else if output_type &&& kRepTagged ≠ 0 then
        rc.NewNode SimplifiedOperatorBuilder.ChangeBoolToBit node
      else rc.TypeError node output_type kRepBit := by
  unfold IsFoldedConstant at hnc
  unfold GetBitRepresentationFor
  simp only [hnode]
  split <;> first | rfl | (exfalso; simp_all)

@[simp]
theorem NewNode_type_error (rc : RepresentationChanger) (op : Operator) (node : Node) :
    (rc.NewNode op node).2.type_error_ = rc.type_error_ := by
  unfold RepresentationChanger.NewNode
  split <;> rfl

@[simp]
theorem fromJSGraph_type_error (rc : RepresentationChanger) (r : Option (Node × JSGraph)) :
    (rc.fromJSGraph r).2.type_error_ = rc.type_error_ := by
  unfold RepresentationChanger.fromJSGraph
  split <;> rfl

@[simp]
theorem TypeError_type_error (rc : RepresentationChanger) (node : Node)
    (output_type use : MachineTypeUnion) :
    (rc.TypeError node output_type use).2.type_error_ = true := by
  unfold RepresentationChanger.TypeError
  simp only
  split
  · split <;> rfl
  · rfl

theorem GetRepresentationFor_dispatch (rc : RepresentationChanger) (node : Node)
    (data : NodeData) (o u : MachineTypeUnion)
    (hnode : rc.jsgraph_.graph_.get? node = some data)
    (hnc : ¬ IsFoldedConstant data.op.opcode)
    (hout : HasOneRepresentation o) :
    rc.GetRepresentationFor node o u =
      if u &&& kRepMask = o &&& kRepMask then (.returned node, rc)
      else if (u &&& kRepMask) &&& rWord ≠ 0 ∧ (o &&& kRepMask) &&& rWord ≠ 0 then
        (.returned node, rc)
      else if (u &&& kRepMask) &&& kRepTagged ≠ 0 then
        if (o &&& kRepMask) &&& kRepBit ≠ 0 then
          rc.NewNode SimplifiedOperatorBuilder.ChangeBitToBool node
        else if (o &&& kRepMask) &&& rWord ≠ 0 then
          if o &&& kTypeUint32 ≠ 0 then
            rc.NewNode SimplifiedOperatorBuilder.ChangeUint32ToTagged node
          else if o &&& kTypeInt32 ≠ 0 then
            rc.NewNode SimplifiedOperatorBuilder.ChangeInt32ToTagged node
          else rc.TypeError node o kRepTagged
        else if (o &&& kRepMask) &&& kRepFloat64 ≠ 0 then
          rc.NewNode SimplifiedOperatorBuilder.ChangeFloat64ToTagged node
        else rc.TypeError node o kRepTagged
      else if (u &&& kRepMask) &&& kRepFloat64 ≠ 0 then
        if (o &&& kRepMask) &&& kRepBit ≠ 0 then rc.TypeError node o kRepFloat64
        else if (o &&& kRepMask) &&& rWord ≠ 0 then
          if o &&& kTypeUint32 ≠ 0 then
            rc.NewNode MachineOperatorBuilder.ChangeUint32ToFloat64 node
          else rc.NewNode MachineOperatorBuilder.ChangeInt32ToFloat64 node
        else if (o &&& kRepMask) &&& kRepTagged ≠ 0 then
          rc.NewNode SimplifiedOperatorBuilder.ChangeTaggedToFloat64 node
        else rc.TypeError node o kRepFloat64
      else if (u &&& kRepMask) &&& kRepBit ≠ 0 then
        if (o &&& kRepMask) &&& rWord ≠ 0 then (.returned node, rc)
        else if (o &&& kRepMask) &&& kRepWord64 ≠ 0 then (.returned node, rc)
        else if (o &&& kRepMask) &&& kRepTagged ≠ 0 then
          rc.NewNode SimplifiedOperatorBuilder.ChangeBoolToBit node
        else rc.TypeError node o kRepBit
      else if (u &&& kRepMask) &&& rWord ≠ 0 then
        if (o &&& kRepMask) &&& kRepFloat64 ≠ 0 then
          if o &&& kTypeUint32 ≠ 0 ∨ decide (u &&& kTypeUint32 ≠ 0) = true then
            rc.NewNode MachineOperatorBuilder.ChangeFloat64ToUint32 node
          else rc.NewNode MachineOperatorBuilder.ChangeFloat64ToInt32 node
        else if (o &&& kRepMask) &&& kRepTagged ≠ 0 then
          if o &&& kTypeUint32 ≠ 0 ∨ decide (u &&& kTypeUint32 ≠ 0) = true then
            rc.NewNode SimplifiedOperatorBuilder.ChangeTaggedToUint32 node
          else rc.NewNode SimplifiedOperatorBuilder.ChangeTaggedToInt32 node
        else rc.TypeError node o kRepWord32
      else if (u &&& kRepMask) &&& kRepWord64 ≠ 0 then
        if (o &&& kRepMask) &&& kRepBit ≠ 0 then (.returned node, rc)
        else rc.TypeError node o kRepWord64
      else (.returned node, rc) := by
  have h := (isPowerOfTwo32_rep o).2 hout
  rw [← land_rep o kRepBit (by decide), ← land_rep o rWord (by decide),
    ← land_rep o kRepWord64 (by decide), ← land_rep o kRepFloat64 (by decide),
    ← land_rep o kRepTagged (by decide), ← land_rep u kRepBit (by decide),
    ← land_rep u rWord (by decide), ← land_rep u kRepWord64 (by decide),
    ← land_rep u kRepFloat64 (by decide), ← land_rep u kRepTagged (by decide)]
  unfold GetRepresentationFor
  rw [h, GetTagged_nonconst rc node data o hnode hnc, GetFloat64_nonconst rc node data o hnode hnc,
    GetBit_nonconst rc node data o hnode hnc, GetWord32_nonconst rc node data o _ hnode hnc]
  unfold GetWord64RepresentationFor
  simp only [Bool.not_true, Bool.false_eq_true, if_false]

theorem rep_land_table :
    (1 &&& 1 : Nat) = 1 ∧ (1 &&& 15 : Nat) = 1 ∧ (1 &&& 16 : Nat) = 0 ∧ (1 &&& 64 : Nat) = 0 ∧
    (1 &&& 128 : Nat) = 0 ∧ (2 &&& 1 : Nat) = 0 ∧ (2 &&& 15 : Nat) = 2 ∧ (2 &&& 16 : Nat) = 0 ∧
    (2 &&& 64 : Nat) = 0 ∧ (2 &&& 128 : Nat) = 0 ∧ (4 &&& 1 : Nat) = 0 ∧ (4 &&& 15 : Nat) = 4 ∧
    (4 &&& 16 : Nat) = 0 ∧ (4 &&& 64 : Nat) = 0 ∧ (4 &&& 128 : Nat) = 0 ∧ (8 &&& 1 : Nat) = 0 ∧
    (8 &&& 15 : Nat) = 8 ∧ (8 &&& 16 : Nat) = 0 ∧ (8 &&& 64 : Nat) = 0 ∧ (8 &&& 128 : Nat) = 0 ∧
    (16 &&& 1 : Nat) = 0 ∧ (16 &&& 15 : Nat) = 0 ∧ (16 &&& 16 : Nat) = 16 ∧
    (16 &&& 64 : Nat) = 0 ∧ (16 &&& 128 : Nat) = 0 ∧ (32 &&& 1 : Nat) = 0 ∧
    (32 &&& 15 : Nat) = 0 ∧ (32 &&& 16 : Nat) = 0 ∧ (32 &&& 64 : Nat) = 0 ∧
    (32 &&& 128 : Nat) = 0 ∧ (64 &&& 1 : Nat) = 0 ∧ (64 &&& 15 : Nat) = 0 ∧
    (64 &&& 16 : Nat) = 0 ∧ (64 &&& 64 : Nat) = 64 ∧ (64 &&& 128 : Nat) = 0 ∧
    (128 &&& 1 : Nat) = 0 ∧ (128 &&& 15 : Nat) = 0 ∧ (128 &&& 16 : Nat) = 0 ∧
    (128 &&& 64 : Nat) = 0 ∧ (128 &&& 128 : Nat) = 128 := by
  decide

theorem GetTagged_cases (rc : RepresentationChanger) (node : Node) (o : MachineTypeUnion) :
    (rc.GetTaggedRepresentationFor node o).2.type_error_ = rc.type_error_ ∨
      ∃ use, rc.GetTaggedRepresentationFor node o = rc.TypeError node o use := by
  unfold GetTaggedRepresentationFor
  repeat' split
  all_goals first
    | (left; simp; done)
    | (right; exact ⟨_, rfl⟩)

theorem GetFloat64_cases (rc : RepresentationChanger) (node : Node) (o : MachineTypeUnion) :
    (rc.GetFloat64RepresentationFor node o).2.type_error_ = rc.type_error_ ∨
      ∃ use, rc.GetFloat64RepresentationFor node o = rc.TypeError node o use := by
  unfold GetFloat64RepresentationFor
  repeat' split
  all_goals first
    | (left; simp; done)
    | (right; exact ⟨_, rfl⟩)

theorem GetWord32_cases (rc : RepresentationChanger) (node : Node) (o : MachineTypeUnion)
    (use_unsigned : Bool) :
    (rc.GetWord32RepresentationFor node o use_unsigned).2.type_error_ = rc.type_error_ ∨
      ∃ use, rc.GetWord32RepresentationFor node o use_unsigned = rc.TypeError node o use := by
  unfold GetWord32RepresentationFor
  repeat' split
  all_goals first
    | (left; simp; done)
    | (right; exact ⟨_, rfl⟩)

theorem GetBit_cases (rc : RepresentationChanger) (node : Node) (o : MachineTypeUnion) :
    (rc.GetBitRepresentationFor node o).2.type_error_ = rc.type_error_ ∨
      ∃ use, rc.GetBitRepresentationFor node o = rc.TypeError node o use := by
  unfold GetBitRepresentationFor
  repeat' split
  all_goals first
    | (left; simp; done)
    | (right; exact ⟨_, rfl⟩)

theorem GetWord64_cases (rc : RepresentationChanger) (node : Node) (o : MachineTypeUnion) :
    (rc.GetWord64RepresentationFor node o).2.type_error_ = rc.type_error_ ∨
      ∃ use, rc.GetWord64RepresentationFor node o = rc.TypeError node o use := by
  unfold GetWord64RepresentationFor
  split
  · left; rfl
  · right; exact ⟨_, rfl⟩

theorem GetRepresentationFor_cases (rc : RepresentationChanger) (node : Node)
    (o u : MachineTypeUnion) :
    (rc.GetRepresentationFor node o u).2.type_error_ = rc.type_error_ ∨
      ∃ use, rc.GetRepresentationFor node o u = rc.TypeError node o use := by
  unfold GetRepresentationFor
  split_ifs
  · right; exact ⟨_, rfl⟩
  · left; rfl
  · left; rfl
  · exact GetTagged_cases rc node o
  · exact GetFloat64_cases rc node o
  · exact GetBit_cases rc node o
  · exact GetWord32_cases rc node o _
  · exact GetWord64_cases rc node o
  · left; rfl

theorem TypeError_fatal (rc : RepresentationChanger) (node : Node) (data : NodeData)
    (o use : MachineTypeUnion) (hnode : rc.jsgraph_.graph_.get? node = some data)
    (hnormal : rc.testing_type_errors_ = false) :
    rc.TypeError node o use =
      (.fatal node.id data.op.mnemonic o use, { rc with type_error_ := true }) := by
  unfold RepresentationChanger.TypeError
  simp [hnormal, hnode]

theorem flag_monotone (rc : RepresentationChanger) (r : Outcome × RepresentationChanger)
    (node : Node) (o : MachineTypeUnion) (hset : rc.type_error_ = true)
    (h : r.2.type_error_ = rc.type_error_ ∨ ∃ use, r = rc.TypeError node o use) :
    r.2.type_error_ = true := by
  rcases h with h | ⟨use, h⟩
  · rw [h, hset]
  · rw [h]; exact TypeError_type_error rc node o use

theorem GetBit_heap_constant (rc : RepresentationChanger) (node : Node) (data : NodeData)
    (handle : HeapObject) (output_type : MachineTypeUnion)
    (hnode : rc.jsgraph_.graph_.get? node = some data)
    (hop : data.op.opcode = .kHeapConstant) (hpar : data.op.parameter = .heap handle) :
    rc.GetBitRepresentationFor node output_type =
      if !(handle = HeapObject.true_value ∨ handle = HeapObject.false_value) then
        (.assertion_failed, rc)
      else
        rc.fromJSGraph
          (rc.jsgraph_.Int32Constant (if handle = HeapObject.true_value then 1 else 0)) := by
  have hv : ValueOf_handle data.op = some handle := by
    simp [ValueOf_handle, hop, OpParameter_heap, hpar]
  unfold GetBitRepresentationFor
  simp only [hnode, hop, hv]

/-! # The example graph is well formed -/

theorem exampleJSGraph_wellFormed : exampleJSGraph.WellFormed := by
  intro key node hmem
  simp only [exampleJSGraph, List.mem_cons, Prod.mk.injEq, List.mem_singleton, List.not_mem_nil,
    or_false] at hmem
  rcases hmem with ⟨rfl, rfl⟩ | ⟨rfl, rfl⟩ | ⟨rfl, rfl⟩ <;> exact ⟨_, rfl, rfl, rfl, rfl⟩

/-! # The claims about `GetRepresentationFor` and its converters -/

/-- Claim C1. For every `int32_t` value `v`, `GetRepresentationFor` on a node whose operator
is `Int32Constant[v]`, with output type `kRepWord32 | kTypeInt32`, returns normally, leaves both
flags alone (no type error) and returns a constant, not a conversion node over the original:
for a use whose representation is tagged the result is `jsgraph()->Constant(v)`, a
`NumberConstant` without inputs whose `double` denotes the integer `v`; for a use whose
representation is float64 the result is `jsgraph()->Float64Constant(v)`, a `Float64Constant`
without inputs whose `double` denotes `v`. In both cases the result is another node than the
original. -/
theorem C1_int32_constant_folds_to_equal_constant (rc : RepresentationChanger) (node : Node) (data : NodeData) (v : Int)
    (use_type : MachineTypeUnion)
    (hv : -2147483648 ≤ v ∧ v ≤ 2147483647)
    (hwf : rc.jsgraph_.WellFormed)
    (hnode : rc.jsgraph_.graph_.get? node = some data)
    (hop : data.op.opcode = .kInt32Constant) (hpar : data.op.parameter = .int32 v) :
    (use_type &&& kRepMask = kRepTagged →
      ∃ n jg d, rc.jsgraph_.Constant_int32 v = some (n, jg) ∧
        rc.GetRepresentationFor node (kRepWord32 ||| kTypeInt32) use_type =
          (.returned n, { rc with jsgraph_ := jg }) ∧
        (∃ c, jg.graph_.get? n = some c ∧ c.op.opcode = .kNumberConstant ∧
          c.op.parameter = .float64 d ∧ c.inputs = []) ∧
        d.toInt? = some v ∧ n ≠ node) ∧
    (use_type &&& kRepMask = kRepFloat64 →
      ∃ n jg d, rc.jsgraph_.Float64Constant (Double.ofInt v) = some (n, jg) ∧
        rc.GetRepresentationFor node (kRepWord32 ||| kTypeInt32) use_type =
          (.returned n, { rc with jsgraph_ := jg }) ∧
        (∃ c, jg.graph_.get? n = some c ∧ c.op.opcode = .kFloat64Constant ∧
          c.op.parameter = .float64 d ∧ c.inputs = []) ∧
        d.toInt? = some v ∧ n ≠ node) := by
  have habs : v.natAbs < 9007199254740992 := by omega
  have hcan := canonicalDouble_ofInt v habs
  have hval := ValueOf_int32_Int32Constant data.op v hop hpar
  have hpow : base.bits.IsPowerOfTwo32 ((kRepWord32 ||| kTypeInt32) &&& kRepMask) = true := by decide
  constructor
  · intro huse
    obtain ⟨n, jg, hc, -, ⟨c, hget, hcop, hcpar, hcin⟩, hold⟩ :=
      JSGraph.Cached_spec rc.jsgraph_ (CommonOperatorBuilder.NumberConstant (Double.ofInt v)) hwf rfl
    replace hcop : c.op.opcode = IrOpcode.kNumberConstant := hcop
    replace hcpar : c.op.parameter = Parameter.float64 (Double.ofInt v) := hcpar
    have hconst : rc.jsgraph_.Constant_int32 v = some (n, jg) := by
      simp only [JSGraph.Constant_int32, JSGraph.Constant, JSGraph.NumberConstant, hcan]; exact hc
    refine ⟨n, jg, Double.ofInt v, hconst, ?_, ⟨c, hget, hcop, hcpar, hcin⟩,
      Double.toInt?_ofInt v habs, ?_⟩
    · have h1 : use_type &&& rWord = 0 := by
        rw [land_rep use_type rWord (by decide), huse]; decide
      have h2 : use_type &&& kRepTagged ≠ 0 := by
        rw [land_rep use_type kRepTagged (by decide), huse]; decide
      have h3 : ¬ (use_type &&& kRepMask = (kRepWord32 ||| kTypeInt32) &&& kRepMask) := by
        rw [huse]; decide
      unfold GetRepresentationFor
      rw [hpow]
      simp only [Bool.not_true, Bool.false_eq_true, if_false, if_neg h3, h1, ne_eq, not_true,
        false_and, if_pos h2]
      unfold GetTaggedRepresentationFor
      simp only [hnode, hop]
      rw [if_neg (by decide), if_pos (by decide), hval]
      simp only [hconst, fromJSGraph]
    · intro e
      subst e
      have := hold _ _ hnode
      rw [hget] at this
      simp only [Option.some.injEq] at this
      subst this
      rw [hop] at hcop
      exact IrOpcode.noConfusion hcop
  · intro huse
    obtain ⟨n, jg, hc, -, ⟨c, hget, hcop, hcpar, hcin⟩, hold⟩ :=
      JSGraph.Cached_spec rc.jsgraph_ (CommonOperatorBuilder.Float64Constant (Double.ofInt v)) hwf rfl
    replace hcop : c.op.opcode = IrOpcode.kFloat64Constant := hcop
    replace hcpar : c.op.parameter = Parameter.float64 (Double.ofInt v) := hcpar
    have hconst : rc.jsgraph_.Float64Constant (Double.ofInt v) = some (n, jg) := by
      simp only [JSGraph.Float64Constant, hcan]; exact hc
    refine ⟨n, jg, Double.ofInt v, hconst, ?_, ⟨c, hget, hcop, hcpar, hcin⟩,
      Double.toInt?_ofInt v habs, ?_⟩
    · have h1 : use_type &&& rWord = 0 := by
        rw [land_rep use_type rWord (by decide), huse]; decide
      have h2 : use_type &&& kRepTagged = 0 := by
        rw [land_rep use_type kRepTagged (by decide), huse]; decide
      have h4 : use_type &&& kRepFloat64 ≠ 0 := by
        rw [land_rep use_type kRepFloat64 (by decide), huse]; decide
      have h3 : ¬ (use_type &&& kRepMask = (kRepWord32 ||| kTypeInt32) &&& kRepMask) := by
        rw [huse]; decide
      unfold GetRepresentationFor
      rw [hpow]
      simp only [Bool.not_true, Bool.false_eq_true, if_false, if_neg h3, h1, h2, ne_eq, not_true,
        false_and, if_pos h4]
      unfold GetFloat64RepresentationFor
      simp only [hnode, hop]
      rw [if_neg (by decide), hval]
      simp only [hconst, fromJSGraph]
    · intro e
      subst e
      have := hold _ _ hnode
      rw [hget] at this
      simp only [Option.some.injEq] at this
      subst this
      rw [hop] at hcop
      exact IrOpcode.noConfusion hcop

theorem C1_int32_constant_folds_to_equal_constant_witness :
    (-2147483648 ≤ (5 : Int) ∧ (5 : Int) ≤ 2147483647) ∧
    (kRepTagged ||| kTypeAny) &&& kRepMask = kRepTagged ∧
    ∃ n jg d, exampleChanger.jsgraph_.Constant_int32 5 = some (n, jg) ∧
      exampleChanger.GetRepresentationFor ⟨2⟩ (kRepWord32 ||| kTypeInt32)
          (kRepTagged ||| kTypeAny) = (.returned n, { exampleChanger with jsgraph_ := jg }) ∧
      (∃ c, jg.graph_.get? n = some c ∧ c.op.opcode = .kNumberConstant ∧
        c.op.parameter = .float64 d ∧ c.inputs = []) ∧
      d.toInt? = some 5 ∧ n ≠ ⟨2⟩ :=
  ⟨by decide, by decide,
    (C1_int32_constant_folds_to_equal_constant exampleChanger ⟨2⟩
      ⟨CommonOperatorBuilder.Int32Constant 5, []⟩ 5 (kRepTagged ||| kTypeAny) (by decide)
      exampleJSGraph_wellFormed rfl rfl rfl).1 (by decide)⟩

/-- Claim C2. If the output type has exactly one representation bit and the use type has the
same representation bits, `GetRepresentationFor` returns the very same node and leaves the
changer as it was: no node is created and the type-error flag is not touched, whatever the
type bits of the two types and whatever the node. -/
theorem C2_same_representation_is_noop (rc : RepresentationChanger) (node : Node)
    (output_type use_type : MachineTypeUnion) (hout : HasOneRepresentation output_type)
    (hsame : use_type &&& kRepMask = output_type &&& kRepMask) :
    rc.GetRepresentationFor node output_type use_type = (.returned node, rc) := by
  have h := (isPowerOfTwo32_rep output_type).2 hout
  simp only [GetRepresentationFor, h, hsame]
  simp

theorem C2_same_representation_is_noop_witness :
    HasOneRepresentation (kRepTagged ||| kTypeAny) ∧
    (kRepTagged ||| kTypeNumber) &&& kRepMask = (kRepTagged ||| kTypeAny) &&& kRepMask ∧
    exampleChanger.GetRepresentationFor ⟨1⟩ (kRepTagged ||| kTypeAny)
      (kRepTagged ||| kTypeNumber) = (.returned ⟨1⟩, exampleChanger) :=
  ⟨by decide, by decide,
    C2_same_representation_is_noop exampleChanger ⟨1⟩ (kRepTagged ||| kTypeAny)
      (kRepTagged ||| kTypeNumber) (by decide) (by decide)⟩

/-- Claim C3. If the single representation bit of the output type is one of bit, word8, word16,
word32 and the use type has at least one of these four bits, `GetRepresentationFor` returns the
very same node and leaves the changer as it was, whatever other representation bits (tagged,
float64, word64) the use type carries. -/
theorem C3_narrow_word_use_is_noop (rc : RepresentationChanger) (node : Node)
    (output_type use_type : MachineTypeUnion)
    (hout : output_type &&& kRepMask ∈ [kRepBit, kRepWord8, kRepWord16, kRepWord32])
    (huse : use_type &&& rWord ≠ 0) :
    rc.GetRepresentationFor node output_type use_type = (.returned node, rc) := by
  have hone : HasOneRepresentation output_type := by
    unfold HasOneRepresentation
    simp only [List.mem_cons, List.mem_singleton, List.not_mem_nil, or_false] at hout ⊢
    tauto
  have h := (isPowerOfTwo32_rep output_type).2 hone
  have hw : output_type &&& rWord ≠ 0 := by
    rw [land_rep output_type rWord (by decide)]
    simp only [List.mem_cons, List.mem_singleton, List.not_mem_nil, or_false] at hout
    rcases hout with e | e | e | e <;> rw [e] <;> decide
  unfold GetRepresentationFor
  simp only [h]
  split_ifs <;> first | rfl | simp_all

theorem C3_narrow_word_use_is_noop_witness :
    (kRepWord8 ||| kTypeInt32) &&& kRepMask ∈ [kRepBit, kRepWord8, kRepWord16, kRepWord32] ∧
    (kRepWord32 ||| kRepTagged ||| kTypeInt32) &&& RepresentationChanger.rWord ≠ 0 ∧
    exampleChanger.GetRepresentationFor ⟨1⟩ (kRepWord8 ||| kTypeInt32)
      (kRepWord32 ||| kRepTagged ||| kTypeInt32) = (.returned ⟨1⟩, exampleChanger) :=
  ⟨by decide, by decide,
    C3_narrow_word_use_is_noop exampleChanger ⟨1⟩ (kRepWord8 ||| kTypeInt32)
      (kRepWord32 ||| kRepTagged ||| kTypeInt32) (by decide) (by decide)⟩

/-- Claim C4. If the representation bits of the output type are not exactly one bit, then in
testing mode `GetRepresentationFor` returns the original node normally, sets `type_error_`
and changes nothing else (no node is created), for every use type, also one with identical
representation bits. -/
theorem C4_invalid_output_is_recorded_in_testing_mode (rc : RepresentationChanger) (node : Node)
    (output_type use_type : MachineTypeUnion) (hout : ¬ HasOneRepresentation output_type)
    (htest : rc.testing_type_errors_ = true) :
    rc.GetRepresentationFor node output_type use_type =
      (.returned node, { rc with type_error_ := true }) := by
  have h : base.bits.IsPowerOfTwo32 (output_type &&& kRepMask) = false := by
    rw [Bool.eq_false_iff]; exact fun e => hout ((isPowerOfTwo32_rep output_type).1 e)
  simp [GetRepresentationFor, h, TypeError, htest]

theorem C4_invalid_output_is_recorded_in_testing_mode_witness :
    ¬ HasOneRepresentation (kRepWord32 ||| kRepFloat64) ∧
    exampleTestingChanger.testing_type_errors_ = true ∧
    exampleTestingChanger.GetRepresentationFor ⟨1⟩ (kRepWord32 ||| kRepFloat64)
        (kRepWord32 ||| kRepFloat64) =
      (.returned ⟨1⟩, { exampleTestingChanger with type_error_ := true }) :=
  ⟨by decide, rfl,
    C4_invalid_output_is_recorded_in_testing_mode exampleTestingChanger ⟨1⟩
      (kRepWord32 ||| kRepFloat64) (kRepWord32 ||| kRepFloat64) (by decide) rfl⟩

/-- Claim C5. With one output representation bit, different representations and no narrow-word
shortcut, `GetRepresentationFor` is the converter of the first use representation present in
the order tagged, float64, bit, narrow word, word64; the converter is called with the node
and the output type only (the word32 converter also with the `kTypeUint32` bit of the use),
so lower-priority representation bits of the use do not reach the result. -/
theorem C5_dispatch_priority (rc : RepresentationChanger) (node : Node) (output_type use_type : MachineTypeUnion)
    (hout : HasOneRepresentation output_type)
    (hdiff : use_type &&& kRepMask ≠ output_type &&& kRepMask)
    (hnarrow : ¬ (use_type &&& rWord ≠ 0 ∧ output_type &&& rWord ≠ 0)) :
    (use_type &&& kRepTagged ≠ 0 →
      rc.GetRepresentationFor node output_type use_type =
        rc.GetTaggedRepresentationFor node output_type) ∧
    (use_type &&& kRepTagged = 0 → use_type &&& kRepFloat64 ≠ 0 →
      rc.GetRepresentationFor node output_type use_type =
        rc.GetFloat64RepresentationFor node output_type) ∧
    (use_type &&& kRepTagged = 0 → use_type &&& kRepFloat64 = 0 → use_type &&& kRepBit ≠ 0 →
      rc.GetRepresentationFor node output_type use_type =
        rc.GetBitRepresentationFor node output_type) ∧
    (use_type &&& kRepTagged = 0 → use_type &&& kRepFloat64 = 0 → use_type &&& kRepBit = 0 →
      use_type &&& rWord ≠ 0 →
      rc.GetRepresentationFor node output_type use_type =
        rc.GetWord32RepresentationFor node output_type (decide (use_type &&& kTypeUint32 ≠ 0))) ∧
    (use_type &&& kRepTagged = 0 → use_type &&& kRepFloat64 = 0 → use_type &&& kRepBit = 0 →
      use_type &&& rWord = 0 → use_type &&& kRepWord64 ≠ 0 →
      rc.GetRepresentationFor node output_type use_type =
        rc.GetWord64RepresentationFor node output_type) := by
  have h := (isPowerOfTwo32_rep output_type).2 hout
  refine ⟨?_, ?_, ?_, ?_, ?_⟩
  · intro h1
    unfold GetRepresentationFor
    simp only [h, if_neg hdiff, if_neg hnarrow, if_pos h1]; simp
  · intro h1 h2
    unfold GetRepresentationFor
    simp only [h, if_neg hdiff, if_neg hnarrow, h1, if_pos h2]; simp
  · intro h1 h2 h3
    unfold GetRepresentationFor
    simp only [h, if_neg hdiff, if_neg hnarrow, h1, h2, if_pos h3]; simp
  · intro h1 h2 h3 h4
    unfold GetRepresentationFor
    simp only [h, if_neg hdiff, if_neg hnarrow, h1, h2, h3, if_pos h4]; simp
  · intro h1 h2 h3 h4 h5
    unfold GetRepresentationFor
    simp only [h, if_neg hdiff, h1, h2, h3, h4, if_pos h5]; simp

theorem C5_dispatch_priority_witness :
    HasOneRepresentation (kRepWord32 ||| kTypeInt32) ∧
    (kRepTagged ||| kRepFloat64 ||| kRepWord64) &&& kRepTagged ≠ 0 ∧
    exampleChanger.GetRepresentationFor ⟨1⟩ (kRepWord32 ||| kTypeInt32)
        (kRepTagged ||| kRepFloat64 ||| kRepWord64) =
      exampleChanger.GetTaggedRepresentationFor ⟨1⟩ (kRepWord32 ||| kTypeInt32) :=
  ⟨by decide, by decide,
    (C5_dispatch_priority exampleChanger ⟨1⟩ (kRepWord32 ||| kTypeInt32)
      (kRepTagged ||| kRepFloat64 ||| kRepWord64) (by decide) (by decide) (by decide)).1
      (by decide)⟩

set_option maxHeartbeats 1600000 in
/-- Claim C6. For a node that is not a folded constant and single-bit output and use
representations that differ, a call that starts with the flag clear ends with `type_error_`
set exactly when no conversion rule exists: use tagged with output word64, float32, or a
narrow word (word8/16/32) carrying neither `kTypeInt32` nor `kTypeUint32`; use float64 with
output bit, word64 or float32; use bit with output float32 or float64; use word8/16/32 with
output word64 or float32; use word64 with any output but bit. -/
theorem C6_type_error_iff_no_rule (rc : RepresentationChanger) (node : Node) (data : NodeData)
    (output_type use_type : MachineTypeUnion)
    (hnode : rc.jsgraph_.graph_.get? node = some data)
    (hnc : ¬ IsFoldedConstant data.op.opcode)
    (hout : HasOneRepresentation output_type) (huse : HasOneRepresentation use_type)
    (hdiff : use_type &&& kRepMask ≠ output_type &&& kRepMask)
    (hflag : rc.type_error_ = false) :
    (rc.GetRepresentationFor node output_type use_type).2.type_error_ = true ↔
      (use_type &&& kRepMask = kRepTagged ∧
        (output_type &&& kRepMask = kRepWord64 ∨ output_type &&& kRepMask = kRepFloat32 ∨
          (output_type &&& kRepMask ∈ [kRepWord8, kRepWord16, kRepWord32] ∧
            output_type &&& kTypeInt32 = 0 ∧ output_type &&& kTypeUint32 = 0))) ∨
      (use_type &&& kRepMask = kRepFloat64 ∧
        output_type &&& kRepMask ∈ [kRepBit, kRepWord64, kRepFloat32]) ∨
      (use_type &&& kRepMask = kRepBit ∧
        output_type &&& kRepMask ∈ [kRepFloat32, kRepFloat64]) ∨
      (use_type &&& kRepMask ∈ [kRepWord8, kRepWord16, kRepWord32] ∧
        output_type &&& kRepMask ∈ [kRepWord64, kRepFloat32]) ∨
      (use_type &&& kRepMask = kRepWord64 ∧ output_type &&& kRepMask ≠ kRepBit) := by
  rw [GetRepresentationFor_dispatch rc node data output_type use_type hnode hnc hout]
  unfold HasOneRepresentation at hout huse
  generalize output_type &&& kRepMask = ro at *
  generalize use_type &&& kRepMask = ru at *
  simp only [List.mem_cons, List.mem_singleton, List.not_mem_nil, or_false] at hout huse
  rcases hout with e | e | e | e | e | e | e | e <;>
    rcases huse with f | f | f | f | f | f | f | f <;>
    subst e <;> subst f <;>
    first
    | exact absurd rfl hdiff
    | (simp [hflag, kRepBit, kRepWord8, kRepWord16, kRepWord32, kRepWord64, kRepFloat32,
        kRepFloat64, kRepTagged, rWord, rep_land_table]; done)
    | (by_cases h1 : output_type &&& kTypeUint32 = 0 <;>
        by_cases h2 : output_type &&& kTypeInt32 = 0 <;>
        simp [hflag, h1, h2, kRepBit, kRepWord8, kRepWord16, kRepWord32, kRepWord64,
          kRepFloat32, kRepFloat64, kRepTagged, rWord, rep_land_table] <;> done)
    | (by_cases h1 : output_type &&& kTypeUint32 = 0 <;>
        by_cases h3 : use_type &&& kTypeUint32 = 0 <;>
        simp [hflag, h1, h3, kRepBit, kRepWord8, kRepWord16, kRepWord32, kRepWord64,
          kRepFloat32, kRepFloat64, kRepTagged, rWord, rep_land_table])

theorem C6_type_error_iff_no_rule_witness :
    ¬ IsFoldedConstant (CommonOperatorBuilder.Parameter 0).opcode ∧
    HasOneRepresentation (kRepWord64 ||| kTypeInt64) ∧ HasOneRepresentation kRepTagged ∧
    (exampleChanger.GetRepresentationFor ⟨1⟩ (kRepWord64 ||| kTypeInt64)
      kRepTagged).2.type_error_ = true :=
  ⟨by decide, by decide, by decide,
    (C6_type_error_iff_no_rule exampleChanger ⟨1⟩ ⟨CommonOperatorBuilder.Parameter 0, [⟨0⟩]⟩
      (kRepWord64 ||| kTypeInt64) kRepTagged rfl (by decide) (by decide) (by decide) (by decide)
      rfl).2 (Or.inl ⟨by decide, Or.inl (by decide)⟩)⟩

theorem NewNode_unary (rc : RepresentationChanger) (op : Operator) (node : Node)
    (harity : op.input_count = 1) :
    rc.NewNode op node =
      (.returned ⟨rc.jsgraph_.graph_.nodes.length⟩,
        { rc with jsgraph_ := { rc.jsgraph_ with
            graph_ := ⟨rc.jsgraph_.graph_.nodes ++ [⟨op, [node]⟩]⟩ } }) := by
  unfold RepresentationChanger.NewNode Graph.NewNode
  rw [if_pos (by rw [harity]; rfl)]

theorem NewNode_unary_not_fatal (rc : RepresentationChanger) (op : Operator) (node : Node)
    (harity : op.input_count = 1) (id : Nat) (mnemonic : String) (o use : MachineTypeUnion)
    (rc1 : RepresentationChanger) :
    rc.NewNode op node ≠ (.fatal id mnemonic o use, rc1) := by
  rw [NewNode_unary rc op node harity]
  intro h
  exact Outcome.noConfusion (congrArg Prod.fst h)

set_option maxHeartbeats 1600000 in
/-- In normal operation, for a node that is not a folded constant and single-bit output and
use representations that differ, the call is fatal exactly when no conversion rule exists. -/
theorem GetRepresentationFor_fatal_iff (rc : RepresentationChanger) (node : Node)
    (data : NodeData) (output_type use_type : MachineTypeUnion)
    (hnode : rc.jsgraph_.graph_.get? node = some data)
    (hnc : ¬ IsFoldedConstant data.op.opcode)
    (hout : HasOneRepresentation output_type) (huse : HasOneRepresentation use_type)
    (hdiff : use_type &&& kRepMask ≠ output_type &&& kRepMask)
    (hnormal : rc.testing_type_errors_ = false) :
    (∃ use, rc.GetRepresentationFor node output_type use_type =
        (.fatal node.id data.op.mnemonic output_type use, { rc with type_error_ := true })) ↔
      (use_type &&& kRepMask = kRepTagged ∧
        (output_type &&& kRepMask = kRepWord64 ∨ output_type &&& kRepMask = kRepFloat32 ∨
          (output_type &&& kRepMask ∈ [kRepWord8, kRepWord16, kRepWord32] ∧
            output_type &&& kTypeInt32 = 0 ∧ output_type &&& kTypeUint32 = 0))) ∨
      (use_type &&& kRepMask = kRepFloat64 ∧
        output_type &&& kRepMask ∈ [kRepBit, kRepWord64, kRepFloat32]) ∨
      (use_type &&& kRepMask = kRepBit ∧
        output_type &&& kRepMask ∈ [kRepFloat32, kRepFloat64]) ∨
      (use_type &&& kRepMask ∈ [kRepWord8, kRepWord16, kRepWord32] ∧
        output_type &&& kRepMask ∈ [kRepWord64, kRepFloat32]) ∨
      (use_type &&& kRepMask = kRepWord64 ∧ output_type &&& kRepMask ≠ kRepBit) := by
  have hT := fun use => TypeError_fatal rc node data output_type use hnode hnormal
  have hN := fun (op : Operator) (h : op.input_count = 1) (use : MachineTypeUnion) =>
    NewNode_unary_not_fatal rc op node h node.id data.op.mnemonic output_type use
      { rc with type_error_ := true }
  have hR : ∀ use, ((Outcome.returned node, rc) : Outcome × RepresentationChanger) ≠
      (.fatal node.id data.op.mnemonic output_type use, { rc with type_error_ := true }) :=
    fun use h => Outcome.noConfusion (congrArg Prod.fst h)
  have n1 := hN SimplifiedOperatorBuilder.ChangeBitToBool rfl
  have n2 := hN SimplifiedOperatorBuilder.ChangeUint32ToTagged rfl
  have n3 := hN SimplifiedOperatorBuilder.ChangeInt32ToTagged rfl
  have n4 := hN SimplifiedOperatorBuilder.ChangeFloat64ToTagged rfl
  have n5 := hN MachineOperatorBuilder.ChangeUint32ToFloat64 rfl
  have n6 := hN MachineOperatorBuilder.ChangeInt32ToFloat64 rfl
  have n7 := hN SimplifiedOperatorBuilder.ChangeTaggedToFloat64 rfl
  have n8 := hN SimplifiedOperatorBuilder.ChangeBoolToBit rfl
  have n9 := hN MachineOperatorBuilder.ChangeFloat64ToUint32 rfl
  have n10 := hN MachineOperatorBuilder.ChangeFloat64ToInt32 rfl
  have n11 := hN SimplifiedOperatorBuilder.ChangeTaggedToUint32 rfl
  have n12 := hN SimplifiedOperatorBuilder.ChangeTaggedToInt32 rfl
  rw [GetRepresentationFor_dispatch rc node data output_type use_type hnode hnc hout]
  unfold HasOneRepresentation at hout huse
  generalize output_type &&& kRepMask = ro at *
  generalize use_type &&& kRepMask = ru at *
  simp only [List.mem_cons, List.mem_singleton, List.not_mem_nil, or_false] at hout huse
  rcases hout with e | e | e | e | e | e | e | e <;>
    rcases huse with f | f | f | f | f | f | f | f <;>
    subst e <;> subst f <;>
    first
    | exact absurd rfl hdiff
    | (simp [hT, hR, n1, n2, n3, n4, n5, n6, n7, n8, n9, n10, n11, n12, kRepBit, kRepWord8,
        kRepWord16, kRepWord32, kRepWord64, kRepFloat32,
        kRepFloat64, kRepTagged, rWord, rep_land_table]; done)
    | (by_cases h1 : output_type &&& kTypeUint32 = 0 <;>
        by_cases h2 : output_type &&& kTypeInt32 = 0 <;>
        simp [hT, hR, n1, n2, n3, n4, n5, n6, n7, n8, n9, n10, n11, n12, h1, h2, kRepBit,
          kRepWord8, kRepWord16, kRepWord32, kRepWord64,
          kRepFloat32, kRepFloat64, kRepTagged, rWord, rep_land_table] <;> done)
    | (by_cases h1 : output_type &&& kTypeUint32 = 0 <;>
        by_cases h3 : use_type &&& kTypeUint32 = 0 <;>
        simp [hT, hR, n1, n2, n3, n4, n5, n6, n7, n8, n9, n10, n11, n12, h1, h3, kRepBit,
          kRepWord8, kRepWord16, kRepWord32, kRepWord64,
          kRepFloat32, kRepFloat64, kRepTagged, rWord, rep_land_table])

theorem GetRepresentationFor_invalid_output (rc : RepresentationChanger) (node : Node)
    (data : NodeData) (output_type use_type : MachineTypeUnion)
    (hnode : rc.jsgraph_.graph_.get? node = some data)
    (hout : ¬ HasOneRepresentation output_type)
    (hnormal : rc.testing_type_errors_ = false) :
    rc.GetRepresentationFor node output_type use_type =
      (.fatal node.id data.op.mnemonic output_type use_type,
        { rc with type_error_ := true }) := by
  have h : base.bits.IsPowerOfTwo32 (output_type &&& kRepMask) = false := by
    rw [Bool.eq_false_iff]; exact fun e => hout ((isPowerOfTwo32_rep output_type).1 e)
  unfold GetRepresentationFor
  rw [h]
  simp only [Bool.not_false, if_true]
  exact TypeError_fatal rc node data output_type use_type hnode hnormal

theorem fromJSGraph_not_fatal (rc rc1 : RepresentationChanger) (r : Option (Node × JSGraph))
    (id : Nat) (mnemonic : String) (o use : MachineTypeUnion) :
    rc.fromJSGraph r ≠ (.fatal id mnemonic o use, rc1) := by
  unfold RepresentationChanger.fromJSGraph
  split <;> exact fun h => Outcome.noConfusion (congrArg Prod.fst h)

theorem NewNode_not_fatal (rc rc1 : RepresentationChanger) (op : Operator) (node : Node)
    (id : Nat) (mnemonic : String) (o use : MachineTypeUnion) :
    rc.NewNode op node ≠ (.fatal id mnemonic o use, rc1) := by
  unfold RepresentationChanger.NewNode
  split <;> exact fun h => Outcome.noConfusion (congrArg Prod.fst h)

theorem GetTagged_fatal_iff (rc : RepresentationChanger) (node : Node) (data : NodeData)
    (o : MachineTypeUnion) (hnode : rc.jsgraph_.graph_.get? node = some data)
    (hnormal : rc.testing_type_errors_ = false) :
    (∃ use, rc.GetTaggedRepresentationFor node o =
        (.fatal node.id data.op.mnemonic o use, { rc with type_error_ := true })) ↔
      (data.op.opcode = .kInt32Constant ∧ o &&& kTypeUint32 = 0 ∧ o &&& kTypeInt32 = 0 ∧
        o &&& kRepBit = 0) ∨
      (¬ IsFoldedConstant data.op.opcode ∧ o &&& kRepBit = 0 ∧
        ((o &&& rWord ≠ 0 ∧ o &&& kTypeUint32 = 0 ∧ o &&& kTypeInt32 = 0) ∨
          (o &&& rWord = 0 ∧ o &&& kRepFloat64 = 0))) := by
  have hT := fun use => TypeError_fatal rc node data o use hnode hnormal
  have hJ := fun r use => fromJSGraph_not_fatal rc { rc with type_error_ := true } r node.id
    data.op.mnemonic o use
  have hN := fun op use => NewNode_not_fatal rc { rc with type_error_ := true } op node node.id
    data.op.mnemonic o use
  unfold IsFoldedConstant
  unfold GetTaggedRepresentationFor
  simp only [hnode]
  split
  all_goals (try split)
  all_goals (try split)
  all_goals (try split)
  all_goals (try split)
  all_goals (try split)
  all_goals simp_all

theorem GetFloat64_fatal_iff (rc : RepresentationChanger) (node : Node) (data : NodeData)
    (o : MachineTypeUnion) (hnode : rc.jsgraph_.graph_.get? node = some data)
    (hnormal : rc.testing_type_errors_ = false) :
    (∃ use, rc.GetFloat64RepresentationFor node o =
        (.fatal node.id data.op.mnemonic o use, { rc with type_error_ := true })) ↔
      (data.op.opcode ≠ .kNumberConstant ∧ data.op.opcode ≠ .kInt32Constant ∧
        data.op.opcode ≠ .kFloat64Constant ∧
        (o &&& kRepBit ≠ 0 ∨ (o &&& rWord = 0 ∧ o &&& kRepTagged = 0))) := by
  have hT := fun use => TypeError_fatal rc node data o use hnode hnormal
  have hJ := fun r use => fromJSGraph_not_fatal rc { rc with type_error_ := true } r node.id
    data.op.mnemonic o use
  have hN := fun op use => NewNode_not_fatal rc { rc with type_error_ := true } op node node.id
    data.op.mnemonic o use
  unfold GetFloat64RepresentationFor
  simp only [hnode]
  split
  all_goals (try split)
  all_goals (try split)
  all_goals (try split)
  all_goals simp_all

theorem GetWord32_fatal_iff (rc : RepresentationChanger) (node : Node) (data : NodeData)
    (o : MachineTypeUnion) (use_unsigned : Bool)
    (hnode : rc.jsgraph_.graph_.get? node = some data)
    (hnormal : rc.testing_type_errors_ = false) :
    (∃ use, rc.GetWord32RepresentationFor node o use_unsigned =
        (.fatal node.id data.op.mnemonic o use, { rc with type_error_ := true })) ↔
      (data.op.opcode ≠ .kInt32Constant ∧ data.op.opcode ≠ .kNumberConstant ∧
        data.op.opcode ≠ .kFloat64Constant ∧ o &&& kRepFloat64 = 0 ∧ o &&& kRepTagged = 0) := by
  have hT := fun use => TypeError_fatal rc node data o use hnode hnormal
  have hJ := fun r use => fromJSGraph_not_fatal rc { rc with type_error_ := true } r node.id
    data.op.mnemonic o use
  have hN := fun op use => NewNode_not_fatal rc { rc with type_error_ := true } op node node.id
    data.op.mnemonic o use
  unfold GetWord32RepresentationFor
  simp only [hnode]
  split
  all_goals (try split)
  all_goals (try split)
  all_goals (try split)
  all_goals (try split)
  all_goals simp_all

theorem GetBit_fatal_iff (rc : RepresentationChanger) (node : Node) (data : NodeData)
    (o : MachineTypeUnion) (hnode : rc.jsgraph_.graph_.get? node = some data)
    (hnormal : rc.testing_type_errors_ = false) :
    (∃ use, rc.GetBitRepresentationFor node o =
        (.fatal node.id data.op.mnemonic o use, { rc with type_error_ := true })) ↔
      (data.op.opcode ≠ .kInt32Constant ∧ data.op.opcode ≠ .kHeapConstant ∧
        o &&& rWord = 0 ∧ o &&& kRepWord64 = 0 ∧ o &&& kRepTagged = 0) := by
  have hT := fun use => TypeError_fatal rc node data o use hnode hnormal
  have hJ := fun r use => fromJSGraph_not_fatal rc { rc with type_error_ := true } r node.id
    data.op.mnemonic o use
  have hN := fun op use => NewNode_not_fatal rc { rc with type_error_ := true } op node node.id
    data.op.mnemonic o use
  unfold GetBitRepresentationFor
  simp only [hnode]
  split
  all_goals (try split)
  all_goals (try split)
  all_goals (try split)
  all_goals simp_all

theorem GetWord64_fatal_iff (rc : RepresentationChanger) (node : Node) (data : NodeData)
    (o : MachineTypeUnion) (hnode : rc.jsgraph_.graph_.get? node = some data)
    (hnormal : rc.testing_type_errors_ = false) :
    (∃ use, rc.GetWord64RepresentationFor node o =
        (.fatal node.id data.op.mnemonic o use, { rc with type_error_ := true })) ↔
      o &&& kRepBit = 0 := by
  have hT := fun use => TypeError_fatal rc node data o use hnode hnormal
  unfold GetWord64RepresentationFor
  split
  · simp_all
  · simp_all

/-- Claim C7. The constructor clears both flags; `TypeError` always sets `type_error_`; in
normal operation (`testing_type_errors_ = false`) `TypeError` ends in the fatal path with the
diagnostic (node id, mnemonic, output type, use). A call of `GetRepresentationFor` either
leaves the flag as it was or is a call of `TypeError`, so in normal operation a call that
changes the flag ends in the fatal path and returns no node. No converter and no call of
`GetRepresentationFor` resets a set flag. In normal operation a call of
`GetRepresentationFor` with an output type that does not have exactly one representation
bit ends in the fatal path with the flag set, for every use type; and for a node that is
not a folded constant and single-bit output and use representations that differ, the call
ends in the fatal path with the flag set exactly when no conversion rule exists, and then
it returns no node. For every node, constants included, and every output type, each of the
five converters ends in the fatal path with the flag set exactly on the inputs for which
its code reaches `TypeError`. -/
theorem C7_type_error_sets_flag_and_aborts (rc : RepresentationChanger) (node : Node) (data : NodeData)
    (output_type use_type : MachineTypeUnion)
    (hnode : rc.jsgraph_.graph_.get? node = some data) :
    (∀ jsgraph, (RepresentationChanger.new jsgraph).testing_type_errors_ = false ∧
      (RepresentationChanger.new jsgraph).type_error_ = false) ∧
    (∀ use, (rc.TypeError node output_type use).2.type_error_ = true) ∧
    (rc.testing_type_errors_ = false → ∀ use,
      (rc.TypeError node output_type use).1 = .fatal node.id data.op.mnemonic output_type use) ∧
    ((rc.GetRepresentationFor node output_type use_type).2.type_error_ = rc.type_error_ ∨
      ∃ use, rc.GetRepresentationFor node output_type use_type =
        rc.TypeError node output_type use) ∧
    (rc.testing_type_errors_ = false →
      (rc.GetRepresentationFor node output_type use_type).2.type_error_ ≠ rc.type_error_ →
      (∃ use, (rc.GetRepresentationFor node output_type use_type).1 =
        .fatal node.id data.op.mnemonic output_type use) ∧
      ∀ n, (rc.GetRepresentationFor node output_type use_type).1 ≠ .returned n) ∧
    (rc.type_error_ = true →
      (rc.GetRepresentationFor node output_type use_type).2.type_error_ = true ∧
      (rc.GetTaggedRepresentationFor node output_type).2.type_error_ = true ∧
      (rc.GetFloat64RepresentationFor node output_type).2.type_error_ = true ∧
      (rc.GetBitRepresentationFor node output_type).2.type_error_ = true ∧
      (∀ use_unsigned,
        (rc.GetWord32RepresentationFor node output_type use_unsigned).2.type_error_ = true) ∧
      (rc.GetWord64RepresentationFor node output_type).2.type_error_ = true) ∧
    (rc.testing_type_errors_ = false → ¬ HasOneRepresentation output_type →
      rc.GetRepresentationFor node output_type use_type =
        (.fatal node.id data.op.mnemonic output_type use_type,
          { rc with type_error_ := true })) ∧
    (rc.testing_type_errors_ = false → ¬ IsFoldedConstant data.op.opcode →
      HasOneRepresentation output_type → HasOneRepresentation use_type →
      use_type &&& kRepMask ≠ output_type &&& kRepMask →
      ((∃ use, rc.GetRepresentationFor node output_type use_type =
          (.fatal node.id data.op.mnemonic output_type use,
            { rc with type_error_ := true })) ↔
        (use_type &&& kRepMask = kRepTagged ∧
          (output_type &&& kRepMask = kRepWord64 ∨ output_type &&& kRepMask = kRepFloat32 ∨
            (output_type &&& kRepMask ∈ [kRepWord8, kRepWord16, kRepWord32] ∧
              output_type &&& kTypeInt32 = 0 ∧ output_type &&& kTypeUint32 = 0))) ∨
        (use_type &&& kRepMask = kRepFloat64 ∧
          output_type &&& kRepMask ∈ [kRepBit, kRepWord64, kRepFloat32]) ∨
        (use_type &&& kRepMask = kRepBit ∧
          output_type &&& kRepMask ∈ [kRepFloat32, kRepFloat64]) ∨
        (use_type &&& kRepMask ∈ [kRepWord8, kRepWord16, kRepWord32] ∧
          output_type &&& kRepMask ∈ [kRepWord64, kRepFloat32]) ∨
        (use_type &&& kRepMask = kRepWord64 ∧ output_type &&& kRepMask ≠ kRepBit))) ∧
    (rc.testing_type_errors_ = false →
      ((∃ use, rc.GetTaggedRepresentationFor node output_type =
          (.fatal node.id data.op.mnemonic output_type use,
            { rc with type_error_ := true })) ↔
        (data.op.opcode = .kInt32Constant ∧ output_type &&& kTypeUint32 = 0 ∧
          output_type &&& kTypeInt32 = 0 ∧ output_type &&& kRepBit = 0) ∨
        (¬ IsFoldedConstant data.op.opcode ∧ output_type &&& kRepBit = 0 ∧
          ((output_type &&& rWord ≠ 0 ∧ output_type &&& kTypeUint32 = 0 ∧
              output_type &&& kTypeInt32 = 0) ∨
            (output_type &&& rWord = 0 ∧ output_type &&& kRepFloat64 = 0)))) ∧
      ((∃ use, rc.GetFloat64RepresentationFor node output_type =
          (.fatal node.id data.op.mnemonic output_type use,
            { rc with type_error_ := true })) ↔
        (data.op.opcode ≠ .kNumberConstant ∧ data.op.opcode ≠ .kInt32Constant ∧
          data.op.opcode ≠ .kFloat64Constant ∧
          (output_type &&& kRepBit ≠ 0 ∨
            (output_type &&& rWord = 0 ∧ output_type &&& kRepTagged = 0)))) ∧
      (∀ use_unsigned,
        (∃ use, rc.GetWord32RepresentationFor node output_type use_unsigned =
          (.fatal node.id data.op.mnemonic output_type use,
            { rc with type_error_ := true })) ↔
        (data.op.opcode ≠ .kInt32Constant ∧ data.op.opcode ≠ .kNumberConstant ∧
          data.op.opcode ≠ .kFloat64Constant ∧ output_type &&& kRepFloat64 = 0 ∧
          output_type &&& kRepTagged = 0)) ∧
      ((∃ use, rc.GetBitRepresentationFor node output_type =
          (.fatal node.id data.op.mnemonic output_type use,
            { rc with type_error_ := true })) ↔
        (data.op.opcode ≠ .kInt32Constant ∧ data.op.opcode ≠ .kHeapConstant ∧
          output_type &&& rWord = 0 ∧ output_type &&& kRepWord64 = 0 ∧
          output_type &&& kRepTagged = 0)) ∧
      ((∃ use, rc.GetWord64RepresentationFor node output_type =
          (.fatal node.id data.op.mnemonic output_type use,
            { rc with type_error_ := true })) ↔
        output_type &&& kRepBit = 0)) := by
  refine ⟨fun _ => ⟨rfl, rfl⟩, fun use => TypeError_type_error rc node output_type use, ?_,
    GetRepresentationFor_cases rc node output_type use_type, ?_, ?_, ?_, ?_, ?_⟩
  · intro hnormal use
    rw [TypeError_fatal rc node data output_type use hnode hnormal]
  · intro hnormal hchg
    rcases GetRepresentationFor_cases rc node output_type use_type with h | ⟨use, h⟩
    · exact absurd h hchg
    · rw [h, TypeError_fatal rc node data output_type use hnode hnormal]
      exact ⟨⟨use, rfl⟩, fun n e => Outcome.noConfusion e⟩
  · intro hset
    exact ⟨flag_monotone rc _ node output_type hset (GetRepresentationFor_cases rc node _ _),
      flag_monotone rc _ node output_type hset (GetTagged_cases rc node _),
      flag_monotone rc _ node output_type hset (GetFloat64_cases rc node _),
      flag_monotone rc _ node output_type hset (GetBit_cases rc node _),
      fun b => flag_monotone rc _ node output_type hset (GetWord32_cases rc node _ b),
      flag_monotone rc _ node output_type hset (GetWord64_cases rc node _)⟩
  · intro hnormal hout
    exact GetRepresentationFor_invalid_output rc node data output_type use_type hnode hout
      hnormal
  · intro hnormal hnc hout huse hdiff
    exact GetRepresentationFor_fatal_iff rc node data output_type use_type hnode hnc hout huse
      hdiff hnormal
  · intro hnormal
    exact ⟨GetTagged_fatal_iff rc node data output_type hnode hnormal,
      GetFloat64_fatal_iff rc node data output_type hnode hnormal,
      fun b => GetWord32_fatal_iff rc node data output_type b hnode hnormal,
      GetBit_fatal_iff rc node data output_type hnode hnormal,
      GetWord64_fatal_iff rc node data output_type hnode hnormal⟩

theorem C7_type_error_sets_flag_and_aborts_witness :
    exampleChanger.testing_type_errors_ = false ∧
    ¬ HasOneRepresentation (kRepWord32 ||| kRepFloat64) ∧
    exampleChanger.GetRepresentationFor ⟨1⟩ (kRepWord32 ||| kRepFloat64) kRepTagged =
      (.fatal 1 "Parameter" (kRepWord32 ||| kRepFloat64) kRepTagged,
        { exampleChanger with type_error_ := true }) ∧
    ∃ use, exampleChanger.GetRepresentationFor ⟨1⟩ (kRepWord64 ||| kTypeInt64) kRepTagged =
      (.fatal 1 "Parameter" (kRepWord64 ||| kTypeInt64) use,
        { exampleChanger with type_error_ := true }) :=
  ⟨rfl, by decide,
    (C7_type_error_sets_flag_and_aborts exampleChanger ⟨1⟩
      ⟨CommonOperatorBuilder.Parameter 0, [⟨0⟩]⟩ (kRepWord32 ||| kRepFloat64) kRepTagged
      rfl).2.2.2.2.2.2.1 rfl (by decide),
    ((C7_type_error_sets_flag_and_aborts exampleChanger ⟨1⟩
      ⟨CommonOperatorBuilder.Parameter 0, [⟨0⟩]⟩ (kRepWord64 ||| kTypeInt64) kRepTagged
      rfl).2.2.2.2.2.2.2.1 rfl (by decide) (by decide) (by decide) (by decide)).2
      (Or.inl ⟨by decide, Or.inl (by decide)⟩)⟩

/-- Claim C8. If the output type has exactly one representation bit and the representation bits
of the use type are empty or only `kRepFloat32` (so that it has none of tagged, float64, bit,
word8, word16, word32, word64) and differ from those of the output, `GetRepresentationFor`
returns the original node and leaves the changer as it was. -/
theorem C8_unrecognized_use_is_noop (rc : RepresentationChanger) (node : Node) (output_type use_type : MachineTypeUnion)
    (hout : HasOneRepresentation output_type)
    (huse : use_type &&& kRepMask = 0 ∨ use_type &&& kRepMask = kRepFloat32)
    (hdiff : use_type &&& kRepMask ≠ output_type &&& kRepMask) :
    use_type &&& (kRepTagged ||| kRepFloat64 ||| kRepBit ||| kRepWord8 ||| kRepWord16 |||
        kRepWord32 ||| kRepWord64) = 0 ∧
      rc.GetRepresentationFor node output_type use_type = (.returned node, rc) := by
  have h := (isPowerOfTwo32_rep output_type).2 hout
  have key : ∀ m, 255 &&& m = m → 32 &&& m = 0 → use_type &&& m = 0 := by
    intro m hm h32
    rw [land_rep use_type m hm]
    rcases huse with e | e <;> rw [e]
    · exact Nat.zero_and m
    · exact h32
  have h1 := key rWord (by decide) (by decide)
  have h2 := key kRepTagged (by decide) (by decide)
  have h3 := key kRepFloat64 (by decide) (by decide)
  have h4 := key kRepBit (by decide) (by decide)
  have h5 := key kRepWord64 (by decide) (by decide)
  refine ⟨key _ (by decide) (by decide), ?_⟩
  unfold GetRepresentationFor
  simp only [h, h1, h2, h3, h4, h5, if_neg hdiff]
  simp

theorem C8_unrecognized_use_is_noop_witness :
    HasOneRepresentation (kRepTagged ||| kTypeAny) ∧
    (kRepFloat32 ||| kTypeNumber) &&& kRepMask = kRepFloat32 ∧
    exampleChanger.GetRepresentationFor ⟨1⟩ (kRepTagged ||| kTypeAny)
      (kRepFloat32 ||| kTypeNumber) = (.returned ⟨1⟩, exampleChanger) :=
  ⟨by decide, by decide,
    (C8_unrecognized_use_is_noop exampleChanger ⟨1⟩ (kRepTagged ||| kTypeAny)
      (kRepFloat32 ||| kTypeNumber) (by decide) (Or.inr (by decide)) (by decide)).2⟩

/-- Claim C9. `GetWord32RepresentationFor` on a `NumberConstant` or `Float64Constant` with value
`d`, for every output type and every signedness hint of the use: if `d` denotes a negative
integer `n` in the `int32_t` range the assertion holds and the result is `Int32Constant[n]`;
if `d` denotes an integer `n` in `[0, 2^32)` and is not `-0.0` the assertion holds and the
result is the `Int32Constant` with the same 32 bits (`n` below `2^31`, else `n - 2^32`); for
every other `d` (NaN, infinite or fractional, `-0.0`, an integer out of range) the assertion
fails. -/
theorem C9_word32_fold_of_double_constant (rc : RepresentationChanger) (node : Node) (data : NodeData)
    (d : Double) (output_type : MachineTypeUnion) (use_unsigned : Bool)
    (hwf : rc.jsgraph_.WellFormed)
    (hnode : rc.jsgraph_.graph_.get? node = some data)
    (hop : data.op.opcode = .kNumberConstant ∨ data.op.opcode = .kFloat64Constant)
    (hpar : data.op.parameter = .float64 d) :
    (∀ n : Int, d.toInt? = some n → n < 0 → -2147483648 ≤ n →
      IsInt32Double d = true ∧
      ∃ m jg c, rc.jsgraph_.Int32Constant n = some (m, jg) ∧
        rc.GetWord32RepresentationFor node output_type use_unsigned =
          (.returned m, { rc with jsgraph_ := jg }) ∧
        jg.graph_.get? m = some c ∧ c.op.opcode = .kInt32Constant ∧
        c.op.parameter = .int32 n ∧ c.inputs = []) ∧
    (∀ n : Int, d.toInt? = some n → 0 ≤ n → n ≤ 4294967295 → d.isMinusZero = false →
      IsUint32Double d = true ∧
      ∃ m jg c, rc.jsgraph_.Int32Constant (if n < 2147483648 then n else n - 4294967296)
            = some (m, jg) ∧
        rc.GetWord32RepresentationFor node output_type use_unsigned =
          (.returned m, { rc with jsgraph_ := jg }) ∧
        jg.graph_.get? m = some c ∧ c.op.opcode = .kInt32Constant ∧
        c.op.parameter = .int32 (if n < 2147483648 then n else n - 4294967296) ∧
        c.inputs = []) ∧
    ((d.isNaN = true ∨ d.toInt? = none ∨ d.isMinusZero = true ∨
        ∃ n : Int, d.toInt? = some n ∧ (n < -2147483648 ∨ 4294967295 < n)) →
      rc.GetWord32RepresentationFor node output_type use_unsigned = (.assertion_failed, rc)) := by
  rw [GetWord32_constant rc node data d output_type use_unsigned hnode hop hpar]
  refine ⟨?_, ?_, ?_⟩
  · intro n hn hneg hlo
    have hlt := (Double.ltZero_iff_of_toInt? d n hn).2 hneg
    have hmz := Double.isZero_of_ltZero d hlt
    obtain ⟨hfin, htr⟩ := Double.truncate_of_toInt? d n hn
    have hint : IsInt32Double d = true := by
      unfold IsInt32Double
      rw [hmz, hn]
      simp only [Bool.not_false, Bool.true_and, Bool.and_eq_true, decide_eq_true_eq]
      omega
    have hcast : static_cast_int32 d = some n := by
      unfold static_cast_int32
      rw [hfin, htr, if_pos]
      simp only [Bool.true_and, Bool.and_eq_true, decide_eq_true_eq]
      omega
    obtain ⟨m, jg, c, h1, h2, -, h3, h4, h5, h6⟩ :=
      fromJSGraph_Cached rc (CommonOperatorBuilder.Int32Constant n) hwf rfl
    refine ⟨hint, m, jg, c, h1, ?_, h3, h4, h5, h6⟩
    rw [hlt, hint, hcast]
    exact h2
  · intro n hn hnn hhi hmz
    have hlt : d.ltZero = false := by
      rw [Bool.eq_false_iff]
      intro h
      have := (Double.ltZero_iff_of_toInt? d n hn).1 h
      omega
    obtain ⟨hfin, htr⟩ := Double.truncate_of_toInt? d n hn
    have hint : IsUint32Double d = true := by
      unfold IsUint32Double
      rw [hmz, hn]
      simp only [Bool.not_false, Bool.true_and, Bool.and_eq_true, decide_eq_true_eq]
      omega
    have hcast : static_cast_uint32 d = some n.toNat := by
      unfold static_cast_uint32
      rw [hfin, htr, if_pos]
      simp only [Bool.true_and, Bool.and_eq_true, decide_eq_true_eq]
      omega
    have hconv : uint32_to_int32 n.toNat = if n < 2147483648 then n else n - 4294967296 := by
      unfold uint32_to_int32
      have hmod : n.toNat % 4294967296 = n.toNat := Nat.mod_eq_of_lt (by omega)
      rw [hmod]
      split_ifs <;> omega
    obtain ⟨m, jg, c, h1, h2, -, h3, h4, h5, h6⟩ :=
      fromJSGraph_Cached rc
        (CommonOperatorBuilder.Int32Constant (if n < 2147483648 then n else n - 4294967296)) hwf rfl
    refine ⟨hint, m, jg, c, h1, ?_, h3, h4, h5, h6⟩
    rw [hlt, hint, hcast]
    simp only [Bool.false_eq_true, if_false, Bool.not_true]
    rw [hconv]
    exact h2
  · intro h
    have hnone : d.toInt? = none → IsInt32Double d = false ∧ IsUint32Double d = false := by
      intro h0
      unfold IsInt32Double IsUint32Double
      rw [h0]; simp
    have fin : IsInt32Double d = false → IsUint32Double d = false →
        (if d.ltZero then
          if !IsInt32Double d then (Outcome.assertion_failed, rc)
          else
            match static_cast_int32 d with
            | some iv => rc.fromJSGraph (rc.jsgraph_.Int32Constant iv)
            | none => (.undefined_behaviour, rc)
        else
          if !IsUint32Double d then (.assertion_failed, rc)
          else
            match static_cast_uint32 d with
            | some uv => rc.fromJSGraph (rc.jsgraph_.Int32Constant (uint32_to_int32 uv))
            | none => (.undefined_behaviour, rc)) = (.assertion_failed, rc) := by
      intro a b
      rw [a, b]; simp
    rcases h with h | h | h | ⟨n, hn, h⟩
    · exact fin (hnone (Double.toInt?_of_isNaN d h)).1 (hnone (Double.toInt?_of_isNaN d h)).2
    · exact fin (hnone h).1 (hnone h).2
    · have a : IsInt32Double d = false := by unfold IsInt32Double; rw [h]; rfl
      have b : IsUint32Double d = false := by unfold IsUint32Double; rw [h]; rfl
      exact fin a b
    · rcases h with h | h
      · have hlt := (Double.ltZero_iff_of_toInt? d n hn).2 (by omega)
        have a : IsInt32Double d = false := by
          unfold IsInt32Double
          rw [hn]
          have : decide (-2147483648 ≤ n) = false := by simpa using h
          simp [this]
        rw [hlt, a]; simp
      · have hlt : d.ltZero = false := by
          rw [Bool.eq_false_iff]
          intro h
          have := (Double.ltZero_iff_of_toInt? d n hn).1 h
          omega
        have b : IsUint32Double d = false := by
          unfold IsUint32Double
          rw [hn]
          have : decide (n ≤ 4294967295) = false := by simpa using h
          simp [this]
        rw [hlt, b]; simp

theorem C9_word32_fold_of_double_constant_witness :
    minusThree.toInt? = some (-3) ∧
    IsInt32Double minusThree = true ∧
    ∃ m jg c, exampleChanger.jsgraph_.Int32Constant (-3) = some (m, jg) ∧
      exampleChanger.GetWord32RepresentationFor ⟨3⟩ (kRepTagged ||| kTypeNumber) false =
        (.returned m, { exampleChanger with jsgraph_ := jg }) ∧
      jg.graph_.get? m = some c ∧ c.op.opcode = .kInt32Constant ∧
      c.op.parameter = .int32 (-3) ∧ c.inputs = [] :=
  ⟨by decide,
    (C9_word32_fold_of_double_constant exampleChanger ⟨3⟩
      ⟨CommonOperatorBuilder.NumberConstant minusThree, []⟩ minusThree
      (kRepTagged ||| kTypeNumber) false exampleJSGraph_wellFormed rfl (Or.inl rfl) rfl).1
      (-3) (by decide) (by decide) (by decide)⟩

/-- Claim C10. `GetBitRepresentationFor` on a `HeapConstant`, for every output type: for the
canonical `true` value the result is `Int32Constant[1]`, for the canonical `false` value it is
`Int32Constant[0]`, and for any other heap object the assertion fails. -/
theorem C10_bit_fold_of_heap_constant (rc : RepresentationChanger) (node : Node) (data : NodeData)
    (handle : HeapObject) (output_type : MachineTypeUnion)
    (hwf : rc.jsgraph_.WellFormed)
    (hnode : rc.jsgraph_.graph_.get? node = some data)
    (hop : data.op.opcode = .kHeapConstant) (hpar : data.op.parameter = .heap handle) :
    (handle = .true_value →
      ∃ m jg c, rc.jsgraph_.Int32Constant 1 = some (m, jg) ∧
        rc.GetBitRepresentationFor node output_type = (.returned m, { rc with jsgraph_ := jg }) ∧
        jg.graph_.get? m = some c ∧ c.op.opcode = .kInt32Constant ∧
        c.op.parameter = .int32 1 ∧ c.inputs = []) ∧
    (handle = .false_value →
      ∃ m jg c, rc.jsgraph_.Int32Constant 0 = some (m, jg) ∧
        rc.GetBitRepresentationFor node output_type = (.returned m, { rc with jsgraph_ := jg }) ∧
        jg.graph_.get? m = some c ∧ c.op.opcode = .kInt32Constant ∧
        c.op.parameter = .int32 0 ∧ c.inputs = []) ∧
    (handle ≠ .true_value → handle ≠ .false_value →
      rc.GetBitRepresentationFor node output_type = (.assertion_failed, rc)) := by
  rw [GetBit_heap_constant rc node data handle output_type hnode hop hpar]
  refine ⟨?_, ?_, ?_⟩
  · intro h
    subst h
    obtain ⟨m, jg, c, h1, h2, -, h3, h4, h5, h6⟩ :=
      fromJSGraph_Cached rc (CommonOperatorBuilder.Int32Constant 1) hwf rfl
    exact ⟨m, jg, c, h1, h2, h3, h4, h5, h6⟩
  · intro h
    subst h
    obtain ⟨m, jg, c, h1, h2, -, h3, h4, h5, h6⟩ :=
      fromJSGraph_Cached rc (CommonOperatorBuilder.Int32Constant 0) hwf rfl
    exact ⟨m, jg, c, h1, h2, h3, h4, h5, h6⟩
  · intro h1 h2
    simp [h1, h2]

theorem C10_bit_fold_of_heap_constant_witness :
    ∃ m jg c, exampleChanger.jsgraph_.Int32Constant 1 = some (m, jg) ∧
      exampleChanger.GetBitRepresentationFor ⟨4⟩ (kRepTagged ||| kTypeBool) =
        (.returned m, { exampleChanger with jsgraph_ := jg }) ∧
      jg.graph_.get? m = some c ∧ c.op.opcode = .kInt32Constant ∧
      c.op.parameter = .int32 1 ∧ c.inputs = [] :=
  (C10_bit_fold_of_heap_constant exampleChanger ⟨4⟩
    ⟨CommonOperatorBuilder.HeapConstant .true_value, []⟩ .true_value (kRepTagged ||| kTypeBool)
    exampleJSGraph_wellFormed rfl rfl rfl).1 rfl

/-! # Lemmas about the reducer -/

open SimplifiedOperatorReducer

theorem Graph.InputAt_of_get? (g : Graph) (node : Node) (data : NodeData) (index : Nat)
    (hnode : g.get? node = some data) : g.InputAt node index = data.inputs[index]? := by
  unfold Graph.InputAt
  rw [hnode]; rfl

theorem withMatcher_novalue {T : Type} (jsgraph : JSGraph) (node input : Node)
    (data idata : NodeData) (Matcher : Graph → Node → Except Fault (ValueMatcher T))
    (HasValue : Operator → Bool) (ValueOf : Operator → Option T)
    (rest : ValueMatcher T → Reduced)
    (hM : ∀ g n, Matcher g n = ValueMatcher.new HasValue ValueOf g n)
    (hnode : jsgraph.graph_.get? node = some data) (hin : data.inputs[0]? = some input)
    (hinput : jsgraph.graph_.get? input = some idata) (hval : HasValue idata.op = false) :
    withMatcher jsgraph node Matcher rest = rest ⟨input, idata.op, none⟩ := by
  unfold withMatcher
  rw [Graph.InputAt_of_get? _ _ _ _ hnode, hin]
  simp only [hM, ValueMatcher.new, hinput, hval, Bool.false_eq_true, if_false]

theorem withMatcher_value {T : Type} (jsgraph : JSGraph) (node input : Node)
    (data idata : NodeData) (Matcher : Graph → Node → Except Fault (ValueMatcher T))
    (HasValue : Operator → Bool) (ValueOf : Operator → Option T)
    (rest : ValueMatcher T → Reduced) (value : T)
    (hM : ∀ g n, Matcher g n = ValueMatcher.new HasValue ValueOf g n)
    (hnode : jsgraph.graph_.get? node = some data) (hin : data.inputs[0]? = some input)
    (hinput : jsgraph.graph_.get? input = some idata) (hval : HasValue idata.op = true)
    (hvalue : ValueOf idata.op = some value) :
    withMatcher jsgraph node Matcher rest = rest ⟨input, idata.op, some value⟩ := by
  unfold withMatcher
  rw [Graph.InputAt_of_get? _ _ _ _ hnode, hin]
  simp only [hM, ValueMatcher.new, hinput, hval, if_true, hvalue]

/-- The reducer on a node whose input is not a constant: only the opcode of the input and the
operand of the input matter. -/
theorem Reduce_nonconst (jsgraph : JSGraph) (node input : Node) (data idata : NodeData)
    (hnode : jsgraph.graph_.get? node = some data) (hin : data.inputs[0]? = some input)
    (hinput : jsgraph.graph_.get? input = some idata)
    (hnc : ¬ IsFoldedConstant idata.op.opcode) :
    Reduce jsgraph node =
      match data.op.opcode with
      | .kBooleanNot =>
        if idata.op.opcode = .kBooleanNot then
          ReplaceInput0 jsgraph (⟨input, idata.op, none⟩ : ValueMatcher HeapObject)
        else (.ok .NoChange, jsgraph)
      | .kChangeBitToBool =>
        if idata.op.opcode = .kChangeBoolToBit then
          ReplaceInput0 jsgraph (⟨input, idata.op, none⟩ : ValueMatcher Int)
        else (.ok .NoChange, jsgraph)
      | .kChangeBoolToBit =>
        if idata.op.opcode = .kChangeBitToBool then
          ReplaceInput0 jsgraph (⟨input, idata.op, none⟩ : ValueMatcher HeapObject)
        else (.ok .NoChange, jsgraph)
      | .kChangeTaggedToFloat64 =>
        if idata.op.opcode = .kChangeFloat64ToTagged then
          ReplaceInput0 jsgraph (⟨input, idata.op, none⟩ : ValueMatcher Double)
        else if idata.op.opcode = .kChangeInt32ToTagged then
          ChangeInput0 jsgraph node MachineOperatorBuilder.ChangeInt32ToFloat64
            (⟨input, idata.op, none⟩ : ValueMatcher Double)
        else if idata.op.opcode = .kChangeUint32ToTagged then
          ChangeInput0 jsgraph node MachineOperatorBuilder.ChangeUint32ToFloat64
            (⟨input, idata.op, none⟩ : ValueMatcher Double)
        else (.ok .NoChange, jsgraph)
      | .kChangeTaggedToInt32 =>
        if idata.op.opcode = .kChangeFloat64ToTagged then
          ChangeInput0 jsgraph node MachineOperatorBuilder.ChangeFloat64ToInt32
            (⟨input, idata.op, none⟩ : ValueMatcher Double)
        else if idata.op.opcode = .kChangeInt32ToTagged then
          ReplaceInput0 jsgraph (⟨input, idata.op, none⟩ : ValueMatcher Double)
        else (.ok .NoChange, jsgraph)
      | .kChangeTaggedToUint32 =>
        if idata.op.opcode = .kChangeFloat64ToTagged then
          ChangeInput0 jsgraph node MachineOperatorBuilder.ChangeFloat64ToUint32
            (⟨input, idata.op, none⟩ : ValueMatcher Double)
        else if idata.op.opcode = .kChangeUint32ToTagged then
          ReplaceInput0 jsgraph (⟨input, idata.op, none⟩ : ValueMatcher Double)
        else (.ok .NoChange, jsgraph)
      | _ => (.ok .NoChange, jsgraph) := by
  unfold IsFoldedConstant at hnc
  simp only [not_or] at hnc
  obtain ⟨h1, h2, h3, h4⟩ := hnc
  have hi : HasValue_int32 idata.op = false := by simp [HasValue_int32, h1, h3]
  have hu : HasValue_uint32 idata.op = false := hi
  have hd : HasValue_double idata.op = false := by simp [HasValue_double, h1, h3, h4]
  have hh : HasValue_handle idata.op = false := by simp [HasValue_handle, h2]
  have mi := fun rest => withMatcher_novalue jsgraph node input data idata Int32Matcher
    HasValue_int32 ValueOf_int32 rest (fun _ _ => rfl) hnode hin hinput hi
  have mu := fun rest => withMatcher_novalue jsgraph node input data idata Uint32Matcher
    HasValue_uint32 ValueOf_uint32 rest (fun _ _ => rfl) hnode hin hinput hu
  have md := fun rest => withMatcher_novalue jsgraph node input data idata Float64Matcher
    HasValue_double ValueOf_double rest (fun _ _ => rfl) hnode hin hinput hd
  have mh := fun rest => withMatcher_novalue jsgraph node input data idata HeapObjectMatcher
    HasValue_handle ValueOf_handle rest (fun _ _ => rfl) hnode hin hinput hh
  unfold Reduce
  simp only [hnode]
  generalize data.op.opcode = opc
  cases opc <;>
    simp only [mi, mu, md, mh, ValueMatcher.IsKnownGlobal, ValueMatcher.Is, ValueMatcher.IsOpcode,
      decide_eq_true_eq, reduceCtorEq, if_false, decide_False, Bool.false_eq_true]

theorem ReplaceInput0_eq {T : Type} (jsgraph : JSGraph) (input x : Node) (idata : NodeData)
    (v : Option T) (hinput : jsgraph.graph_.get? input = some idata)
    (hx : idata.inputs[0]? = some x) :
    ReplaceInput0 jsgraph (⟨input, idata.op, v⟩ : ValueMatcher T) =
      (.ok (.Replace x), jsgraph) := by
  unfold ReplaceInput0
  simp only [Graph.InputAt_of_get? _ _ _ _ hinput, hx]

theorem ChangeInput0_eq {T : Type} (jsgraph : JSGraph) (node input x : Node) (op : Operator)
    (idata : NodeData) (v : Option T) (hinput : jsgraph.graph_.get? input = some idata)
    (hx : idata.inputs[0]? = some x) :
    ChangeInput0 jsgraph node op (⟨input, idata.op, v⟩ : ValueMatcher T) =
      Change jsgraph node op x := by
  unfold ChangeInput0
  simp only [Graph.InputAt_of_get? _ _ _ _ hinput, hx]

theorem Change_spec (jsgraph : JSGraph) (node a : Node) (data : NodeData) (op : Operator)
    (hnode : jsgraph.graph_.get? node = some data) (hlen : 0 < data.inputs.length) :
    ∃ jg, Change jsgraph node op a = (.ok (.Changed node), jg) ∧
      jg.graph_.get? node = some ⟨op, data.inputs.set 0 a⟩ ∧
      jg.cache_ = jsgraph.cache_ ∧
      ∀ m, m ≠ node → jg.graph_.get? m = jsgraph.graph_.get? m := by
  have hlt : node.id < jsgraph.graph_.nodes.length := by
    unfold Graph.get? at hnode
    exact (List.getElem?_eq_some.1 hnode).1
  have h1 : jsgraph.graph_.set_op node op =
      some ⟨jsgraph.graph_.nodes.set node.id { data with op := op }⟩ := by
    unfold Graph.set_op; rw [hnode]; rfl
  have h2 : (⟨jsgraph.graph_.nodes.set node.id { data with op := op }⟩ : Graph).get? node =
      some { data with op := op } := by
    unfold Graph.get?
    exact List.getElem?_set_self hlt
  have h3 : (⟨jsgraph.graph_.nodes.set node.id { data with op := op }⟩ : Graph).ReplaceInput
      node 0 a = some ⟨jsgraph.graph_.nodes.set node.id ⟨op, data.inputs.set 0 a⟩⟩ := by
    unfold Graph.ReplaceInput
    rw [h2]
    simp [hlen, List.set_set]
  refine ⟨{ jsgraph with graph_ := ⟨jsgraph.graph_.nodes.set node.id ⟨op, data.inputs.set 0 a⟩⟩ },
    ?_, ?_, rfl, ?_⟩
  · unfold Change
    rw [h1]
    simp only [Option.bind_eq_bind, Option.some_bind, h3]
  · unfold Graph.get?
    simp [hlt]
  · intro m hm
    unfold Graph.get?
    have : node.id ≠ m.id := fun e => hm (by cases m; cases node; simp_all)
    simp [List.getElem?_set_ne this]

theorem notFolded_of_eq (opcode o : IrOpcode) (h : opcode = o) (ho : ¬ IsFoldedConstant o) :
    ¬ IsFoldedConstant opcode := by rw [h]; exact ho

theorem withMatcher_ok {T : Type} (jsgraph jg : JSGraph) (node : Node)
    (Matcher : Graph → Node → Except Fault (ValueMatcher T)) (rest : ValueMatcher T → Reduced)
    (r : Reduction) (h : withMatcher jsgraph node Matcher rest = (.ok r, jg)) :
    ∃ input m, jsgraph.graph_.InputAt node 0 = some input ∧
      Matcher jsgraph.graph_ input = .ok m ∧ rest m = (.ok r, jg) := by
  unfold withMatcher at h
  split at h
  · simp at h
  · rename_i input hi
    split at h
    · simp at h
    · rename_i m hm
      exact ⟨input, m, hi, hm, h⟩

theorem ValueMatcher.new_ok {T : Type} (HasValue : Operator → Bool)
    (ValueOf : Operator → Option T) (g : Graph) (input : Node) (m : ValueMatcher T)
    (h : ValueMatcher.new HasValue ValueOf g input = .ok m) :
    ∃ idata, g.get? input = some idata ∧ m.node_ = input ∧ m.op_ = idata.op ∧
      ((m.value_ = none ∧ HasValue idata.op = false) ∨
        ∃ v, m.value_ = some v ∧ HasValue idata.op = true ∧ ValueOf idata.op = some v) := by
  unfold ValueMatcher.new at h
  split at h
  · simp at h
  · rename_i idata hi
    split at h
    · rename_i hv
      split at h
      · rename_i v hv2
        simp only [Except.ok.injEq] at h
        subst h
        exact ⟨idata, hi, rfl, rfl, Or.inr ⟨v, rfl, hv, hv2⟩⟩
      · simp at h
    · rename_i hv
      simp only [Except.ok.injEq] at h
      subst h
      exact ⟨idata, hi, rfl, rfl, Or.inl ⟨rfl, by simpa using hv⟩⟩

theorem ReplaceCached_ok (jsgraph jg : JSGraph) (request : Option (Node × JSGraph))
    (r : Reduction) (h : ReplaceCached jsgraph request = (.ok r, jg)) :
    ∃ c, request = some (c, jg) ∧ r = .Replace c := by
  unfold ReplaceCached at h
  split at h
  · rename_i c jg1
    simp only [Prod.mk.injEq, Except.ok.injEq] at h
    obtain ⟨rfl, rfl⟩ := h
    exact ⟨c, rfl, rfl⟩
  · simp at h

theorem ReplaceInput0_ok {T : Type} (jsgraph jg : JSGraph) (m : ValueMatcher T)
    (r : Reduction) (h : ReplaceInput0 jsgraph m = (.ok r, jg)) :
    ∃ a, jsgraph.graph_.InputAt m.node_ 0 = some a ∧ r = .Replace a ∧ jg = jsgraph := by
  unfold ReplaceInput0 at h
  split at h
  · rename_i a ha
    simp only [Prod.mk.injEq, Except.ok.injEq] at h
    obtain ⟨rfl, rfl⟩ := h
    exact ⟨a, ha, rfl, rfl⟩
  · simp at h

theorem ChangeInput0_ok {T : Type} (jsgraph jg : JSGraph) (node : Node) (op : Operator)
    (m : ValueMatcher T) (r : Reduction)
    (h : ChangeInput0 jsgraph node op m = (.ok r, jg)) :
    ∃ a, jsgraph.graph_.InputAt m.node_ 0 = some a ∧ Change jsgraph node op a = (.ok r, jg) := by
  unfold ChangeInput0 at h
  split at h
  · rename_i a ha
    exact ⟨a, ha, h⟩
  · simp at h

theorem Change_ok (jsgraph jg : JSGraph) (node a : Node) (op : Operator) (r : Reduction)
    (h : Change jsgraph node op a = (.ok r, jg)) :
    r = .Changed node ∧ ∃ data, jsgraph.graph_.get? node = some data ∧
      jg.graph_.get? node = some ⟨op, data.inputs.set 0 a⟩ ∧ 0 < data.inputs.length ∧
      jg.cache_ = jsgraph.cache_ ∧
      ∀ m, m ≠ node → jg.graph_.get? m = jsgraph.graph_.get? m := by
  cases hn : jsgraph.graph_.get? node with
  | none =>
    unfold Change Graph.set_op at h
    rw [hn] at h
    simp at h
  | some data =>
    by_cases hlen : 0 < data.inputs.length
    · obtain ⟨jg1, h1, h2, h3, h4⟩ := Change_spec jsgraph node a data op hn hlen
      rw [h1] at h
      simp only [Prod.mk.injEq, Except.ok.injEq] at h
      obtain ⟨rfl, rfl⟩ := h
      exact ⟨rfl, data, rfl, h2, hlen, h3, h4⟩
    · exfalso
      have hlt : node.id < jsgraph.graph_.nodes.length := by
        unfold Graph.get? at hn
        exact (List.getElem?_eq_some.1 hn).1
      unfold Change Graph.set_op at h
      rw [hn] at h
      simp only [Option.map_some', Option.bind_eq_bind, Option.some_bind] at h
      unfold Graph.ReplaceInput Graph.get? at h
      simp only [List.getElem?_set_self hlt, Option.some_bind, hlen, if_false] at h
      simp at h

theorem Reduce_unhandled (jsgraph : JSGraph) (node : Node) (data : NodeData)
    (hnode : jsgraph.graph_.get? node = some data)
    (hop : data.op.opcode ∉ reducedOpcodes) :
    Reduce jsgraph node = (.ok .NoChange, jsgraph) := by
  unfold reducedOpcodes at hop
  simp only [List.mem_cons, List.mem_singleton, List.not_mem_nil, or_false, not_or] at hop
  unfold Reduce
  simp only [hnode]
  split <;> first | rfl | (exfalso; simp_all)


theorem Reduce_changed (jsgraph jg : JSGraph) (node n : Node)
    (h : Reduce jsgraph node = (.ok (.Changed n), jg)) :
    ∃ op a, Change jsgraph node op a = (.ok (.Changed n), jg) ∧
      op.opcode ∉ reducedOpcodes := by
  unfold Reduce at h
  split at h
  · simp at h
  · split at h
    all_goals first
      | (simp at h)
      | (obtain ⟨input, m, -, -, hr⟩ := withMatcher_ok _ _ _ _ _ _ h
         try simp only [ReplaceInt32, ReplaceUint32, ReplaceFloat64, ReplaceNumber,
           ReplaceNumber_int32] at hr
         repeat' split at hr
         all_goals first
           | (obtain ⟨c, -, hc⟩ := ReplaceCached_ok _ _ _ _ hr; cases hc)
           | (obtain ⟨a, -, hc, -⟩ := ReplaceInput0_ok _ _ _ _ hr; cases hc)
           | (obtain ⟨a, -, hc⟩ := ChangeInput0_ok _ _ _ _ _ _ hr; exact ⟨_, a, hc, by decide⟩)
           | (simp at hr))

theorem FoldsTo_of_Cached (jsgraph : JSGraph) (node : Node) (op : Operator)
    (hwf : jsgraph.WellFormed) (harity : op.input_count = 0)
    (h : Reduce jsgraph node = ReplaceCached jsgraph (jsgraph.Cached op)) :
    FoldsTo jsgraph node (jsgraph.Cached op) op.opcode op.parameter := by
  obtain ⟨c, jg, hc, -, ⟨cdata, h1, h2, h3, h4⟩, -⟩ := JSGraph.Cached_spec jsgraph op hwf harity
  refine ⟨c, jg, cdata, hc, ?_, h1, h2, h3, h4⟩
  rw [h, hc]; rfl

theorem ValueOf_handle_HeapConstant (op : Operator) (h : HeapObject)
    (hop : op.opcode = .kHeapConstant) (hpar : op.parameter = .heap h) :
    HasValue_handle op = true ∧ ValueOf_handle op = some h := by
  simp [HasValue_handle, ValueOf_handle, hop, OpParameter_heap, hpar]

theorem HasValue_int32_Int32Constant (op : Operator) (hop : op.opcode = .kInt32Constant) :
    HasValue_int32 op = true := by
  simp [HasValue_int32, hop]

/-- The reducer on `BooleanNot` or `ChangeBoolToBit` of a heap constant. -/
theorem Reduce_heap_literal (jsgraph : JSGraph) (node input : Node) (data idata : NodeData)
    (h : HeapObject)
    (hnode : jsgraph.graph_.get? node = some data) (hin : data.inputs[0]? = some input)
    (hinput : jsgraph.graph_.get? input = some idata)
    (hiop : idata.op.opcode = .kHeapConstant) (hipar : idata.op.parameter = .heap h) :
    (data.op.opcode = .kBooleanNot →
      Reduce jsgraph node =
        if h = .false_value then ReplaceCached jsgraph jsgraph.TrueConstant
        else if h = .true_value then ReplaceCached jsgraph jsgraph.FalseConstant
        else (.ok .NoChange, jsgraph)) ∧
    (data.op.opcode = .kChangeBoolToBit →
      Reduce jsgraph node =
        if h = .false_value then ReplaceInt32 jsgraph 0
        else if h = .true_value then ReplaceInt32 jsgraph 1
        else (.ok .NoChange, jsgraph)) := by
  obtain ⟨hv, hval⟩ := ValueOf_handle_HeapConstant idata.op h hiop hipar
  have mh := fun rest => withMatcher_value jsgraph node input data idata HeapObjectMatcher
    HasValue_handle ValueOf_handle rest h (fun _ _ => rfl) hnode hin hinput hv hval
  constructor <;> intro hop <;> unfold Reduce <;>
    simp only [hnode, hop, mh, ValueMatcher.IsKnownGlobal, ValueMatcher.Is, ValueMatcher.IsOpcode,
      hiop, decide_eq_true_eq, Option.some.injEq, reduceCtorEq, if_false]

/-- The reducer on a node whose matcher is an `Int32Matcher` and whose input has an
`int32_t` value. -/
theorem Reduce_int32_literal (jsgraph : JSGraph) (node input : Node) (data idata : NodeData)
    (v : Int)
    (hnode : jsgraph.graph_.get? node = some data) (hin : data.inputs[0]? = some input)
    (hinput : jsgraph.graph_.get? input = some idata)
    (hv : HasValue_int32 idata.op = true) (hval : ValueOf_int32 idata.op = some v) :
    (data.op.opcode = .kChangeBitToBool →
      Reduce jsgraph node =
        if v = 0 then ReplaceCached jsgraph jsgraph.FalseConstant
        else if v = 1 then ReplaceCached jsgraph jsgraph.TrueConstant
        else if idata.op.opcode = .kChangeBoolToBit then
          ReplaceInput0 jsgraph (⟨input, idata.op, some v⟩ : ValueMatcher Int)
        else (.ok .NoChange, jsgraph)) ∧
    (data.op.opcode = .kChangeInt32ToTagged →
      Reduce jsgraph node = ReplaceNumber_int32 jsgraph v) := by
  have mi := fun rest => withMatcher_value jsgraph node input data idata Int32Matcher
    HasValue_int32 ValueOf_int32 rest v (fun _ _ => rfl) hnode hin hinput hv hval
  refine ⟨?_, ?_⟩ <;> intro hop <;> unfold Reduce <;>
    simp only [hnode, hop, mi, ValueMatcher.Is, ValueMatcher.IsOpcode,
      decide_eq_true_eq, Option.some.injEq]

/-- The reducer on a `ChangeUint32ToTagged` whose input has a `uint32_t` value. -/
theorem Reduce_uint32_literal (jsgraph : JSGraph) (node input : Node) (data idata : NodeData)
    (u : Nat)
    (hnode : jsgraph.graph_.get? node = some data) (hin : data.inputs[0]? = some input)
    (hinput : jsgraph.graph_.get? input = some idata)
    (hv : HasValue_uint32 idata.op = true) (hval : ValueOf_uint32 idata.op = some u)
    (hop : data.op.opcode = .kChangeUint32ToTagged) :
    Reduce jsgraph node = ReplaceNumber jsgraph (FastUI2D u) := by
  have mu := fun rest => withMatcher_value jsgraph node input data idata Uint32Matcher
    HasValue_uint32 ValueOf_uint32 rest u (fun _ _ => rfl) hnode hin hinput hv hval
  unfold Reduce
  simp only [hnode, hop, mu]

/-- The reducer on a conversion whose matcher is a `Float64Matcher` and whose input has a
`double` value. -/
theorem Reduce_double_literal (jsgraph : JSGraph) (node input : Node) (data idata : NodeData)
    (d : Double)
    (hnode : jsgraph.graph_.get? node = some data) (hin : data.inputs[0]? = some input)
    (hinput : jsgraph.graph_.get? input = some idata)
    (hv : HasValue_double idata.op = true) (hval : ValueOf_double idata.op = some d) :
    (data.op.opcode = .kChangeFloat64ToTagged →
      Reduce jsgraph node = ReplaceNumber jsgraph d) ∧
    (data.op.opcode = .kChangeTaggedToFloat64 →
      Reduce jsgraph node = ReplaceFloat64 jsgraph d) ∧
    (data.op.opcode = .kChangeTaggedToInt32 →
      Reduce jsgraph node = ReplaceInt32 jsgraph (DoubleToInt32 d)) ∧
    (data.op.opcode = .kChangeTaggedToUint32 →
      Reduce jsgraph node = ReplaceUint32 jsgraph (DoubleToUint32 d)) := by
  have md := fun rest => withMatcher_value jsgraph node input data idata Float64Matcher
    HasValue_double ValueOf_double rest d (fun _ _ => rfl) hnode hin hinput hv hval
  refine ⟨?_, ?_, ?_, ?_⟩ <;> intro hop <;> unfold Reduce <;>
    simp only [hnode, hop, md]

theorem reducerJSGraph_wellFormed : reducerJSGraph.WellFormed := by
  intro key node hmem
  simp only [reducerJSGraph, List.mem_cons, Prod.mk.injEq, List.mem_singleton, List.not_mem_nil,
    or_false] at hmem
  rcases hmem with ⟨rfl, rfl⟩ | ⟨rfl, rfl⟩ | ⟨rfl, rfl⟩ | ⟨rfl, rfl⟩ <;>
    exact ⟨_, rfl, rfl, rfl, rfl⟩

theorem int32_to_uint32_lt (v : Int) : int32_to_uint32 v < 4294967296 := by
  unfold int32_to_uint32
  omega

theorem uint32_round_trip (u : Nat) (hu : u < 4294967296) :
    int32_to_uint32 (uint32_to_int32 u) = u := by
  unfold int32_to_uint32 uint32_to_int32
  split_ifs <;> omega

theorem int32_round_trip (v : Int) (h1 : -2147483648 ≤ v) (h2 : v ≤ 2147483647) :
    uint32_to_int32 (int32_to_uint32 v) = v := by
  unfold int32_to_uint32 uint32_to_int32
  split_ifs <;> omega

theorem DoubleToUint32_lt (d : Double) : DoubleToUint32 d < 4294967296 := by
  unfold DoubleToUint32
  split_ifs <;> omega

theorem DoubleTo32_of_toInt? (d : Double) (n : Int) (h : d.toInt? = some n) :
    DoubleToUint32 d = (n % 4294967296).toNat ∧
    DoubleToInt32 d =
      if n % 4294967296 < 2147483648 then n % 4294967296 else n % 4294967296 - 4294967296 := by
  obtain ⟨hf, ht⟩ := Double.truncate_of_toInt? d n h
  unfold DoubleToUint32 DoubleToInt32 uint32_to_int32
  rw [if_pos hf, if_pos hf, ht]
  refine ⟨rfl, ?_⟩
  split_ifs <;> omega


/-! # Lemmas about the cache and about the meaning of the conversions -/

theorem Double_bits_inj (a b : Double) : a.bits = b.bits ↔ a = b := by
  constructor
  · intro h
    obtain ⟨sa, ⟨ea, hea⟩, ⟨fa, hfa⟩⟩ := a
    obtain ⟨sb, ⟨eb, heb⟩, ⟨fb, hfb⟩⟩ := b
    simp only [Double.bits] at h
    have : sa = sb ∧ ea = eb ∧ fa = fb := by
      cases sa <;> cases sb <;> simp only [if_true, if_false, Bool.false_eq_true] at h <;>
        simp only [true_and, false_and, reduceCtorEq] <;> omega
    obtain ⟨rfl, rfl, rfl⟩ := this
    rfl
  · rintro rfl; rfl

theorem canonicalDouble_eq_iff (a b : Double) :
    canonicalDouble a = canonicalDouble b ↔
      a.bits = b.bits ∨ (a.isNaN = true ∧ b.isNaN = true) := by
  rw [Double_bits_inj]
  unfold canonicalDouble
  by_cases ha : a.isNaN = true <;> by_cases hb : b.isNaN = true
  · simp [ha, hb]
  · simp only [ha, hb, if_true, if_false, Bool.false_eq_true, and_false, or_false]
    constructor
    · intro h; rw [← h] at hb; exact absurd (by decide) hb
    · intro h; rw [h] at ha; exact absurd ha hb
  · simp only [ha, hb, if_true, if_false, Bool.false_eq_true, false_and, or_false]
    constructor
    · intro h; rw [h] at ha; exact absurd (by decide) ha
    · intro h; rw [h] at ha; exact absurd hb ha
  · simp [ha, hb]

theorem canonicalDouble_idem (a : Double) : canonicalDouble (canonicalDouble a) = canonicalDouble a := by
  unfold canonicalDouble
  by_cases ha : a.isNaN = true
  · simp only [ha, if_true]; rfl
  · simp only [ha, if_false, Bool.false_eq_true]

/-- After a cache request the key is recorded for the returned node, and asking again changes
nothing. -/
theorem JSGraph.Cached_again (jsgraph jg : JSGraph) (op : Operator) (n : Node)
    (h : jsgraph.Cached op = some (n, jg)) : jg.Cached op = some (n, jg) := by
  unfold JSGraph.Cached at h
  cases hl : jsgraph.cache_.lookup (op.opcode, op.parameter) with
  | some m =>
    rw [hl] at h
    simp only [Option.some.injEq, Prod.mk.injEq] at h
    obtain ⟨rfl, rfl⟩ := h
    unfold JSGraph.Cached
    rw [hl]
  | none =>
    rw [hl] at h
    cases hn : jsgraph.graph_.NewNode op [] with
    | none => rw [hn] at h; simp at h
    | some r =>
      obtain ⟨m, g⟩ := r
      rw [hn] at h
      simp only [Option.some.injEq, Prod.mk.injEq] at h
      obtain ⟨rfl, rfl⟩ := h
      unfold JSGraph.Cached
      simp [List.lookup_cons]

/-- In a well-formed cache a node determines its key: two requests that return the same node
asked for the same opcode and literal. -/
theorem JSGraph.Cached_inj (jsgraph jg jg2 : JSGraph) (op1 op2 : Operator) (n m : Node)
    (hwf : jsgraph.WellFormed) (h1a : op1.input_count = 0) (h2a : op2.input_count = 0)
    (h1 : jsgraph.Cached op1 = some (n, jg)) (h2 : jg.Cached op2 = some (m, jg2)) :
    n = m ↔ (op1.opcode, op1.parameter) = (op2.opcode, op2.parameter) := by
  obtain ⟨n', jg', e1, hwf1, ⟨d1, hd1, ho1, hp1, -⟩, -⟩ :=
    JSGraph.Cached_spec jsgraph op1 hwf h1a
  rw [h1] at e1
  simp only [Option.some.injEq, Prod.mk.injEq] at e1
  obtain ⟨rfl, rfl⟩ := e1
  obtain ⟨m', jg2', e2, -, ⟨d2, hd2, ho2, hp2, -⟩, hold⟩ :=
    JSGraph.Cached_spec jg op2 hwf1 h2a
  rw [h2] at e2
  simp only [Option.some.injEq, Prod.mk.injEq] at e2
  obtain ⟨rfl, rfl⟩ := e2
  constructor
  · rintro rfl
    have := hold _ _ hd1
    rw [hd2] at this
    simp only [Option.some.injEq] at this
    subst this
    rw [← ho1, ← hp1, ← ho2, ← hp2]
  · intro hk
    simp only [Prod.mk.injEq] at hk
    have hagain := JSGraph.Cached_again jsgraph jg op1 n h1
    have : jg.Cached op2 = jg.Cached op1 := by
      unfold JSGraph.Cached
      rw [hk.1, hk.2]
      cases hl : jg.cache_.lookup (op2.opcode, op2.parameter) with
      | some x => rfl
      | none =>
        exfalso
        unfold JSGraph.Cached at hagain
        rw [hk.1, hk.2, hl] at hagain
        cases hn : jg.graph_.NewNode op1 [] with
        | none => rw [hn] at hagain; simp at hagain
        | some r =>
          rw [hn] at hagain
          simp only [Option.some.injEq, Prod.mk.injEq] at hagain
          have hc := congrArg JSGraph.cache_ hagain.2
          simp only at hc
          have := congrArg List.length hc
          simp at this
    rw [this, hagain] at h2
    simp only [Option.some.injEq, Prod.mk.injEq] at h2
    exact h2.1

/-- A cache request for a constant operator succeeds, keeps the cache well formed, returns a
node that stands for the key of the operator, and keeps what the other nodes stand for. -/
theorem JSGraph.Cached_keyAt (jsgraph : JSGraph) (op : Operator) (hwf : jsgraph.WellFormed)
    (harity : op.input_count = 0) :
    ∃ n jg, jsgraph.Cached op = some (n, jg) ∧ jg.WellFormed ∧
      jg.keyAt n = some (op.opcode, op.parameter) ∧
      ∀ m k, jsgraph.keyAt m = some k → jg.keyAt m = some k := by
  obtain ⟨n, jg, h, hwf1, ⟨d, hd, ho, hp, -⟩, hold⟩ := JSGraph.Cached_spec jsgraph op hwf harity
  refine ⟨n, jg, h, hwf1, ?_, ?_⟩
  · unfold JSGraph.keyAt
    rw [hd, ← ho, ← hp]; rfl
  · intro m k hk
    unfold JSGraph.keyAt at hk ⊢
    cases hg : jsgraph.graph_.get? m with
    | none => rw [hg] at hk; simp at hk
    | some d0 => rw [hold m d0 hg]; rw [hg] at hk; exact hk

theorem DoubleToInt32_ofInt (x : Int) (h1 : -2147483648 ≤ x) (h2 : x ≤ 2147483647) :
    DoubleToInt32 (Double.ofInt x) = x := by
  rw [(DoubleTo32_of_toInt? _ x (Double.toInt?_ofInt x (by omega))).2]
  split_ifs <;> omega

theorem DoubleToUint32_ofInt (u : Nat) (hu : u ≤ 4294967295) :
    DoubleToUint32 (Double.ofInt u) = u := by
  rw [(DoubleTo32_of_toInt? _ u (Double.toInt?_ofInt u (by omega))).1]
  omega

theorem HasValue_double_constant (op : Operator)
    (hop : op.opcode = .kNumberConstant ∨ op.opcode = .kFloat64Constant) :
    HasValue_double op = true := by
  rcases hop with h | h <;> simp [HasValue_double, h]

theorem Meaning.ofConstant_congr (a b : Operator) (h1 : a.opcode = b.opcode)
    (h2 : a.parameter = b.parameter) : Meaning.ofConstant a = Meaning.ofConstant b := by
  unfold Meaning.ofConstant
  rw [h1, h2]

/-- A fold to the cached constant `op`, whose meaning `w1` is the same as `w`, preserves
`w`. -/
theorem preserved_of_Cached (jsgraph : JSGraph) (node : Node) (op : Operator)
    (w1 w : Meaning.Value) (hwf : jsgraph.WellFormed) (harity : op.input_count = 0)
    (hr : Reduce jsgraph node = ReplaceCached jsgraph (jsgraph.Cached op))
    (hc : Meaning.ofConstant op = some w1) (hs : w1.same w) :
    ∃ c jg cdata w1, Reduce jsgraph node = (.ok (.Replace c), jg) ∧
      jg.graph_.get? c = some cdata ∧ cdata.inputs = [] ∧
      Meaning.ofConstant cdata.op = some w1 ∧ w1.same w := by
  obtain ⟨c, jg, cdata, -, hr, hg, ho, hp, hi⟩ := FoldsTo_of_Cached jsgraph node op hwf harity hr
  exact ⟨c, jg, cdata, w1, hr, hg, hi, (Meaning.ofConstant_congr _ _ ho hp).trans hc, hs⟩

theorem Meaning.sameDouble_canonical (d : Double) : Meaning.sameDouble (canonicalDouble d) d :=
  canonicalDouble_idem d

/-- Every literal fold yields the constant that the conversion computes on the literal. -/
theorem Reduce_literal_preserves (jsgraph : JSGraph) (node input : Node) (data idata : NodeData)
    (hwf : jsgraph.WellFormed)
    (hnode : jsgraph.graph_.get? node = some data) (hin : data.inputs[0]? = some input)
    (hinput : jsgraph.graph_.get? input = some idata) (v w : Meaning.Value)
    (hmem : data.op.opcode ∈ reducedOpcodes)
    (hv : Meaning.ofConstant idata.op = some v)
    (hw : Meaning.apply data.op.opcode v = some w) :
    ∃ c jg cdata w1, Reduce jsgraph node = (.ok (.Replace c), jg) ∧
      jg.graph_.get? c = some cdata ∧ cdata.inputs = [] ∧
      Meaning.ofConstant cdata.op = some w1 ∧ w1.same w := by
  simp only [reducedOpcodes, List.mem_cons, List.mem_singleton, List.not_mem_nil,
    or_false] at hmem
  unfold Meaning.ofConstant at hv
  split at hv
  · -- an `Int32Constant`
    rename_i x hiop hipar
    simp only [Option.some.injEq] at hv
    subst hv
    have hvi := HasValue_int32_Int32Constant idata.op hiop
    have hval := ValueOf_int32_Int32Constant idata.op x hiop hipar
    have hvalu : ValueOf_uint32 idata.op = some (int32_to_uint32 x) := by
      simp [ValueOf_uint32, hiop, hval]
    rcases hmem with e | e | e | e | e | e | e | e | e <;> rw [e] at hw <;>
      simp only [Meaning.apply, Option.map_eq_some', reduceCtorEq, Option.some.injEq] at hw
    · -- ChangeBitToBool
      obtain ⟨t, ht, rfl⟩ := hw
      unfold Meaning.ChangeBitToBool at ht
      have hr := (Reduce_int32_literal jsgraph node input data idata x hnode hin hinput
        hvi hval).1 e
      split_ifs at ht with h0 h1
      · simp only [Option.some.injEq] at ht
        subst ht
        rw [if_pos h0] at hr
        exact preserved_of_Cached jsgraph node
          (CommonOperatorBuilder.HeapConstant .false_value)
          _ _ hwf rfl hr rfl rfl
      · simp only [Option.some.injEq] at ht
        subst ht
        rw [if_neg h0, if_pos h1] at hr
        exact preserved_of_Cached jsgraph node
          (CommonOperatorBuilder.HeapConstant .true_value)
          _ _ hwf rfl hr rfl rfl
    · -- ChangeInt32ToTagged
      subst hw
      have hr := (Reduce_int32_literal jsgraph node input data idata x hnode hin hinput
        hvi hval).2 e
      exact preserved_of_Cached jsgraph node
        (CommonOperatorBuilder.NumberConstant (canonicalDouble (Double.ofInt x)))
        _ _ hwf rfl hr rfl (Meaning.sameDouble_canonical _)
    · -- ChangeUint32ToTagged
      subst hw
      have hr := Reduce_uint32_literal jsgraph node input data idata _ hnode hin hinput
        hvi hvalu e
      exact preserved_of_Cached jsgraph node
        (CommonOperatorBuilder.NumberConstant (canonicalDouble (FastUI2D (int32_to_uint32 x))))
        _ _ hwf rfl hr rfl (Meaning.sameDouble_canonical _)
  · -- a `Float64Constant`
    rename_i d hiop hipar
    simp only [Option.some.injEq] at hv
    subst hv
    have hvd := HasValue_double_constant idata.op (Or.inr hiop)
    have hval := ValueOf_double_constant idata.op d (Or.inr hiop) hipar
    rcases hmem with e | e | e | e | e | e | e | e | e <;> rw [e] at hw <;>
      simp only [Meaning.apply, Option.map_eq_some', reduceCtorEq, Option.some.injEq] at hw
    subst hw
    have hr := (Reduce_double_literal jsgraph node input data idata d hnode hin hinput
      hvd hval).1 e
    exact preserved_of_Cached jsgraph node
      (CommonOperatorBuilder.NumberConstant (canonicalDouble d))
      _ _ hwf rfl hr rfl (Meaning.sameDouble_canonical _)
  · -- a `NumberConstant`
    rename_i d hiop hipar
    simp only [Option.some.injEq] at hv
    subst hv
    have hvd := HasValue_double_constant idata.op (Or.inl hiop)
    have hval := ValueOf_double_constant idata.op d (Or.inl hiop) hipar
    have hr := Reduce_double_literal jsgraph node input data idata d hnode hin hinput hvd hval
    rcases hmem with e | e | e | e | e | e | e | e | e <;> rw [e] at hw <;>
      simp only [Meaning.apply, Meaning.BooleanNot, Meaning.ChangeBoolToBit,
        Meaning.ChangeTaggedToFloat64, Meaning.ChangeTaggedToInt32,
        Meaning.ChangeTaggedToUint32, Option.map_eq_some', reduceCtorEq, Option.some.injEq,
        Option.map_some', Option.map_none', false_and, exists_false, exists_eq_left'] at hw
    · subst hw
      exact preserved_of_Cached jsgraph node
        (CommonOperatorBuilder.Float64Constant (canonicalDouble d))
        _ _ hwf rfl (hr.2.1 e) rfl (Meaning.sameDouble_canonical _)
    · subst hw
      exact preserved_of_Cached jsgraph node
        (CommonOperatorBuilder.Int32Constant (DoubleToInt32 d))
        _ _ hwf rfl (hr.2.2.1 e) rfl rfl
    · subst hw
      exact preserved_of_Cached jsgraph node
        (CommonOperatorBuilder.Int32Constant (uint32_to_int32 (DoubleToUint32 d)))
        _ _ hwf rfl (hr.2.2.2 e) rfl rfl
  · -- the `true` constant
    rename_i hiop hipar
    simp only [Option.some.injEq] at hv
    subst hv
    have hr := Reduce_heap_literal jsgraph node input data idata _ hnode hin hinput hiop hipar
    rcases hmem with e | e | e | e | e | e | e | e | e <;> rw [e] at hw <;>
      simp only [Meaning.apply, Meaning.BooleanNot, Meaning.ChangeBoolToBit,
        Meaning.ChangeTaggedToFloat64, Meaning.ChangeTaggedToInt32,
        Meaning.ChangeTaggedToUint32, Option.map_eq_some', reduceCtorEq, Option.some.injEq,
        Option.map_some', Option.map_none', false_and, exists_false, exists_eq_left'] at hw
    · subst hw
      exact preserved_of_Cached jsgraph node
        (CommonOperatorBuilder.HeapConstant .false_value)
        _ _ hwf rfl (hr.1 e) rfl rfl
    · subst hw
      exact preserved_of_Cached jsgraph node
        (CommonOperatorBuilder.Int32Constant 1)
        _ _ hwf rfl (hr.2 e) rfl rfl
  · -- the `false` constant
    rename_i hiop hipar
    simp only [Option.some.injEq] at hv
    subst hv
    have hr := Reduce_heap_literal jsgraph node input data idata _ hnode hin hinput hiop hipar
    rcases hmem with e | e | e | e | e | e | e | e | e <;> rw [e] at hw <;>
      simp only [Meaning.apply, Meaning.BooleanNot, Meaning.ChangeBoolToBit,
        Meaning.ChangeTaggedToFloat64, Meaning.ChangeTaggedToInt32,
        Meaning.ChangeTaggedToUint32, Option.map_eq_some', reduceCtorEq, Option.some.injEq,
        Option.map_some', Option.map_none', false_and, exists_false, exists_eq_left'] at hw
    · subst hw
      exact preserved_of_Cached jsgraph node
        (CommonOperatorBuilder.HeapConstant .true_value)
        _ _ hwf rfl (hr.1 e) rfl rfl
    · subst hw
      exact preserved_of_Cached jsgraph node
        (CommonOperatorBuilder.Int32Constant 0)
        _ _ hwf rfl (hr.2 e) rfl rfl
  · simp at hv

theorem Meaning.same_refl (v : Meaning.Value) : v.same v := by
  cases v with
  | word32 a => rfl
  | float64 d => exact rfl
  | tagged t => cases t <;> exact rfl

/-- The six pairs of conversions that the reducer cancels are inverse to each other: where
the inner conversion is defined, the outer one gives the operand back. -/
theorem Meaning.cancel_law (outer inner : IrOpcode) (v t : Meaning.Value)
    (h : (outer, inner) ∈ [(IrOpcode.kBooleanNot, IrOpcode.kBooleanNot),
      (.kChangeBitToBool, .kChangeBoolToBit), (.kChangeBoolToBit, .kChangeBitToBool),
      (.kChangeTaggedToFloat64, .kChangeFloat64ToTagged),
      (.kChangeTaggedToInt32, .kChangeInt32ToTagged),
      (.kChangeTaggedToUint32, .kChangeUint32ToTagged)])
    (hv : v.Valid) (ht : Meaning.apply inner v = some t) :
    ∃ w, Meaning.apply outer t = some w ∧ w.same v := by
  simp only [List.mem_cons, Prod.mk.injEq, List.mem_singleton, List.not_mem_nil, or_false] at h
  rcases h with ⟨rfl, rfl⟩ | ⟨rfl, rfl⟩ | ⟨rfl, rfl⟩ | ⟨rfl, rfl⟩ | ⟨rfl, rfl⟩ | ⟨rfl, rfl⟩
  · cases v with
    | word32 a => simp [Meaning.apply] at ht
    | float64 d => simp [Meaning.apply] at ht
    | tagged t0 =>
      cases t0 with
      | number d => simp [Meaning.apply, Meaning.BooleanNot] at ht
      | boolean b =>
        simp only [Meaning.apply, Meaning.BooleanNot, Option.map_some',
          Option.some.injEq] at ht
        subst ht
        exact ⟨_, rfl, by simp [Meaning.Value.same]⟩
  · cases v with
    | word32 a => simp [Meaning.apply] at ht
    | float64 d => simp [Meaning.apply] at ht
    | tagged t0 =>
      cases t0 with
      | number d => simp [Meaning.apply, Meaning.ChangeBoolToBit] at ht
      | boolean b =>
        simp only [Meaning.apply, Meaning.ChangeBoolToBit, Option.map_some',
          Option.some.injEq] at ht
        subst ht
        cases b <;> exact ⟨_, rfl, rfl⟩
  · cases v with
    | float64 d => simp [Meaning.apply] at ht
    | tagged t0 => simp [Meaning.apply] at ht
    | word32 a =>
      simp only [Meaning.apply, Meaning.ChangeBitToBool, Option.map_eq_some'] at ht
      obtain ⟨t0, h0, rfl⟩ := ht
      split_ifs at h0 with ha hb
      · simp only [Option.some.injEq] at h0
        subst h0; subst ha
        exact ⟨_, rfl, rfl⟩
      · simp only [Option.some.injEq] at h0
        subst h0; subst hb
        exact ⟨_, rfl, rfl⟩
  · cases v with
    | word32 a => simp [Meaning.apply] at ht
    | tagged t0 => simp [Meaning.apply] at ht
    | float64 d =>
      simp only [Meaning.apply, Option.some.injEq] at ht
      subst ht
      exact ⟨_, rfl, rfl⟩
  · cases v with
    | float64 d => simp [Meaning.apply] at ht
    | tagged t0 => simp [Meaning.apply] at ht
    | word32 a =>
      simp only [Meaning.apply, Option.some.injEq] at ht
      subst ht
      refine ⟨.word32 (DoubleToInt32 (Double.ofInt a)), rfl, ?_⟩
      exact DoubleToInt32_ofInt a hv.1 hv.2
  · cases v with
    | float64 d => simp [Meaning.apply] at ht
    | tagged t0 => simp [Meaning.apply] at ht
    | word32 a =>
      simp only [Meaning.apply, Option.some.injEq] at ht
      subst ht
      refine ⟨.word32 (uint32_to_int32 (DoubleToUint32 (Double.ofInt (int32_to_uint32 a)))),
        rfl, ?_⟩
      show uint32_to_int32 (DoubleToUint32 (Double.ofInt (int32_to_uint32 a))) = a
      rw [DoubleToUint32_ofInt _ (by have := int32_to_uint32_lt a; omega)]
      exact int32_round_trip a hv.1 hv.2

/-- The four in-place rewrites replace a pair of conversions by the machine conversion
that computes the same value. -/
theorem Meaning.change_law (outer inner machine : IrOpcode) (v t : Meaning.Value)
    (h : (outer, inner, machine) ∈
      [(IrOpcode.kChangeTaggedToFloat64, IrOpcode.kChangeInt32ToTagged,
          IrOpcode.kChangeInt32ToFloat64),
        (.kChangeTaggedToFloat64, .kChangeUint32ToTagged, .kChangeUint32ToFloat64),
        (.kChangeTaggedToInt32, .kChangeFloat64ToTagged, .kChangeFloat64ToInt32),
        (.kChangeTaggedToUint32, .kChangeFloat64ToTagged, .kChangeFloat64ToUint32)])
    (ht : Meaning.apply inner v = some t) :
    ∃ w w1, Meaning.apply outer t = some w ∧ Meaning.apply machine v = some w1 ∧
      w1.same w := by
  simp only [List.mem_cons, Prod.mk.injEq, List.mem_singleton, List.not_mem_nil, or_false] at h
  rcases h with ⟨rfl, rfl, rfl⟩ | ⟨rfl, rfl, rfl⟩ | ⟨rfl, rfl, rfl⟩ | ⟨rfl, rfl, rfl⟩ <;>
    cases v <;> simp only [Meaning.apply, Option.some.injEq, reduceCtorEq] at ht <;>
    subst ht <;> exact ⟨_, _, rfl, rfl, Meaning.same_refl _⟩

/-- On an input that is not a constant the reducer does nothing, or cancels a pair of inverse
conversions, or rewrites the node in place to the machine conversion of the same value. -/
theorem Reduce_nonconst_preserves (jsgraph : JSGraph) (node input x : Node)
    (data idata : NodeData)
    (hnode : jsgraph.graph_.get? node = some data) (hin : data.inputs[0]? = some input)
    (hinput : jsgraph.graph_.get? input = some idata) (hx : idata.inputs[0]? = some x)
    (hnc : ¬ IsFoldedConstant idata.op.opcode) :
    Reduce jsgraph node = (.ok .NoChange, jsgraph) ∨
    (Reduce jsgraph node = (.ok (.Replace x), jsgraph) ∧
      ∀ v t : Meaning.Value, v.Valid → Meaning.apply idata.op.opcode v = some t →
        ∃ w, Meaning.apply data.op.opcode t = some w ∧ w.same v) ∨
    (∃ jg op, Reduce jsgraph node = (.ok (.Changed node), jg) ∧
      jg.graph_.get? node = some ⟨op, data.inputs.set 0 x⟩ ∧
      ∀ v t : Meaning.Value, v.Valid → Meaning.apply idata.op.opcode v = some t →
        ∃ w w1, Meaning.apply data.op.opcode t = some w ∧
          Meaning.apply op.opcode v = some w1 ∧ w1.same w) := by
  have hlen : 0 < data.inputs.length := by
    rcases hd : data.inputs with _ | ⟨a, l⟩
    · rw [hd] at hin; simp at hin
    · simp
  have hrep : ∀ (T : Type) (m : Option T),
      ReplaceInput0 jsgraph (⟨input, idata.op, m⟩ : ValueMatcher T) =
        (.ok (.Replace x), jsgraph) :=
    fun T m => ReplaceInput0_eq jsgraph input x idata m hinput hx
  have hchg : ∀ (T : Type) (m : Option T) (op : Operator),
      ∃ jg, ChangeInput0 jsgraph node op (⟨input, idata.op, m⟩ : ValueMatcher T) =
          (.ok (.Changed node), jg) ∧
        jg.graph_.get? node = some ⟨op, data.inputs.set 0 x⟩ := by
    intro T m op
    obtain ⟨jg, h1, h2, -, -⟩ := Change_spec jsgraph node x data op hnode hlen
    exact ⟨jg, by rw [ChangeInput0_eq jsgraph node input x op idata m hinput hx]; exact h1, h2⟩
  rw [Reduce_nonconst jsgraph node input data idata hnode hin hinput hnc]
  generalize hop : data.op.opcode = opc
  cases opc <;> simp only [] <;> first
    | exact Or.inl rfl
    | exact Or.inl trivial
    | (split_ifs <;> first
        | exact Or.inl rfl
        | exact Or.inl trivial
        | (refine Or.inr (Or.inl ⟨hrep _ _, fun v t hv ht => ?_⟩)
           rw [‹idata.op.opcode = _›] at ht
           exact Meaning.cancel_law _ _ v t (by decide) hv ht)
        | (obtain ⟨jg, e1, e2⟩ := hchg Double none MachineOperatorBuilder.ChangeInt32ToFloat64
           refine Or.inr (Or.inr ⟨jg, _, e1, e2, fun v t _ ht => ?_⟩)
           rw [‹idata.op.opcode = _›] at ht
           exact Meaning.change_law _ _ _ v t (by decide) ht)
        | (obtain ⟨jg, e1, e2⟩ := hchg Double none MachineOperatorBuilder.ChangeUint32ToFloat64
           refine Or.inr (Or.inr ⟨jg, _, e1, e2, fun v t _ ht => ?_⟩)
           rw [‹idata.op.opcode = _›] at ht
           exact Meaning.change_law _ _ _ v t (by decide) ht)
        | (obtain ⟨jg, e1, e2⟩ := hchg Double none MachineOperatorBuilder.ChangeFloat64ToInt32
           refine Or.inr (Or.inr ⟨jg, _, e1, e2, fun v t _ ht => ?_⟩)
           rw [‹idata.op.opcode = _›] at ht
           exact Meaning.change_law _ _ _ v t (by decide) ht)
        | (obtain ⟨jg, e1, e2⟩ := hchg Double none MachineOperatorBuilder.ChangeFloat64ToUint32
           refine Or.inr (Or.inr ⟨jg, _, e1, e2, fun v t _ ht => ?_⟩)
           rw [‹idata.op.opcode = _›] at ht
           exact Meaning.change_law _ _ _ v t (by decide) ht))

/-! # The claims about the operator mappings, the reducer and the constant cache -/

/-- Claim C11 as stated fails: `NumberMultiply` is one of the eight generic opcodes, yet
`Int32OperatorFor` and `Uint32OperatorFor` have no case for it and end in `UNREACHABLE()`; so
it is false that `Int32OperatorFor` maps every one of the eight to an operator. -/
theorem C11_integer_mappings_reject_multiply :
    IrOpcode.kNumberMultiply ∈ genericNumberOpcodes ∧
    Int32OperatorFor .kNumberMultiply = .error .unreachable ∧
    Uint32OperatorFor .kNumberMultiply = .error .unreachable ∧
    ¬ (∀ opcode, opcode ∈ genericNumberOpcodes → ∃ op, Int32OperatorFor opcode = .ok op) :=
  ⟨by decide, rfl, rfl, fun h => by
    obtain ⟨op, hop⟩ := h .kNumberMultiply (by decide)
    simp [Int32OperatorFor] at hop⟩

/-- Claim C11, amended. `Float64OperatorFor` maps each of the eight generic opcodes
`NumberAdd`, `NumberSubtract`, `NumberMultiply`, `NumberDivide`, `NumberModulus`, `NumberEqual`,
`NumberLessThan`, `NumberLessThanOrEqual` to a float64 machine operator and reaches the
unreachable-state fault for every other opcode. `Int32OperatorFor` and `Uint32OperatorFor` map
the five opcodes `NumberAdd`, `NumberSubtract`, `NumberEqual`, `NumberLessThan`,
`NumberLessThanOrEqual` to a word32 machine operator and reach the unreachable-state fault for
every other opcode, `NumberMultiply`, `NumberDivide` and `NumberModulus` included. The last
eighteen conjuncts are the three tables. -/
theorem C11_operator_mappings (opcode : IrOpcode) :
    (opcode ∈ genericNumberOpcodes → ∃ op, Float64OperatorFor opcode = .ok op) ∧
    (opcode ∉ genericNumberOpcodes → Float64OperatorFor opcode = .error .unreachable) ∧
    (opcode ∈ integerNumberOpcodes →
      (∃ op, Int32OperatorFor opcode = .ok op) ∧ ∃ op, Uint32OperatorFor opcode = .ok op) ∧
    (opcode ∉ integerNumberOpcodes →
      Int32OperatorFor opcode = .error .unreachable ∧
      Uint32OperatorFor opcode = .error .unreachable) ∧
    Float64OperatorFor .kNumberAdd = .ok MachineOperatorBuilder.Float64Add ∧
    Float64OperatorFor .kNumberSubtract = .ok MachineOperatorBuilder.Float64Sub ∧
    Float64OperatorFor .kNumberMultiply = .ok MachineOperatorBuilder.Float64Mul ∧
    Float64OperatorFor .kNumberDivide = .ok MachineOperatorBuilder.Float64Div ∧
    Float64OperatorFor .kNumberModulus = .ok MachineOperatorBuilder.Float64Mod ∧
    Float64OperatorFor .kNumberEqual = .ok MachineOperatorBuilder.Float64Equal ∧
    Float64OperatorFor .kNumberLessThan = .ok MachineOperatorBuilder.Float64LessThan ∧
    Float64OperatorFor .kNumberLessThanOrEqual =
      .ok MachineOperatorBuilder.Float64LessThanOrEqual ∧
    Int32OperatorFor .kNumberAdd = .ok MachineOperatorBuilder.Int32Add ∧
    Int32OperatorFor .kNumberSubtract = .ok MachineOperatorBuilder.Int32Sub ∧
    Int32OperatorFor .kNumberEqual = .ok MachineOperatorBuilder.Word32Equal ∧
    Int32OperatorFor .kNumberLessThan = .ok MachineOperatorBuilder.Int32LessThan ∧
    Int32OperatorFor .kNumberLessThanOrEqual =
      .ok MachineOperatorBuilder.Int32LessThanOrEqual ∧
    Uint32OperatorFor .kNumberAdd = .ok MachineOperatorBuilder.Int32Add ∧
    Uint32OperatorFor .kNumberSubtract = .ok MachineOperatorBuilder.Int32Sub ∧
    Uint32OperatorFor .kNumberEqual = .ok MachineOperatorBuilder.Word32Equal ∧
    Uint32OperatorFor .kNumberLessThan = .ok MachineOperatorBuilder.Uint32LessThan ∧
    Uint32OperatorFor .kNumberLessThanOrEqual =
      .ok MachineOperatorBuilder.Uint32LessThanOrEqual := by
  refine ⟨?_, ?_, ?_, ?_, rfl, rfl, rfl, rfl, rfl, rfl, rfl, rfl, rfl, rfl, rfl, rfl, rfl,
    rfl, rfl, rfl, rfl, rfl⟩
  · intro h
    simp only [genericNumberOpcodes, List.mem_cons, List.mem_singleton, List.not_mem_nil,
      or_false] at h
    rcases h with e | e | e | e | e | e | e | e <;> subst e <;> exact ⟨_, rfl⟩
  · intro h
    cases opcode <;> first | rfl | exact absurd (by decide) h
  · intro h
    simp only [integerNumberOpcodes, List.mem_cons, List.mem_singleton, List.not_mem_nil,
      or_false] at h
    rcases h with e | e | e | e | e <;> subst e <;> exact ⟨⟨_, rfl⟩, ⟨_, rfl⟩⟩
  · intro h
    cases opcode <;> first | exact ⟨rfl, rfl⟩ | exact absurd (by decide) h

/-- Claim C11 at `NumberModulus`, which only the float64 mapping handles, and at an opcode
outside the eight. -/
theorem C11_operator_mappings_witness :
    (∃ op, Float64OperatorFor .kNumberModulus = .ok op) ∧
    Int32OperatorFor .kNumberModulus = .error .unreachable ∧
    Uint32OperatorFor .kNumberModulus = .error .unreachable ∧
    Float64OperatorFor .kChangeBitToBool = .error .unreachable :=
  ⟨(C11_operator_mappings .kNumberModulus).1 (by decide),
   ((C11_operator_mappings .kNumberModulus).2.2.2.1 (by decide)).1,
   ((C11_operator_mappings .kNumberModulus).2.2.2.1 (by decide)).2,
   (C11_operator_mappings .kChangeBitToBool).2.1 (by decide)⟩

/-- Claim C12. Every rule of `Reduce` that fires preserves the value of the node under the
standard meaning of the conversions (`Meaning`). The first four conjuncts are the laws: for
every `int32_t` `x`, `ChangeTaggedToInt32 (ChangeInt32ToTagged x) = x`; for every `uint32_t`
`x`, `ChangeTaggedToUint32 (ChangeUint32ToTagged x) = x`; for a bit `b` in `{0, 1}`,
`ChangeBoolToBit (ChangeBitToBool b) = b`; for a boolean `t`,
`ChangeBitToBool (ChangeBoolToBit t) = t` and `BooleanNot (BooleanNot t) = t`. The fifth is
literal folding: when the input of one of the nine conversions is a constant with the value `v`
and the conversion computes `w` on `v`, `Reduce` returns `Replace` of a constant without inputs
whose value is `w` (up to the payload of a NaN). The sixth covers every other rule: when the
input is not a constant, `Reduce` returns `NoChange`, or `Replace` of the operand of the input
where the two conversions are inverse to each other, or `Changed` after giving the node a machine
operator that computes on the operand what the two conversions compute together. -/
theorem C12_reduce_preserves_meaning (jsgraph : JSGraph) (node input : Node)
    (data idata : NodeData) (hwf : jsgraph.WellFormed)
    (hnode : jsgraph.graph_.get? node = some data) (hin : data.inputs[0]? = some input)
    (hinput : jsgraph.graph_.get? input = some idata) :
    (∀ x : Int, -2147483648 ≤ x → x ≤ 2147483647 →
      Meaning.ChangeTaggedToInt32 (Meaning.ChangeInt32ToTagged x) = some x) ∧
    (∀ x : Nat, x ≤ 4294967295 →
      Meaning.ChangeTaggedToUint32 (Meaning.ChangeUint32ToTagged x) = some x) ∧
    (∀ b : Int, b = 0 ∨ b = 1 →
      (Meaning.ChangeBitToBool b).bind Meaning.ChangeBoolToBit = some b) ∧
    (∀ t : Bool,
      (Meaning.ChangeBoolToBit (.boolean t)).bind Meaning.ChangeBitToBool =
          some (.boolean t) ∧
        (Meaning.BooleanNot (.boolean t)).bind Meaning.BooleanNot = some (.boolean t)) ∧
    (∀ v w : Meaning.Value, data.op.opcode ∈ reducedOpcodes →
      Meaning.ofConstant idata.op = some v → Meaning.apply data.op.opcode v = some w →
      ∃ c jg cdata w1, Reduce jsgraph node = (.ok (.Replace c), jg) ∧
        jg.graph_.get? c = some cdata ∧ cdata.inputs = [] ∧
        Meaning.ofConstant cdata.op = some w1 ∧ w1.same w) ∧
    (∀ x : Node, idata.inputs[0]? = some x → ¬ IsFoldedConstant idata.op.opcode →
      Reduce jsgraph node = (.ok .NoChange, jsgraph) ∨
      (Reduce jsgraph node = (.ok (.Replace x), jsgraph) ∧
        ∀ v t : Meaning.Value, v.Valid → Meaning.apply idata.op.opcode v = some t →
          ∃ w, Meaning.apply data.op.opcode t = some w ∧ w.same v) ∨
      (∃ jg op, Reduce jsgraph node = (.ok (.Changed node), jg) ∧
        jg.graph_.get? node = some ⟨op, data.inputs.set 0 x⟩ ∧
        ∀ v t : Meaning.Value, v.Valid → Meaning.apply idata.op.opcode v = some t →
          ∃ w w1, Meaning.apply data.op.opcode t = some w ∧
            Meaning.apply op.opcode v = some w1 ∧ w1.same w)) := by
  refine ⟨?_, ?_, ?_, ?_, ?_, ?_⟩
  · intro x h1 h2
    simp only [Meaning.ChangeTaggedToInt32, Meaning.ChangeInt32ToTagged,
      DoubleToInt32_ofInt x h1 h2]
  · intro x hx
    simp only [Meaning.ChangeTaggedToUint32, Meaning.ChangeUint32ToTagged,
      DoubleToUint32_ofInt x hx]
  · intro b hb
    rcases hb with rfl | rfl <;> rfl
  · intro t
    cases t <;> exact ⟨rfl, rfl⟩
  · intro v w hmem hv hw
    exact Reduce_literal_preserves jsgraph node input data idata hwf hnode hin hinput v w
      hmem hv hw
  · intro x hx hnc
    exact Reduce_nonconst_preserves jsgraph node input x data idata hnode hin hinput hx hnc

/-- Claim C12 on `ChangeTaggedToInt32(NumberConstant[-3.0])`, folded to a constant of value
`-3`, and the first law at `-1`. -/
theorem C12_reduce_preserves_meaning_witness :
    (∃ c jg cdata w1, Reduce reducerJSGraph ⟨13⟩ = (.ok (.Replace c), jg) ∧
      jg.graph_.get? c = some cdata ∧ cdata.inputs = [] ∧
      Meaning.ofConstant cdata.op = some w1 ∧ w1.same (.word32 (-3))) ∧
    Meaning.ChangeTaggedToInt32 (Meaning.ChangeInt32ToTagged (-1)) = some (-1) :=
  ⟨(C12_reduce_preserves_meaning reducerJSGraph ⟨13⟩ ⟨12⟩
      ⟨SimplifiedOperatorBuilder.ChangeTaggedToInt32, [⟨12⟩]⟩
      ⟨CommonOperatorBuilder.NumberConstant minusThree, []⟩
      reducerJSGraph_wellFormed rfl rfl rfl).2.2.2.2.1
      (.tagged (.number minusThree)) (.word32 (-3)) (by decide) rfl rfl,
   (C12_reduce_preserves_meaning reducerJSGraph ⟨13⟩ ⟨12⟩
      ⟨SimplifiedOperatorBuilder.ChangeTaggedToInt32, [⟨12⟩]⟩
      ⟨CommonOperatorBuilder.NumberConstant minusThree, []⟩
      reducerJSGraph_wellFormed rfl rfl rfl).1 (-1) (by decide) (by decide)⟩

/-- Claim C13. For every node `x`, `Reduce` on a `ChangeBitToBool` node whose input is a
`ChangeBoolToBit` node with operand `x` returns `Replace(x)`, and `Reduce` on a
`ChangeBoolToBit` node whose input is a `ChangeBitToBool` node with operand `x` returns
`Replace(x)`: the replacement is the operand itself, and the graph and the cache after the call
are those before it (no node is created or changed). -/
theorem C13_bit_bool_round_trip_cancels (jsgraph : JSGraph) (node input x : Node)
    (data idata : NodeData)
    (hnode : jsgraph.graph_.get? node = some data) (hin : data.inputs[0]? = some input)
    (hinput : jsgraph.graph_.get? input = some idata) (hx : idata.inputs[0]? = some x) :
    (data.op.opcode = .kChangeBitToBool → idata.op.opcode = .kChangeBoolToBit →
      Reduce jsgraph node = (.ok (.Replace x), jsgraph)) ∧
    (data.op.opcode = .kChangeBoolToBit → idata.op.opcode = .kChangeBitToBool →
      Reduce jsgraph node = (.ok (.Replace x), jsgraph)) := by
  constructor <;> intro hop hiop <;>
    rw [Reduce_nonconst jsgraph node input data idata hnode hin hinput
      (notFolded_of_eq _ _ hiop (by decide))] <;>
    simp only [hop, hiop, if_true] <;>
    exact ReplaceInput0_eq jsgraph input x idata _ hinput hx

/-- Claim C13 on `ChangeBitToBool(ChangeBoolToBit(#1))` and on
`ChangeBoolToBit(ChangeBitToBool(#1))`. -/
theorem C13_bit_bool_round_trip_cancels_witness :
    Reduce reducerJSGraph ⟨3⟩ = (.ok (.Replace ⟨1⟩), reducerJSGraph) ∧
    Reduce reducerJSGraph ⟨5⟩ = (.ok (.Replace ⟨1⟩), reducerJSGraph) :=
  ⟨(C13_bit_bool_round_trip_cancels reducerJSGraph ⟨3⟩ ⟨2⟩ ⟨1⟩
      ⟨SimplifiedOperatorBuilder.ChangeBitToBool, [⟨2⟩]⟩
      ⟨SimplifiedOperatorBuilder.ChangeBoolToBit, [⟨1⟩]⟩ rfl rfl rfl rfl).1 rfl rfl,
   (C13_bit_bool_round_trip_cancels reducerJSGraph ⟨5⟩ ⟨4⟩ ⟨1⟩
      ⟨SimplifiedOperatorBuilder.ChangeBoolToBit, [⟨4⟩]⟩
      ⟨SimplifiedOperatorBuilder.ChangeBitToBool, [⟨1⟩]⟩ rfl rfl rfl rfl).2 rfl rfl⟩

/-- Claim C14. For every node `x`, `Reduce` on a `BooleanNot` node whose input is a
`BooleanNot` node with operand `x` returns `Replace(x)`, the operand itself, and leaves the
graph as it was. -/
theorem C14_double_negation_cancels (jsgraph : JSGraph) (node input x : Node)
    (data idata : NodeData)
    (hnode : jsgraph.graph_.get? node = some data) (hin : data.inputs[0]? = some input)
    (hinput : jsgraph.graph_.get? input = some idata) (hx : idata.inputs[0]? = some x)
    (hop : data.op.opcode = .kBooleanNot) (hiop : idata.op.opcode = .kBooleanNot) :
    Reduce jsgraph node = (.ok (.Replace x), jsgraph) := by
  rw [Reduce_nonconst jsgraph node input data idata hnode hin hinput
    (notFolded_of_eq _ _ hiop (by decide))]
  simp only [hop, hiop, if_true]
  exact ReplaceInput0_eq jsgraph input x idata _ hinput hx

/-- Claim C14 on `BooleanNot(BooleanNot(#1))`. -/
theorem C14_double_negation_cancels_witness :
    Reduce reducerJSGraph ⟨7⟩ = (.ok (.Replace ⟨1⟩), reducerJSGraph) :=
  C14_double_negation_cancels reducerJSGraph ⟨7⟩ ⟨6⟩ ⟨1⟩
    ⟨SimplifiedOperatorBuilder.BooleanNot, [⟨6⟩]⟩
    ⟨SimplifiedOperatorBuilder.BooleanNot, [⟨1⟩]⟩ rfl rfl rfl rfl rfl rfl

/-- Claim C15. `Reduce` is idempotent on its own results. When `Reduce` rewrites a node in
place, the result is `Changed` of that very node and a second `Reduce` on it, in the graph after
the rewrite, returns `NoChange`. On a constant node (`NumberConstant`, `Float64Constant`,
`Int32Constant`, or a `HeapConstant` such as the canonical `true` and `false`) `Reduce` returns
`NoChange`. On every node whose opcode is not one of the nine handled opcodes `Reduce` returns
`NoChange`; in both cases the graph after the call is the graph before it, so the operator and
the inputs of the node are unchanged. -/
theorem C15_reduce_is_idempotent (jsgraph : JSGraph) (node : Node) (data : NodeData)
    (hnode : jsgraph.graph_.get? node = some data) :
    (∀ n jg, Reduce jsgraph node = (.ok (.Changed n), jg) →
      n = node ∧ Reduce jg node = (.ok .NoChange, jg)) ∧
    (data.op.opcode ∈ [IrOpcode.kNumberConstant, IrOpcode.kFloat64Constant,
        IrOpcode.kInt32Constant, IrOpcode.kHeapConstant] →
      Reduce jsgraph node = (.ok .NoChange, jsgraph)) ∧
    (data.op.opcode ∉ reducedOpcodes → Reduce jsgraph node = (.ok .NoChange, jsgraph)) := by
  refine ⟨?_, ?_, Reduce_unhandled jsgraph node data hnode⟩
  · intro n jg h
    obtain ⟨op, a, hc, hop⟩ := Reduce_changed jsgraph jg node n h
    obtain ⟨hn, d, -, hget, -, -, -⟩ := Change_ok jsgraph jg node a op _ hc
    simp only [Reduction.Changed.injEq] at hn
    exact ⟨hn, Reduce_unhandled jg node _ hget hop⟩
  · intro hmem
    apply Reduce_unhandled jsgraph node data hnode
    simp only [List.mem_cons, List.mem_singleton, List.not_mem_nil, or_false] at hmem
    rcases hmem with e | e | e | e <;> rw [e] <;> decide

/-- Claim C15 on `ChangeTaggedToFloat64(ChangeInt32ToTagged(#8))`, which is rewritten in place
and then left alone, on the constant #8 and on the parameter #1. -/
theorem C15_reduce_is_idempotent_witness :
    Reduce reducerJSGraph ⟨11⟩ = (.ok (.Changed ⟨11⟩), (Reduce reducerJSGraph ⟨11⟩).2) ∧
    Reduce (Reduce reducerJSGraph ⟨11⟩).2 ⟨11⟩ =
      (.ok .NoChange, (Reduce reducerJSGraph ⟨11⟩).2) ∧
    Reduce reducerJSGraph ⟨8⟩ = (.ok .NoChange, reducerJSGraph) ∧
    Reduce reducerJSGraph ⟨1⟩ = (.ok .NoChange, reducerJSGraph) :=
  ⟨rfl,
   ((C15_reduce_is_idempotent reducerJSGraph ⟨11⟩
      ⟨SimplifiedOperatorBuilder.ChangeTaggedToFloat64, [⟨9⟩]⟩ rfl).1 ⟨11⟩ _ rfl).2,
   (C15_reduce_is_idempotent reducerJSGraph ⟨8⟩
      ⟨CommonOperatorBuilder.Int32Constant (-1), []⟩ rfl).2.1 (by decide),
   (C15_reduce_is_idempotent reducerJSGraph ⟨1⟩
      ⟨CommonOperatorBuilder.Parameter 0, [⟨0⟩]⟩ rfl).2.2 (by decide)⟩

/-- Claim C16. `Reduce` folds boolean literals to the canonical constant of the other form:
`BooleanNot` of the `false` constant is replaced by `TrueConstant()` and of the `true` constant
by `FalseConstant()`; `ChangeBitToBool` of `Int32Constant[0]` is replaced by `FalseConstant()`
and of `Int32Constant[1]` by `TrueConstant()`; `ChangeBoolToBit` of the `false` constant is
replaced by `Int32Constant(0)` and of the `true` constant by `Int32Constant(1)`. In each case
the replacement is the node the cache returns, a constant without inputs. On
`ChangeBitToBool` of `Int32Constant[v]` with `v` other than 0 and 1 no rule fires: the result
is `NoChange` and the graph is as before. -/
theorem C16_boolean_literal_folds (jsgraph : JSGraph) (node input : Node) (data idata : NodeData)
    (hwf : jsgraph.WellFormed)
    (hnode : jsgraph.graph_.get? node = some data) (hin : data.inputs[0]? = some input)
    (hinput : jsgraph.graph_.get? input = some idata) :
    (data.op.opcode = .kBooleanNot → idata.op.opcode = .kHeapConstant →
      idata.op.parameter = .heap .false_value →
      FoldsTo jsgraph node jsgraph.TrueConstant .kHeapConstant (.heap .true_value)) ∧
    (data.op.opcode = .kBooleanNot → idata.op.opcode = .kHeapConstant →
      idata.op.parameter = .heap .true_value →
      FoldsTo jsgraph node jsgraph.FalseConstant .kHeapConstant (.heap .false_value)) ∧
    (data.op.opcode = .kChangeBitToBool → idata.op.opcode = .kInt32Constant →
      idata.op.parameter = .int32 0 →
      FoldsTo jsgraph node jsgraph.FalseConstant .kHeapConstant (.heap .false_value)) ∧
    (data.op.opcode = .kChangeBitToBool → idata.op.opcode = .kInt32Constant →
      idata.op.parameter = .int32 1 →
      FoldsTo jsgraph node jsgraph.TrueConstant .kHeapConstant (.heap .true_value)) ∧
    (data.op.opcode = .kChangeBoolToBit → idata.op.opcode = .kHeapConstant →
      idata.op.parameter = .heap .false_value →
      FoldsTo jsgraph node (jsgraph.Int32Constant 0) .kInt32Constant (.int32 0)) ∧
    (data.op.opcode = .kChangeBoolToBit → idata.op.opcode = .kHeapConstant →
      idata.op.parameter = .heap .true_value →
      FoldsTo jsgraph node (jsgraph.Int32Constant 1) .kInt32Constant (.int32 1)) ∧
    (∀ v : Int, data.op.opcode = .kChangeBitToBool → idata.op.opcode = .kInt32Constant →
      idata.op.parameter = .int32 v → v ≠ 0 → v ≠ 1 →
      Reduce jsgraph node = (.ok .NoChange, jsgraph)) := by
  refine ⟨?_, ?_, ?_, ?_, ?_, ?_, ?_⟩
  · intro hop hiop hipar
    apply FoldsTo_of_Cached jsgraph node _ hwf rfl
    rw [(Reduce_heap_literal jsgraph node input data idata _ hnode hin hinput hiop hipar).1 hop]
    rfl
  · intro hop hiop hipar
    apply FoldsTo_of_Cached jsgraph node _ hwf rfl
    rw [(Reduce_heap_literal jsgraph node input data idata _ hnode hin hinput hiop hipar).1 hop]
    rfl
  · intro hop hiop hipar
    apply FoldsTo_of_Cached jsgraph node _ hwf rfl
    rw [(Reduce_int32_literal jsgraph node input data idata _ hnode hin hinput
      (HasValue_int32_Int32Constant _ hiop) (ValueOf_int32_Int32Constant _ _ hiop hipar)).1 hop]
    rfl
  · intro hop hiop hipar
    apply FoldsTo_of_Cached jsgraph node _ hwf rfl
    rw [(Reduce_int32_literal jsgraph node input data idata _ hnode hin hinput
      (HasValue_int32_Int32Constant _ hiop) (ValueOf_int32_Int32Constant _ _ hiop hipar)).1 hop]
    rfl
  · intro hop hiop hipar
    apply FoldsTo_of_Cached jsgraph node _ hwf rfl
    rw [(Reduce_heap_literal jsgraph node input data idata _ hnode hin hinput hiop hipar).2 hop]
    rfl
  · intro hop hiop hipar
    apply FoldsTo_of_Cached jsgraph node _ hwf rfl
    rw [(Reduce_heap_literal jsgraph node input data idata _ hnode hin hinput hiop hipar).2 hop]
    rfl
  · intro v hop hiop hipar h0 h1
    rw [(Reduce_int32_literal jsgraph node input data idata v hnode hin hinput
      (HasValue_int32_Int32Constant _ hiop) (ValueOf_int32_Int32Constant _ _ hiop hipar)).1 hop,
      if_neg h0, if_neg h1, if_neg (by rw [hiop]; decide)]

/-- Claim C16 on `BooleanNot(HeapConstant[false])`. -/
theorem C16_boolean_literal_folds_witness :
    FoldsTo reducerJSGraph ⟨16⟩ reducerJSGraph.TrueConstant .kHeapConstant (.heap .true_value) :=
  (C16_boolean_literal_folds reducerJSGraph ⟨16⟩ ⟨15⟩
    ⟨SimplifiedOperatorBuilder.BooleanNot, [⟨15⟩]⟩
    ⟨CommonOperatorBuilder.HeapConstant .false_value, []⟩
    reducerJSGraph_wellFormed rfl rfl rfl).1 rfl rfl rfl

/-- Claim C17. On a `ChangeFloat64ToTagged`, `ChangeInt32ToTagged` or `ChangeUint32ToTagged`
node whose input has a statically known value, `Reduce` returns `Replace` of the canonical
tagged numeric constant `jsgraph()->Constant(v)`, a `NumberConstant` without inputs and never a
conversion node, where `v` is the `double` value of the literal for `ChangeFloat64ToTagged`,
the `int32_t` value for `ChangeInt32ToTagged` and the `uint32_t` value for
`ChangeUint32ToTagged`; in the two integer cases the `double` of the constant denotes exactly
that integer. The last conjunct reads the values off an `Int32Constant[v]`: signed it is `v`,
unsigned it is `v` modulo `2^32` (so the bit pattern `0xFFFFFFFF` is `-1` signed and
`4294967295` unsigned). -/
theorem C17_numeric_literal_folds_to_tagged_constant (jsgraph : JSGraph) (node input : Node)
    (data idata : NodeData) (hwf : jsgraph.WellFormed)
    (hnode : jsgraph.graph_.get? node = some data) (hin : data.inputs[0]? = some input)
    (hinput : jsgraph.graph_.get? input = some idata) :
    (∀ d : Double, data.op.opcode = .kChangeFloat64ToTagged →
      HasValue_double idata.op = true → ValueOf_double idata.op = some d →
      FoldsTo jsgraph node (jsgraph.Constant d) .kNumberConstant
        (.float64 (canonicalDouble d))) ∧
    (∀ v : Int, data.op.opcode = .kChangeInt32ToTagged →
      HasValue_int32 idata.op = true → ValueOf_int32 idata.op = some v →
      -2147483648 ≤ v → v ≤ 2147483647 →
      FoldsTo jsgraph node (jsgraph.Constant (Double.ofInt v)) .kNumberConstant
        (.float64 (Double.ofInt v)) ∧
      (Double.ofInt v).toInt? = some v) ∧
    (∀ u : Nat, data.op.opcode = .kChangeUint32ToTagged →
      HasValue_uint32 idata.op = true → ValueOf_uint32 idata.op = some u →
      u ≤ 4294967295 →
      FoldsTo jsgraph node (jsgraph.Constant (Double.ofInt u)) .kNumberConstant
        (.float64 (Double.ofInt u)) ∧
      (Double.ofInt u).toInt? = some (u : Int)) ∧
    (∀ v : Int, idata.op.opcode = .kInt32Constant → idata.op.parameter = .int32 v →
      HasValue_int32 idata.op = true ∧ ValueOf_int32 idata.op = some v ∧
      HasValue_uint32 idata.op = true ∧
      ValueOf_uint32 idata.op = some (int32_to_uint32 v) ∧
      int32_to_uint32 v ≤ 4294967295) := by
  refine ⟨?_, ?_, ?_, ?_⟩
  · intro d hop hv hval
    apply FoldsTo_of_Cached jsgraph node _ hwf rfl
    rw [(Reduce_double_literal jsgraph node input data idata d hnode hin hinput hv hval).1 hop]
    rfl
  · intro v hop hv hval h1 h2
    have habs : v.natAbs < 9007199254740992 := by omega
    refine ⟨?_, Double.toInt?_ofInt v habs⟩
    have h : FoldsTo jsgraph node (jsgraph.Constant (Double.ofInt v)) .kNumberConstant
        (.float64 (canonicalDouble (Double.ofInt v))) :=
      FoldsTo_of_Cached jsgraph node
        (CommonOperatorBuilder.NumberConstant (canonicalDouble (Double.ofInt v))) hwf rfl
        (by rw [(Reduce_int32_literal jsgraph node input data idata v hnode hin hinput
              hv hval).2 hop]; rfl)
    rw [canonicalDouble_ofInt v habs] at h
    exact h
  · intro u hop hv hval hu
    have habs : (u : Int).natAbs < 9007199254740992 := by omega
    refine ⟨?_, Double.toInt?_ofInt u habs⟩
    have h : FoldsTo jsgraph node (jsgraph.Constant (Double.ofInt u)) .kNumberConstant
        (.float64 (canonicalDouble (Double.ofInt u))) :=
      FoldsTo_of_Cached jsgraph node
        (CommonOperatorBuilder.NumberConstant (canonicalDouble (Double.ofInt u))) hwf rfl
        (by rw [Reduce_uint32_literal jsgraph node input data idata u hnode hin hinput
              hv hval hop]; rfl)
    rw [canonicalDouble_ofInt u habs] at h
    exact h
  · intro v hiop hipar
    have hval := ValueOf_int32_Int32Constant idata.op v hiop hipar
    refine ⟨HasValue_int32_Int32Constant _ hiop, hval, HasValue_int32_Int32Constant _ hiop, ?_,
      by have := int32_to_uint32_lt v; omega⟩
    simp [ValueOf_uint32, hiop, hval]

/-- Claim C17 on `Int32Constant[-1]`: `ChangeInt32ToTagged` folds it to the constant `-1`
and `ChangeUint32ToTagged` to the constant `4294967295`. -/
theorem C17_numeric_literal_folds_to_tagged_constant_witness :
    (FoldsTo reducerJSGraph ⟨9⟩ (reducerJSGraph.Constant (Double.ofInt (-1))) .kNumberConstant
        (.float64 (Double.ofInt (-1))) ∧
      (Double.ofInt (-1)).toInt? = some (-1)) ∧
    (FoldsTo reducerJSGraph ⟨10⟩ (reducerJSGraph.Constant (Double.ofInt 4294967295))
        .kNumberConstant (.float64 (Double.ofInt 4294967295)) ∧
      (Double.ofInt 4294967295).toInt? = some 4294967295) :=
  ⟨(C17_numeric_literal_folds_to_tagged_constant reducerJSGraph ⟨9⟩ ⟨8⟩
      ⟨SimplifiedOperatorBuilder.ChangeInt32ToTagged, [⟨8⟩]⟩
      ⟨CommonOperatorBuilder.Int32Constant (-1), []⟩
      reducerJSGraph_wellFormed rfl rfl rfl).2.1 (-1) rfl rfl rfl (by decide) (by decide),
   (C17_numeric_literal_folds_to_tagged_constant reducerJSGraph ⟨10⟩ ⟨8⟩
      ⟨SimplifiedOperatorBuilder.ChangeUint32ToTagged, [⟨8⟩]⟩
      ⟨CommonOperatorBuilder.Int32Constant (-1), []⟩
      reducerJSGraph_wellFormed rfl rfl rfl).2.2.1 4294967295 rfl rfl rfl (by decide)⟩

/-- Claim C18. On a `ChangeTaggedToInt32` node whose input has the statically known numeric
value `d`, `Reduce` returns `Replace(Int32Constant(DoubleToInt32(d)))`; on a
`ChangeTaggedToUint32` node it returns `Replace` of the `Int32Constant` whose 32 bits, read as
unsigned, are `DoubleToUint32(d)`. Both are the modular truncations: when `d` denotes the
integer `n`, `DoubleToUint32(d)` is `n mod 2^32` and `DoubleToInt32(d)` is `n mod 2^32` read as
a signed 32-bit value. -/
theorem C18_tagged_literal_folds_to_word32 (jsgraph : JSGraph) (node input : Node)
    (data idata : NodeData) (d : Double) (hwf : jsgraph.WellFormed)
    (hnode : jsgraph.graph_.get? node = some data) (hin : data.inputs[0]? = some input)
    (hinput : jsgraph.graph_.get? input = some idata)
    (hv : HasValue_double idata.op = true) (hval : ValueOf_double idata.op = some d) :
    (data.op.opcode = .kChangeTaggedToInt32 →
      FoldsTo jsgraph node (jsgraph.Int32Constant (DoubleToInt32 d)) .kInt32Constant
        (.int32 (DoubleToInt32 d))) ∧
    (data.op.opcode = .kChangeTaggedToUint32 →
      FoldsTo jsgraph node (jsgraph.Int32Constant (uint32_to_int32 (DoubleToUint32 d)))
        .kInt32Constant (.int32 (uint32_to_int32 (DoubleToUint32 d)))) ∧
    int32_to_uint32 (uint32_to_int32 (DoubleToUint32 d)) = DoubleToUint32 d ∧
    (∀ n : Int, d.toInt? = some n →
      DoubleToUint32 d = (n % 4294967296).toNat ∧
      DoubleToInt32 d =
        if n % 4294967296 < 2147483648 then n % 4294967296
        else n % 4294967296 - 4294967296) := by
  refine ⟨?_, ?_, uint32_round_trip _ (DoubleToUint32_lt d), DoubleTo32_of_toInt? d⟩
  · intro hop
    apply FoldsTo_of_Cached jsgraph node _ hwf rfl
    rw [(Reduce_double_literal jsgraph node input data idata d hnode hin hinput
      hv hval).2.2.1 hop]
    rfl
  · intro hop
    apply FoldsTo_of_Cached jsgraph node _ hwf rfl
    rw [(Reduce_double_literal jsgraph node input data idata d hnode hin hinput
      hv hval).2.2.2 hop]
    rfl

/-- Claim C18 on `NumberConstant[-3.0]`: `ChangeTaggedToInt32` folds it to `Int32Constant[-3]`
and `ChangeTaggedToUint32` to the `Int32Constant` with the bits of `4294967293`. -/
theorem C18_tagged_literal_folds_to_word32_witness :
    FoldsTo reducerJSGraph ⟨13⟩ (reducerJSGraph.Int32Constant (-3)) .kInt32Constant
      (.int32 (-3)) ∧
    FoldsTo reducerJSGraph ⟨14⟩ (reducerJSGraph.Int32Constant (uint32_to_int32 4294967293))
      .kInt32Constant (.int32 (uint32_to_int32 4294967293)) :=
  ⟨(C18_tagged_literal_folds_to_word32 reducerJSGraph ⟨13⟩ ⟨12⟩
      ⟨SimplifiedOperatorBuilder.ChangeTaggedToInt32, [⟨12⟩]⟩
      ⟨CommonOperatorBuilder.NumberConstant minusThree, []⟩ minusThree
      reducerJSGraph_wellFormed rfl rfl rfl rfl rfl).1 rfl,
   (C18_tagged_literal_folds_to_word32 reducerJSGraph ⟨14⟩ ⟨12⟩
      ⟨SimplifiedOperatorBuilder.ChangeTaggedToUint32, [⟨12⟩]⟩
      ⟨CommonOperatorBuilder.NumberConstant minusThree, []⟩ minusThree
      reducerJSGraph_wellFormed rfl rfl rfl rfl rfl).2.1 rfl⟩

/-- Claim C19. `Reduce` cancels a conversion from tagged only against the matching producer:
on `ChangeTaggedToInt32(ChangeInt32ToTagged(x))`, `ChangeTaggedToUint32(ChangeUint32ToTagged(x))`
and `ChangeTaggedToFloat64(ChangeFloat64ToTagged(x))` it returns `Replace(x)`, the operand
itself, and leaves the graph as it was; on the pairs of different signedness,
`ChangeTaggedToInt32(ChangeUint32ToTagged(x))` and `ChangeTaggedToUint32(ChangeInt32ToTagged(x))`,
it returns `NoChange`. -/
theorem C19_cancels_matching_producer_only (jsgraph : JSGraph) (node input x : Node)
    (data idata : NodeData)
    (hnode : jsgraph.graph_.get? node = some data) (hin : data.inputs[0]? = some input)
    (hinput : jsgraph.graph_.get? input = some idata) (hx : idata.inputs[0]? = some x) :
    (data.op.opcode = .kChangeTaggedToInt32 → idata.op.opcode = .kChangeInt32ToTagged →
      Reduce jsgraph node = (.ok (.Replace x), jsgraph)) ∧
    (data.op.opcode = .kChangeTaggedToUint32 → idata.op.opcode = .kChangeUint32ToTagged →
      Reduce jsgraph node = (.ok (.Replace x), jsgraph)) ∧
    (data.op.opcode = .kChangeTaggedToFloat64 → idata.op.opcode = .kChangeFloat64ToTagged →
      Reduce jsgraph node = (.ok (.Replace x), jsgraph)) ∧
    (data.op.opcode = .kChangeTaggedToInt32 → idata.op.opcode = .kChangeUint32ToTagged →
      Reduce jsgraph node = (.ok .NoChange, jsgraph)) ∧
    (data.op.opcode = .kChangeTaggedToUint32 → idata.op.opcode = .kChangeInt32ToTagged →
      Reduce jsgraph node = (.ok .NoChange, jsgraph)) := by
  refine ⟨?_, ?_, ?_, ?_, ?_⟩ <;> intro hop hiop <;>
    rw [Reduce_nonconst jsgraph node input data idata hnode hin hinput
      (notFolded_of_eq _ _ hiop (by decide))] <;>
    simp only [hop, hiop, if_true, reduceCtorEq, if_false] <;>
    exact ReplaceInput0_eq jsgraph input x idata _ hinput hx

/-- Claim C19 on `ChangeTaggedToInt32(ChangeInt32ToTagged(#1))`, cancelled, and on
`ChangeTaggedToInt32(ChangeUint32ToTagged(#8))`, left alone. -/
theorem C19_cancels_matching_producer_only_witness :
    Reduce reducerJSGraph ⟨19⟩ = (.ok (.Replace ⟨1⟩), reducerJSGraph) ∧
    Reduce reducerJSGraph ⟨17⟩ = (.ok .NoChange, reducerJSGraph) :=
  ⟨(C19_cancels_matching_producer_only reducerJSGraph ⟨19⟩ ⟨18⟩ ⟨1⟩
      ⟨SimplifiedOperatorBuilder.ChangeTaggedToInt32, [⟨18⟩]⟩
      ⟨SimplifiedOperatorBuilder.ChangeInt32ToTagged, [⟨1⟩]⟩ rfl rfl rfl rfl).1 rfl rfl,
   (C19_cancels_matching_producer_only reducerJSGraph ⟨17⟩ ⟨10⟩ ⟨8⟩
      ⟨SimplifiedOperatorBuilder.ChangeTaggedToInt32, [⟨10⟩]⟩
      ⟨SimplifiedOperatorBuilder.ChangeUint32ToTagged, [⟨8⟩]⟩ rfl rfl rfl rfl).2.2.2.1 rfl rfl⟩

/-- Claim C20 as stated fails in the cache the specification describes, where NaN is
normalized to a single representative: the requests `Constant(NaN)` for two NaNs with different
bit patterns (which `Equals` tells apart) return the same node. -/
theorem C20_nan_payloads_share_one_node :
    ∃ n jg, reducerJSGraph.Constant Double.nan = some (n, jg) ∧
      jg.Constant ⟨true, 2047, 1⟩ = some (n, jg) ∧
      Double.nan.bits ≠ (⟨true, 2047, 1⟩ : Double).bits ∧
      Equals_double Double.nan ⟨true, 2047, 1⟩ = false :=
  ⟨_, _, rfl, rfl, by decide, by decide⟩

/-- Claim C20, amended. `CommonOperatorTraits<double>::Equals(a, b)` holds exactly when the
64-bit patterns of `a` and `b` are equal, so it is reflexive even on NaN and separates `+0.0`
from `-0.0`. In a well-formed cache, for every `double` `d` the request `Constant(d)` succeeds
and a repeated request returns the identical node and changes nothing; two requests
`Constant(a)` and `Constant(b)` return the same node exactly when `a` and `b` have the same bit
pattern or are both NaN; `Constant(0)` and `Constant(-0.0)` are two distinct nodes; and the ten
constants undefined, hole, true, false, null, zero, one, NaN, 21 and 22.2, requested one after
the other, are pairwise distinct nodes. -/
theorem C20_constant_cache_is_canonical (jsgraph : JSGraph) (hwf : jsgraph.WellFormed) :
    (∀ a b : Double, Equals_double a b = true ↔ a.bits = b.bits) ∧
    (∀ d : Double, Equals_double d d = true) ∧
    Equals_double ⟨false, 0, 0⟩ ⟨true, 0, 0⟩ = false ∧
    (∀ d : Double, ∃ n jg, jsgraph.Constant d = some (n, jg) ∧ jg.WellFormed ∧
      jg.Constant d = some (n, jg)) ∧
    (∀ (a b : Double) (n m : Node) (jg jg2 : JSGraph),
      jsgraph.Constant a = some (n, jg) → jg.Constant b = some (m, jg2) →
      (n = m ↔ a.bits = b.bits ∨ (a.isNaN = true ∧ b.isNaN = true))) ∧
    (∀ (n m : Node) (jg jg2 : JSGraph),
      jsgraph.Constant ⟨false, 0, 0⟩ = some (n, jg) →
      jg.Constant ⟨true, 0, 0⟩ = some (m, jg2) → n ≠ m) ∧
    (∃ (n0 n1 n2 n3 n4 n5 n6 n7 n8 n9 : Node) (jg0 jg1 jg2 jg3 jg4 jg5 jg6 jg7 jg8 jg9 : JSGraph),
      jsgraph.UndefinedConstant = some (n0, jg0) ∧ jg0.TheHoleConstant = some (n1, jg1) ∧
      jg1.TrueConstant = some (n2, jg2) ∧ jg2.FalseConstant = some (n3, jg3) ∧
      jg3.NullConstant = some (n4, jg4) ∧ jg4.ZeroConstant = some (n5, jg5) ∧
      jg5.OneConstant = some (n6, jg6) ∧ jg6.NaNConstant = some (n7, jg7) ∧
      jg7.Constant_int32 21 = some (n8, jg8) ∧
      jg8.Constant twentyTwoPointTwo = some (n9, jg9) ∧
      [n0, n1, n2, n3, n4, n5, n6, n7, n8, n9].Nodup) := by
  have hiff : ∀ (a b : Double) (n m : Node) (jg jg2 : JSGraph),
      jsgraph.Constant a = some (n, jg) → jg.Constant b = some (m, jg2) →
      (n = m ↔ a.bits = b.bits ∨ (a.isNaN = true ∧ b.isNaN = true)) := by
    intro a b n m jg jg2 h1 h2
    rw [JSGraph.Cached_inj jsgraph jg jg2 _ _ n m hwf rfl rfl h1 h2, ← canonicalDouble_eq_iff]
    simp [CommonOperatorBuilder.NumberConstant]
  refine ⟨?_, ?_, by decide, ?_, hiff, ?_, ?_⟩
  · intro a b
    simp [Equals_double]
  · intro d
    simp [Equals_double]
  · intro d
    obtain ⟨n, jg, h, hwf1, -, -⟩ := JSGraph.Cached_spec jsgraph
      (CommonOperatorBuilder.NumberConstant (canonicalDouble d)) hwf rfl
    exact ⟨n, jg, h, hwf1, JSGraph.Cached_again jsgraph jg _ n h⟩
  · intro n m jg jg2 h1 h2 e
    have := (hiff _ _ n m jg jg2 h1 h2).1 e
    revert this
    decide
  · obtain ⟨n0, jg0, e0, w0, k0, p0⟩ := JSGraph.Cached_keyAt jsgraph
      (CommonOperatorBuilder.HeapConstant .undefined_value) hwf rfl
    obtain ⟨n1, jg1, e1, w1, k1, p1⟩ := JSGraph.Cached_keyAt jg0
      (CommonOperatorBuilder.HeapConstant .the_hole_value) w0 rfl
    obtain ⟨n2, jg2, e2, w2, k2, p2⟩ := JSGraph.Cached_keyAt jg1
      (CommonOperatorBuilder.HeapConstant .true_value) w1 rfl
    obtain ⟨n3, jg3, e3, w3, k3, p3⟩ := JSGraph.Cached_keyAt jg2
      (CommonOperatorBuilder.HeapConstant .false_value) w2 rfl
    obtain ⟨n4, jg4, e4, w4, k4, p4⟩ := JSGraph.Cached_keyAt jg3
      (CommonOperatorBuilder.HeapConstant .null_value) w3 rfl
    obtain ⟨n5, jg5, e5, w5, k5, p5⟩ := JSGraph.Cached_keyAt jg4
      (CommonOperatorBuilder.NumberConstant (canonicalDouble ⟨false, 0, 0⟩)) w4 rfl
    obtain ⟨n6, jg6, e6, w6, k6, p6⟩ := JSGraph.Cached_keyAt jg5
      (CommonOperatorBuilder.NumberConstant (canonicalDouble ⟨false, 1023, 0⟩)) w5 rfl
    obtain ⟨n7, jg7, e7, w7, k7, p7⟩ := JSGraph.Cached_keyAt jg6
      (CommonOperatorBuilder.NumberConstant (canonicalDouble Double.nan)) w6 rfl
    obtain ⟨n8, jg8, e8, w8, k8, p8⟩ := JSGraph.Cached_keyAt jg7
      (CommonOperatorBuilder.NumberConstant (canonicalDouble (Double.ofInt 21))) w7 rfl
    obtain ⟨n9, jg9, e9, -, k9, p9⟩ := JSGraph.Cached_keyAt jg8
      (CommonOperatorBuilder.NumberConstant (canonicalDouble twentyTwoPointTwo)) w8 rfl
    refine ⟨n0, n1, n2, n3, n4, n5, n6, n7, n8, n9, jg0, jg1, jg2, jg3, jg4, jg5, jg6, jg7, jg8,
      jg9, e0, e1, e2, e3, e4, e5, e6, e7, e8, e9, ?_⟩
    apply List.Nodup.of_map jg9.keyAt
    have q8 := p9 _ _ k8
    have q7 := p9 _ _ (p8 _ _ k7)
    have q6 := p9 _ _ (p8 _ _ (p7 _ _ k6))
    have q5 := p9 _ _ (p8 _ _ (p7 _ _ (p6 _ _ k5)))
    have q4 := p9 _ _ (p8 _ _ (p7 _ _ (p6 _ _ (p5 _ _ k4))))
    have q3 := p9 _ _ (p8 _ _ (p7 _ _ (p6 _ _ (p5 _ _ (p4 _ _ k3)))))
    have q2 := p9 _ _ (p8 _ _ (p7 _ _ (p6 _ _ (p5 _ _ (p4 _ _ (p3 _ _ k2))))))
    have q1 := p9 _ _ (p8 _ _ (p7 _ _ (p6 _ _ (p5 _ _ (p4 _ _ (p3 _ _ (p2 _ _ k1)))))))
    have q0 := p9 _ _ (p8 _ _ (p7 _ _ (p6 _ _ (p5 _ _ (p4 _ _ (p3 _ _ (p2 _ _ (p1 _ _ k0))))))))
    simp only [List.map, q0, q1, q2, q3, q4, q5, q6, q7, q8, k9]
    decide

/-- Claim C20 in the cache of `reducerJSGraph`: `Constant(-3.0)` twice is one node, and the
nodes of `Constant(0)` and `Constant(-0.0)`, #22 and #23, differ. -/
theorem C20_constant_cache_is_canonical_witness :
    reducerJSGraph.WellFormed ∧
    (∃ n jg, reducerJSGraph.Constant minusThree = some (n, jg) ∧ jg.WellFormed ∧
      jg.Constant minusThree = some (n, jg)) ∧
    (∃ jg jg2, reducerJSGraph.Constant ⟨false, 0, 0⟩ = some (⟨22⟩, jg) ∧
      jg.Constant ⟨true, 0, 0⟩ = some (⟨23⟩, jg2)) ∧
    (⟨22⟩ : Node) ≠ ⟨23⟩ :=
  ⟨reducerJSGraph_wellFormed,
   (C20_constant_cache_is_canonical reducerJSGraph reducerJSGraph_wellFormed).2.2.2.1 minusThree,
   ⟨_, _, rfl, rfl⟩,
   (C20_constant_cache_is_canonical reducerJSGraph reducerJSGraph_wellFormed).2.2.2.2.2.1
     ⟨22⟩ ⟨23⟩ _ _ rfl rfl⟩

/-! # The claims about machine types, signatures, operators and node properties -/

section

open NodeProperties

/-- An `int` addition whose exact sum is an `int` gives that sum. -/
theorem int_add_exact (a b : Int) (h1 : -2147483648 ≤ a + b) (h2 : a + b ≤ 2147483647) :
    int_add a b = a + b :=
  int32_round_trip (a + b) h1 h2

/-- With counts in range every index function is the exact sum of the counts before it. -/
theorem NodeProperties.index_sums (P : OperatorProperties) (node : NodeData)
    (h : CountsInRange P node) :
    PastValueIndex P node = P.GetValueInputCount node.op ∧
    PastContextIndex P node = P.GetValueInputCount node.op + P.GetContextInputCount node.op ∧
    PastFrameStateIndex P node =
      P.GetValueInputCount node.op + P.GetContextInputCount node.op +
        P.GetFrameStateInputCount node.op ∧
    PastEffectIndex P node =
      P.GetValueInputCount node.op + P.GetContextInputCount node.op +
        P.GetFrameStateInputCount node.op + P.GetEffectInputCount node.op ∧
    PastControlIndex P node =
      P.GetValueInputCount node.op + P.GetContextInputCount node.op +
        P.GetFrameStateInputCount node.op + P.GetEffectInputCount node.op +
        P.GetControlInputCount node.op := by
  obtain ⟨h1, h2, h3, h4, h5, h6⟩ := h
  have e1 : PastValueIndex P node = P.GetValueInputCount node.op := by
    unfold PastValueIndex FirstValueIndex
    rw [int_add_exact _ _ (by omega) (by omega), Int.zero_add]
  have e2 : PastContextIndex P node =
      P.GetValueInputCount node.op + P.GetContextInputCount node.op := by
    unfold PastContextIndex FirstContextIndex
    rw [e1, int_add_exact _ _ (by omega) (by omega)]
  have e3 : PastFrameStateIndex P node =
      P.GetValueInputCount node.op + P.GetContextInputCount node.op +
        P.GetFrameStateInputCount node.op := by
    unfold PastFrameStateIndex FirstFrameStateIndex
    rw [e2, int_add_exact _ _ (by omega) (by omega)]
  have e4 : PastEffectIndex P node =
      P.GetValueInputCount node.op + P.GetContextInputCount node.op +
        P.GetFrameStateInputCount node.op + P.GetEffectInputCount node.op := by
    unfold PastEffectIndex FirstEffectIndex
    rw [e3, int_add_exact _ _ (by omega) (by omega)]
  have e5 : PastControlIndex P node =
      P.GetValueInputCount node.op + P.GetContextInputCount node.op +
        P.GetFrameStateInputCount node.op + P.GetEffectInputCount node.op +
        P.GetControlInputCount node.op := by
    unfold PastControlIndex FirstControlIndex
    rw [e4, int_add_exact _ _ (by omega) (by omega)]
  exact ⟨e1, e2, e3, e4, e5⟩

/-- Within the range of `int` the test of `IsInputRange` is the test of the zone. -/
theorem NodeProperties.IsInputRange_iff (edge : Edge) (first num : Int)
    (h1 : -2147483648 ≤ first + num) (h2 : first + num ≤ 2147483647) :
    IsInputRange edge first num = true ↔
      first ≤ (edge.index : Int) ∧ (edge.index : Int) < first + num := by
  unfold IsInputRange
  rw [int_add_exact first num h1 h2]
  by_cases h : num = 0
  · simp only [h, if_true, Bool.false_eq_true, Int.add_zero, false_iff, not_and, not_lt]
    exact fun h => h
  · simp only [h, if_false, Bool.and_eq_true, decide_eq_true_eq]

end

section

open RepresentationChanger

theorem RepresentationOf_ok (t : MachineTypeUnion) (h : HasOneRepresentation t) :
    RepresentationOf t = .ok (t &&& kRepMask) := by
  unfold RepresentationOf
  simp only [(isPowerOfTwo32_rep t).2 h, if_true]

theorem RepresentationOf_error (t : MachineTypeUnion) (h : ¬ HasOneRepresentation t) :
    RepresentationOf t = .error .assertion_failed := by
  unfold RepresentationOf
  have : base.bits.IsPowerOfTwo32 (t &&& kRepMask) = false := by
    cases hb : base.bits.IsPowerOfTwo32 (t &&& kRepMask)
    · rfl
    · exact absurd ((isPowerOfTwo32_rep t).1 hb) h
  simp only [this, Bool.false_eq_true, if_false]

theorem rep_or_type (t : MachineTypeUnion) (ht : t < 32768) :
    (t &&& kRepMask) ||| (t &&& kTypeMask) = t := by
  rw [← Nat.and_or_distrib_left]
  have h : (kRepMask ||| kTypeMask : Nat) = 2 ^ 15 - 1 := by decide
  rw [h, Nat.and_pow_two_sub_one_eq_mod]
  exact Nat.mod_eq_of_lt ht

/-- Claim C28. `RepresentationOf(t)` succeeds exactly when `t` has exactly one of the
eight representation bits set, and then returns that bit, `t & kRepMask`; otherwise its
check fails. `TypeOf(t)` is total and returns `t & kTypeMask`. The two masks are disjoint
and together are the bits 0 to 14, so for a `t` within these bits with one representation
bit, `RepresentationOf(t) | TypeOf(t) == t`. -/
theorem C28_representation_and_type_split (t : MachineTypeUnion) :
    ((∃ r, RepresentationOf t = .ok r) ↔ HasOneRepresentation t) ∧
    (HasOneRepresentation t → RepresentationOf t = .ok (t &&& kRepMask)) ∧
    (¬ HasOneRepresentation t → RepresentationOf t = .error .assertion_failed) ∧
    TypeOf t = t &&& kTypeMask ∧
    kRepMask &&& kTypeMask = 0 ∧ kRepMask ||| kTypeMask = 2 ^ 15 - 1 ∧
    (t < 2 ^ 15 → HasOneRepresentation t →
      ∃ r, RepresentationOf t = .ok r ∧ r ||| TypeOf t = t) := by
  refine ⟨⟨fun ⟨r, hr⟩ => ?_, fun h => ⟨_, RepresentationOf_ok t h⟩⟩, RepresentationOf_ok t,
    RepresentationOf_error t, rfl, by decide, by decide, fun ht h => ?_⟩
  · by_contra hn
    rw [RepresentationOf_error t hn] at hr
    cases hr
  · exact ⟨_, RepresentationOf_ok t h, rep_or_type t ht⟩

theorem C28_representation_and_type_split_witness :
    ∃ r, RepresentationOf (kRepWord32 ||| kTypeInt32) = .ok r ∧
      r ||| TypeOf (kRepWord32 ||| kTypeInt32) = kRepWord32 ||| kTypeInt32 :=
  (C28_representation_and_type_split (kRepWord32 ||| kTypeInt32)).2.2.2.2.2.2
    (by decide) (by decide)

theorem ElementSizeOf_ok (kPointerSize : Int) (t : MachineTypeUnion)
    (h : HasOneRepresentation t) :
    ElementSizeOf kPointerSize t =
      if t &&& kRepMask = kRepBit ∨ t &&& kRepMask = kRepWord8 then .ok 1
      else if t &&& kRepMask = kRepWord16 then .ok 2
      else if t &&& kRepMask = kRepWord32 ∨ t &&& kRepMask = kRepFloat32 then .ok 4
      else if t &&& kRepMask = kRepWord64 ∨ t &&& kRepMask = kRepFloat64 then .ok 8
      else .ok kPointerSize := by
  unfold ElementSizeOf
  rw [RepresentationOf_ok t h]
  unfold HasOneRepresentation at h
  simp only [List.mem_cons, List.mem_singleton, List.not_mem_nil, or_false] at h
  rcases h with h | h | h | h | h | h | h | h <;> rw [h] <;> rfl

/-- Claim C29. For a machine type with exactly one representation bit, `ElementSizeOf`
returns 1 for bit and word8, 2 for word16, 4 for word32 and float32, 8 for word64 and
float64 and the pointer size for tagged; the result depends on the representation bits
only, the unreachable branch is not taken, and `ElementSizeOf(kMachPtr)` is the pointer
size for the pointer sizes 4 and 8. Without exactly one representation bit the check of
`RepresentationOf` fails first. -/
theorem C29_element_size (kPointerSize : Int) (t : MachineTypeUnion) :
    (t &&& kRepMask = kRepBit → ElementSizeOf kPointerSize t = .ok 1) ∧
    (t &&& kRepMask = kRepWord8 → ElementSizeOf kPointerSize t = .ok 1) ∧
    (t &&& kRepMask = kRepWord16 → ElementSizeOf kPointerSize t = .ok 2) ∧
    (t &&& kRepMask = kRepWord32 → ElementSizeOf kPointerSize t = .ok 4) ∧
    (t &&& kRepMask = kRepFloat32 → ElementSizeOf kPointerSize t = .ok 4) ∧
    (t &&& kRepMask = kRepWord64 → ElementSizeOf kPointerSize t = .ok 8) ∧
    (t &&& kRepMask = kRepFloat64 → ElementSizeOf kPointerSize t = .ok 8) ∧
    (t &&& kRepMask = kRepTagged → ElementSizeOf kPointerSize t = .ok kPointerSize) ∧
    (∀ t1, t1 &&& kRepMask = t &&& kRepMask →
      ElementSizeOf kPointerSize t1 = ElementSizeOf kPointerSize t) ∧
    ((∃ r, RepresentationOf t = .ok r) → ElementSizeOf kPointerSize t ≠ .error .unreachable) ∧
    ElementSizeOf kPointerSize t ≠ .error .unreachable ∧
    (¬ HasOneRepresentation t → ElementSizeOf kPointerSize t = .error .assertion_failed) ∧
    ElementSizeOf 4 (kMachPtr 4) = .ok 4 ∧ ElementSizeOf 8 (kMachPtr 8) = .ok 8 := by
  have key : ∀ r, t &&& kRepMask = r → HasOneRepresentation t →
      ElementSizeOf kPointerSize t =
        if r = kRepBit ∨ r = kRepWord8 then .ok 1
        else if r = kRepWord16 then .ok 2
        else if r = kRepWord32 ∨ r = kRepFloat32 then .ok 4
        else if r = kRepWord64 ∨ r = kRepFloat64 then .ok 8
        else .ok kPointerSize := fun r hr h => by
    rw [ElementSizeOf_ok kPointerSize t h, hr]
  have one : ∀ r, r ∈ [kRepBit, kRepWord8, kRepWord16, kRepWord32, kRepWord64, kRepFloat32,
      kRepFloat64, kRepTagged] → t &&& kRepMask = r → HasOneRepresentation t :=
    fun r hr e => by unfold HasOneRepresentation; rw [e]; exact hr
  have bad : ¬ HasOneRepresentation t →
      ElementSizeOf kPointerSize t = .error .assertion_failed := fun h => by
    unfold ElementSizeOf
    rw [RepresentationOf_error t h]
  have nounreach : ElementSizeOf kPointerSize t ≠ .error .unreachable := by
    by_cases h : HasOneRepresentation t
    · rw [ElementSizeOf_ok kPointerSize t h]
      split_ifs <;> simp
    · rw [bad h]; simp
  refine ⟨?_, ?_, ?_, ?_, ?_, ?_, ?_, ?_, ?_, fun _ => nounreach, nounreach, bad, rfl, rfl⟩
  · intro e; rw [key _ e (one _ (by decide) e)]; rfl
  · intro e; rw [key _ e (one _ (by decide) e)]; rfl
  · intro e; rw [key _ e (one _ (by decide) e)]; rfl
  · intro e; rw [key _ e (one _ (by decide) e)]; rfl
  · intro e; rw [key _ e (one _ (by decide) e)]; rfl
  · intro e; rw [key _ e (one _ (by decide) e)]; rfl
  · intro e; rw [key _ e (one _ (by decide) e)]; rfl
  · intro e; rw [key _ e (one _ (by decide) e)]; rfl
  · intro t1 e
    unfold ElementSizeOf RepresentationOf
    simp only [e]

theorem C29_element_size_witness :
    ElementSizeOf 8 (kRepTagged ||| kTypeAny) = .ok 8 :=
  (C29_element_size 8 (kRepTagged ||| kTypeAny)).2.2.2.2.2.2.2.1 (by decide)

end

section

theorem static_cast_int_small (v : Nat) (h : v < 2147483648) : static_cast_int v = v := by
  unfold static_cast_int uint32_to_int32
  have : v % 4294967296 = v := Nat.mod_eq_of_lt (by omega)
  rw [this, if_pos h]

/-- Claim C34 as stated fails. For a descriptor with 2^31 inputs the operator built by
`Call` declares the input count -2^31, the `int` that the `size_t` sum is cast to. And for
`n = 2147483647`, the largest `int`, the sum `n + 3` that `Start` computes in `int`
overflows (undefined in C++; wrapped to -2147483646 in the embedding), so the operator
does not declare `n + 3` outputs. -/
theorem C34_call_input_count_wraps :
    (CommonOperatorBuilder.Call ⟨.kNoProperties, 2147483648, 0, 1⟩).input_count =
      -2147483648 ∧
    (CommonOperatorBuilder.Call ⟨.kNoProperties, 2147483648, 0, 1⟩).input_count ≠
      ((CallDescriptor.InputCount ⟨.kNoProperties, 2147483648, 0, 1⟩ +
        CallDescriptor.FrameStateCount ⟨.kNoProperties, 2147483648, 0, 1⟩ : Nat) : Int) ∧
    (CommonOperatorBuilder.Start 2147483647).output_count = -2147483646 ∧
    (CommonOperatorBuilder.Start 2147483647).output_count ≠ 2147483647 + 3 := by
  refine ⟨by decide, by decide, by decide, by decide⟩

/-- Claim C34, amended. For every call descriptor whose input count plus frame-state count
and whose return count are below 2^31 (they are `size_t` and the operator stores `int`),
the operator built by `Call` has opcode `kCall`, declared input count equal to the input
count plus the frame-state count of the descriptor, declared output count equal to its
return count, its properties, and the descriptor itself as parameter; for every `int` `n`
with `n + 3` at most 2147483647, `Start(n)` declares `n + 3` outputs; for every `n` it
declares no value inputs and no control inputs. -/
theorem C34_call_and_start_arity (d : CallDescriptor) (n : Int)
    (hin : d.InputCount + d.FrameStateCount < 2 ^ 31) (hout : d.ReturnCount < 2 ^ 31) :
    (CommonOperatorBuilder.Call d).opcode = .kCall ∧
    (CommonOperatorBuilder.Call d).input_count = ((d.InputCount + d.FrameStateCount : Nat) : Int) ∧
    (CommonOperatorBuilder.Call d).output_count = (d.ReturnCount : Int) ∧
    (CommonOperatorBuilder.Call d).properties = d.properties ∧
    (CommonOperatorBuilder.Call d).parameter = .descriptor d ∧
    (CommonOperatorBuilder.Start n).opcode = .kStart ∧
    (-2147483648 ≤ n → n + 3 ≤ 2147483647 →
      (CommonOperatorBuilder.Start n).output_count = n + 3) ∧
    (CommonOperatorBuilder.Start n).input_count = 0 ∧
    (CommonOperatorBuilder.Start n).parameter = .int 0 := by
  have h1 : (d.InputCount + d.FrameStateCount) % kSizeTRange =
      d.InputCount + d.FrameStateCount := Nat.mod_eq_of_lt (by unfold kSizeTRange; omega)
  refine ⟨rfl, ?_, ?_, rfl, rfl, rfl, ?_, rfl, rfl⟩
  · show static_cast_int ((d.InputCount + d.FrameStateCount) % kSizeTRange) = _
    rw [h1, static_cast_int_small _ hin]
  · show static_cast_int d.ReturnCount = _
    rw [static_cast_int_small _ hout]
  · intro hn hn3
    show int_add n 3 = n + 3
    exact int_add_exact n 3 (by omega) hn3

theorem C34_call_and_start_arity_witness :
    (CommonOperatorBuilder.Call ⟨.kNoProperties, 3, 1, 1⟩).input_count = ((3 + 1 : Nat) : Int) ∧
    (CommonOperatorBuilder.Call ⟨.kNoProperties, 3, 1, 1⟩).output_count = ((1 : Nat) : Int) ∧
    (CommonOperatorBuilder.Start 2).output_count = 2 + 3 :=
  ⟨(C34_call_and_start_arity ⟨.kNoProperties, 3, 1, 1⟩ 2 (by decide) (by decide)).2.1,
    (C34_call_and_start_arity ⟨.kNoProperties, 3, 1, 1⟩ 2 (by decide) (by decide)).2.2.1,
    (C34_call_and_start_arity ⟨.kNoProperties, 3, 1, 1⟩ 2 (by decide)
      (by decide)).2.2.2.2.2.2.1 (by decide) (by decide)⟩

namespace Signature
namespace Builder

theorem new_holds (T : Type) (N M : Nat) (h : N + M < 2 ^ 31) :
    ∃ b, Builder.new T N M = some b ∧ Holds N M [] [] b := by
  have h1 : (N + M) % kSizeTRange = N + M := Nat.mod_eq_of_lt (by unfold kSizeTRange; omega)
  refine ⟨⟨N, M, 0, 0, List.replicate (N + M) none⟩, ?_, Nat.zero_le _, Nat.zero_le _, rfl, rfl, rfl, rfl, by simp,
    fun i hi => by simp at hi, fun j hj => by simp at hj⟩
  unfold Builder.new Zone.NewArray
  rw [h1, static_cast_int_small _ h, if_pos (Int.natCast_nonneg _)]
  simp only [Int.toNat_ofNat, Option.map_some']

theorem AddReturn_holds {T : Type} (N M : Nat) (rs ps : List T) (b : Builder T) (v : T)
    (hb : Holds N M rs ps b) (hlt : rs.length < N) :
    ∃ b1, b.AddReturn v = .ok b1 ∧ Holds N M (rs ++ [v]) ps b1 := by
  obtain ⟨k1, k2, h1, h2, h3, h4, h5, h6, h7⟩ := hb
  have hw : b.write b.rcursor_ v = .ok (b.buffer_.set rs.length (some v)) := by
    unfold Builder.write
    rw [h3, if_pos (by omega)]
  refine ⟨{ b with rcursor_ := b.rcursor_ + 1, buffer_ := b.buffer_.set rs.length (some v) },
    by unfold Builder.AddReturn; rw [if_pos (by omega), hw],
    by simp; omega, k2, h1, h2, ?_, h4, ?_, ?_, ?_⟩
  · simp [h3]
  · simp [h5]
  · intro i hi
    simp only [List.length_append, List.length_singleton] at hi
    by_cases e : i = rs.length
    · subst e
      simp [List.getElem?_set_self (show rs.length < b.buffer_.length by omega)]
    · have hi2 : i < rs.length := by omega
      simp only [List.getElem?_set_ne (Ne.symm e), h6 i hi2, List.getElem?_append_left hi2]
  · intro j hj
    have : rs.length ≠ N + j := by omega
    simp only [List.getElem?_set_ne this, h7 j hj]

theorem AddParam_holds {T : Type} (N M : Nat) (rs ps : List T) (b : Builder T) (v : T)
    (hb : Holds N M rs ps b) (hlt : ps.length < M) (hNM : N + M < 2 ^ 31) :
    ∃ b1, b.AddParam v = .ok b1 ∧ Holds N M rs (ps ++ [v]) b1 := by
  obtain ⟨k1, k2, h1, h2, h3, h4, h5, h6, h7⟩ := hb
  have hm : (b.return_count_ + b.pcursor_) % kSizeTRange = N + ps.length := by
    rw [h1, h4]; exact Nat.mod_eq_of_lt (by unfold kSizeTRange; omega)
  have hw : b.write ((b.return_count_ + b.pcursor_) % kSizeTRange) v =
      .ok (b.buffer_.set (N + ps.length) (some v)) := by
    unfold Builder.write
    rw [hm, if_pos (by omega)]
  refine ⟨⟨b.return_count_, b.parameter_count_, b.rcursor_, b.pcursor_ + 1,
      b.buffer_.set (N + ps.length) (some v)⟩,
    by unfold Builder.AddParam; rw [if_pos (by omega), hw],
    k1, by simp; omega, h1, h2, h3, ?_, ?_, ?_, ?_⟩
  · simp [h4]
  · simp [h5]
  · intro i hi
    have : N + ps.length ≠ i := by omega
    simp only [List.getElem?_set_ne this, h6 i hi]
  · intro j hj
    simp only [List.length_append, List.length_singleton] at hj
    by_cases e : j = ps.length
    · subst e
      simp [List.getElem?_set_self (show N + ps.length < b.buffer_.length by omega)]
    · have hj2 : j < ps.length := by omega
      have : N + ps.length ≠ N + j := by omega
      simp only [List.getElem?_set_ne this, h7 j hj2, List.getElem?_append_left hj2]

theorem run_holds {T : Type} (N M : Nat) (hNM : N + M < 2 ^ 31) (calls : List (Call T)) :
    ∀ (rs ps : List T) (b : Builder T), Holds N M rs ps b →
      rs.length + (returnsOf calls).length ≤ N → ps.length + (paramsOf calls).length ≤ M →
      ∃ b1, run b calls = .ok b1 ∧ Holds N M (rs ++ returnsOf calls) (ps ++ paramsOf calls) b1 := by
  induction calls with
  | nil => intro rs ps b hb _ _; exact ⟨b, rfl, by simpa [returnsOf, paramsOf] using hb⟩
  | cons c rest ih =>
    intro rs ps b hb hr hp
    cases c with
    | AddReturn v =>
      simp only [returnsOf, paramsOf, List.length_cons] at hr hp
      obtain ⟨b1, e1, hb1⟩ := AddReturn_holds N M rs ps b v hb (by omega)
      obtain ⟨b2, e2, hb2⟩ := ih (rs ++ [v]) ps b1 hb1 (by simp; omega) hp
      refine ⟨b2, by simp only [run, e1]; exact e2, ?_⟩
      simpa [returnsOf, paramsOf] using hb2
    | AddParam v =>
      simp only [returnsOf, paramsOf, List.length_cons] at hr hp
      obtain ⟨b1, e1, hb1⟩ := AddParam_holds N M rs ps b v hb (by omega) hNM
      obtain ⟨b2, e2, hb2⟩ := ih rs (ps ++ [v]) b1 hb1 hr (by simp; omega)
      refine ⟨b2, by simp only [run, e1]; exact e2, ?_⟩
      simpa [returnsOf, paramsOf] using hb2

theorem returnsOf_append {T : Type} (xs ys : List (Call T)) :
    returnsOf (xs ++ ys) = returnsOf xs ++ returnsOf ys := by
  induction xs with
  | nil => rfl
  | cons c rest ih => cases c <;> simp [returnsOf, ih]

theorem paramsOf_append {T : Type} (xs ys : List (Call T)) :
    paramsOf (xs ++ ys) = paramsOf xs ++ paramsOf ys := by
  induction xs with
  | nil => rfl
  | cons c rest ih => cases c <;> simp [paramsOf, ih]

theorem length_returnsOf_paramsOf {T : Type} (xs : List (Call T)) :
    (returnsOf xs).length + (paramsOf xs).length = xs.length := by
  induction xs with
  | nil => rfl
  | cons c rest ih => cases c <;> simp [returnsOf, paramsOf] <;> omega

theorem Holds_full {T : Type} (N M : Nat) (rs ps : List T) (b : Builder T)
    (hb : Holds N M rs ps b) :
    (rs.length = N → ∀ v, b.AddReturn v = .error .assertion_failed) ∧
    (ps.length = M → ∀ v, b.AddParam v = .error .assertion_failed) ∧
    (rs.length ≠ N ∨ ps.length ≠ M → b.Build = .error .assertion_failed) ∧
    (rs.length = N → ps.length = M → b.Build = .ok ⟨N, M, b.buffer_⟩) := by
  obtain ⟨k1, k2, h1, h2, h3, h4, h5, h6, h7⟩ := hb
  refine ⟨fun e v => ?_, fun e v => ?_, fun e => ?_, fun e1 e2 => ?_⟩
  · unfold Builder.AddReturn; rw [if_neg (by omega)]
  · unfold Builder.AddParam; rw [if_neg (by omega)]
  · unfold Builder.Build
    rcases e with e | e
    · rw [if_pos (by omega)]
    · split_ifs <;> first | rfl | omega
  · unfold Builder.Build
    rw [if_neg (by omega), if_neg (by omega), h1, h2]

end Builder
end Signature

open Signature Signature.Builder

/-- Claim C30 as stated fails: a builder created with return count 2^32 and parameter
count 0 gets a buffer of `static_cast<int>(2^32) = 0` elements, so already the first of
the 2^32 `AddReturn` calls writes outside the buffer. -/
theorem C30_builder_buffer_length_wraps :
    Builder.new Nat 4294967296 0 = some ⟨4294967296, 0, 0, 0, []⟩ ∧
    (⟨4294967296, 0, 0, 0, []⟩ : Builder Nat).AddReturn 7 = .error .undefined_behaviour := by
  refine ⟨by decide, rfl⟩

/-- Claim C30, amended. For a builder created with return count `N` and parameter count `M`
with `N + M < 2^31` (the buffer is allocated with an `int` length): after exactly `N`
`AddReturn` calls and exactly `M` `AddParam` calls, in any interleaving, `Build` yields a
signature with `return_count() = N`, `parameter_count() = M`, `GetReturn(i)` the i-th value
added by `AddReturn` and `GetParam(j)` the j-th value added by `AddParam`; a further
`AddReturn` or `AddParam` violates the assertion, as does, after any proper prefix of the
calls, an `AddReturn` beyond the `N`-th, an `AddParam` beyond the `M`-th, or `Build`. -/
theorem C30_signature_builder (T : Type) (N M : Nat) (calls : List (Call T))
    (hNM : N + M < 2 ^ 31) (hr : (returnsOf calls).length = N)
    (hp : (paramsOf calls).length = M) :
    ∃ b0 b sig, Builder.new T N M = some b0 ∧ run b0 calls = .ok b ∧ b.Build = .ok sig ∧
      sig.return_count = N ∧ sig.parameter_count = M ∧
      (∀ i r, (returnsOf calls)[i]? = some r → sig.GetReturn i = .ok r) ∧
      (∀ j p, (paramsOf calls)[j]? = some p → sig.GetParam j = .ok p) ∧
      (∀ v, b.AddReturn v = .error .assertion_failed) ∧
      (∀ v, b.AddParam v = .error .assertion_failed) ∧
      (∀ pre suf, calls = pre ++ suf → suf ≠ [] →
        ∃ b1, run b0 pre = .ok b1 ∧ b1.Build = .error .assertion_failed ∧
          ((returnsOf pre).length = N → ∀ v, b1.AddReturn v = .error .assertion_failed) ∧
          ((paramsOf pre).length = M → ∀ v, b1.AddParam v = .error .assertion_failed)) := by
  obtain ⟨b0, e0, hb0⟩ := new_holds T N M hNM
  obtain ⟨b, e1, hb⟩ := run_holds N M hNM calls [] [] b0 hb0 (by simp [hr]) (by simp [hp])
  simp only [List.nil_append] at hb
  obtain ⟨f1, f2, -, f4⟩ := Holds_full N M _ _ b hb
  obtain ⟨k1, k2, h1, h2, h3, h4, h5, h6, h7⟩ := hb
  refine ⟨b0, b, _, e0, e1, f4 hr hp, rfl, rfl, ?_, ?_, f1 hr, f2 hp, ?_⟩
  · intro i r hi
    have hlt : i < (returnsOf calls).length := (List.getElem?_eq_some.1 hi).1
    unfold Signature.GetReturn Signature.read
    rw [if_pos (by show i < N; omega)]
    show (match b.buffer_[i]? with
      | some (some value) => Except.ok value
      | _ => Except.error Fault.undefined_behaviour) = _
    rw [h6 i hlt, hi]
  · intro j p hj
    have hlt : j < (paramsOf calls).length := (List.getElem?_eq_some.1 hj).1
    have hm : (N + j) % kSizeTRange = N + j :=
      Nat.mod_eq_of_lt (by unfold kSizeTRange; omega)
    unfold Signature.GetParam Signature.read
    rw [if_pos (by show j < M; omega)]
    show (match b.buffer_[(N + j) % kSizeTRange]? with
      | some (some value) => Except.ok value
      | _ => Except.error Fault.undefined_behaviour) = _
    rw [hm, h7 j hlt, hj]
  · intro pre suf hc hs
    have hl1 := length_returnsOf_paramsOf suf
    have hl2 : 0 < suf.length := List.length_pos.2 hs
    have hra : (returnsOf pre).length + (returnsOf suf).length = N := by
      rw [← hr, hc, returnsOf_append, List.length_append]
    have hpa : (paramsOf pre).length + (paramsOf suf).length = M := by
      rw [← hp, hc, paramsOf_append, List.length_append]
    obtain ⟨b1, e2, hb1⟩ := run_holds N M hNM pre [] [] b0 hb0 (by simp; omega) (by simp; omega)
    simp only [List.nil_append] at hb1
    obtain ⟨g1, g2, g3, -⟩ := Holds_full N M _ _ b1 hb1
    exact ⟨b1, e2, g3 (by omega), g1, g2⟩

theorem C30_signature_builder_witness :
    ∃ b0 b sig, Builder.new Nat 1 2 = some b0 ∧
      run b0 [.AddParam 10, .AddReturn 20, .AddParam 30] = .ok b ∧ b.Build = .ok sig ∧
      sig.return_count = 1 ∧ sig.parameter_count = 2 ∧
      (∀ i r, (returnsOf [Call.AddParam 10, .AddReturn 20, .AddParam 30])[i]? = some r →
        sig.GetReturn i = .ok r) ∧
      (∀ j p, (paramsOf [Call.AddParam 10, .AddReturn 20, .AddParam 30])[j]? = some p →
        sig.GetParam j = .ok p) ∧
      (∀ v, b.AddReturn v = .error .assertion_failed) ∧
      (∀ v, b.AddParam v = .error .assertion_failed) ∧
      (∀ pre suf, [Call.AddParam 10, .AddReturn 20, .AddParam 30] = pre ++ suf → suf ≠ [] →
        ∃ b1, run b0 pre = .ok b1 ∧ b1.Build = .error .assertion_failed ∧
          ((returnsOf pre).length = 1 → ∀ v, b1.AddReturn v = .error .assertion_failed) ∧
          ((paramsOf pre).length = 2 → ∀ v, b1.AddParam v = .error .assertion_failed)) :=
  C30_signature_builder Nat 1 2 [.AddParam 10, .AddReturn 20, .AddParam 30] (by decide)
    (by decide) (by decide)

end

section

open NodeProperties

/-- Claim C31. For every node whose declared zone counts are not negative and sum to an
`int`, the five input zones are contiguous in the order values, context, frame-state,
effect, control: each First index is the sum of the declared counts of the zones before it,
each Past index is the First index of the same zone plus the count of that zone and is the
First index of the next zone, and `PastControlIndex` is the sum of the five counts. -/
theorem C31_zone_boundaries (P : OperatorProperties) (node : NodeData)
    (hrange : CountsInRange P node) :
    FirstValueIndex P node = 0 ∧
    FirstContextIndex P node = P.GetValueInputCount node.op ∧
    FirstFrameStateIndex P node =
      P.GetValueInputCount node.op + P.GetContextInputCount node.op ∧
    FirstEffectIndex P node =
      P.GetValueInputCount node.op + P.GetContextInputCount node.op +
        P.GetFrameStateInputCount node.op ∧
    FirstControlIndex P node =
      P.GetValueInputCount node.op + P.GetContextInputCount node.op +
        P.GetFrameStateInputCount node.op + P.GetEffectInputCount node.op ∧
    PastValueIndex P node = FirstValueIndex P node + P.GetValueInputCount node.op ∧
    PastContextIndex P node = FirstContextIndex P node + P.GetContextInputCount node.op ∧
    PastFrameStateIndex P node =
      FirstFrameStateIndex P node + P.GetFrameStateInputCount node.op ∧
    PastEffectIndex P node = FirstEffectIndex P node + P.GetEffectInputCount node.op ∧
    PastControlIndex P node = FirstControlIndex P node + P.GetControlInputCount node.op ∧
    PastValueIndex P node = FirstContextIndex P node ∧
    PastContextIndex P node = FirstFrameStateIndex P node ∧
    PastFrameStateIndex P node = FirstEffectIndex P node ∧
    PastEffectIndex P node = FirstControlIndex P node ∧
    PastControlIndex P node =
      P.GetValueInputCount node.op + P.GetContextInputCount node.op +
        P.GetFrameStateInputCount node.op + P.GetEffectInputCount node.op +
        P.GetControlInputCount node.op := by
  obtain ⟨s1, s2, s3, s4, s5⟩ := index_sums P node hrange
  have f2 : FirstContextIndex P node = PastValueIndex P node := rfl
  have f3 : FirstFrameStateIndex P node = PastContextIndex P node := rfl
  have f4 : FirstEffectIndex P node = PastFrameStateIndex P node := rfl
  have f5 : FirstControlIndex P node = PastEffectIndex P node := rfl
  have f1 : FirstValueIndex P node = 0 := rfl
  rw [f1, f2, f3, f4, f5, s1, s2, s3, s4, s5]
  simp only [Int.zero_add, and_self]

theorem C31_zone_boundaries_witness :
    CountsInRange exampleOperatorProperties ⟨exampleLoad, [⟨1⟩, ⟨0⟩]⟩ ∧
    FirstEffectIndex exampleOperatorProperties ⟨exampleLoad, [⟨1⟩, ⟨0⟩]⟩ = 1 ∧
    PastControlIndex exampleOperatorProperties ⟨exampleLoad, [⟨1⟩, ⟨0⟩]⟩ = 2 :=
  ⟨by decide,
    ((C31_zone_boundaries exampleOperatorProperties ⟨exampleLoad, [⟨1⟩, ⟨0⟩]⟩
      (by decide)).2.2.2.1).trans (by decide),
    ((C31_zone_boundaries exampleOperatorProperties ⟨exampleLoad, [⟨1⟩, ⟨0⟩]⟩
      (by decide)).2.2.2.2.2.2.2.2.2.2.2.2.2.2).trans (by decide)⟩

/-- Claim C32. For an edge of a node of the graph whose declared zone counts are not
negative and sum to an `int`: each of `IsValueEdge`, `IsContextEdge`, `IsEffectEdge` and
`IsControlEdge` holds exactly when the index of the edge lies in the zone of that kind; an
index below `PastControlIndex` lies in exactly one of the five zones; at most one of the
four predicates is true; none is true in the frame-state zone; and the predicate of a zone
of declared count 0 is false for every edge. -/
theorem C32_edge_classification (P : OperatorProperties) (g : Graph) (edge : Edge)
    (node : NodeData) (hnode : g.get? edge.from_ = some node)
    (hrange : CountsInRange P node) :
    IsValueEdge P g edge =
      some (decide (FirstValueIndex P node ≤ (edge.index : Int) ∧
        (edge.index : Int) < PastValueIndex P node)) ∧
    IsContextEdge P g edge =
      some (decide (FirstContextIndex P node ≤ (edge.index : Int) ∧
        (edge.index : Int) < PastContextIndex P node)) ∧
    IsEffectEdge P g edge =
      some (decide (FirstEffectIndex P node ≤ (edge.index : Int) ∧
        (edge.index : Int) < PastEffectIndex P node)) ∧
    IsControlEdge P g edge =
      some (decide (FirstControlIndex P node ≤ (edge.index : Int) ∧
        (edge.index : Int) < PastControlIndex P node)) ∧
    ((edge.index : Int) < PastControlIndex P node →
      [decide (FirstValueIndex P node ≤ (edge.index : Int) ∧
          (edge.index : Int) < PastValueIndex P node),
        decide (FirstContextIndex P node ≤ (edge.index : Int) ∧
          (edge.index : Int) < PastContextIndex P node),
        decide (FirstFrameStateIndex P node ≤ (edge.index : Int) ∧
          (edge.index : Int) < PastFrameStateIndex P node),
        decide (FirstEffectIndex P node ≤ (edge.index : Int) ∧
          (edge.index : Int) < PastEffectIndex P node),
        decide (FirstControlIndex P node ≤ (edge.index : Int) ∧
          (edge.index : Int) < PastControlIndex P node)].count true = 1) ∧
    [IsValueEdge P g edge, IsContextEdge P g edge, IsEffectEdge P g edge,
      IsControlEdge P g edge].count (some true) ≤ 1 ∧
    (FirstFrameStateIndex P node ≤ (edge.index : Int) →
      (edge.index : Int) < PastFrameStateIndex P node →
      IsValueEdge P g edge = some false ∧ IsContextEdge P g edge = some false ∧
        IsEffectEdge P g edge = some false ∧ IsControlEdge P g edge = some false) ∧
    (P.GetValueInputCount node.op = 0 → IsValueEdge P g edge = some false) ∧
    (P.GetContextInputCount node.op = 0 → IsContextEdge P g edge = some false) ∧
    (P.GetEffectInputCount node.op = 0 → IsEffectEdge P g edge = some false) ∧
    (P.GetControlInputCount node.op = 0 → IsControlEdge P g edge = some false) := by
  obtain ⟨s1, s2, s3, s4, s5⟩ := index_sums P node hrange
  have f2 : FirstContextIndex P node = PastValueIndex P node := rfl
  have f3 : FirstFrameStateIndex P node = PastContextIndex P node := rfl
  have f4 : FirstEffectIndex P node = PastFrameStateIndex P node := rfl
  have f5 : FirstControlIndex P node = PastEffectIndex P node := rfl
  have f1 : FirstValueIndex P node = 0 := rfl
  obtain ⟨r1, r2, r3, r4, r5, r6⟩ := hrange
  have hv : IsValueEdge P g edge = some (decide
      (FirstValueIndex P node ≤ (edge.index : Int) ∧
        (edge.index : Int) < PastValueIndex P node)) := by
    unfold IsValueEdge
    rw [hnode, Option.map_some', Option.some.injEq, Bool.eq_iff_iff,
      IsInputRange_iff _ _ _ (by rw [f1]; omega) (by rw [f1]; omega), decide_eq_true_eq,
      f1, s1, Int.zero_add]
  have hc : IsContextEdge P g edge = some (decide
      (FirstContextIndex P node ≤ (edge.index : Int) ∧
        (edge.index : Int) < PastContextIndex P node)) := by
    unfold IsContextEdge
    rw [hnode, Option.map_some', Option.some.injEq, Bool.eq_iff_iff,
      IsInputRange_iff _ _ _ (by rw [f2, s1]; omega) (by rw [f2, s1]; omega),
      decide_eq_true_eq, f2, s1, s2]
  have he : IsEffectEdge P g edge = some (decide
      (FirstEffectIndex P node ≤ (edge.index : Int) ∧
        (edge.index : Int) < PastEffectIndex P node)) := by
    unfold IsEffectEdge
    rw [hnode, Option.map_some', Option.some.injEq, Bool.eq_iff_iff,
      IsInputRange_iff _ _ _ (by rw [f4, s3]; omega) (by rw [f4, s3]; omega),
      decide_eq_true_eq, f4, s3, s4]
  have hk : IsControlEdge P g edge = some (decide
      (FirstControlIndex P node ≤ (edge.index : Int) ∧
        (edge.index : Int) < PastControlIndex P node)) := by
    unfold IsControlEdge
    rw [hnode, Option.map_some', Option.some.injEq, Bool.eq_iff_iff,
      IsInputRange_iff _ _ _ (by rw [f5, s4]; omega) (by rw [f5, s4]; omega),
      decide_eq_true_eq, f5, s4, s5]
  rw [hv, hc, he, hk, f1, f2, f3, f4, f5, s1, s2, s3, s4, s5]
  have hi : (0 : Int) ≤ (edge.index : Int) := Int.ofNat_nonneg _
  generalize P.GetValueInputCount node.op = a at *
  generalize P.GetContextInputCount node.op = b at *
  generalize P.GetFrameStateInputCount node.op = c at *
  generalize P.GetEffectInputCount node.op = d at *
  generalize P.GetControlInputCount node.op = e at *
  generalize (edge.index : Int) = i at *
  refine ⟨rfl, rfl, rfl, rfl, ?_, ?_, ?_, ?_, ?_, ?_, ?_⟩
  · intro hlt
    by_cases h1 : i < a
    · have : ¬ (a ≤ i) := by omega
      have : ¬ (a + b ≤ i) := by omega
      have : ¬ (a + b + c ≤ i) := by omega
      have : ¬ (a + b + c + d ≤ i) := by omega
      simp [*]
    by_cases h2 : i < a + b
    · have : a ≤ i := by omega
      have : ¬ (a + b ≤ i) := by omega
      have : ¬ (a + b + c ≤ i) := by omega
      have : ¬ (a + b + c + d ≤ i) := by omega
      simp [*]
    by_cases h3 : i < a + b + c
    · have : a ≤ i := by omega
      have : a + b ≤ i := by omega
      have : ¬ (a + b + c ≤ i) := by omega
      have : ¬ (a + b + c + d ≤ i) := by omega
      simp [*]
    by_cases h4 : i < a + b + c + d
    · have : a ≤ i := by omega
      have : a + b ≤ i := by omega
      have : a + b + c ≤ i := by omega
      have : ¬ (a + b + c + d ≤ i) := by omega
      simp [*]
    · have : a ≤ i := by omega
      have : a + b ≤ i := by omega
      have : a + b + c ≤ i := by omega
      have : a + b + c + d ≤ i := by omega
      simp [*]
  · by_cases h1 : a ≤ i <;> by_cases h2 : a + b ≤ i <;> by_cases h3 : a + b + c ≤ i <;>
      by_cases h4 : a + b + c + d ≤ i <;> by_cases h5 : i < a <;> by_cases h6 : i < a + b <;>
      by_cases h7 : i < a + b + c + d <;> by_cases h8 : i < a + b + c + d + e <;>
      first | (exfalso; omega) | simp [*]
  · intro h1 h2
    refine ⟨?_, ?_, ?_, ?_⟩ <;> simp only [Option.some.injEq, decide_eq_false_iff_not] <;> omega
  · intro h; simp only [Option.some.injEq, decide_eq_false_iff_not]; omega
  · intro h; simp only [Option.some.injEq, decide_eq_false_iff_not]; omega
  · intro h; simp only [Option.some.injEq, decide_eq_false_iff_not]; omega
  · intro h; simp only [Option.some.injEq, decide_eq_false_iff_not]; omega

theorem C32_edge_classification_witness :
    CountsInRange exampleOperatorProperties ⟨exampleLoad, [⟨3⟩, ⟨3⟩]⟩ ∧
    IsValueEdge exampleOperatorProperties effectGraph ⟨⟨4⟩, 1⟩ = some false ∧
    IsEffectEdge exampleOperatorProperties effectGraph ⟨⟨4⟩, 1⟩ = some true ∧
    [IsValueEdge exampleOperatorProperties effectGraph ⟨⟨4⟩, 1⟩,
      IsContextEdge exampleOperatorProperties effectGraph ⟨⟨4⟩, 1⟩,
      IsEffectEdge exampleOperatorProperties effectGraph ⟨⟨4⟩, 1⟩,
      IsControlEdge exampleOperatorProperties effectGraph ⟨⟨4⟩, 1⟩].count (some true) ≤ 1 :=
  ⟨by decide, by decide, by decide,
    (C32_edge_classification exampleOperatorProperties effectGraph ⟨⟨4⟩, 1⟩
      ⟨exampleLoad, [⟨3⟩, ⟨3⟩]⟩ rfl (by decide)).2.2.2.2.2.1⟩

end

section

open NodeProperties

theorem Graph.ReplaceInput_spec (g : Graph) (n : Node) (d : NodeData) (i : Nat) (new : Node)
    (hn : g.get? n = some d) (hi : i < d.inputs.length) :
    ∃ g1, g.ReplaceInput n i new = some g1 ∧
      g1.get? n = some ⟨d.op, d.inputs.set i new⟩ ∧
      ∀ m, m ≠ n → g1.get? m = g.get? m := by
  have hlt : n.id < g.nodes.length := by
    unfold Graph.get? at hn
    exact (List.getElem?_eq_some.1 hn).1
  refine ⟨⟨g.nodes.set n.id ⟨d.op, d.inputs.set i new⟩⟩, ?_, ?_, ?_⟩
  · unfold Graph.ReplaceInput
    rw [hn]
    simp only [Option.bind_eq_bind, Option.some_bind, hi, if_true]
  · unfold Graph.get?
    exact List.getElem?_set_self hlt
  · intro m hm
    unfold Graph.get?
    have : n.id ≠ m.id := fun e => hm (by cases m; cases n; simp_all)
    exact List.getElem?_set_ne this

theorem Graph.InputAt_replaced (g g1 : Graph) (n : Node) (d : NodeData) (i : Nat) (new : Node)
    (hn : g.get? n = some d) (hi : i < d.inputs.length)
    (h1 : g1.get? n = some ⟨d.op, d.inputs.set i new⟩)
    (h2 : ∀ m, m ≠ n → g1.get? m = g.get? m) (m : Node) (j : Nat) :
    g1.InputAt m j = if m = n ∧ j = i then some new else g.InputAt m j := by
  by_cases hm : m = n
  · subst hm
    unfold Graph.InputAt
    rw [h1, hn]
    simp only [Option.bind_eq_bind, Option.some_bind, true_and]
    by_cases hj : j = i
    · subst hj
      rw [if_pos rfl]
      exact List.getElem?_set_self hi
    · rw [if_neg hj]
      exact List.getElem?_set_ne (Ne.symm hj)
  · unfold Graph.InputAt
    rw [h2 m hm, if_neg (fun h => hm h.1)]

theorem IsEffectEdge_congr (P : OperatorProperties) (g g1 : Graph) (e : Edge)
    (h : (g1.get? e.from_).map (fun d => d.op) = (g.get? e.from_).map (fun d => d.op)) :
    IsEffectEdge P g1 e = IsEffectEdge P g e := by
  unfold IsEffectEdge
  cases h1 : g1.get? e.from_ <;> cases h2 : g.get? e.from_ <;> rw [h1, h2] at h <;>
    simp only [Option.map_some', Option.map_none', Option.some.injEq, reduceCtorEq] at h ⊢
  simp only [FirstEffectIndex, PastFrameStateIndex, FirstFrameStateIndex, PastContextIndex,
    FirstContextIndex, PastValueIndex, FirstValueIndex, h]

theorem ReplaceWithValue.loop_cons (P : OperatorProperties) (value new : Node)
    (r : Option Node) (g g2 : Graph) (edge : Edge) (rest : List Edge) (b : Bool)
    (hE : IsEffectEdge P g edge = some b)
    (hnew : (if b = true then r else some value) = some new)
    (hrep : g.ReplaceInput edge.from_ edge.index new = some g2) :
    ReplaceWithValue.loop P value r g (edge :: rest) = ReplaceWithValue.loop P value r g2 rest := by
  cases b
  · simp only [Bool.false_eq_true, if_false, Option.some.injEq] at hnew
    subst hnew
    simp only [ReplaceWithValue.loop, hE, hrep]
  · simp only [if_true] at hnew
    subst hnew
    simp only [ReplaceWithValue.loop, hE, hrep]

theorem ReplaceWithValue.loop_spec (P : OperatorProperties) (value : Node) (r : Option Node)
    (L : List Edge) :
    ∀ g : Graph,
      (∀ e, e ∈ L → ∃ d, g.get? e.from_ = some d ∧ e.index < d.inputs.length) →
      (∀ e, e ∈ L → IsEffectEdge P g e = some true → r ≠ none) →
      ∃ g1, ReplaceWithValue.loop P value r g L = .ok g1 ∧
        (∀ n, (g1.get? n).map (fun d => (d.op, d.inputs.length)) =
          (g.get? n).map (fun d => (d.op, d.inputs.length))) ∧
        (∀ m j, g1.InputAt m j =
          if (⟨m, j⟩ : Edge) ∈ L then
            (if IsEffectEdge P g ⟨m, j⟩ = some true then r else some value)
          else g.InputAt m j) := by
  induction L with
  | nil =>
    intro g _ _
    exact ⟨g, rfl, fun _ => rfl, fun m j => by simp⟩
  | cons edge rest ih =>
    intro g hvalid heff
    obtain ⟨d, hd, hi⟩ := hvalid edge (List.mem_cons_self _ _)
    obtain ⟨b, hE⟩ : ∃ b, IsEffectEdge P g edge = some b := by
      unfold IsEffectEdge; rw [hd]; exact ⟨_, rfl⟩
    obtain ⟨new, hnew⟩ : ∃ new, (if b = true then r else some value) = some new := by
      cases b
      · exact ⟨value, by simp⟩
      · have := heff edge (List.mem_cons_self _ _) hE
        obtain ⟨e, he⟩ := Option.ne_none_iff_exists'.1 this
        exact ⟨e, by simp [he]⟩
    obtain ⟨g2, hrep, h1, h2⟩ := Graph.ReplaceInput_spec g edge.from_ d edge.index new hd hi
    have F1 : ∀ n, (g2.get? n).map (fun d => (d.op, d.inputs.length)) =
        (g.get? n).map (fun d => (d.op, d.inputs.length)) := by
      intro n
      by_cases hn : n = edge.from_
      · subst hn; rw [h1, hd]; simp
      · rw [h2 n hn]
    have F2 : ∀ n, (g2.get? n).map (fun d => d.op) = (g.get? n).map (fun d => d.op) := by
      intro n
      have := congrArg (Option.map Prod.fst) (F1 n)
      simpa [Option.map_map, Function.comp] using this
    have hvalid2 : ∀ e, e ∈ rest → ∃ d, g2.get? e.from_ = some d ∧ e.index < d.inputs.length := by
      intro e he
      obtain ⟨d0, hd0, hi0⟩ := hvalid e (List.mem_cons_of_mem _ he)
      have := F1 e.from_
      rw [hd0] at this
      cases h3 : g2.get? e.from_ with
      | none => rw [h3] at this; simp at this
      | some d3 =>
        rw [h3] at this
        simp only [Option.map_some', Option.some.injEq, Prod.mk.injEq] at this
        exact ⟨d3, rfl, by omega⟩
    have heff2 : ∀ e, e ∈ rest → IsEffectEdge P g2 e = some true → r ≠ none := by
      intro e he h
      rw [IsEffectEdge_congr P g g2 e (F2 e.from_)] at h
      exact heff e (List.mem_cons_of_mem _ he) h
    obtain ⟨g1, e1, e2, e3⟩ := ih g2 hvalid2 heff2
    refine ⟨g1, ?_, fun n => (e2 n).trans (F1 n), fun m j => ?_⟩
    · rw [ReplaceWithValue.loop_cons P value new r g g2 edge rest b hE hnew hrep]
      exact e1
    · rw [e3 m j, IsEffectEdge_congr P g g2 ⟨m, j⟩ (F2 m),
        Graph.InputAt_replaced g g2 edge.from_ d edge.index new hd hi h1 h2 m j]
      by_cases hmem : (⟨m, j⟩ : Edge) ∈ rest
      · rw [if_pos hmem, if_pos (List.mem_cons_of_mem _ hmem)]
      · rw [if_neg hmem]
        by_cases heq : m = edge.from_ ∧ j = edge.index
        · have hedge : (⟨m, j⟩ : Edge) = edge := by
            obtain ⟨rfl, rfl⟩ := heq
            rfl
          rw [if_pos heq, hedge, if_pos (List.mem_cons_self _ _), hE]
          cases b
          · simpa using hnew.symm
          · simpa using hnew.symm
        · have hne : (⟨m, j⟩ : Edge) ∉ edge :: rest := by
            intro h
            rcases List.mem_cons.1 h with h | h
            · exact heq (by rw [← h]; exact ⟨rfl, rfl⟩)
            · exact hmem h
          rw [if_neg heq, if_neg hne]

theorem Graph.mem_usesIn (from_ node : Node) (inputs : List Node) :
    ∀ (k : Nat) (e : Edge), e ∈ Graph.usesIn from_ node inputs k ↔
      e.from_ = from_ ∧ k ≤ e.index ∧ inputs[e.index - k]? = some node := by
  induction inputs with
  | nil => intro k e; simp [Graph.usesIn]
  | cons a rest ih =>
    intro k e
    have key : (e.from_ = from_ ∧ k ≤ e.index ∧ (a :: rest)[e.index - k]? = some node) ↔
        ((a = node ∧ e = ⟨from_, k⟩) ∨
          (e.from_ = from_ ∧ k + 1 ≤ e.index ∧ rest[e.index - (k + 1)]? = some node)) := by
      constructor
      · rintro ⟨h1, h2, h3⟩
        by_cases hk : e.index = k
        · left
          rw [hk, Nat.sub_self] at h3
          simp only [List.getElem?_cons_zero, Option.some.injEq] at h3
          refine ⟨h3, ?_⟩
          cases e; simp_all
        · right
          have : e.index - k = (e.index - (k + 1)) + 1 := by omega
          rw [this, List.getElem?_cons_succ] at h3
          exact ⟨h1, by omega, h3⟩
      · rintro (⟨h1, h2⟩ | ⟨h1, h2, h3⟩)
        · subst h2
          simp [h1]
        · have : e.index - k = (e.index - (k + 1)) + 1 := by omega
          refine ⟨h1, by omega, ?_⟩
          rw [this, List.getElem?_cons_succ]
          exact h3
    rw [key]
    unfold Graph.usesIn
    by_cases ha : a = node
    · rw [if_pos ha, List.mem_cons, ih (k + 1) e]
      simp only [ha, true_and]
    · rw [if_neg ha, ih (k + 1) e]
      simp only [ha, false_and, false_or]

theorem Graph.mem_usesFrom (node : Node) (nodes : List NodeData) :
    ∀ (id : Nat) (e : Edge), e ∈ Graph.usesFrom node nodes id ↔
      id ≤ e.from_.id ∧ ∃ d, nodes[e.from_.id - id]? = some d ∧
        d.inputs[e.index]? = some node := by
  induction nodes with
  | nil => intro id e; simp [Graph.usesFrom]
  | cons d rest ih =>
    intro id e
    unfold Graph.usesFrom
    rw [List.mem_append, Graph.mem_usesIn, ih (id + 1) e]
    constructor
    · rintro (⟨h1, -, h3⟩ | ⟨h1, d1, h2, h3⟩)
      · refine ⟨by rw [h1], d, ?_, by simpa using h3⟩
        rw [h1]; simp
      · have : e.from_.id - id = (e.from_.id - (id + 1)) + 1 := by omega
        refine ⟨by omega, d1, ?_, h3⟩
        rw [this, List.getElem?_cons_succ]; exact h2
    · rintro ⟨h1, d1, h2, h3⟩
      by_cases hk : e.from_.id = id
      · left
        rw [hk, Nat.sub_self] at h2
        simp only [List.getElem?_cons_zero, Option.some.injEq] at h2
        subst h2
        refine ⟨?_, Nat.zero_le _, by simpa using h3⟩
        cases e with
        | mk f i => cases f; simp_all
      · right
        have : e.from_.id - id = (e.from_.id - (id + 1)) + 1 := by omega
        rw [this, List.getElem?_cons_succ] at h2
        exact ⟨by omega, d1, h2, h3⟩

theorem Graph.mem_uses (g : Graph) (node : Node) (e : Edge) :
    e ∈ g.uses node ↔ g.InputAt e.from_ e.index = some node := by
  unfold Graph.uses Graph.InputAt Graph.get?
  rw [Graph.mem_usesFrom]
  simp only [Nat.zero_le, Nat.sub_zero, true_and]
  constructor
  · rintro ⟨d, h1, h2⟩
    rw [h1]; exact h2
  · intro h
    cases h1 : g.nodes[e.from_.id]? with
    | none => rw [h1] at h; simp at h
    | some d => rw [h1] at h; exact ⟨d, rfl, h⟩

theorem Graph.usesIn_nodup (from_ node : Node) (inputs : List Node) :
    ∀ k, (Graph.usesIn from_ node inputs k).Nodup := by
  induction inputs with
  | nil => intro k; simp [Graph.usesIn]
  | cons a rest ih =>
    intro k
    unfold Graph.usesIn
    split_ifs
    · refine List.nodup_cons.2 ⟨fun h => ?_, ih (k + 1)⟩
      have := ((Graph.mem_usesIn from_ node rest (k + 1) _).1 h).2.1
      simp at this
    · exact ih (k + 1)

theorem Graph.usesFrom_nodup (node : Node) (nodes : List NodeData) :
    ∀ id, (Graph.usesFrom node nodes id).Nodup := by
  induction nodes with
  | nil => intro id; simp [Graph.usesFrom]
  | cons d rest ih =>
    intro id
    unfold Graph.usesFrom
    refine List.nodup_append.2 ⟨Graph.usesIn_nodup _ _ _ _, ih (id + 1), fun e h1 h2 => ?_⟩
    have a1 := ((Graph.mem_usesIn _ _ _ _ _).1 h1).1
    have a2 := ((Graph.mem_usesFrom _ _ _ _).1 h2).1
    rw [a1] at a2
    simp at a2

theorem Graph.uses_nodup (g : Graph) (node : Node) : (g.uses node).Nodup :=
  Graph.usesFrom_nodup node g.nodes 0

theorem int_add_range (a b : Int) :
    -2147483648 ≤ int_add a b ∧ int_add a b ≤ 2147483647 := by
  unfold int_add uint32_to_int32 int32_to_uint32
  split_ifs <;> omega

theorem int_add_wrapped_zero (a b : Int) : int_add (int_add a b) 0 = int_add a b := by
  have h := int_add_range a b
  rw [int_add_exact (int_add a b) 0 (by omega) (by omega), Int.add_zero]

theorem ReplaceWithValue.effect_spec (P : OperatorProperties) (g : Graph) (node : Node)
    (data : NodeData) (effect r : Option Node) (hnode : g.get? node = some data)
    (hr : ReplaceWithValue.effect P g node data effect = .ok r) :
    (∀ e, effect = some e → r = some e) ∧
    (effect = none → P.HasEffectInput data.op = false → r = none) ∧
    (effect = none → P.HasEffectInput data.op = true →
      r ≠ none ∧ 0 ≤ FirstEffectIndex P data ∧
        r = data.inputs[(FirstEffectIndex P data).toNat]?) := by
  unfold ReplaceWithValue.effect at hr
  refine ⟨fun e he => ?_, fun he hh => ?_, fun he hh => ?_⟩
  · rw [if_neg (by simp [he])] at hr
    simp only [Except.ok.injEq] at hr
    rw [← hr, he]
  · rw [if_neg (by simp [hh])] at hr
    simp only [Except.ok.injEq] at hr
    rw [← hr, he]
  · rw [if_pos ⟨he, hh⟩] at hr
    unfold GetEffectInput at hr
    rw [hnode] at hr
    simp only at hr
    have hz : int_add (FirstEffectIndex P data) 0 = FirstEffectIndex P data :=
      int_add_wrapped_zero _ _
    rw [hz] at hr
    split at hr
    · rename_i input hin
      split at hin
      · split at hin
        · simp at hin
        · rename_i hneg
          split at hin
          · rename_i inp hinp
            simp only [Except.ok.injEq] at hin hr
            subst hin; subst hr
            exact ⟨by simp, by omega, hinp.symm⟩
          · simp at hin
      · simp at hin
    · simp at hr

theorem value_edge_not_effect (P : OperatorProperties) (g : Graph) (e : Edge) (d : NodeData)
    (hd : g.get? e.from_ = some d) (hrange : CountsInRange P d)
    (h : IsValueEdge P g e = some true) : IsEffectEdge P g e = some false := by
  obtain ⟨s1, s2, s3, s4, s5⟩ := index_sums P d hrange
  obtain ⟨r1, r2, r3, r4, r5, r6⟩ := hrange
  have f1 : FirstValueIndex P d = 0 := rfl
  have f4 : FirstEffectIndex P d = PastFrameStateIndex P d := rfl
  unfold IsValueEdge at h
  unfold IsEffectEdge
  rw [hd] at h ⊢
  simp only [Option.map_some', Option.some.injEq] at h ⊢
  rw [IsInputRange_iff _ _ _ (by rw [f1]; omega) (by rw [f1]; omega), f1] at h
  rw [Bool.eq_false_iff]
  intro h2
  rw [IsInputRange_iff _ _ _ (by rw [f4, s3]; omega) (by rw [f4, s3]; omega), f4, s3] at h2
  omega

/-- Claim C33 as stated fails in two ways on the example graph. With `value` the node
itself, `ReplaceWithValue(#3, #3, NULL)` returns and #3 still has the uses (#4, 0) and
(#5, 0). And for the constant #2, which has no effect input but is used by (#6, 1), an
effect edge, `ReplaceWithValue(#2, #1, NULL)` has no effect replacement and fails
`DCHECK_NE(NULL, effect)` instead of re-pointing the uses. -/
theorem C33_replace_with_value_keeps_uses_or_fails :
    (effectGraph.get? ⟨3⟩).map (fun d => exampleOperatorProperties.HasControlOutput d.op) =
      some false ∧
    (ReplaceWithValue exampleOperatorProperties effectGraph ⟨3⟩ ⟨3⟩ none).toOption.map
      (fun g => g.uses ⟨3⟩) = some [⟨⟨4⟩, 0⟩, ⟨⟨5⟩, 0⟩] ∧
    (effectGraph.get? ⟨2⟩).map (fun d => exampleOperatorProperties.HasControlOutput d.op) =
      some false ∧
    effectGraph.uses ⟨2⟩ = [⟨⟨5⟩, 1⟩, ⟨⟨6⟩, 1⟩] ∧
    IsEffectEdge exampleOperatorProperties effectGraph ⟨⟨6⟩, 1⟩ = some true ∧
    ReplaceWithValue exampleOperatorProperties effectGraph ⟨2⟩ ⟨1⟩ none =
      .error .assertion_failed := by
  refine ⟨by decide, by decide, by decide, by decide, by decide, rfl⟩

/-- Claim C33, amended. For a node without a control output, let the effect replacement be
the given `effect` if it is not `NULL` and otherwise the effect input of the node when its
operator has one. If `value` and the effect replacement are not the node itself, and an
effect replacement exists whenever the node has a use that is an effect edge, then
`ReplaceWithValue` returns and has re-pointed each use edge that is an effect edge of its
user to the effect replacement and every other use edge to `value`, among them every value
edge of a user whose declared zone counts are not negative and sum to an `int` (then a
value edge is not an effect edge); afterwards the node has no uses, the use edges were
visited once each (the list of uses has no duplicates), no input that did not point at the
node has changed, and no operator or input count has changed. -/
theorem C33_replace_with_value (P : OperatorProperties) (g : Graph) (node value : Node)
    (effect r : Option Node) (data : NodeData)
    (hnode : g.get? node = some data) (hctl : P.HasControlOutput data.op = false)
    (hr : ReplaceWithValue.effect P g node data effect = .ok r)
    (hv : value ≠ node) (hrn : r ≠ some node)
    (hnull : r = none → ∀ e, e ∈ g.uses node → IsEffectEdge P g e ≠ some true) :
    ((∀ e, effect = some e → r = some e) ∧
      (effect = none → P.HasEffectInput data.op = false → r = none) ∧
      (effect = none → P.HasEffectInput data.op = true →
        r ≠ none ∧ 0 ≤ FirstEffectIndex P data ∧
          r = data.inputs[(FirstEffectIndex P data).toNat]?)) ∧
    ∃ g1, ReplaceWithValue P g node value effect = .ok g1 ∧
      (∀ e, e ∈ g.uses node → IsEffectEdge P g e = some true →
        g1.InputAt e.from_ e.index = r) ∧
      (∀ e, e ∈ g.uses node → IsEffectEdge P g e ≠ some true →
        g1.InputAt e.from_ e.index = some value) ∧
      (∀ e d, e ∈ g.uses node → g.get? e.from_ = some d → CountsInRange P d →
        IsValueEdge P g e = some true → g1.InputAt e.from_ e.index = some value) ∧
      g1.uses node = [] ∧ (g.uses node).Nodup ∧
      (∀ e : Edge, e ∉ g.uses node → g1.InputAt e.from_ e.index = g.InputAt e.from_ e.index) ∧
      (∀ n, (g1.get? n).map (fun d => (d.op, d.inputs.length)) =
        (g.get? n).map (fun d => (d.op, d.inputs.length))) := by
  refine ⟨ReplaceWithValue.effect_spec P g node data effect r hnode hr, ?_⟩
  have hvalid : ∀ e, e ∈ g.uses node → ∃ d, g.get? e.from_ = some d ∧
      e.index < d.inputs.length := by
    intro e he
    have h := (Graph.mem_uses g node e).1 he
    unfold Graph.InputAt at h
    cases hd : g.get? e.from_ with
    | none => rw [hd] at h; simp at h
    | some d =>
      rw [hd] at h
      exact ⟨d, rfl, (List.getElem?_eq_some.1 h).1⟩
  have heff : ∀ e, e ∈ g.uses node → IsEffectEdge P g e = some true → r ≠ none :=
    fun e he h hr0 => hnull hr0 e he h
  obtain ⟨g1, e1, e2, e3⟩ := ReplaceWithValue.loop_spec P value r (g.uses node) g hvalid heff
  have hat : ∀ e : Edge, g1.InputAt e.from_ e.index =
      if e ∈ g.uses node then (if IsEffectEdge P g e = some true then r else some value)
      else g.InputAt e.from_ e.index := fun e => e3 e.from_ e.index
  refine ⟨g1, ?_, ?_, ?_, ?_, ?_, Graph.uses_nodup g node, ?_, e2⟩
  · unfold ReplaceWithValue
    simp only [hnode, hctl, Bool.false_eq_true, if_false, hr]
    exact e1
  · intro e he h
    rw [hat e, if_pos he, if_pos h]
  · intro e he h
    rw [hat e, if_pos he, if_neg h]
  · intro e d he hd hrange h
    rw [hat e, if_pos he, if_neg (by rw [value_edge_not_effect P g e d hd hrange h]; simp)]
  · apply List.eq_nil_iff_forall_not_mem.2
    intro e he
    have h := (Graph.mem_uses g1 node e).1 he
    rw [hat e] at h
    by_cases hm : e ∈ g.uses node
    · rw [if_pos hm] at h
      split_ifs at h
      · exact hrn h
      · simp only [Option.some.injEq] at h
        exact hv h
    · rw [if_neg hm] at h
      exact hm ((Graph.mem_uses g node e).2 h)
  · intro e he
    rw [hat e, if_neg he]

theorem C33_replace_with_value_witness :
    ∃ g1, ReplaceWithValue exampleOperatorProperties effectGraph ⟨3⟩ ⟨2⟩ none = .ok g1 ∧
      g1.uses ⟨3⟩ = [] ∧ g1.InputAt ⟨4⟩ 1 = some ⟨0⟩ ∧ g1.InputAt ⟨4⟩ 0 = some ⟨2⟩ := by
  obtain ⟨-, g1, h1, h2, h3, -, h5, -⟩ :=
    C33_replace_with_value exampleOperatorProperties effectGraph ⟨3⟩ ⟨2⟩ none (some ⟨0⟩)
      ⟨exampleLoad, [⟨1⟩, ⟨0⟩]⟩ rfl rfl rfl (by decide) (by decide)
      (fun h => absurd h (by decide))
  exact ⟨g1, h1, h5, h2 ⟨⟨4⟩, 1⟩ (by decide) (by decide),
    h3 ⟨⟨4⟩, 0⟩ (by decide) (by decide)⟩

end

section

open RepresentationChanger

theorem RepresentationChanger.NewNode_spec (rc : RepresentationChanger) (op : Operator)
    (node : Node) (harity : op.input_count = 1) :
    ∃ n rc1, rc.NewNode op node = (.returned n, rc1) ∧
      rc1.jsgraph_.graph_.get? n = some ⟨op, [node]⟩ ∧ rc.jsgraph_.graph_.get? n = none ∧
      (∀ m d, rc.jsgraph_.graph_.get? m = some d → rc1.jsgraph_.graph_.get? m = some d) := by
  have hnew : rc.jsgraph_.graph_.NewNode op [node] =
      some (⟨rc.jsgraph_.graph_.nodes.length⟩, ⟨rc.jsgraph_.graph_.nodes ++ [⟨op, [node]⟩]⟩) := by
    unfold Graph.NewNode
    rw [if_pos (by simp [harity])]
  have hn := Graph.get?_NewNode_new _ _ _ _ _ hnew
  refine ⟨_, _, by unfold RepresentationChanger.NewNode; rw [hnew], hn.1, hn.2,
    fun m d h => Graph.get?_NewNode_old _ _ _ _ _ m d hnew h⟩

theorem narrow_rep_facts (o : MachineTypeUnion)
    (ho : o &&& kRepMask = kRepWord8 ∨ o &&& kRepMask = kRepWord16 ∨
      o &&& kRepMask = kRepWord32) :
    HasOneRepresentation o ∧ (o &&& kRepMask) &&& kRepBit = 0 ∧
      (o &&& kRepMask) &&& rWord ≠ 0 ∧ (o &&& kRepMask) &&& kRepTagged = 0 := by
  unfold HasOneRepresentation
  rcases ho with h | h | h <;> rw [h] <;> decide

/-- Claim C35 as stated fails: for the parameter node of the example graph with output
type word32 | int32 and use type tagged | uint32, the claim picks `ChangeUint32ToTagged`
(the hint of the use), but the call inserts `ChangeInt32ToTagged`. -/
theorem C35_use_hint_does_not_choose_the_operator :
    (kRepTagged ||| kTypeUint32) &&& kTypeUint32 ≠ 0 ∧
    exampleChanger.GetRepresentationFor ⟨1⟩ (kRepWord32 ||| kTypeInt32)
        (kRepTagged ||| kTypeUint32) =
      exampleChanger.NewNode SimplifiedOperatorBuilder.ChangeInt32ToTagged ⟨1⟩ ∧
    exampleChanger.GetRepresentationFor ⟨1⟩ (kRepWord32 ||| kTypeInt32)
        (kRepTagged ||| kTypeUint32) ≠
      exampleChanger.NewNode SimplifiedOperatorBuilder.ChangeUint32ToTagged ⟨1⟩ := by
  refine ⟨by decide, by decide, by decide⟩

/-- Claim C35, amended. For a node that is not a folded constant whose output has a
narrow-word representation (word8, word16 or word32) and a use with the tagged
representation bit and no narrow-word bit, `GetRepresentationFor` builds a new node with
exactly one input, the original node; the variant is chosen by the signedness hint of the
output type: `ChangeUint32ToTagged` when the output type carries `kTypeUint32`, and
`ChangeInt32ToTagged` when it carries `kTypeInt32` and not `kTypeUint32`, whatever hint
the use type carries. -/
theorem C35_output_hint_chooses_the_tagging_operator (rc : RepresentationChanger)
    (node : Node) (data : NodeData) (o u : MachineTypeUnion)
    (hnode : rc.jsgraph_.graph_.get? node = some data)
    (hnc : ¬ IsFoldedConstant data.op.opcode)
    (ho : o &&& kRepMask = kRepWord8 ∨ o &&& kRepMask = kRepWord16 ∨
      o &&& kRepMask = kRepWord32)
    (hu : u &&& kRepTagged ≠ 0) (hw : u &&& rWord = 0)
    (hint : o &&& kTypeUint32 ≠ 0 ∨ o &&& kTypeInt32 ≠ 0) :
    ∃ n rc1, rc.GetRepresentationFor node o u = (.returned n, rc1) ∧
      rc.jsgraph_.graph_.get? n = none ∧
      rc1.jsgraph_.graph_.get? n =
        some ⟨if o &&& kTypeUint32 ≠ 0 then SimplifiedOperatorBuilder.ChangeUint32ToTagged
          else SimplifiedOperatorBuilder.ChangeInt32ToTagged, [node]⟩ ∧
      (∀ m d, rc.jsgraph_.graph_.get? m = some d → rc1.jsgraph_.graph_.get? m = some d) := by
  obtain ⟨h1, h2, h3, h4⟩ := narrow_rep_facts o ho
  have hu1 : (u &&& kRepMask) &&& kRepTagged ≠ 0 := by
    rw [← land_rep u kRepTagged (by decide)]; exact hu
  have hw1 : (u &&& kRepMask) &&& rWord = 0 := by
    rw [← land_rep u rWord (by decide)]; exact hw
  have hdiff : u &&& kRepMask ≠ o &&& kRepMask := fun e => hu1 (by rw [e]; exact h4)
  have hd := GetRepresentationFor_dispatch rc node data o u hnode hnc h1
  rw [if_neg hdiff, if_neg (fun h => h.1 hw1), if_pos hu1, if_neg (fun hx => hx h2),
    if_pos h3] at hd
  by_cases hui : o &&& kTypeUint32 ≠ 0
  · rw [if_pos hui] at hd
    obtain ⟨n, rc1, e1, e2, e3, e4⟩ :=
      RepresentationChanger.NewNode_spec rc SimplifiedOperatorBuilder.ChangeUint32ToTagged node rfl
    exact ⟨n, rc1, hd.trans e1, e3, by rw [if_pos hui]; exact e2, e4⟩
  · have hi : o &&& kTypeInt32 ≠ 0 := hint.resolve_left hui
    rw [if_neg hui, if_pos hi] at hd
    obtain ⟨n, rc1, e1, e2, e3, e4⟩ :=
      RepresentationChanger.NewNode_spec rc SimplifiedOperatorBuilder.ChangeInt32ToTagged node rfl
    exact ⟨n, rc1, hd.trans e1, e3, by rw [if_neg hui]; exact e2, e4⟩

theorem C35_output_hint_chooses_the_tagging_operator_witness :
    ∃ n rc1, exampleChanger.GetRepresentationFor ⟨1⟩ (kRepWord32 ||| kTypeInt32)
        (kRepTagged ||| kTypeUint32) = (.returned n, rc1) ∧
      exampleChanger.jsgraph_.graph_.get? n = none ∧
      rc1.jsgraph_.graph_.get? n =
        some ⟨if (kRepWord32 ||| kTypeInt32) &&& kTypeUint32 ≠ 0 then
            SimplifiedOperatorBuilder.ChangeUint32ToTagged
          else SimplifiedOperatorBuilder.ChangeInt32ToTagged, [⟨1⟩]⟩ ∧
      (∀ m d, exampleChanger.jsgraph_.graph_.get? m = some d →
        rc1.jsgraph_.graph_.get? m = some d) :=
  C35_output_hint_chooses_the_tagging_operator exampleChanger ⟨1⟩
    ⟨CommonOperatorBuilder.Parameter 0, [⟨0⟩]⟩ (kRepWord32 ||| kTypeInt32)
    (kRepTagged ||| kTypeUint32) rfl (by decide) (by decide) (by decide) (by decide) (by decide)

/-- Claim C37. For a node that is not a folded constant with float64 or tagged output and
a narrow-word use (a word8, word16 or word32 bit and no tagged, float64 or bit
representation bit), `GetRepresentationFor` inserts a new node with exactly one input, the
original node; its operator is the unsigned one (`ChangeFloat64ToUint32`, respectively
`ChangeTaggedToUint32`) if and only if the output type or the use type carries
`kTypeUint32`, and the signed one (`ChangeFloat64ToInt32`, respectively
`ChangeTaggedToInt32`) otherwise, whatever `kTypeInt32` hints there are. -/
theorem C37_unsigned_hint_on_either_side (rc : RepresentationChanger) (node : Node)
    (data : NodeData) (o u : MachineTypeUnion)
    (hnode : rc.jsgraph_.graph_.get? node = some data)
    (hnc : ¬ IsFoldedConstant data.op.opcode)
    (ho : o &&& kRepMask = kRepFloat64 ∨ o &&& kRepMask = kRepTagged)
    (hut : u &&& kRepTagged = 0) (huf : u &&& kRepFloat64 = 0) (hub : u &&& kRepBit = 0)
    (huw : u &&& rWord ≠ 0) :
    ∃ n rc1 op, rc.GetRepresentationFor node o u = (.returned n, rc1) ∧
      rc.jsgraph_.graph_.get? n = none ∧
      rc1.jsgraph_.graph_.get? n = some ⟨op, [node]⟩ ∧
      (∀ m d, rc.jsgraph_.graph_.get? m = some d → rc1.jsgraph_.graph_.get? m = some d) ∧
      (o &&& kRepMask = kRepFloat64 →
        (op = MachineOperatorBuilder.ChangeFloat64ToUint32 ↔
          (o &&& kTypeUint32 ≠ 0 ∨ u &&& kTypeUint32 ≠ 0)) ∧
        (op = MachineOperatorBuilder.ChangeFloat64ToInt32 ↔
          ¬ (o &&& kTypeUint32 ≠ 0 ∨ u &&& kTypeUint32 ≠ 0))) ∧
      (o &&& kRepMask = kRepTagged →
        (op = SimplifiedOperatorBuilder.ChangeTaggedToUint32 ↔
          (o &&& kTypeUint32 ≠ 0 ∨ u &&& kTypeUint32 ≠ 0)) ∧
        (op = SimplifiedOperatorBuilder.ChangeTaggedToInt32 ↔
          ¬ (o &&& kTypeUint32 ≠ 0 ∨ u &&& kTypeUint32 ≠ 0))) := by
  have h1 : HasOneRepresentation o := by
    unfold HasOneRepresentation
    rcases ho with h | h <;> rw [h] <;> decide
  have hut1 : (u &&& kRepMask) &&& kRepTagged = 0 := by
    rw [← land_rep u kRepTagged (by decide)]; exact hut
  have huf1 : (u &&& kRepMask) &&& kRepFloat64 = 0 := by
    rw [← land_rep u kRepFloat64 (by decide)]; exact huf
  have hub1 : (u &&& kRepMask) &&& kRepBit = 0 := by
    rw [← land_rep u kRepBit (by decide)]; exact hub
  have huw1 : (u &&& kRepMask) &&& rWord ≠ 0 := by
    rw [← land_rep u rWord (by decide)]; exact huw
  have how : (o &&& kRepMask) &&& rWord = 0 := by
    rcases ho with h | h <;> rw [h] <;> decide
  have hdiff : u &&& kRepMask ≠ o &&& kRepMask := fun e => huw1 (by rw [e]; exact how)
  have hd := GetRepresentationFor_dispatch rc node data o u hnode hnc h1
  rw [if_neg hdiff, if_neg (fun h => h.2 how), if_neg (fun hx => hx hut1),
    if_neg (fun hx => hx huf1), if_neg (fun hx => hx hub1), if_pos huw1] at hd
  have hdec : (o &&& kTypeUint32 ≠ 0 ∨ decide (u &&& kTypeUint32 ≠ 0) = true) ↔
      (o &&& kTypeUint32 ≠ 0 ∨ u &&& kTypeUint32 ≠ 0) := by
    simp only [decide_eq_true_eq]
  rcases ho with h | h
  · have hf : (o &&& kRepMask) &&& kRepFloat64 ≠ 0 := by rw [h]; decide
    rw [if_pos hf] at hd
    by_cases hs : o &&& kTypeUint32 ≠ 0 ∨ u &&& kTypeUint32 ≠ 0
    · rw [if_pos (hdec.2 hs)] at hd
      obtain ⟨n, rc1, e1, e2, e3, e4⟩ :=
        RepresentationChanger.NewNode_spec rc MachineOperatorBuilder.ChangeFloat64ToUint32 node rfl
      refine ⟨n, rc1, _, hd.trans e1, e3, e2, e4, fun _ => ⟨by simp [hs], ?_⟩, fun h2 => ?_⟩
      · simp only [hs, not_true_eq_false, iff_false]; decide
      · rw [h] at h2; exact absurd h2 (by decide)
    · rw [if_neg (fun x => hs (hdec.1 x))] at hd
      obtain ⟨n, rc1, e1, e2, e3, e4⟩ :=
        RepresentationChanger.NewNode_spec rc MachineOperatorBuilder.ChangeFloat64ToInt32 node rfl
      refine ⟨n, rc1, _, hd.trans e1, e3, e2, e4, fun _ => ⟨?_, by simp [hs]⟩, fun h2 => ?_⟩
      · simp only [hs, iff_false]; decide
      · rw [h] at h2; exact absurd h2 (by decide)
  · have hf : (o &&& kRepMask) &&& kRepFloat64 = 0 := by rw [h]; decide
    have ht : (o &&& kRepMask) &&& kRepTagged ≠ 0 := by rw [h]; decide
    rw [if_neg (fun hx => hx hf), if_pos ht] at hd
    by_cases hs : o &&& kTypeUint32 ≠ 0 ∨ u &&& kTypeUint32 ≠ 0
    · rw [if_pos (hdec.2 hs)] at hd
      obtain ⟨n, rc1, e1, e2, e3, e4⟩ :=
        RepresentationChanger.NewNode_spec rc SimplifiedOperatorBuilder.ChangeTaggedToUint32 node rfl
      refine ⟨n, rc1, _, hd.trans e1, e3, e2, e4, fun h2 => ?_, fun _ => ⟨by simp [hs], ?_⟩⟩
      · rw [h] at h2; exact absurd h2 (by decide)
      · simp only [hs, not_true_eq_false, iff_false]; decide
    · rw [if_neg (fun x => hs (hdec.1 x))] at hd
      obtain ⟨n, rc1, e1, e2, e3, e4⟩ :=
        RepresentationChanger.NewNode_spec rc SimplifiedOperatorBuilder.ChangeTaggedToInt32 node rfl
      refine ⟨n, rc1, _, hd.trans e1, e3, e2, e4, fun h2 => ?_, fun _ => ⟨?_, by simp [hs]⟩⟩
      · rw [h] at h2; exact absurd h2 (by decide)
      · simp only [hs, iff_false]; decide

theorem C37_unsigned_hint_on_either_side_witness :
    ∃ n rc1 op, exampleChanger.GetRepresentationFor ⟨1⟩ (kRepTagged ||| kTypeInt32)
        (kRepWord32 ||| kTypeUint32) = (.returned n, rc1) ∧
      exampleChanger.jsgraph_.graph_.get? n = none ∧
      rc1.jsgraph_.graph_.get? n = some ⟨op, [⟨1⟩]⟩ ∧
      op = SimplifiedOperatorBuilder.ChangeTaggedToUint32 := by
  obtain ⟨n, rc1, op, h1, h2, h3, -, -, h6⟩ :=
    C37_unsigned_hint_on_either_side exampleChanger ⟨1⟩
      ⟨CommonOperatorBuilder.Parameter 0, [⟨0⟩]⟩ (kRepTagged ||| kTypeInt32)
      (kRepWord32 ||| kTypeUint32) rfl (by decide) (by decide) (by decide) (by decide)
      (by decide) (by decide)
  exact ⟨n, rc1, op, h1, h2, h3, (h6 (by decide)).1.2 (by decide)⟩

end

section

open RepresentationChanger SimplifiedOperatorReducer


theorem JSGraph.Cached_preserves (jsgraph jg : JSGraph) (op : Operator) (n : Node)
    (h : jsgraph.Cached op = some (n, jg)) :
    ∀ m d, jsgraph.graph_.get? m = some d → jg.graph_.get? m = some d := by
  unfold JSGraph.Cached at h
  split at h
  · simp only [Option.some.injEq, Prod.mk.injEq] at h
    obtain ⟨-, rfl⟩ := h
    exact fun _ _ h => h
  · split at h
    · rename_i node graph hnew
      simp only [Option.some.injEq, Prod.mk.injEq] at h
      obtain ⟨-, rfl⟩ := h
      exact fun m d hm => Graph.get?_NewNode_old _ _ _ _ _ m d hnew hm
    · simp at h

theorem Reduce_changed_pattern (jsgraph jg : JSGraph) (node n : Node)
    (h : Reduce jsgraph node = (.ok (.Changed n), jg)) :
    ∃ data input idata x p, jsgraph.graph_.get? node = some data ∧
      data.inputs[0]? = some input ∧ jsgraph.graph_.get? input = some idata ∧
      idata.inputs[0]? = some x ∧ p ∈ changedPatterns ∧ data.op.opcode = p.1 ∧
      idata.op.opcode = p.2.1 ∧ Change jsgraph node p.2.2 x = (.ok (.Changed n), jg) := by
  unfold Reduce at h
  split at h
  · simp at h
  · rename_i data hdata
    split at h
    all_goals first
      | exact absurd h (by simp)
      | (obtain ⟨input, m, hi, hm, hr⟩ := withMatcher_ok _ _ _ _ _ _ h
         try simp only [ReplaceInt32, ReplaceUint32, ReplaceFloat64, ReplaceNumber,
           ReplaceNumber_int32] at hr
         repeat' split at hr
         all_goals first
           | exact absurd hr (by simp)
           | (obtain ⟨c, -, hc⟩ := ReplaceCached_ok _ _ _ _ hr; cases hc)
           | (obtain ⟨a, -, hc, -⟩ := ReplaceInput0_ok _ _ _ _ hr; cases hc)
           | (obtain ⟨a, ha, hc⟩ := ChangeInput0_ok _ _ _ _ _ _ hr
              obtain ⟨idata, hid, hmn, hmo, -⟩ :=
                ValueMatcher.new_ok HasValue_double ValueOf_double _ _ _ hm
              rw [hmn, Graph.InputAt_of_get? _ _ _ _ hid] at ha
              rw [Graph.InputAt_of_get? _ _ _ _ hdata] at hi
              have hop : ∀ o, m.IsOpcode o = true → idata.op.opcode = o := fun o ho => by
                rw [← hmo]; simpa [ValueMatcher.IsOpcode] using ho
              first
                | exact ⟨data, input, idata, a, (_, _, _), hdata, hi, hid, ha,
                    List.mem_cons_self _ _, ‹_›, hop _ ‹_›, hc⟩
                | exact ⟨data, input, idata, a, (_, _, _), hdata, hi, hid, ha,
                    List.mem_cons_of_mem _ (List.mem_cons_self _ _), ‹_›, hop _ ‹_›, hc⟩
                | exact ⟨data, input, idata, a, (_, _, _), hdata, hi, hid, ha,
                    List.mem_cons_of_mem _ (List.mem_cons_of_mem _ (List.mem_cons_self _ _)),
                    ‹_›, hop _ ‹_›, hc⟩
                | exact ⟨data, input, idata, a, (_, _, _), hdata, hi, hid, ha,
                    List.mem_cons_of_mem _ (List.mem_cons_of_mem _
                      (List.mem_cons_of_mem _ (List.mem_cons_self _ _))),
                    ‹_›, hop _ ‹_›, hc⟩))

theorem Reduce_replace_preserves (jsgraph jg : JSGraph) (node c : Node)
    (h : Reduce jsgraph node = (.ok (.Replace c), jg)) :
    ∀ m d, jsgraph.graph_.get? m = some d → jg.graph_.get? m = some d := by
  unfold Reduce at h
  split at h
  · simp at h
  · split at h
    all_goals first
      | exact absurd h (by simp)
      | (obtain ⟨input, m, -, -, hr⟩ := withMatcher_ok _ _ _ _ _ _ h
         try simp only [ReplaceInt32, ReplaceUint32, ReplaceFloat64, ReplaceNumber,
           ReplaceNumber_int32] at hr
         repeat' split at hr
         all_goals first
           | exact absurd hr (by simp)
           | (obtain ⟨c1, hreq, -⟩ := ReplaceCached_ok _ _ _ _ hr
              exact JSGraph.Cached_preserves _ _ _ _ hreq)
           | (obtain ⟨a, -, -, rfl⟩ := ReplaceInput0_ok _ _ _ _ hr; exact fun _ _ h => h)
           | (obtain ⟨a, -, hc⟩ := ChangeInput0_ok _ _ _ _ _ _ hr
              obtain ⟨hc1, -⟩ := Change_ok _ _ _ _ _ _ hc
              cases hc1))

theorem Reduce_nochange_same (jsgraph jg : JSGraph) (node : Node)
    (h : Reduce jsgraph node = (.ok .NoChange, jg)) : jg = jsgraph := by
  unfold Reduce at h
  split at h
  · simp at h
  · split at h
    all_goals first
      | (simp only [Prod.mk.injEq, true_and] at h; exact h.symm)
      | (obtain ⟨input, m, -, -, hr⟩ := withMatcher_ok _ _ _ _ _ _ h
         try simp only [ReplaceInt32, ReplaceUint32, ReplaceFloat64, ReplaceNumber,
           ReplaceNumber_int32] at hr
         repeat' split at hr
         all_goals first
           | (simp only [Prod.mk.injEq, true_and] at hr; exact hr.symm)
           | (obtain ⟨c1, -, hc⟩ := ReplaceCached_ok _ _ _ _ hr; cases hc)
           | (obtain ⟨a, -, hc, -⟩ := ReplaceInput0_ok _ _ _ _ hr; cases hc)
           | (obtain ⟨a, -, hc⟩ := ChangeInput0_ok _ _ _ _ _ _ hr
              obtain ⟨hc1, -⟩ := Change_ok _ _ _ _ _ _ hc
              cases hc1))

theorem changedPatterns_spec (p : IrOpcode × IrOpcode × Operator) (hp : p ∈ changedPatterns) :
    p.1 ≠ p.2.1 ∧ ¬ IsFoldedConstant p.2.1 ∧ p.2.2.opcode ∉ reducedOpcodes := by
  unfold changedPatterns at hp
  simp only [List.mem_cons, List.mem_singleton, List.not_mem_nil, or_false] at hp
  rcases hp with rfl | rfl | rfl | rfl <;> decide

theorem Reduce_pattern (jsgraph : JSGraph) (node input x : Node) (data idata : NodeData)
    (p : IrOpcode × IrOpcode × Operator)
    (hnode : jsgraph.graph_.get? node = some data) (hin : data.inputs[0]? = some input)
    (hinput : jsgraph.graph_.get? input = some idata) (hx : idata.inputs[0]? = some x)
    (hp : p ∈ changedPatterns) (h1 : data.op.opcode = p.1) (h2 : idata.op.opcode = p.2.1) :
    Reduce jsgraph node = Change jsgraph node p.2.2 x := by
  have hnc : ¬ IsFoldedConstant idata.op.opcode := by
    rw [h2]; exact (changedPatterns_spec p hp).2.1
  rw [Reduce_nonconst jsgraph node input data idata hnode hin hinput hnc]
  unfold changedPatterns at hp
  simp only [List.mem_cons, List.mem_singleton, List.not_mem_nil, or_false] at hp
  rcases hp with rfl | rfl | rfl | rfl <;>
    simp only [h1, h2, reduceCtorEq, if_false, if_true] <;>
    exact ChangeInput0_eq jsgraph node input x _ idata none hinput hx

/-- Claim C36. `Reduce` returns `Changed(node)` for exactly the four patterns of
`changedPatterns`: `ChangeTaggedToFloat64(ChangeInt32ToTagged(x))` becomes
`ChangeInt32ToFloat64(x)`, `ChangeTaggedToFloat64(ChangeUint32ToTagged(x))` becomes
`ChangeUint32ToFloat64(x)`, `ChangeTaggedToInt32(ChangeFloat64ToTagged(x))` becomes
`ChangeFloat64ToInt32(x)` and `ChangeTaggedToUint32(ChangeFloat64ToTagged(x))` becomes
`ChangeFloat64ToUint32(x)`. The reduced node keeps its identity and afterwards has exactly
one input, `x`; the tagging node and every other node are as before, and so is the cache.
Conversely a `Changed` outcome arises from one of the four patterns only, a `Replace`
outcome leaves every existing node as it was, and `NoChange` leaves the graph as it was. -/
theorem C36_changed_in_place_patterns (jsgraph : JSGraph) (node : Node) :
    (∀ data input idata x p, jsgraph.graph_.get? node = some data → data.inputs = [input] →
      jsgraph.graph_.get? input = some idata → idata.inputs[0]? = some x →
      p ∈ changedPatterns → data.op.opcode = p.1 → idata.op.opcode = p.2.1 →
      ∃ jg, Reduce jsgraph node = (.ok (.Changed node), jg) ∧
        jg.graph_.get? node = some ⟨p.2.2, [x]⟩ ∧ jg.graph_.get? input = some idata ∧
        (∀ m, m ≠ node → jg.graph_.get? m = jsgraph.graph_.get? m) ∧
        jg.cache_ = jsgraph.cache_) ∧
    (∀ n jg, Reduce jsgraph node = (.ok (.Changed n), jg) →
      n = node ∧ ∃ data input idata x p, jsgraph.graph_.get? node = some data ∧
        data.inputs[0]? = some input ∧ jsgraph.graph_.get? input = some idata ∧
        idata.inputs[0]? = some x ∧ p ∈ changedPatterns ∧ data.op.opcode = p.1 ∧
        idata.op.opcode = p.2.1 ∧
        jg.graph_.get? node = some ⟨p.2.2, data.inputs.set 0 x⟩ ∧
        (∀ m, m ≠ node → jg.graph_.get? m = jsgraph.graph_.get? m)) ∧
    (∀ c jg, Reduce jsgraph node = (.ok (.Replace c), jg) →
      ∀ m d, jsgraph.graph_.get? m = some d → jg.graph_.get? m = some d) ∧
    (∀ jg, Reduce jsgraph node = (.ok .NoChange, jg) → jg = jsgraph) := by
  refine ⟨?_, ?_, fun c jg h => Reduce_replace_preserves jsgraph jg node c h,
    fun jg h => Reduce_nochange_same jsgraph jg node h⟩
  · intro data input idata x p hnode hin hinput hx hp h1 h2
    have hin0 : data.inputs[0]? = some input := by rw [hin]; rfl
    have hne : input ≠ node := fun e => by
      rw [e, hnode] at hinput
      simp only [Option.some.injEq] at hinput
      rw [hinput] at h1
      exact (changedPatterns_spec p hp).1 (h1.symm.trans h2)
    obtain ⟨jg, e1, e2, e3, e4⟩ :=
      Change_spec jsgraph node x data p.2.2 hnode (by rw [hin]; exact Nat.zero_lt_one)
    refine ⟨jg, ?_, ?_, ?_, e4, e3⟩
    · rw [Reduce_pattern jsgraph node input x data idata p hnode hin0 hinput hx hp h1 h2]
      exact e1
    · rw [e2, hin]; rfl
    · rw [e4 input hne]; exact hinput
  · intro n jg h
    obtain ⟨data, input, idata, x, p, hnode, hin, hinput, hx, hp, h1, h2, hc⟩ :=
      Reduce_changed_pattern jsgraph jg node n h
    obtain ⟨hr, data1, hd1, hd2, -, -, hd5⟩ := Change_ok jsgraph jg node x p.2.2 _ hc
    rw [hnode] at hd1
    simp only [Option.some.injEq] at hd1
    subst hd1
    simp only [Reduction.Changed.injEq] at hr
    exact ⟨hr, data, input, idata, x, p, hnode, hin, hinput, hx, hp, h1, h2, hd2, hd5⟩

theorem C36_changed_in_place_patterns_witness :
    ∃ jg, Reduce reducerJSGraph ⟨11⟩ = (.ok (.Changed ⟨11⟩), jg) ∧
      jg.graph_.get? ⟨11⟩ = some ⟨MachineOperatorBuilder.ChangeInt32ToFloat64, [⟨8⟩]⟩ ∧
      jg.graph_.get? ⟨9⟩ = some ⟨SimplifiedOperatorBuilder.ChangeInt32ToTagged, [⟨8⟩]⟩ ∧
      (∀ m, m ≠ ⟨11⟩ → jg.graph_.get? m = reducerJSGraph.graph_.get? m) ∧
      jg.cache_ = reducerJSGraph.cache_ :=
  (C36_changed_in_place_patterns reducerJSGraph ⟨11⟩).1
    ⟨SimplifiedOperatorBuilder.ChangeTaggedToFloat64, [⟨9⟩]⟩ ⟨9⟩
    ⟨SimplifiedOperatorBuilder.ChangeInt32ToTagged, [⟨8⟩]⟩ ⟨8⟩
    (.kChangeTaggedToFloat64, .kChangeInt32ToTagged, MachineOperatorBuilder.ChangeInt32ToFloat64)
    rfl rfl rfl rfl (by decide) rfl rfl

end

section

open RepresentationChanger

/-- Claim C38, evaluated: on node #2 of the example graph, the `Int32Constant` 5, with
output type word64 | int64, `GetBitRepresentationFor` returns the new node #6, whose
operator is the tagged `NumberConstant` 1.0 and not the `Int32Constant` 1; so does
`GetRepresentationFor` with the use `kRepBit`. The sibling branch for the `true` heap
constant #4 returns an `Int32Constant`. -/
theorem C38_bit_of_int32_constant_is_number_constant :
    (exampleJSGraph.graph_.get? ⟨2⟩).map (fun d => d.op) =
      some (CommonOperatorBuilder.Int32Constant 5) ∧
    (exampleChanger.GetBitRepresentationFor ⟨2⟩ (kRepWord64 ||| kTypeInt64)).1 =
      .returned ⟨6⟩ ∧
    ((exampleChanger.GetBitRepresentationFor ⟨2⟩
        (kRepWord64 ||| kTypeInt64)).2.jsgraph_.graph_.get? ⟨6⟩).map (fun d => d.op) =
      some (CommonOperatorBuilder.NumberConstant ⟨false, 1023, 0⟩) ∧
    exampleChanger.GetRepresentationFor ⟨2⟩ (kRepWord64 ||| kTypeInt64) kRepBit =
      exampleChanger.GetBitRepresentationFor ⟨2⟩ (kRepWord64 ||| kTypeInt64) ∧
    ((exampleChanger.GetBitRepresentationFor ⟨4⟩
        (kRepTagged ||| kTypeBool)).2.jsgraph_.graph_.get? ⟨6⟩).map (fun d => d.op) =
      some (CommonOperatorBuilder.Int32Constant 1) := by
  refine ⟨by decide, by decide, by decide, by decide, by decide⟩

/-- Claim C40, evaluated: on the `NumberConstant` 1.0, `HasValue` is true for `int64_t`
and `uint64_t`, yet `ValueOf` fails its `CHECK_EQ`, while the `int32_t`, `uint32_t` and
`double` traits return 1, 1 and 1.0 for the same operator. -/
theorem C40_int64_value_of_number_constant_fails :
    HasValue_int64 (CommonOperatorBuilder.NumberConstant ⟨false, 1023, 0⟩) = true ∧
    ValueOf_int64 (CommonOperatorBuilder.NumberConstant ⟨false, 1023, 0⟩) =
      .error .assertion_failed ∧
    HasValue_uint64 (CommonOperatorBuilder.NumberConstant ⟨false, 1023, 0⟩) = true ∧
    ValueOf_uint64 (CommonOperatorBuilder.NumberConstant ⟨false, 1023, 0⟩) =
      .error .assertion_failed ∧
    HasValue_int32 (CommonOperatorBuilder.NumberConstant ⟨false, 1023, 0⟩) = true ∧
    ValueOf_int32 (CommonOperatorBuilder.NumberConstant ⟨false, 1023, 0⟩) = some 1 ∧
    ValueOf_uint32 (CommonOperatorBuilder.NumberConstant ⟨false, 1023, 0⟩) = some 1 ∧
    ValueOf_double (CommonOperatorBuilder.NumberConstant ⟨false, 1023, 0⟩) =
      some ⟨false, 1023, 0⟩ := by
  refine ⟨by decide, rfl, by decide, rfl, by decide, by decide, by decide, by decide⟩

end

section

open RepresentationChanger SimplifiedOperatorReducer

theorem FoldAgreesWithReduce_of_Cached (rc : RepresentationChanger)
    (r : Outcome × RepresentationChanger) (conv : Node) (op : Operator)
    (hwf : rc.jsgraph_.WellFormed) (harity : op.input_count = 0)
    (hfold : IsFoldedConstant op.opcode)
    (h1 : r = rc.fromJSGraph (rc.jsgraph_.Cached op))
    (h2 : Reduce rc.jsgraph_ conv = ReplaceCached rc.jsgraph_ (rc.jsgraph_.Cached op)) :
    rc.FoldAgreesWithReduce r conv := by
  obtain ⟨n, jg, hc, -, ⟨ndata, g1, g2, -, g4⟩, -⟩ :=
    JSGraph.Cached_spec rc.jsgraph_ op hwf harity
  refine ⟨n, jg, ndata, ?_, ?_, g1, by rw [g2]; exact hfold, g4⟩
  · rw [h1, hc]; rfl
  · rw [h2, hc]; rfl

theorem word32_fold_value (d : Double)
    (hrep : (d.ltZero = true ∧ IsInt32Double d = true) ∨
      (d.ltZero = false ∧ IsUint32Double d = true)) :
    ∃ w : Int,
      ((if d.ltZero then
          (if !IsInt32Double d then none else static_cast_int32 d)
        else
          (if !IsUint32Double d then none
           else (static_cast_uint32 d).map uint32_to_int32)) = some w) ∧
      DoubleToInt32 d = w ∧ uint32_to_int32 (DoubleToUint32 d) = w := by
  rcases hrep with ⟨hlt, hint⟩ | ⟨hlt, hint⟩
  · have hint0 := hint
    unfold IsInt32Double at hint
    cases hn : d.toInt? with
    | none => rw [hn] at hint; simp at hint
    | some n =>
      rw [hn] at hint
      simp only [Bool.and_eq_true, Bool.not_eq_true', decide_eq_true_eq] at hint
      obtain ⟨-, h1, h2⟩ := hint
      obtain ⟨hfin, htr⟩ := Double.truncate_of_toInt? d n hn
      have hcast : static_cast_int32 d = some n := by
        unfold static_cast_int32
        rw [hfin, htr, if_pos]
        simp only [Bool.true_and, Bool.and_eq_true, decide_eq_true_eq]
        omega
      obtain ⟨e1, e2⟩ := DoubleTo32_of_toInt? d n hn
      refine ⟨n, ?_, ?_, ?_⟩
      · rw [hlt, hint0, hcast]; rfl
      · rw [e2]; split_ifs <;> omega
      · rw [e1]; exact int32_round_trip n h1 h2
  · have hint0 := hint
    unfold IsUint32Double at hint
    cases hn : d.toInt? with
    | none => rw [hn] at hint; simp at hint
    | some n =>
      rw [hn] at hint
      simp only [Bool.and_eq_true, Bool.not_eq_true', decide_eq_true_eq] at hint
      obtain ⟨-, h1, h2⟩ := hint
      obtain ⟨hfin, htr⟩ := Double.truncate_of_toInt? d n hn
      have hcast : static_cast_uint32 d = some n.toNat := by
        unfold static_cast_uint32
        rw [hfin, htr, if_pos]
        simp only [Bool.true_and, Bool.and_eq_true, decide_eq_true_eq]
        omega
      obtain ⟨e1, e2⟩ := DoubleTo32_of_toInt? d n hn
      have hmod : n % 4294967296 = n := Int.emod_eq_of_lt h1 (by omega)
      refine ⟨uint32_to_int32 n.toNat, ?_, ?_, ?_⟩
      · rw [hlt, hint0, hcast]; rfl
      · rw [e2, hmod]
        unfold uint32_to_int32
        have hm : n.toNat % 4294967296 = n.toNat := Nat.mod_eq_of_lt (by omega)
        rw [hm]
        split_ifs <;> omega
      · rw [e1, hmod]

theorem foldingJSGraph_wellFormed : foldingJSGraph.WellFormed := by
  intro key node hmem
  simp only [foldingJSGraph, List.mem_cons, Prod.mk.injEq, List.mem_singleton, List.not_mem_nil,
    or_false] at hmem
  rcases hmem with ⟨rfl, rfl⟩ | ⟨rfl, rfl⟩ <;> exact ⟨_, rfl, rfl, rfl, rfl⟩

/-- Claim C39 as stated fails in three ways. (1) The changer folds the `Int32Constant` #2
to the `Float64Constant` 1.0 for a float64 use, while the operator that the non-constant
path inserts for the same output type is `ChangeInt32ToFloat64`, and `Reduce` on that
conversion over #2 (node #3) is `NoChange`: the reducer has no case for a machine operator.
(2) With output type bit | int32 the changer folds `Int32Constant[1]` to the
`NumberConstant` 1.0, while the non-constant path inserts `ChangeBitToBool`, which `Reduce`
(node #4) replaces by the `true` heap constant. (3) With both the int32 and the uint32
hint the changer folds `Int32Constant[-1]` to the `NumberConstant` 4294967295, while
`Reduce(ChangeInt32ToTagged(#5))` (node #6) gives the `NumberConstant` -1. -/
theorem C39_folding_differs_from_reduce :
    ((RepresentationChanger.new foldingJSGraph).GetFloat64RepresentationFor ⟨1⟩
        (kRepWord32 ||| kTypeInt32) =
      (RepresentationChanger.new foldingJSGraph).NewNode
        MachineOperatorBuilder.ChangeInt32ToFloat64 ⟨1⟩ ∧
     ((RepresentationChanger.new foldingJSGraph).GetFloat64RepresentationFor ⟨2⟩
        (kRepWord32 ||| kTypeInt32)).1 = .returned ⟨7⟩ ∧
     (((RepresentationChanger.new foldingJSGraph).GetFloat64RepresentationFor ⟨2⟩
        (kRepWord32 ||| kTypeInt32)).2.jsgraph_.graph_.get? ⟨7⟩).map (fun d => d.op) =
      some (CommonOperatorBuilder.Float64Constant ⟨false, 1023, 0⟩) ∧
     (foldingJSGraph.graph_.get? ⟨3⟩) =
      some ⟨MachineOperatorBuilder.ChangeInt32ToFloat64, [⟨2⟩]⟩ ∧
     Reduce foldingJSGraph ⟨3⟩ = (.ok .NoChange, foldingJSGraph)) ∧
    ((RepresentationChanger.new foldingJSGraph).GetTaggedRepresentationFor ⟨1⟩
        (kRepBit ||| kTypeInt32) =
      (RepresentationChanger.new foldingJSGraph).NewNode
        SimplifiedOperatorBuilder.ChangeBitToBool ⟨1⟩ ∧
     (((RepresentationChanger.new foldingJSGraph).GetTaggedRepresentationFor ⟨2⟩
        (kRepBit ||| kTypeInt32)).2.jsgraph_.graph_.get? ⟨7⟩).map (fun d => d.op) =
      some (CommonOperatorBuilder.NumberConstant ⟨false, 1023, 0⟩) ∧
     ((RepresentationChanger.new foldingJSGraph).GetTaggedRepresentationFor ⟨2⟩
        (kRepBit ||| kTypeInt32)).1 = .returned ⟨7⟩ ∧
     (Reduce foldingJSGraph ⟨4⟩).1 = .ok (.Replace ⟨7⟩) ∧
     ((Reduce foldingJSGraph ⟨4⟩).2.graph_.get? ⟨7⟩).map (fun d => d.op) =
      some (CommonOperatorBuilder.HeapConstant .true_value)) ∧
    ((((RepresentationChanger.new foldingJSGraph).GetTaggedRepresentationFor ⟨5⟩
        (kRepWord32 ||| kTypeInt32 ||| kTypeUint32)).2.jsgraph_.graph_.get? ⟨7⟩).map
          (fun d => d.op) =
      some (CommonOperatorBuilder.NumberConstant (Double.ofInt 4294967295)) ∧
     ((RepresentationChanger.new foldingJSGraph).GetTaggedRepresentationFor ⟨5⟩
        (kRepWord32 ||| kTypeInt32 ||| kTypeUint32)).1 = .returned ⟨7⟩ ∧
     (Reduce foldingJSGraph ⟨6⟩).1 = .ok (.Replace ⟨7⟩) ∧
     ((Reduce foldingJSGraph ⟨6⟩).2.graph_.get? ⟨7⟩).map (fun d => d.op) =
      some (CommonOperatorBuilder.NumberConstant (Double.ofInt (-1)))) := by
  refine ⟨⟨by decide, by decide, by decide, by decide, rfl⟩,
    ⟨by decide, by decide, by decide, rfl, by decide⟩,
    ⟨by decide, by decide, rfl, by decide⟩⟩

/-- Claim C39, amended. Let `c` be a constant node and `conv` a node of the same graph
whose operator is a simplified conversion and whose first input is `c`. In each of these
cases the converter of the changer, called on `c`, and `Reduce`, called on `conv`, return
the same constant node and leave the same graph: `Int32Constant[v]` with the int32 hint and
without the uint32 hint to tagged against `ChangeInt32ToTagged`; `Int32Constant[v]` with
the uint32 hint to tagged against `ChangeUint32ToTagged`; `Float64Constant[d]` to tagged
against `ChangeFloat64ToTagged`; `NumberConstant[d]` to float64 against
`ChangeTaggedToFloat64`; `NumberConstant[d]` with `d` representable (a negative `d` that
is an int32, or a non-negative `d` that is a uint32) to word32 against both
`ChangeTaggedToInt32` and `ChangeTaggedToUint32`; the `true` or `false` `HeapConstant` to
bit against `ChangeBoolToBit`; and `Int32Constant[0]` or `Int32Constant[1]` in bit
representation with neither integer hint to tagged against `ChangeBitToBool`. -/
theorem C39_folding_agrees_with_reduce (rc : RepresentationChanger) (c conv : Node)
    (cdata convdata : NodeData) (o : MachineTypeUnion)
    (hwf : rc.jsgraph_.WellFormed)
    (hc : rc.jsgraph_.graph_.get? c = some cdata)
    (hconv : rc.jsgraph_.graph_.get? conv = some convdata)
    (hin : convdata.inputs[0]? = some c) :
    (∀ v : Int, cdata.op.opcode = .kInt32Constant → cdata.op.parameter = .int32 v →
      o &&& kTypeUint32 = 0 → o &&& kTypeInt32 ≠ 0 →
      convdata.op.opcode = .kChangeInt32ToTagged →
      rc.FoldAgreesWithReduce (rc.GetTaggedRepresentationFor c o) conv) ∧
    (∀ v : Int, cdata.op.opcode = .kInt32Constant → cdata.op.parameter = .int32 v →
      o &&& kTypeUint32 ≠ 0 →
      convdata.op.opcode = .kChangeUint32ToTagged →
      rc.FoldAgreesWithReduce (rc.GetTaggedRepresentationFor c o) conv) ∧
    (∀ d : Double, cdata.op.opcode = .kFloat64Constant → cdata.op.parameter = .float64 d →
      convdata.op.opcode = .kChangeFloat64ToTagged →
      rc.FoldAgreesWithReduce (rc.GetTaggedRepresentationFor c o) conv) ∧
    (∀ d : Double, cdata.op.opcode = .kNumberConstant → cdata.op.parameter = .float64 d →
      convdata.op.opcode = .kChangeTaggedToFloat64 →
      rc.FoldAgreesWithReduce (rc.GetFloat64RepresentationFor c o) conv) ∧
    (∀ (d : Double) (use_unsigned : Bool),
      cdata.op.opcode = .kNumberConstant → cdata.op.parameter = .float64 d →
      ((d.ltZero = true ∧ IsInt32Double d = true) ∨
        (d.ltZero = false ∧ IsUint32Double d = true)) →
      (convdata.op.opcode = .kChangeTaggedToInt32 ∨
        convdata.op.opcode = .kChangeTaggedToUint32) →
      rc.FoldAgreesWithReduce (rc.GetWord32RepresentationFor c o use_unsigned) conv) ∧
    (∀ h : HeapObject, cdata.op.opcode = .kHeapConstant → cdata.op.parameter = .heap h →
      (h = .true_value ∨ h = .false_value) →
      convdata.op.opcode = .kChangeBoolToBit →
      rc.FoldAgreesWithReduce (rc.GetBitRepresentationFor c o) conv) ∧
    (∀ v : Int, cdata.op.opcode = .kInt32Constant → cdata.op.parameter = .int32 v →
      (v = 0 ∨ v = 1) →
      o &&& kTypeUint32 = 0 → o &&& kTypeInt32 = 0 → o &&& kRepBit ≠ 0 →
      convdata.op.opcode = .kChangeBitToBool →
      rc.FoldAgreesWithReduce (rc.GetTaggedRepresentationFor c o) conv) := by
  refine ⟨?_, ?_, ?_, ?_, ?_, ?_, ?_⟩
  · intro v hop hpar hu hi hcv
    have hval := ValueOf_int32_Int32Constant cdata.op v hop hpar
    have hv := HasValue_int32_Int32Constant cdata.op hop
    apply FoldAgreesWithReduce_of_Cached rc _ conv
      (CommonOperatorBuilder.NumberConstant (canonicalDouble (Double.ofInt v))) hwf rfl
      (Or.inl rfl)
    · unfold GetTaggedRepresentationFor
      simp only [hc, hop, hval]
      rw [if_neg (fun hx => hx hu), if_pos hi]
      rfl
    · rw [(Reduce_int32_literal rc.jsgraph_ conv c convdata cdata v hconv hin hc hv hval).2 hcv]
      rfl
  · intro v hop hpar hu hcv
    have hval := ValueOf_int32_Int32Constant cdata.op v hop hpar
    have hv : HasValue_uint32 cdata.op = true := HasValue_int32_Int32Constant cdata.op hop
    have hvalu : ValueOf_uint32 cdata.op = some (int32_to_uint32 v) := by
      unfold ValueOf_uint32
      rw [if_neg (by rw [hop]; decide), hval]; rfl
    apply FoldAgreesWithReduce_of_Cached rc _ conv
      (CommonOperatorBuilder.NumberConstant
        (canonicalDouble (Double.ofInt (int32_to_uint32 v)))) hwf rfl (Or.inl rfl)
    · unfold GetTaggedRepresentationFor
      simp only [hc, hop, hvalu]
      rw [if_pos hu]
      rfl
    · rw [Reduce_uint32_literal rc.jsgraph_ conv c convdata cdata _ hconv hin hc hv hvalu hcv]
      rfl
  · intro d hop hpar hcv
    have hval := ValueOf_double_constant cdata.op d (Or.inr hop) hpar
    have hv := HasValue_double_constant cdata.op (Or.inr hop)
    apply FoldAgreesWithReduce_of_Cached rc _ conv
      (CommonOperatorBuilder.NumberConstant (canonicalDouble d)) hwf rfl (Or.inl rfl)
    · unfold GetTaggedRepresentationFor
      simp only [hc, hop, hval]
      rfl
    · rw [(Reduce_double_literal rc.jsgraph_ conv c convdata cdata d hconv hin hc hv hval).1 hcv]
      rfl
  · intro d hop hpar hcv
    have hval := ValueOf_double_constant cdata.op d (Or.inl hop) hpar
    have hv := HasValue_double_constant cdata.op (Or.inl hop)
    apply FoldAgreesWithReduce_of_Cached rc _ conv
      (CommonOperatorBuilder.Float64Constant (canonicalDouble d)) hwf rfl
      (Or.inr (Or.inr (Or.inr rfl)))
    · unfold GetFloat64RepresentationFor
      simp only [hc, hop, hval]
      rfl
    · rw [(Reduce_double_literal rc.jsgraph_ conv c convdata cdata d hconv hin hc hv
        hval).2.1 hcv]
      rfl
  · intro d use_unsigned hop hpar hrep hcv
    have hval := ValueOf_double_constant cdata.op d (Or.inl hop) hpar
    have hv := HasValue_double_constant cdata.op (Or.inl hop)
    obtain ⟨w, hw, e1, e2⟩ := word32_fold_value d hrep
    have hch : rc.GetWord32RepresentationFor c o use_unsigned =
        rc.fromJSGraph (rc.jsgraph_.Int32Constant w) := by
      rw [GetWord32_constant rc c cdata d o use_unsigned hc (Or.inl hop) hpar]
      rcases hrep with ⟨hlt, hint⟩ | ⟨hlt, hint⟩
      · rw [hlt, hint] at hw
        rw [hlt, hint]
        simp only [Bool.not_true, Bool.false_eq_true, if_false, if_true] at hw ⊢
        rw [hw]
      · rw [hlt, hint] at hw
        rw [hlt, hint]
        simp only [Bool.not_true, Bool.false_eq_true, if_false, Option.map_eq_some'] at hw ⊢
        obtain ⟨a, ha, rfl⟩ := hw
        rw [ha]
    apply FoldAgreesWithReduce_of_Cached rc _ conv (CommonOperatorBuilder.Int32Constant w)
      hwf rfl (Or.inr (Or.inr (Or.inl rfl)))
    · rw [hch]; rfl
    · rcases hcv with hcv | hcv
      · rw [(Reduce_double_literal rc.jsgraph_ conv c convdata cdata d hconv hin hc hv
          hval).2.2.1 hcv, e1]
        rfl
      · rw [(Reduce_double_literal rc.jsgraph_ conv c convdata cdata d hconv hin hc hv
          hval).2.2.2 hcv]
        unfold ReplaceUint32
        rw [e2]
        rfl
  · intro h hop hpar hh hcv
    apply FoldAgreesWithReduce_of_Cached rc _ conv
      (CommonOperatorBuilder.Int32Constant (if h = HeapObject.true_value then 1 else 0))
      hwf rfl (Or.inr (Or.inr (Or.inl rfl)))
    · rw [GetBit_heap_constant rc c cdata h o hc hop hpar]
      rw [if_neg (by simp [hh])]
      rfl
    · rw [(Reduce_heap_literal rc.jsgraph_ conv c convdata cdata h hconv hin hc hop hpar).2 hcv]
      rcases hh with rfl | rfl
      · rfl
      · rfl
  · intro v hop hpar hv01 hu hi hb hcv
    have hval := ValueOf_int32_Int32Constant cdata.op v hop hpar
    have hv := HasValue_int32_Int32Constant cdata.op hop
    apply FoldAgreesWithReduce_of_Cached rc _ conv
      (CommonOperatorBuilder.HeapConstant (if v = 0 then .false_value else .true_value))
      hwf rfl (Or.inr (Or.inl rfl))
    · unfold GetTaggedRepresentationFor
      simp only [hc, hop, hval]
      rw [if_neg (fun hx => hx hu), if_neg (fun hx => hx hi), if_pos hb]
      split_ifs <;> rfl
    · rw [(Reduce_int32_literal rc.jsgraph_ conv c convdata cdata v hconv hin hc hv hval).1 hcv]
      rcases hv01 with rfl | rfl
      · rfl
      · rfl

theorem C39_folding_agrees_with_reduce_witness :
    (RepresentationChanger.new foldingJSGraph).FoldAgreesWithReduce
      ((RepresentationChanger.new foldingJSGraph).GetTaggedRepresentationFor ⟨5⟩
        (kRepWord32 ||| kTypeInt32)) ⟨6⟩ :=
  (C39_folding_agrees_with_reduce (RepresentationChanger.new foldingJSGraph) ⟨5⟩ ⟨6⟩
    ⟨CommonOperatorBuilder.Int32Constant (-1), []⟩
    ⟨SimplifiedOperatorBuilder.ChangeInt32ToTagged, [⟨5⟩]⟩ (kRepWord32 ||| kTypeInt32)
    foldingJSGraph_wellFormed rfl rfl rfl).1 (-1) rfl rfl (by decide) (by decide) rfl

end

end compiler
end internal

namespace base
namespace bits

/-! # Lemmas about the bit operations of `bits.h` -/

theorem and_mul_add (i a b r m : Nat) (ha : a < 2 ^ i) (hb : b < 2 ^ i) :
    (2 ^ i * r + a) &&& (2 ^ i * m + b) = 2 ^ i * (r &&& m) + (a &&& b) := by
  apply Nat.eq_of_testBit_eq
  intro j
  rw [Nat.testBit_and, Nat.testBit_mul_pow_two_add _ ha, Nat.testBit_mul_pow_two_add _ hb,
    Nat.testBit_mul_pow_two_add _ (Nat.and_lt_two_pow a hb)]
  split <;> simp

/-- The `and` of a word with a mask, byte by byte. -/
theorem and_byte (a m0 R M : Nat) (ha : a < 256) (hm : m0 < 256) :
    (a + 256 * R) &&& (m0 + 256 * M) = (a &&& m0) + 256 * (R &&& M) := by
  rw [Nat.add_comm a, Nat.add_comm m0, Nat.add_comm (a &&& m0)]
  exact and_mul_add 8 a m0 R M ha hm

/-- One statement `(value >> s) & mask` of `CountPopulation32`, byte by byte: the bits that the
shift brings in from the next byte are masked away. -/
theorem shift_and_byte (s a m0 R M : Nat) (hs : s = 1 ∨ s = 2 ∨ s = 4) (ha : a < 256)
    (hm : m0 < 2 ^ (8 - s)) :
    ((a + 256 * R) >>> s) &&& (m0 + 256 * M) = ((a >>> s) &&& m0) + 256 * ((R >>> s) &&& M) := by
  have hm256 : m0 < 256 := by
    rcases hs with rfl | rfl | rfl <;> norm_num at hm <;> omega
  have hsplit : (a + 256 * R) >>> s =
      (2 ^ (8 - s) * (R % 2 ^ s) + a >>> s) + 256 * (R >>> s) := by
    simp only [Nat.shiftRight_eq_div_pow]
    rcases hs with rfl | rfl | rfl <;> norm_num <;> omega
  have hlow : 2 ^ (8 - s) * (R % 2 ^ s) + a >>> s < 256 := by
    simp only [Nat.shiftRight_eq_div_pow]
    rcases hs with rfl | rfl | rfl <;> norm_num <;> omega
  have ha' : a >>> s < 2 ^ (8 - s) := by
    simp only [Nat.shiftRight_eq_div_pow]
    rcases hs with rfl | rfl | rfl <;> norm_num <;> omega
  rw [hsplit, and_byte _ _ _ _ hlow hm256]
  have h := and_mul_add (8 - s) (a >>> s) m0 (R % 2 ^ s) 0 ha' hm
  simp only [Nat.mul_zero, Nat.zero_add, Nat.and_zero] at h
  rw [h]

theorem and_split (i x m b : Nat) (hb : b < 2 ^ i) :
    x &&& (2 ^ i * m + b) = 2 ^ i * ((x / 2 ^ i) &&& m) + ((x % 2 ^ i) &&& b) := by
  have h := and_mul_add i (x % 2 ^ i) b (x / 2 ^ i) m (Nat.mod_lt _ (Nat.two_pow_pos i)) hb
  rw [Nat.div_add_mod] at h
  exact h

theorem and_255 (x : Nat) : x &&& 255 = x % 256 :=
  Nat.and_pow_two_sub_one_eq_mod x 8

theorem and_65535 (x : Nat) : x &&& 65535 = x % 65536 :=
  Nat.and_pow_two_sub_one_eq_mod x 16

/-- One of the first three lines of `CountPopulation32` works on the four bytes of the word
separately. -/
theorem sum_bytes (s m0 a0 a1 a2 a3 : Nat) (hs : s = 1 ∨ s = 2 ∨ s = 4)
    (hm : m0 < 2 ^ (8 - s)) (h0 : a0 < 256) (h1 : a1 < 256) (h2 : a2 < 256) :
    pairSum (a0 + 256 * (a1 + 256 * (a2 + 256 * a3))) s
        (m0 + 256 * (m0 + 256 * (m0 + 256 * m0))) =
      pairSum a0 s m0 + 256 * (pairSum a1 s m0 + 256 * (pairSum a2 s m0 +
        256 * pairSum a3 s m0)) := by
  have hm128 : m0 < 256 := by
    rcases hs with rfl | rfl | rfl <;> norm_num at hm <;> omega
  unfold pairSum
  rw [shift_and_byte s a0 m0 _ _ hs h0 hm, shift_and_byte s a1 m0 _ _ hs h1 hm,
    shift_and_byte s a2 m0 _ _ hs h2 hm, and_byte a0 m0 _ _ h0 hm128,
    and_byte a1 m0 _ _ h1 hm128, and_byte a2 m0 _ _ h2 hm128]
  ring

theorem pairSum_lt (a s m0 : Nat) (hm : m0 < 128) : pairSum a s m0 < 256 := by
  unfold pairSum
  have h1 : (a >>> s) &&& m0 ≤ m0 := Nat.and_le_right
  have h2 : a &&& m0 ≤ m0 := Nat.and_le_right
  omega

set_option maxRecDepth 100000 in
/-- The first three lines of `CountPopulation32` on one byte. -/
theorem byte_lines : ∀ b, b < 256 →
    (∀ f, f < 4 → pairSum b 1 0x55 / 4 ^ f % 4 = bitCount b (2 * f) 2) ∧
    (∀ f, f < 2 → pairSum (pairSum b 1 0x55) 2 0x33 / 16 ^ f % 16 = bitCount b (4 * f) 4) ∧
    pairSum (pairSum (pairSum b 1 0x55) 2 0x33) 4 0x0f = bitCount b 0 8 := by
  decide

theorem mod32_bytes (x0 x1 x2 x3 : Nat) (h0 : x0 < 256) (h1 : x1 < 256) (h2 : x2 < 256)
    (h3 : x3 < 256) :
    (x0 + 256 * (x1 + 256 * (x2 + 256 * x3))) % 4294967296 =
      x0 + 256 * (x1 + 256 * (x2 + 256 * x3)) := by
  omega

/-- One of the first three lines of `CountPopulation32` on a word given by its bytes. -/
theorem line_bytes (s m0 M a0 a1 a2 a3 : Nat) (hs : s = 1 ∨ s = 2 ∨ s = 4)
    (hm : m0 < 2 ^ (8 - s)) (hM : M = m0 + 256 * (m0 + 256 * (m0 + 256 * m0)))
    (h0 : a0 < 256) (h1 : a1 < 256) (h2 : a2 < 256) :
    CountPopulation32.sum (a0 + 256 * (a1 + 256 * (a2 + 256 * a3))) s M =
      pairSum a0 s m0 + 256 * (pairSum a1 s m0 + 256 * (pairSum a2 s m0 +
        256 * pairSum a3 s m0)) := by
  have hm128 : m0 < 128 := by
    rcases hs with rfl | rfl | rfl <;> norm_num at hm <;> omega
  unfold CountPopulation32.sum
  rw [hM, sum_bytes s m0 a0 a1 a2 a3 hs hm h0 h1 h2]
  exact mod32_bytes _ _ _ _ (pairSum_lt _ _ _ hm128) (pairSum_lt _ _ _ hm128)
    (pairSum_lt _ _ _ hm128) (pairSum_lt _ _ _ hm128)

theorem loc4 (x0 x1 x2 x3 : Nat) (h0 : x0 < 256) (h1 : x1 < 256) (h2 : x2 < 256) :
    ∀ i, i < 16 →
    (x0 + 256 * (x1 + 256 * (x2 + 256 * x3))) / 4 ^ i % 4 =
      [x0, x1, x2, x3].getD (i / 4) 0 / 4 ^ (i % 4) % 4 := by
  intro i hi
  interval_cases i <;> norm_num <;> omega

theorem loc16 (x0 x1 x2 x3 : Nat) (h0 : x0 < 256) (h1 : x1 < 256) (h2 : x2 < 256) :
    ∀ i, i < 8 →
    (x0 + 256 * (x1 + 256 * (x2 + 256 * x3))) / 16 ^ i % 16 =
      [x0, x1, x2, x3].getD (i / 2) 0 / 16 ^ (i % 2) % 16 := by
  intro i hi
  interval_cases i <;> norm_num <;> omega

theorem loc256 (x0 x1 x2 x3 : Nat) (h0 : x0 < 256) (h1 : x1 < 256) (h2 : x2 < 256)
    (h3 : x3 < 256) : ∀ i, i < 4 →
    (x0 + 256 * (x1 + 256 * (x2 + 256 * x3))) / 256 ^ i % 256 = [x0, x1, x2, x3].getD i 0 := by
  intro i hi
  interval_cases i <;> norm_num <;> omega

/-- A bit of a word is a bit of one of its bytes. -/
theorem locbit (x0 x1 x2 x3 j k : Nat) (h0 : x0 < 256) (h1 : x1 < 256) (h2 : x2 < 256)
    (hj : j < 4) (hk : k < 8) :
    (x0 + 256 * (x1 + 256 * (x2 + 256 * x3))) / 2 ^ (8 * j + k) % 2 =
      [x0, x1, x2, x3].getD j 0 / 2 ^ k % 2 := by
  interval_cases j <;> interval_cases k <;> norm_num <;> omega

/-- The set bits of a word in a field that lies within byte `j` are set bits of that byte. -/
theorem bitCount_byte (x0 x1 x2 x3 j lo : Nat) (h0 : x0 < 256) (h1 : x1 < 256)
    (h2 : x2 < 256) (hj : j < 4) :
    ∀ w, lo + w ≤ 8 →
    bitCount (x0 + 256 * (x1 + 256 * (x2 + 256 * x3))) (8 * j + lo) w =
      bitCount ([x0, x1, x2, x3].getD j 0) lo w := by
  intro w
  induction w with
  | zero => intro _; rfl
  | succ w ih =>
    intro h
    simp only [bitCount]
    rw [ih (by omega), Nat.add_assoc, locbit x0 x1 x2 x3 j (lo + w) h0 h1 h2 hj (by omega)]

/-- The last two lines of `CountPopulation32` on a word whose bytes are at most 8. -/
theorem lines45_bytes (e0 e1 e2 e3 : Nat) (h0 : e0 ≤ 8) (h1 : e1 ≤ 8) (h2 : e2 ≤ 8)
    (h3 : e3 ≤ 8) :
    CountPopulation32.sum (e0 + 256 * (e1 + 256 * (e2 + 256 * e3))) 8 0x00ff00ff =
        (e0 + e1) + 65536 * (e2 + e3) ∧
    CountPopulation32.sum ((e0 + e1) + 65536 * (e2 + e3)) 16 0x0000ffff =
        e0 + e1 + e2 + e3 := by
  have hM : (0x00ff00ff : Nat) = 2 ^ 16 * 255 + 255 := by norm_num
  constructor
  · unfold CountPopulation32.sum pairSum
    rw [hM, and_split 16 _ 255 255 (by norm_num), and_split 16 _ 255 255 (by norm_num)]
    simp only [and_255, Nat.shiftRight_eq_div_pow]
    have a1 : (e0 + 256 * (e1 + 256 * (e2 + 256 * e3))) / 2 ^ 8 / 2 ^ 16 % 256 = e3 := by
      norm_num; omega
    have a2 : (e0 + 256 * (e1 + 256 * (e2 + 256 * e3))) / 2 ^ 8 % 2 ^ 16 % 256 = e1 := by
      norm_num; omega
    have a3 : (e0 + 256 * (e1 + 256 * (e2 + 256 * e3))) / 2 ^ 16 % 256 = e2 := by
      norm_num; omega
    have a4 : (e0 + 256 * (e1 + 256 * (e2 + 256 * e3))) % 2 ^ 16 % 256 = e0 := by
      norm_num; omega
    rw [a1, a2, a3, a4]
    norm_num
    omega
  · unfold CountPopulation32.sum pairSum
    simp only [and_65535, Nat.shiftRight_eq_div_pow]
    have a1 : (e0 + e1 + 65536 * (e2 + e3)) / 2 ^ 16 % 65536 = e2 + e3 := by
      norm_num; omega
    have a2 : (e0 + e1 + 65536 * (e2 + e3)) % 65536 = e0 + e1 := by
      omega
    rw [a1, a2]
    omega

theorem bitCount_add (v lo w1 : Nat) : ∀ w2,
    bitCount v lo (w1 + w2) = bitCount v lo w1 + bitCount v (lo + w1) w2 := by
  intro w2
  induction w2 with
  | zero => rfl
  | succ w ih =>
    rw [← Nat.add_assoc]
    simp only [bitCount]
    rw [ih]
    simp only [Nat.add_assoc]

theorem bitCount_le (v lo : Nat) : ∀ w, bitCount v lo w ≤ w := by
  intro w
  induction w with
  | zero => exact Nat.le_refl 0
  | succ w ih =>
    simp only [bitCount]
    have := Nat.mod_lt (v / 2 ^ (lo + w)) (by decide : 0 < 2)
    omega

theorem bytes_of_word (v : Nat) (hv : v < 4294967296) :
    ∃ b0 b1 b2 b3 : Nat, b0 < 256 ∧ b1 < 256 ∧ b2 < 256 ∧ b3 < 256 ∧
      v = b0 + 256 * (b1 + 256 * (b2 + 256 * b3)) :=
  ⟨v % 256, v / 256 % 256, v / 65536 % 256, v / 16777216, by omega, by omega, by omega,
    by omega, by omega⟩

/-- After each line of `CountPopulation32` every field holds the number of set bits of the
matching field of the word, and the result is the number of set bits of the word. -/
theorem CountPopulation32_fields (v : Nat) (hv : v < 4294967296) :
    (∀ i, i < 16 → CountPopulation32.sum v 1 0x55555555 / 4 ^ i % 4 = bitCount v (2 * i) 2) ∧
    (∀ i, i < 8 →
      CountPopulation32.sum (CountPopulation32.sum v 1 0x55555555) 2 0x33333333 / 16 ^ i % 16 =
        bitCount v (4 * i) 4) ∧
    (∀ i, i < 4 →
      CountPopulation32.sum (CountPopulation32.sum (CountPopulation32.sum v 1 0x55555555) 2
        0x33333333) 4 0x0f0f0f0f / 256 ^ i % 256 = bitCount v (8 * i) 8) ∧
    (∀ i, i < 2 →
      CountPopulation32.sum (CountPopulation32.sum (CountPopulation32.sum
        (CountPopulation32.sum v 1 0x55555555) 2 0x33333333) 4 0x0f0f0f0f) 8 0x00ff00ff /
          65536 ^ i % 65536 = bitCount v (16 * i) 16) ∧
    CountPopulation32 v = bitCount v 0 32 := by
  obtain ⟨b0, b1, b2, b3, h0, h1, h2, h3, rfl⟩ := bytes_of_word v hv
  have hx1 := line_bytes 1 0x55 0x55555555 b0 b1 b2 b3 (Or.inl rfl) (by norm_num)
    (by norm_num) h0 h1 h2
  have lt1 : ∀ b, pairSum b 1 0x55 < 256 := fun b => pairSum_lt b 1 0x55 (by norm_num)
  have hx2 := line_bytes 2 0x33 0x33333333 (pairSum b0 1 0x55) (pairSum b1 1 0x55)
    (pairSum b2 1 0x55) (pairSum b3 1 0x55) (Or.inr (Or.inl rfl)) (by norm_num) (by norm_num)
    (lt1 _) (lt1 _) (lt1 _)
  have lt2 : ∀ b, pairSum b 2 0x33 < 256 := fun b => pairSum_lt b 2 0x33 (by norm_num)
  have hx3 := line_bytes 4 0x0f 0x0f0f0f0f (pairSum (pairSum b0 1 0x55) 2 0x33)
    (pairSum (pairSum b1 1 0x55) 2 0x33) (pairSum (pairSum b2 1 0x55) 2 0x33)
    (pairSum (pairSum b3 1 0x55) 2 0x33) (Or.inr (Or.inr rfl)) (by norm_num) (by norm_num)
    (lt2 _) (lt2 _) (lt2 _)
  obtain ⟨k01, k02, k03⟩ := byte_lines b0 h0
  obtain ⟨k11, k12, k13⟩ := byte_lines b1 h1
  obtain ⟨k21, k22, k23⟩ := byte_lines b2 h2
  obtain ⟨k31, k32, k33⟩ := byte_lines b3 h3
  rw [k03, k13, k23, k33] at hx3
  have hx45 := lines45_bytes (bitCount b0 0 8) (bitCount b1 0 8) (bitCount b2 0 8)
    (bitCount b3 0 8) (bitCount_le _ _ _) (bitCount_le _ _ _) (bitCount_le _ _ _)
    (bitCount_le _ _ _)
  have bc := fun j lo hj w hw => bitCount_byte b0 b1 b2 b3 j lo h0 h1 h2 hj w hw
  refine ⟨?_, ?_, ?_, ?_, ?_⟩
  · intro i hi
    rw [hx1, loc4 _ _ _ _ (lt1 _) (lt1 _) (lt1 _) i hi]
    have e : 2 * i = 8 * (i / 4) + 2 * (i % 4) := by omega
    rw [e, bc (i / 4) (2 * (i % 4)) (by omega) 2 (by omega)]
    have hf : i % 4 < 4 := Nat.mod_lt _ (by decide)
    have hj : i / 4 < 4 := by omega
    generalize i % 4 = f at hf
    generalize i / 4 = j at hj
    interval_cases j
    · exact k01 f hf
    · exact k11 f hf
    · exact k21 f hf
    · exact k31 f hf
  · intro i hi
    rw [hx1, hx2, loc16 _ _ _ _ (lt2 _) (lt2 _) (lt2 _) i hi]
    have e : 4 * i = 8 * (i / 2) + 4 * (i % 2) := by omega
    rw [e, bc (i / 2) (4 * (i % 2)) (by omega) 4 (by omega)]
    have hf : i % 2 < 2 := Nat.mod_lt _ (by decide)
    have hj : i / 2 < 4 := by omega
    generalize i % 2 = f at hf
    generalize i / 2 = j at hj
    interval_cases j
    · exact k02 f hf
    · exact k12 f hf
    · exact k22 f hf
    · exact k32 f hf
  · intro i hi
    have le8 : ∀ b, bitCount b 0 8 < 256 := fun b => by
      have := bitCount_le b 0 8
      omega
    rw [hx1, hx2, hx3, loc256 _ _ _ _ (le8 _) (le8 _) (le8 _) (le8 _) i hi]
    have e : 8 * i = 8 * i + 0 := rfl
    rw [e, bc i 0 hi 8 (by omega)]
    interval_cases i <;> rfl
  · intro i hi
    rw [hx1, hx2, hx3, hx45.1]
    have e16 : ∀ lo, bitCount (b0 + 256 * (b1 + 256 * (b2 + 256 * b3))) lo 16 =
        bitCount (b0 + 256 * (b1 + 256 * (b2 + 256 * b3))) lo 8 +
          bitCount (b0 + 256 * (b1 + 256 * (b2 + 256 * b3))) (lo + 8) 8 :=
      fun lo => bitCount_add _ lo 8 8
    have l0 := bitCount_le b0 0 8
    have l1 := bitCount_le b1 0 8
    have l2 := bitCount_le b2 0 8
    have l3 := bitCount_le b3 0 8
    have t0 := bc 0 0 (by decide) 8 (by decide)
    have t1 := bc 1 0 (by decide) 8 (by decide)
    have t2 := bc 2 0 (by decide) 8 (by decide)
    have t3 := bc 3 0 (by decide) 8 (by decide)
    simp only [List.getD_cons_zero, List.getD_cons_succ, Nat.mul_zero, Nat.zero_add,
      Nat.add_zero, Nat.mul_one] at t0 t1 t2 t3
    interval_cases i
    · rw [e16, t0, t1]
      norm_num
      omega
    · rw [e16]
      norm_num
      rw [t2, t3]
      omega
  · unfold CountPopulation32
    simp only []
    rw [hx1, hx2, hx3, hx45.1, hx45.2]
    have t0 := bc 0 0 (by decide) 8 (by decide)
    have t1 := bc 1 0 (by decide) 8 (by decide)
    have t2 := bc 2 0 (by decide) 8 (by decide)
    have t3 := bc 3 0 (by decide) 8 (by decide)
    simp only [List.getD_cons_zero, List.getD_cons_succ, Nat.mul_zero, Nat.zero_add,
      Nat.add_zero, Nat.mul_one] at t0 t1 t2 t3
    rw [bitCount_add _ 0 16 16, bitCount_add _ 0 8 8, bitCount_add _ (0 + 16) 8 8]
    norm_num
    rw [t0, t1, t2, t3]
    omega

theorem xor_mul_add (i a b r m : Nat) (ha : a < 2 ^ i) (hb : b < 2 ^ i) :
    (2 ^ i * r + a) ^^^ (2 ^ i * m + b) = 2 ^ i * (r ^^^ m) + (a ^^^ b) := by
  apply Nat.eq_of_testBit_eq
  intro j
  rw [Nat.testBit_xor, Nat.testBit_mul_pow_two_add _ ha, Nat.testBit_mul_pow_two_add _ hb,
    Nat.testBit_mul_pow_two_add _ (Nat.xor_lt_two_pow ha hb)]
  split <;> simp

/-- A non-zero number is `2^(k+1) * q + 2^k`, where `k` is its lowest set bit. -/
theorem lowest_bit (v : Nat) (hv : v ≠ 0) : ∃ k q, v = 2 ^ (k + 1) * q + 2 ^ k := by
  obtain ⟨k, m, hm, rfl⟩ := Nat.exists_eq_two_pow_mul_odd hv
  obtain ⟨q, rfl⟩ := hm
  exact ⟨k, q, by ring⟩

theorem two_pow_and_pred (k : Nat) : 2 ^ k &&& (2 ^ k - 1) = 0 := by
  apply Nat.eq_of_testBit_eq
  intro j
  simp only [Nat.testBit_and, Nat.testBit_two_pow, Nat.testBit_two_pow_sub_one,
    Nat.zero_testBit]
  by_cases h : k = j <;> simp [h]

theorem two_pow_xor_pred (k : Nat) : 2 ^ k ^^^ (2 ^ k - 1) = 2 ^ (k + 1) - 1 := by
  apply Nat.eq_of_testBit_eq
  intro j
  simp only [Nat.testBit_xor, Nat.testBit_two_pow, Nat.testBit_two_pow_sub_one]
  by_cases h : k = j
  · subst h; simp
  · by_cases h2 : j < k
    · simp [h, h2]; omega
    · simp [h, h2]; omega

/-- The expression `value & (value - 1)` clears the lowest set bit. -/
theorem and_pred (k q : Nat) :
    (2 ^ (k + 1) * q + 2 ^ k) &&& (2 ^ (k + 1) * q + 2 ^ k - 1) = 2 ^ (k + 1) * q := by
  have hk : 2 ^ k < 2 ^ (k + 1) := Nat.pow_lt_pow_right (by decide) (Nat.lt_succ_self k)
  have hpos : 0 < 2 ^ k := Nat.two_pow_pos k
  have e : 2 ^ (k + 1) * q + 2 ^ k - 1 = 2 ^ (k + 1) * q + (2 ^ k - 1) := by omega
  rw [e, and_mul_add (k + 1) _ _ q q hk (by omega), Nat.and_self, two_pow_and_pred]
  rfl

/-- The expression `value ^ (value - 1)` is the lowest set bit and the bits below it. -/
theorem xor_pred (k q : Nat) :
    (2 ^ (k + 1) * q + 2 ^ k) ^^^ (2 ^ (k + 1) * q + 2 ^ k - 1) = 2 ^ (k + 1) - 1 := by
  have hk : 2 ^ k < 2 ^ (k + 1) := Nat.pow_lt_pow_right (by decide) (Nat.lt_succ_self k)
  have hpos : 0 < 2 ^ k := Nat.two_pow_pos k
  have e : 2 ^ (k + 1) * q + 2 ^ k - 1 = 2 ^ (k + 1) * q + (2 ^ k - 1) := by omega
  rw [e, xor_mul_add (k + 1) _ _ q q hk (by omega), Nat.xor_self, two_pow_xor_pred]
  simp

/-- On a non-zero `uint32_t` the wrapping `value - 1` is the predecessor. -/
theorem pred32 (v : Nat) (hv : v ≠ 0) (hlt : v < 4294967296) :
    (v + 4294967295) % 4294967296 = v - 1 := by
  omega

theorem IsPowerOfTwo32_iff (v : Nat) (hlt : v < 4294967296) :
    IsPowerOfTwo32 v = true ↔ ∃ k, k < 32 ∧ v = 2 ^ k := by
  constructor
  · intro h
    unfold IsPowerOfTwo32 at h
    simp only [Bool.and_eq_true, bne_iff_ne, ne_eq, beq_iff_eq] at h
    obtain ⟨hv, hand⟩ := h
    rw [pred32 v hv hlt] at hand
    obtain ⟨k, q, rfl⟩ := lowest_bit v hv
    rw [and_pred] at hand
    have hq : q = 0 := by
      rcases Nat.mul_eq_zero.1 hand with h | h
      · exact absurd h (Nat.two_pow_pos _).ne'
      · exact h
    subst hq
    simp only [Nat.mul_zero, Nat.zero_add] at hlt ⊢
    refine ⟨k, ?_, rfl⟩
    exact (Nat.pow_lt_pow_iff_right (by decide : 1 < 2)).1 hlt
  · rintro ⟨k, hk, rfl⟩
    interval_cases k <;> decide

theorem bitCount_eq_zero (v : Nat) : ∀ w, bitCount v 0 w = 0 → v % 2 ^ w = 0 := by
  intro w
  induction w with
  | zero => intro _; simp [Nat.mod_one]
  | succ w ih =>
    intro h
    simp only [bitCount, Nat.zero_add] at h
    rw [Nat.mod_pow_succ, ih (by omega)]
    have : v / 2 ^ w % 2 = 0 := by omega
    rw [this]
    rfl

/-- A number below `2^w` with exactly one set bit is a power of two. -/
theorem bitCount_eq_one (v : Nat) : ∀ w, v < 2 ^ w → bitCount v 0 w = 1 →
    ∃ k, k < w ∧ v = 2 ^ k := by
  intro w
  induction w with
  | zero => intro _ h; simp [bitCount] at h
  | succ w ih =>
    intro hlt h
    simp only [bitCount, Nat.zero_add] at h
    have hdiv : v / 2 ^ w < 2 := by
      rw [Nat.div_lt_iff_lt_mul (Nat.two_pow_pos w)]
      rw [Nat.pow_succ] at hlt
      omega
    by_cases ht : v / 2 ^ w = 0
    · have hlt' : v < 2 ^ w := by
        exact (Nat.div_eq_zero_iff (Nat.two_pow_pos w)).1 ht
      rw [ht] at h
      obtain ⟨k, hk, e⟩ := ih hlt' (by omega)
      exact ⟨k, by omega, e⟩
    · have ht1 : v / 2 ^ w = 1 :=
        Nat.le_antisymm (Nat.lt_succ_iff.1 hdiv) (Nat.pos_of_ne_zero ht)
      rw [ht1] at h
      have hz := bitCount_eq_zero v w (by omega)
      refine ⟨w, Nat.lt_succ_self w, ?_⟩
      have := Nat.div_add_mod v (2 ^ w)
      rw [ht1, hz] at this
      omega

theorem testBit_above (W v i : Nat) (hv : v < 2 ^ W) (hi : W ≤ i) : v.testBit i = false :=
  Nat.testBit_eq_false_of_lt (Nat.lt_of_lt_of_le hv (Nat.pow_le_pow_right (by decide) hi))

/-! # The claims about `bits.h` -/

/-! ## Population count and powers of two -/

/-- The function `bitCount` counts the positions of the field at which the bit is set. -/
theorem bitCount_eq_filter (v lo : Nat) : ∀ w,
    bitCount v lo w = ((List.range w).filter (fun i => v.testBit (lo + i))).length := by
  intro w
  induction w with
  | zero => rfl
  | succ w ih =>
    simp only [bitCount]
    rw [ih, List.range_succ, List.filter_append, List.length_append]
    congr 1
    have ht : v.testBit (lo + w) = decide (v / 2 ^ (lo + w) % 2 = 1) :=
      Nat.testBit_to_div_mod
    have hm := Nat.mod_two_eq_zero_or_one (v / 2 ^ (lo + w))
    rcases hm with h | h
    · simp [List.filter, ht, h]
    · simp [List.filter, ht, h]

theorem pairSum_le (x s m : Nat) : pairSum x s m ≤ 2 * m := by
  unfold pairSum
  have h1 : (x >>> s) &&& m ≤ m := Nat.and_le_right
  have h2 : x &&& m ≤ m := Nat.and_le_right
  omega

/-- Claim C27. For every 32-bit `v` the portable `CountPopulation32` returns the number of
positions below 32 at which `v` has a set bit, a value of at most 32. No step overflows:
in each of the five lines the sum of the two masked words is below `2^32` whatever the
word is, and after the lines with shift 1, 2, 4 and 8 every field of 2, 4, 8 and 16 bits
holds the number of set bits of the same field of `v`, which is at most the width of the
field. -/
theorem C27_count_population (v : Nat) (hv : v < 4294967296) :
    CountPopulation32 v = ((List.range 32).filter (fun i => v.testBit i)).length ∧
    CountPopulation32 v ≤ 32 ∧
    (∀ x, pairSum x 1 0x55555555 < 4294967296 ∧ pairSum x 2 0x33333333 < 4294967296 ∧
      pairSum x 4 0x0f0f0f0f < 4294967296 ∧ pairSum x 8 0x00ff00ff < 4294967296 ∧
      pairSum x 16 0x0000ffff < 4294967296) ∧
    (∀ i, i < 16 →
      CountPopulation32.sum v 1 0x55555555 / 4 ^ i % 4 = bitCount v (2 * i) 2 ∧
      bitCount v (2 * i) 2 ≤ 2) ∧
    (∀ i, i < 8 →
      CountPopulation32.sum (CountPopulation32.sum v 1 0x55555555) 2 0x33333333 / 16 ^ i % 16 =
        bitCount v (4 * i) 4 ∧
      bitCount v (4 * i) 4 ≤ 4) ∧
    (∀ i, i < 4 →
      CountPopulation32.sum (CountPopulation32.sum (CountPopulation32.sum v 1 0x55555555) 2
        0x33333333) 4 0x0f0f0f0f / 256 ^ i % 256 = bitCount v (8 * i) 8 ∧
      bitCount v (8 * i) 8 ≤ 8) ∧
    (∀ i, i < 2 →
      CountPopulation32.sum (CountPopulation32.sum (CountPopulation32.sum
        (CountPopulation32.sum v 1 0x55555555) 2 0x33333333) 4 0x0f0f0f0f) 8 0x00ff00ff /
          65536 ^ i % 65536 = bitCount v (16 * i) 16 ∧
      bitCount v (16 * i) 16 ≤ 16) := by
  obtain ⟨f1, f2, f3, f4, f5⟩ := CountPopulation32_fields v hv
  refine ⟨?_, ?_, ?_, fun i hi => ⟨f1 i hi, bitCount_le _ _ _⟩,
    fun i hi => ⟨f2 i hi, bitCount_le _ _ _⟩, fun i hi => ⟨f3 i hi, bitCount_le _ _ _⟩,
    fun i hi => ⟨f4 i hi, bitCount_le _ _ _⟩⟩
  · rw [f5, bitCount_eq_filter]
    simp only [Nat.zero_add]
  · rw [f5]
    exact bitCount_le _ _ _
  · intro x
    have h1 := pairSum_le x 1 0x55555555
    have h2 := pairSum_le x 2 0x33333333
    have h3 := pairSum_le x 4 0x0f0f0f0f
    have h4 := pairSum_le x 8 0x00ff00ff
    have h5 := pairSum_le x 16 0x0000ffff
    refine ⟨?_, ?_, ?_, ?_, ?_⟩ <;> omega

theorem C27_count_population_witness :
    CountPopulation32 0x80000001 =
      ((List.range 32).filter (fun i => Nat.testBit 0x80000001 i)).length :=
  (C27_count_population 0x80000001 (by decide)).1

/-- Claim C21. For every 32-bit `v`, `IsPowerOfTwo32(v)` is `CountPopulation32(v) == 1`
for the portable `CountPopulation32`; `IsPowerOfTwo32(0)` is false; and `IsPowerOfTwo32(v)`
is true exactly if `v = 2^k` for some `k < 32`. -/
theorem C21_power_of_two_iff_one_bit (v : Nat) (hv : v < 4294967296) :
    IsPowerOfTwo32 v = decide (CountPopulation32 v = 1) ∧
    IsPowerOfTwo32 0 = false ∧
    (IsPowerOfTwo32 v = true ↔ ∃ k, k < 32 ∧ v = 2 ^ k) := by
  refine ⟨?_, by decide, IsPowerOfTwo32_iff v hv⟩
  cases hp : IsPowerOfTwo32 v with
  | true =>
    obtain ⟨k, hk, rfl⟩ := (IsPowerOfTwo32_iff v hv).1 hp
    symm
    rw [decide_eq_true_eq]
    interval_cases k <;> decide
  | false =>
    symm
    rw [decide_eq_false_iff_not]
    intro h1
    rw [(CountPopulation32_fields v hv).2.2.2.2] at h1
    obtain ⟨k, hk, e⟩ := bitCount_eq_one v 32 hv h1
    rw [(IsPowerOfTwo32_iff v hv).2 ⟨k, hk, e⟩] at hp
    exact absurd hp (by decide)

theorem C21_power_of_two_iff_one_bit_witness :
    IsPowerOfTwo32 64 = decide (CountPopulation32 64 = 1) ∧
    IsPowerOfTwo32 0 = false ∧
    (IsPowerOfTwo32 64 = true ↔ ∃ k, k < 32 ∧ 64 = 2 ^ k) :=
  C21_power_of_two_iff_one_bit 64 (by decide)

/-! ## Rotation -/


/-- The bits of `(v >> s) | (v << (W - s))` on a word of `W` bits. -/
theorem rot_testBit (W v s i : Nat) (hv : v < 2 ^ W) (hsW : s < W) (hi : i < W) :
    ((v >>> s) ||| ((v <<< (W - s)) % 2 ^ W)).testBit i = v.testBit ((i + s) % W) := by
  rw [Nat.testBit_or, Nat.testBit_shiftRight, Nat.testBit_mod_two_pow, Nat.testBit_shiftLeft]
  by_cases h : i + s < W
  · rw [Nat.mod_eq_of_lt h]
    have h2 : ¬ i ≥ W - s := by omega
    simp [h2, Nat.add_comm]
  · have h1 : v.testBit (s + i) = false := testBit_above W v (s + i) hv (by omega)
    have h2 : i ≥ W - s := by omega
    have h3 : (i + s) % W = i - (W - s) := by
      rw [Nat.mod_eq_sub_mod (by omega), Nat.mod_eq_of_lt (by omega)]
      omega
    simp [h1, h2, hi, h3]

theorem rot_lt (W v s : Nat) (hv : v < 2 ^ W) :
    (v >>> s) ||| ((v <<< (W - s)) % 2 ^ W) < 2 ^ W := by
  apply Nat.or_lt_two_pow
  · rw [Nat.shiftRight_eq_div_pow]
    exact Nat.lt_of_le_of_lt (Nat.div_le_self _ _) hv
  · exact Nat.mod_lt _ (Nat.two_pow_pos W)

theorem eq_of_testBit_below (W a b : Nat) (ha : a < 2 ^ W) (hb : b < 2 ^ W)
    (h : ∀ i, i < W → a.testBit i = b.testBit i) : a = b := by
  apply Nat.eq_of_testBit_eq
  intro i
  by_cases hi : i < W
  · exact h i hi
  · rw [testBit_above W a i ha (by omega), testBit_above W b i hb (by omega)]

theorem rot_rot (W v s : Nat) (hv : v < 2 ^ W) (hs : 0 < s) (hsW : s < W) :
    (((v >>> s) ||| ((v <<< (W - s)) % 2 ^ W)) >>> (W - s)) |||
      ((((v >>> s) ||| ((v <<< (W - s)) % 2 ^ W)) <<< (W - (W - s))) % 2 ^ W) = v := by
  apply eq_of_testBit_below W _ _ (rot_lt W _ (W - s) (rot_lt W v s hv)) hv
  intro i hi
  rw [rot_testBit W _ (W - s) i (rot_lt W v s hv) (by omega) hi,
    rot_testBit W v s _ hv hsW (Nat.mod_lt _ (by omega))]
  congr 1
  have : (i + (W - s)) % W + s ≡ i + (W - s) + s [MOD W] :=
    Nat.ModEq.add_right s (Nat.mod_modEq _ _)
  have h2 : i + (W - s) + s = i + W := by omega
  rw [h2] at this
  have h3 : ((i + (W - s)) % W + s) % W = (i + W) % W := this
  rw [h3, Nat.add_mod_right, Nat.mod_eq_of_lt hi]

/-- Claim C23. For every 32-bit `v`, `RotateRight32(v, 0)` is `v`, and for every shift
`0 < s < 32` the call `RotateRight32(v, s)` returns a 32-bit word whose bit `i` is bit
`(i + s) mod 32` of `v`, and rotating the result by `32 - s` gives `v` back. The same holds
for `RotateRight64` on 64-bit words with 64 in place of 32. -/
theorem C23_rotate_right (v s : Nat) :
    (v < 2 ^ 32 →
      RotateRight32 v 0 = some v ∧
      (0 < s → s < 32 →
        ∃ r, RotateRight32 v s = some r ∧ r < 2 ^ 32 ∧
          (∀ i, i < 32 → r.testBit i = v.testBit ((i + s) % 32)) ∧
          RotateRight32 r (32 - s) = some v)) ∧
    (v < 2 ^ 64 →
      RotateRight64 v 0 = some v ∧
      (0 < s → s < 64 →
        ∃ r, RotateRight64 v s = some r ∧ r < 2 ^ 64 ∧
          (∀ i, i < 64 → r.testBit i = v.testBit ((i + s) % 64)) ∧
          RotateRight64 r (64 - s) = some v)) := by
  constructor
  · intro hv
    refine ⟨rfl, fun hs hs32 => ?_⟩
    have e : (4294967296 : Nat) = 2 ^ 32 := by norm_num
    refine ⟨(v >>> s) ||| ((v <<< (32 - s)) % 2 ^ 32), ?_, rot_lt 32 v s hv,
      fun i hi => rot_testBit 32 v s i hv hs32 hi, ?_⟩
    · unfold RotateRight32
      rw [if_neg (by omega), if_pos hs32, e]
    · unfold RotateRight32
      rw [if_neg (by omega), if_pos (by omega), e, rot_rot 32 v s hv hs hs32]
  · intro hv
    refine ⟨rfl, fun hs hs64 => ?_⟩
    have e : (18446744073709551616 : Nat) = 2 ^ 64 := by norm_num
    refine ⟨(v >>> s) ||| ((v <<< (64 - s)) % 2 ^ 64), ?_, rot_lt 64 v s hv,
      fun i hi => rot_testBit 64 v s i hv hs64 hi, ?_⟩
    · unfold RotateRight64
      rw [if_neg (by omega), if_pos hs64, e]
    · unfold RotateRight64
      rw [if_neg (by omega), if_pos (by omega), e, rot_rot 64 v s hv hs hs64]

theorem C23_rotate_right_witness :
    ∃ r, RotateRight32 0x80000001 4 = some r ∧ r < 2 ^ 32 ∧
      (∀ i, i < 32 → r.testBit i = Nat.testBit 0x80000001 ((i + 4) % 32)) ∧
      RotateRight32 r (32 - 4) = some 0x80000001 :=
  ((C23_rotate_right 0x80000001 4).1 (by norm_num)).2 (by decide) (by decide)

/-! ## Leading zeros and rounding to a power of two -/

/-- One statement `value = value | (value >> n)`: if every bit of `x` is the `or` of `n`
bits of `v` from the same position upwards, every bit of the result is the `or` of `2n`. -/
theorem or_shift_spec (x v n : Nat)
    (h : ∀ i, x.testBit i = true ↔ ∃ j, j < n ∧ v.testBit (i + j) = true) :
    ∀ i, (x ||| (x >>> n)).testBit i = true ↔ ∃ j, j < 2 * n ∧ v.testBit (i + j) = true := by
  intro i
  rw [Nat.testBit_or, Nat.testBit_shiftRight, Bool.or_eq_true, h, h]
  constructor
  · rintro (⟨j, hj, e⟩ | ⟨j, hj, e⟩)
    · exact ⟨j, by omega, e⟩
    · refine ⟨n + j, by omega, ?_⟩
      have : i + (n + j) = n + i + j := by omega
      rw [this]; exact e
  · rintro ⟨j, hj, e⟩
    by_cases hjn : j < n
    · exact Or.inl ⟨j, hjn, e⟩
    · refine Or.inr ⟨j - n, by omega, ?_⟩
      have : n + i + (j - n) = i + j := by omega
      rw [this]; exact e

/-- A bit of `smear v` is set exactly if one of the 32 bits of `v` from that position upwards
is set. -/
theorem smear_testBit (v : Nat) :
    ∀ i, (smear v).testBit i = true ↔ ∃ j, j < 32 ∧ v.testBit (i + j) = true := by
  have h0 : ∀ i, v.testBit i = true ↔ ∃ j, j < 1 ∧ v.testBit (i + j) = true := by
    intro i
    constructor
    · intro h; exact ⟨0, by decide, h⟩
    · rintro ⟨j, hj, e⟩
      have : j = 0 := by omega
      subst this
      exact e
  have h1 := or_shift_spec v v 1 h0
  have h2 := or_shift_spec _ v 2 h1
  have h3 := or_shift_spec _ v 4 h2
  have h4 := or_shift_spec _ v 8 h3
  have h5 := or_shift_spec _ v 16 h4
  exact h5

theorem testBit_top (v L : Nat) (h1 : 2 ^ L ≤ v) (h2 : v < 2 ^ (L + 1)) :
    v.testBit L = true := by
  rw [Nat.testBit_to_div_mod, decide_eq_true_eq]
  have : v / 2 ^ L = 1 := by
    apply Nat.div_eq_of_lt_le
    · omega
    · rw [Nat.pow_succ] at h2; omega
  rw [this]

/-- Smearing the top bit downwards gives the word of all ones up to the top bit. -/
theorem smear_eq (v L : Nat) (hL : L < 32) (h1 : 2 ^ L ≤ v) (h2 : v < 2 ^ (L + 1)) :
    smear v = 2 ^ (L + 1) - 1 := by
  apply Nat.eq_of_testBit_eq
  intro i
  rw [Nat.testBit_two_pow_sub_one, Bool.eq_iff_iff, smear_testBit, decide_eq_true_eq]
  constructor
  · rintro ⟨j, -, e⟩
    by_contra hi
    rw [testBit_above (L + 1) v (i + j) h2 (by omega)] at e
    exact absurd e (by decide)
  · intro hi
    refine ⟨L - i, by omega, ?_⟩
    have : i + (L - i) = L := by omega
    rw [this]
    exact testBit_top v L h1 h2

theorem log2_bounds (v : Nat) (hv : v ≠ 0) (hlt : v < 2 ^ 32) :
    2 ^ Nat.log2 v ≤ v ∧ v < 2 ^ (Nat.log2 v + 1) ∧ Nat.log2 v < 32 := by
  have h1 := Nat.log2_self_le hv
  have h2 := Nat.lt_log2_self (n := v)
  refine ⟨h1, h2, ?_⟩
  exact (Nat.pow_lt_pow_iff_right (by decide : 1 < 2)).1 (Nat.lt_of_le_of_lt h1 hlt)

theorem clz_of_ones (L : Nat) (hL : L < 32) :
    CountPopulation32 ((2 ^ (L + 1) - 1) ^^^ 4294967295) = 31 - L := by
  interval_cases L <;> decide

/-- Claim C25. `CountLeadingZeros32(0)` is 32. For a non-zero 32-bit `v` with most
significant set bit `floor(log2 v)` (that bit is set and every higher bit is clear), the
smearing statements of the portable implementation produce the word of ones up to that bit,
and the population count of its complement, the result, is `31 - floor(log2 v)`. -/
theorem C25_count_leading_zeros (v : Nat) (hlt : v < 2 ^ 32) :
    CountLeadingZeros32 0 = 32 ∧
    (v ≠ 0 →
      Nat.log2 v ≤ 31 ∧ v.testBit (Nat.log2 v) = true ∧
      (∀ i, Nat.log2 v < i → v.testBit i = false) ∧
      smear v = 2 ^ (Nat.log2 v + 1) - 1 ∧
      CountLeadingZeros32 v = 31 - Nat.log2 v) := by
  refine ⟨by decide, fun hv => ?_⟩
  obtain ⟨h1, h2, h3⟩ := log2_bounds v hv hlt
  refine ⟨by omega, testBit_top v _ h1 h2, fun i hi => testBit_above _ v i h2 (by omega),
    smear_eq v _ h3 h1 h2, ?_⟩
  unfold CountLeadingZeros32
  rw [smear_eq v _ h3 h1 h2]
  exact clz_of_ones _ h3

theorem C25_count_leading_zeros_witness :
    CountLeadingZeros32 0x00010000 = 31 - Nat.log2 0x00010000 :=
  ((C25_count_leading_zeros 0x00010000 (by norm_num)).2 (by decide)).2.2.2.2

theorem RoundUp_pow (k : Nat) (hk : k ≤ 31) :
    RoundUpToPowerOfTwo32 (2 ^ k) = some (2 ^ k) := by
  interval_cases k <;> decide

/-- The modelled `RoundUpToPowerOfTwo32` within its precondition. -/
theorem RoundUp_spec (v : Nat) (h0 : 0 < v) (hv : v ≤ 2 ^ 31) :
    ∃ k, k ≤ 31 ∧ RoundUpToPowerOfTwo32 v = some (2 ^ k) ∧ v ≤ 2 ^ k ∧
      (∀ j, v ≤ 2 ^ j → k ≤ j) := by
  by_cases h1 : v = 1
  · subst h1
    exact ⟨0, by decide, by decide, by decide, fun j _ => Nat.zero_le j⟩
  · have hne : v - 1 ≠ 0 := by omega
    have hlt : v - 1 < 2 ^ 32 := by
      have : (2 : Nat) ^ 31 < 2 ^ 32 := by norm_num
      omega
    obtain ⟨b1, b2, b3⟩ := log2_bounds (v - 1) hne hlt
    have hL : Nat.log2 (v - 1) < 31 := by
      apply (Nat.pow_lt_pow_iff_right (by decide : 1 < 2)).1
      omega
    have hp : 2 ^ (Nat.log2 (v - 1) + 1) ≤ 2 ^ 31 :=
      Nat.pow_le_pow_right (by decide) (by omega)
    have hpos : 0 < 2 ^ (Nat.log2 (v - 1) + 1) := Nat.two_pow_pos _
    refine ⟨Nat.log2 (v - 1) + 1, by omega, ?_, by omega, ?_⟩
    · unfold RoundUpToPowerOfTwo32
      have e31 : (0x80000000 : Nat) = 2 ^ 31 := by norm_num
      rw [if_pos (by rw [e31]; exact hv), pred32 v (by omega) (by norm_num at hv ⊢; omega),
        smear_eq (v - 1) _ b3 b1 b2]
      have e : 2 ^ (Nat.log2 (v - 1) + 1) - 1 + 1 = 2 ^ (Nat.log2 (v - 1) + 1) := by omega
      rw [e, Nat.mod_eq_of_lt (by norm_num at hp ⊢; omega)]
    · intro j hj
      by_contra hc
      have : 2 ^ j ≤ 2 ^ Nat.log2 (v - 1) := Nat.pow_le_pow_right (by decide) (by omega)
      omega

/-- Claim C22. For every 32-bit `v` with `0 < v <= 2^31`, the modelled
`RoundUpToPowerOfTwo32(v)` returns a power of two `2^k`, `k <= 31`, that is at least `v`
and is the smallest power of two that is at least `v`; so a power of two is returned as
is, and rounding the result again returns the result. -/
theorem C22_round_up_to_power_of_two (v : Nat) (h0 : 0 < v) (hv : v ≤ 2 ^ 31) :
    ∃ r, RoundUpToPowerOfTwo32 v = some r ∧ IsPowerOfTwo32 r = true ∧ v ≤ r ∧
      (∃ k, k ≤ 31 ∧ r = 2 ^ k) ∧
      (∀ j, v ≤ 2 ^ j → r ≤ 2 ^ j) ∧
      (IsPowerOfTwo32 v = true → r = v) ∧
      RoundUpToPowerOfTwo32 r = some r := by
  obtain ⟨k, hk, hr, hle, hmin⟩ := RoundUp_spec v h0 hv
  have hlt : 2 ^ k < 4294967296 := by
    have : 2 ^ k ≤ 2 ^ 31 := Nat.pow_le_pow_right (by decide) hk
    norm_num at this ⊢; omega
  refine ⟨2 ^ k, hr, (IsPowerOfTwo32_iff _ hlt).2 ⟨k, by omega, rfl⟩, hle, ⟨k, hk, rfl⟩,
    fun j hj => Nat.pow_le_pow_right (by decide) (hmin j hj), ?_, RoundUp_pow k hk⟩
  intro hp
  have hv32 : v < 4294967296 := by norm_num at hv ⊢; omega
  obtain ⟨j, -, rfl⟩ := (IsPowerOfTwo32_iff v hv32).1 hp
  have := hmin j (Nat.le_refl _)
  exact Nat.le_antisymm (Nat.pow_le_pow_right (by decide) this) hle

theorem C22_round_up_to_power_of_two_witness :
    ∃ r, RoundUpToPowerOfTwo32 5 = some r ∧ IsPowerOfTwo32 r = true ∧ 5 ≤ r ∧
      (∃ k, k ≤ 31 ∧ r = 2 ^ k) ∧
      (∀ j, 5 ≤ 2 ^ j → r ≤ 2 ^ j) ∧
      (IsPowerOfTwo32 5 = true → r = 5) ∧
      RoundUpToPowerOfTwo32 r = some r :=
  C22_round_up_to_power_of_two 5 (by decide) (by norm_num)

/-- Claim C24. For every 32-bit `v >= 1`, `RoundDownToPowerOfTwo32(v)` returns a power of
two `p = 2^k` with `p <= v < 2p`, the greatest power of two not above `v`; a power of two
is returned as is; every `v > 0x80000000` yields `0x80000000`, and
`RoundUpToPowerOfTwo32` is only called within its precondition, where it has a result. -/
theorem C24_round_down_to_power_of_two (v : Nat) (h1 : 1 ≤ v) (hlt : v < 2 ^ 32) :
    (∃ k, k ≤ 31 ∧ RoundDownToPowerOfTwo32 v = some (2 ^ k) ∧ 2 ^ k ≤ v ∧ v < 2 * 2 ^ k ∧
      IsPowerOfTwo32 (2 ^ k) = true ∧ (∀ j, 2 ^ j ≤ v → 2 ^ j ≤ 2 ^ k)) ∧
    (IsPowerOfTwo32 v = true → RoundDownToPowerOfTwo32 v = some v) ∧
    (v > 0x80000000 → RoundDownToPowerOfTwo32 v = some 0x80000000) ∧
    (¬ v > 0x80000000 → RoundUpToPowerOfTwo32 v ≠ none) := by
  have e31 : (0x80000000 : Nat) = 2 ^ 31 := by norm_num
  have key : ∃ k, k ≤ 31 ∧ RoundDownToPowerOfTwo32 v = some (2 ^ k) ∧ 2 ^ k ≤ v ∧
      v < 2 * 2 ^ k := by
    by_cases hbig : v > 0x80000000
    · refine ⟨31, by decide, ?_, by omega, by norm_num at hlt ⊢; omega⟩
      unfold RoundDownToPowerOfTwo32
      rw [if_pos hbig, e31]
    · obtain ⟨k, hk, hr, hle, hmin⟩ := RoundUp_spec v (by omega) (by rw [← e31]; omega)
      unfold RoundDownToPowerOfTwo32
      rw [if_neg hbig, hr]
      by_cases hgt : 2 ^ k > v
      · have hk0 : k ≠ 0 := by
          intro h; subst h; simp at hgt; omega
        obtain ⟨m, rfl⟩ := Nat.exists_eq_succ_of_ne_zero hk0
        have hm : ¬ v ≤ 2 ^ m := fun h => by have := hmin m h; omega
        refine ⟨m, by omega, ?_, by omega, ?_⟩
        · have hsh : 2 ^ (m + 1) >>> 1 = 2 ^ m := by
            rw [Nat.shiftRight_eq_div_pow, Nat.pow_succ, Nat.pow_one,
              Nat.mul_div_cancel _ (by decide)]
          show some (if 2 ^ (m + 1) > v then 2 ^ (m + 1) >>> 1 else 2 ^ (m + 1)) = _
          rw [if_pos hgt, hsh]
        · rw [Nat.pow_succ] at hgt; omega
      · refine ⟨k, hk, ?_, by omega, ?_⟩
        · show some (if 2 ^ k > v then 2 ^ k >>> 1 else 2 ^ k) = _
          rw [if_neg hgt]
        · have := Nat.two_pow_pos k
          omega
  obtain ⟨k, hk, hr, hle, hub⟩ := key
  have hklt : 2 ^ k < 4294967296 := by
    norm_num at hlt; omega
  have hmax : ∀ j, 2 ^ j ≤ v → 2 ^ j ≤ 2 ^ k := by
    intro j hj
    apply Nat.pow_le_pow_right (by decide)
    have : 2 ^ j < 2 ^ (k + 1) := by rw [Nat.pow_succ]; omega
    have := (Nat.pow_lt_pow_iff_right (by decide : 1 < 2)).1 this
    omega
  refine ⟨⟨k, hk, hr, hle, hub, (IsPowerOfTwo32_iff _ hklt).2 ⟨k, by omega, rfl⟩, hmax⟩,
    ?_, ?_, ?_⟩
  · intro hp
    obtain ⟨j, -, rfl⟩ := (IsPowerOfTwo32_iff v (by norm_num at hlt ⊢; omega)).1 hp
    rw [hr]
    congr 1
    exact Nat.le_antisymm hle (hmax j (Nat.le_refl _))
  · intro hbig
    unfold RoundDownToPowerOfTwo32
    rw [if_pos hbig]
  · intro hbig
    obtain ⟨k2, -, hr2, -, -⟩ := RoundUp_spec v (by omega) (by rw [← e31]; omega)
    rw [hr2]
    exact Option.some_ne_none _

theorem C24_round_down_to_power_of_two_witness :
    ∃ k, k ≤ 31 ∧ RoundDownToPowerOfTwo32 5 = some (2 ^ k) ∧ 2 ^ k ≤ 5 ∧ 5 < 2 * 2 ^ k ∧
      IsPowerOfTwo32 (2 ^ k) = true ∧ (∀ j, 2 ^ j ≤ 5 → 2 ^ j ≤ 2 ^ k) :=
  (C24_round_down_to_power_of_two 5 (by decide) (by norm_num)).1

/-! ## Trailing zeros -/

theorem ones_shift (j : Nat) : (2 ^ (j + 1) - 1) >>> 1 = 2 ^ j - 1 := by
  rw [Nat.shiftRight_eq_div_pow, Nat.pow_succ, Nat.pow_one]
  have := Nat.two_pow_pos j
  omega

/-- The loop of `CountTrailingZeros32` on the word of `j + 1` ones ends after `j + 1` tests,
having counted `j` shifts. -/
theorem CountTrailingZeros32.loop_ones (j : Nat) : ∀ fuel count, j + 1 ≤ fuel →
    CountTrailingZeros32.loop fuel (2 ^ (j + 1) - 1) count = some (count + j) := by
  induction j with
  | zero =>
    intro fuel count hf
    obtain ⟨f, rfl⟩ := Nat.exists_eq_succ_of_ne_zero (by omega : fuel ≠ 0)
    simp [CountTrailingZeros32.loop]
  | succ j ih =>
    intro fuel count hf
    obtain ⟨f, rfl⟩ := Nat.exists_eq_succ_of_ne_zero (by omega : fuel ≠ 0)
    have hs := ones_shift (j + 1)
    have hne : 2 ^ (j + 1) - 1 ≠ 0 := by
      have : 2 ^ (j + 1) = 2 * 2 ^ j := by rw [Nat.pow_succ, Nat.mul_comm]
      have := Nat.two_pow_pos j
      omega
    unfold CountTrailingZeros32.loop
    rw [hs, if_pos hne, ih f (count + 1) (by omega)]
    congr 1
    omega

theorem lowest_bit_facts (k q : Nat) :
    2 ^ k ∣ 2 ^ (k + 1) * q + 2 ^ k ∧ ¬ 2 ^ (k + 1) ∣ 2 ^ (k + 1) * q + 2 ^ k ∧
    (2 ^ (k + 1) * q + 2 ^ k).testBit k = true ∧
    ∀ i, i < k → (2 ^ (k + 1) * q + 2 ^ k).testBit i = false := by
  have hk : 2 ^ k < 2 ^ (k + 1) := Nat.pow_lt_pow_right (by decide) (Nat.lt_succ_self k)
  refine ⟨?_, ?_, ?_, ?_⟩
  · refine Dvd.dvd.add ?_ (Nat.dvd_refl _)
    exact Dvd.dvd.mul_right (Nat.pow_dvd_pow 2 (Nat.le_succ k)) q
  · intro h
    have h2 : 2 ^ (k + 1) ∣ 2 ^ k := (Nat.dvd_add_right (Dvd.intro q rfl)).1 h
    have := Nat.le_of_dvd (Nat.two_pow_pos k) h2
    omega
  · rw [Nat.testBit_mul_pow_two_add _ hk, if_pos (Nat.lt_succ_self k), Nat.testBit_two_pow_self]
  · intro i hi
    rw [Nat.testBit_mul_pow_two_add _ hk, if_pos (by omega), Nat.testBit_two_pow]
    simp
    omega

/-- Claim C26. `CountTrailingZeros32(0)` is 32. For every non-zero 32-bit `v` the portable
loop ends within 32 tests (any fuel of at least 32 is enough) and returns the index `k` of
the least significant set bit: bit `k` is set, every lower bit is clear, and `k` is the
largest number with `2^k` dividing `v`. -/
theorem C26_count_trailing_zeros (fuel v : Nat) (hlt : v < 2 ^ 32) :
    CountTrailingZeros32 fuel 0 = some 32 ∧
    (v ≠ 0 → 32 ≤ fuel →
      ∃ k, CountTrailingZeros32 fuel v = some k ∧ k < 32 ∧
        v.testBit k = true ∧ (∀ i, i < k → v.testBit i = false) ∧
        2 ^ k ∣ v ∧ (∀ j, 2 ^ j ∣ v → j ≤ k)) := by
  refine ⟨rfl, fun hv hf => ?_⟩
  obtain ⟨k, q, rfl⟩ := lowest_bit v hv
  obtain ⟨d1, d2, d3, d4⟩ := lowest_bit_facts k q
  have hk : k < 32 := by
    apply (Nat.pow_lt_pow_iff_right (by decide : 1 < 2)).1
    have := Nat.zero_le (2 ^ (k + 1) * q)
    omega
  refine ⟨k, ?_, hk, d3, d4, d1, ?_⟩
  · unfold CountTrailingZeros32
    rw [if_neg hv, pred32 _ hv (by norm_num at hlt ⊢; omega), xor_pred,
      CountTrailingZeros32.loop_ones k fuel 0 (by omega), Nat.zero_add]
  · intro j hj
    by_contra hc
    exact d2 (Dvd.dvd.trans (Nat.pow_dvd_pow 2 (by omega : k + 1 ≤ j)) hj)

theorem C26_count_trailing_zeros_witness :
    ∃ k, CountTrailingZeros32 32 0x00010000 = some k ∧ k < 32 ∧
      Nat.testBit 0x00010000 k = true ∧ (∀ i, i < k → Nat.testBit 0x00010000 i = false) ∧
      2 ^ k ∣ 0x00010000 ∧ (∀ j, 2 ^ j ∣ 0x00010000 → j ≤ k) :=
  (C26_count_trailing_zeros 32 0x00010000 (by norm_num)).2 (by decide) (by decide)

end bits
end base

end v8
